import Mathlib

/-!
# MapBox GL style converter (QGIS, `qgsmapboxglstyleconverter.cpp`)

A shallow embedding of `QgsMapBoxGlStyleConverter` and of
`QgsMapBoxGlStyleConversionContext`.

Conventions of the embedding

* A style document is a decoded JSON tree: `QVariant` has the constructors a JSON
  decoder produces (null, boolean, integer, double, string, list, map).
* `QString` is `String`; text is processed on its list of characters.
* A C++ `double` is an exact rational (`ℚ`); how Qt prints a double is a
  service of `Env`, like the other collaborators that are not part of the
  converter (colour parser, HSL components, font database, image cropping).
* `QList::value(i)` is total (a default-constructed value out of range).
  `QList::at(i)`, `QList::operator[]`, `last()` and `constLast()` are only
  defined in range: out of range they yield `Fault.indexOutOfRange`.
* A routine that receives the conversion context by reference only reads its
  settings and calls `pushWarning`; it is embedded as a function of the context
  into `Conv`, which carries the routine's value and the warnings it pushed, in
  order, or the fault that stopped it. `parseLayers` owns the two warning lists
  (the context's and the converter's) and threads them explicitly.
-/

set_option autoImplicit false
set_option maxRecDepth 4000

/-! ## Values of the style document -/

/-- The value types a decoded JSON document holds (`QVariant::Type`). -/
inductive QVariantType where
  | Invalid
  | Bool
  | Int
  | Double
  | String
  | List
  | Map
  deriving DecidableEq, Repr

/-- A decoded JSON value. Maps are association lists read by first match; `int` stands for
a value of type `QVariant::Int`, a 32 bit integer. -/
inductive QVariant where
  | invalid
  | bool (b : Bool)
  | int (i : Int)
  | double (d : ℚ)
  | string (s : String)
  | list (l : List QVariant)
  | map (m : List (String × QVariant))

/-- The list type `QVariantList`. -/
abbrev QVariantList := List QVariant

/-- The map type `QVariantMap` (`QMap<QString, QVariant>`). -/
abbrev QVariantMap := List (String × QVariant)

/-- A colour, by the components the converter reads (`QColor`). -/
structure QColor where
  isValid : Bool
  red : Nat
  green : Nat
  blue : Nat
  alpha : Int
  deriving DecidableEq, Repr

/-- The default-constructed, invalid colour `QColor()`. -/
def QColor.invalid : QColor :=
  { isValid := false, red := 0, green := 0, blue := 0, alpha := 255 }

/-- A bitmap, by its size and pixel rows (`QImage`); the null image has no pixels. -/
structure QImage where
  width : Int
  height : Int
  pixels : List Nat
  deriving DecidableEq, Repr

/-- The null image `QImage()`. -/
def QImage.null : QImage := { width := 0, height := 0, pixels := [] }

/-- Null test of an image: `QImage::isNull()`. -/
def QImage.isNull (i : QImage) : Bool := decide (i.width ≤ 0) || decide (i.height ≤ 0)

/-- Collaborators of the converter that live outside of it. -/
structure Env where
  /-- Text of a double held by a variant: `QVariant( double ).toString()`. -/
  doubleToString : ℚ → String
  /-- Text of a double: `QString::number( double )` and `QString::arg( double )`. -/
  number : ℚ → String
  /-- Colour of a CSS-like colour string: `QgsSymbolLayerUtils::parseColor`. -/
  parseColor : String → QColor
  /-- Hue of a colour, -1 when achromatic: `QColor::hslHue()`. -/
  hslHue : QColor → Int
  /-- Saturation of a colour, 0..255: `QColor::hslSaturation()`. -/
  hslSaturation : QColor → Int
  /-- Lightness of a colour, 0..255: `QColor::lightness()`. -/
  lightness : QColor → Int
  /-- Font database query: `QgsFontUtils::fontFamilyHasStyle`. -/
  fontFamilyHasStyle : String → String → Bool
  /-- Crop of an image to a rectangle x, y, width, height: `QImage::copy`. -/
  imageCopy : QImage → Int → Int → Int → Int → QImage
  /-- PNG encoding of an image in base 64: `QImage::save` and `QByteArray::toBase64`. -/
  pngBase64 : QImage → String

/-! ## Text helpers (`QString`, `QStringList`) -/

namespace QString

/-- Text of an integer: `QString::number( int )`. -/
def ofInt (i : Int) : String := Int.repr i

/-- Emptiness test: `QString::isEmpty()`. -/
def isEmpty (s : String) : Bool := s.data.isEmpty

/-- Pieces of a character list between the occurrences of `c`, empty pieces kept. -/
def splitChars (c : Char) : List Char → List (List Char)
  | [] => [[]]
  | x :: xs =>
    if x = c then [] :: splitChars c xs
    else
      match splitChars c xs with
      | [] => [[x]]
      | p :: ps => (x :: p) :: ps

/-- Split at a character: `QString::split( QChar )`, empty parts kept. -/
def split (s : String) (c : Char) : List String :=
  (splitChars c s.data).map String.mk

/-- Text from position `n` on: `QString::mid( n )`. -/
def mid (s : String) (n : Nat) : String := String.mk (s.data.drop n)

/-- Replacement of every occurrence of one character by a text. -/
def replaceChar (s : String) (c : Char) (after : String) : String :=
  String.mk (s.data.flatMap (fun x => if x = c then after.data else [x]))

/-- White space test of `QChar::isSpace` on the ASCII range. -/
def isSpace (c : Char) : Bool :=
  c = ' ' || c = '\t' || c = '\n' || c = '\r' || c = Char.ofNat 11 || c = Char.ofNat 12

/-- Character list without leading and trailing white space. -/
def trimmedChars (cs : List Char) : List Char :=
  ((cs.dropWhile isSpace).reverse.dropWhile isSpace).reverse

/-- Value of a list of decimal digits, none when the list is empty or holds another character. -/
def digitsValue : List Char → Option Nat
  | [] => none
  | cs => if cs.all Char.isDigit then some (cs.foldl (fun n c => 10 * n + (c.toNat - 48)) 0) else none

/-- Value of an optionally signed decimal integer. -/
def signedValue (cs : List Char) : Option Int :=
  match cs with
  | '-' :: ds => (digitsValue ds).map (fun n => - (n : Int))
  | '+' :: ds => (digitsValue ds).map (fun n => (n : Int))
  | ds => (digitsValue ds).map (fun n => (n : Int))

/-- Integer of a text: `QString::toLongLong`, 0 when the text is no 64 bit decimal integer. -/
def toLongLong (s : String) : Int :=
  match signedValue (trimmedChars s.data) with
  | some v => if - (2 : Int) ^ 63 ≤ v ∧ v < (2 : Int) ^ 63 then v else 0
  | none => 0

/-- Value of an unsigned decimal mantissa `digits[.digits]` with at least one digit. -/
def mantissaValue (cs : List Char) : Option ℚ :=
  match splitChars '.' cs with
  | [ip] => (digitsValue ip).map (fun n => (n : ℚ))
  | [ip, fp] =>
    if ip.isEmpty ∧ fp.isEmpty then none
    else if ¬ (ip.all Char.isDigit ∧ fp.all Char.isDigit) then none
    else
      some (((ip ++ fp).foldl (fun n c => 10 * n + (c.toNat - 48)) 0 : Nat) / (10 : ℚ) ^ fp.length)
  | _ => none

/-- Value of an unsigned decimal number with an optional exponent. -/
def unsignedValue (cs : List Char) : Option ℚ :=
  match splitChars 'e' (cs.map Char.toLower) with
  | [m] => mantissaValue m
  | [m, e] =>
    match mantissaValue m, signedValue e with
    | some q, some x => some (q * (10 : ℚ) ^ x)
    | _, _ => none
  | _ => none

/-- Double of a text: `QString::toDouble` on decimal notation, 0 when the text is no number. -/
def toDouble (s : String) : ℚ :=
  match trimmedChars s.data with
  | '-' :: ds => ((unsignedValue ds).map (fun q => - q)).getD 0
  | '+' :: ds => (unsignedValue ds).getD 0
  | ds => (unsignedValue ds).getD 0

end QString

namespace QStringList

/-- Concatenation of texts with a separator: `QStringList::join`. -/
def join : List String → String → String
  | [], _ => ""
  | [s], _ => s
  | s :: t :: rest, sep => s ++ sep ++ join (t :: rest) sep

end QStringList

/-! ## Conversions of a variant -/

namespace QVariant

/-- The type tag: `QVariant::type()`. -/
def type : QVariant → QVariantType
  | invalid => .Invalid
  | bool _ => .Bool
  | int _ => .Int
  | double _ => .Double
  | string _ => .String
  | list _ => .List
  | map _ => .Map

/-- Null test: `QVariant::isNull()`. -/
def isNull : QVariant → Bool
  | invalid => true
  | _ => false

/-- Text of a variant: `QVariant::toString()`; lists and maps have none. -/
def toString (env : Env) : QVariant → String
  | invalid => ""
  | bool b => if b then "true" else "false"
  | int i => QString.ofInt i
  | double d => env.doubleToString d
  | string s => s
  | list _ => ""
  | map _ => ""

/-- List of a variant: `QVariant::toList()`. -/
def toList : QVariant → QVariantList
  | list l => l
  | _ => []

/-- Map of a variant: `QVariant::toMap()`. -/
def toMap : QVariant → QVariantMap
  | map m => m
  | _ => []

/-- Double of a variant: `QVariant::toDouble()`. -/
def toDouble : QVariant → ℚ
  | bool b => if b then 1 else 0
  | int i => (i : ℚ)
  | double d => d
  | string s => QString.toDouble s
  | _ => 0

/-- Wrap of a 64 bit integer into the 32 bit `int` range. -/
def wrapInt32 (x : Int) : Int := (x + 2 ^ 31) % 2 ^ 32 - 2 ^ 31

/-- Integer of a variant: `QVariant::toInt()`; a double is rounded by `qRound64`. -/
def toInt : QVariant → Int
  | bool b => if b then 1 else 0
  | int i => i
  | double d => wrapInt32 (Rat.floor (d + 1 / 2))
  | string s => wrapInt32 (QString.toLongLong s)
  | _ => 0

/-- Truth value of a variant: `QVariant::toBool()`. -/
def toBool : QVariant → Bool
  | bool b => b
  | int i => decide (i ≠ 0)
  | double d => decide (d ≠ 0)
  | string s => !(String.mk (s.data.map Char.toLower) = "false" || s = "0" || s = "")
  | _ => false

end QVariant

namespace QVariantList

/-- Element `i` of a list, an invalid variant out of range: `QList::value( i )`. -/
def value (l : QVariantList) (i : Nat) : QVariant := l.getD i QVariant.invalid

end QVariantList

namespace QVariantMap

/-- Key test: `QMap::contains`. -/
def contains (m : QVariantMap) (key : String) : Bool := m.any (fun kv => kv.1 == key)

/-- Value of a key, `dflt` when absent: `QMap::value( key, defaultValue )`. -/
def valueOr (m : QVariantMap) (key : String) (dflt : QVariant) : QVariant :=
  (m.lookup key).getD dflt

/-- Value of a key, an invalid variant when absent: `QMap::value( key )`. -/
def value (m : QVariantMap) (key : String) : QVariant := valueOr m key QVariant.invalid

end QVariantMap

/-! ## Faults and warnings -/

/-- What stops a routine: an access to a list element that does not exist. -/
inductive Fault where
  | indexOutOfRange
  deriving DecidableEq, Repr

/-- Outcome of a routine that pushes warnings to the conversion context: its value and
the warnings pushed, in order, or the fault that stopped it. -/
inductive Conv (α : Type) where
  | fault (f : Fault)
  | ok (value : α) (warnings : List String)
  deriving DecidableEq, Repr

namespace Conv

/-- Sequencing: the warnings of the second routine follow those of the first. -/
def bind {α β : Type} (x : Conv α) (f : α → Conv β) : Conv β :=
  match x with
  | fault e => fault e
  | ok a w =>
    match f a with
    | fault e => fault e
    | ok b w2 => ok b (w ++ w2)

instance : Monad Conv where
  pure a := ok a []
  bind := bind

/-- The routine completed. -/
def isOk {α : Type} : Conv α → Bool
  | ok _ _ => true
  | fault _ => false

/-- The warnings a routine pushed, none when it was stopped. -/
def pushed {α : Type} : Conv α → List String
  | ok _ w => w
  | fault _ => []

/-- The value a routine returned. -/
def value? {α : Type} : Conv α → Option α
  | ok a _ => some a
  | fault _ => none

end Conv

/-- Append a warning to the context: `QgsMapBoxGlStyleConversionContext::pushWarning`. -/
def pushWarning (warning : String) : Conv Unit := Conv.ok () [warning]

namespace QList

/-- Element `i`, defined in range only: `QList::at( i )` and `QList::operator[]`. -/
def elementAt {α : Type} (l : List α) (i : Nat) : Conv α :=
  match l.get? i with
  | some a => Conv.ok a []
  | none => Conv.fault Fault.indexOutOfRange

/-- Last element, defined on a non-empty list only: `QList::last()`, `QList::constLast()`. -/
def last {α : Type} (l : List α) : Conv α :=
  match l.getLast? with
  | some a => Conv.ok a []
  | none => Conv.fault Fault.indexOutOfRange

/-- Assignment to element `i`, defined in range only: `list[i] = v`. -/
def assign {α : Type} (l : List α) (i : Nat) (v : α) : Conv (List α) :=
  if i < l.length then Conv.ok (l.set i v) [] else Conv.fault Fault.indexOutOfRange

end QList

/-! ## Expression texts (`QgsExpression`) -/

namespace QgsExpression

/-- Modelled from the spec: `QgsExpression::quotedColumnRef`, which is not part of the
converter's file: the "quoted column reference" of a name, in double quotes with every
double quote of the name doubled. -/
def quotedColumnRef (name : String) : String :=
  "\"" ++ QString.replaceChar name (Char.ofNat 34) "\"\"" ++ "\""

/-- Modelled from the spec: `QgsExpression::quotedString`, which is not part of the
converter's file: the "quoted literal" of a text, in single quotes with single quotes
doubled and backslash, line feed and tab escaped. -/
def quotedString (text : String) : String :=
  let t1 := QString.replaceChar text (Char.ofNat 39) "''"
  let t2 := QString.replaceChar t1 (Char.ofNat 92) "\\\\"
  let t3 := QString.replaceChar t2 '\n' "\\n"
  let t4 := QString.replaceChar t3 '\t' "\\t"
  "'" ++ t4 ++ "'"

/-- Modelled from the spec: `QgsExpression::quotedValue`, which is not part of the
converter's file: NULL for a null value, the number itself for a number, TRUE or FALSE for
a boolean and the quoted literal of the value's text otherwise. -/
def quotedValue (env : Env) (value : QVariant) : String :=
  if value.isNull then "NULL"
  else
    match value.type with
    | .Int => value.toString env
    | .Double => value.toString env
    | .Bool => if value.toBool then "TRUE" else "FALSE"
    | _ => quotedString (value.toString env)

/-- Modelled from the spec: `QgsExpression::createFieldEqualityExpression`, which is not
part of the converter's file: the test of a quoted column against a value, `IS NULL` for a
null value and `=` with the quoted value otherwise. -/
def createFieldEqualityExpression (env : Env) (fieldName : String) (value : QVariant) : String :=
  if value.isNull then quotedColumnRef fieldName ++ " IS NULL"
  else quotedColumnRef fieldName ++ " = " ++ quotedValue env value

end QgsExpression

/-! ## The filter and expression translator -/

namespace QgsMapBoxGlStyleConverter

/-- Column of a key: `QgsMapBoxGlStyleConverter::parseKey`. -/
def parseKey (env : Env) (value : QVariant) : String :=
  if value.toString env = "$type" then "_geom_type"
  else if value.type = QVariantType.List then
    if h : value.toList.length > 1 then (value.toList.get ⟨1, h⟩).toString env
    else (QVariantList.value value.toList 0).toString env
  else QgsExpression.quotedColumnRef (value.toString env)

/-- The rewriting of the branch for `!`: element 0 of the inner list gets the operator
in front, then the list goes to `parseKey`. -/
def parseNegated (env : Env) (op : String) (expression : QVariantList) : Conv String := do
  let contraJsonExpr := (QVariantList.value expression 1).toList
  let first ← QList.elementAt contraJsonExpr 0
  let contraJsonExpr ← QList.assign contraJsonExpr 0 (QVariant.string (op ++ first.toString env))
  pure (parseKey env (QVariant.list contraJsonExpr))

/-- The quoted labels of one branch of `match`: `QgsExpression::quotedValue` of each. -/
def quotedLabels (env : Env) (labels : QVariantList) : List String :=
  labels.map (QgsExpression.quotedValue env)

/-- One `WHEN` test of the conditional built for `match`, for the label at position `i`. -/
def matchWhen (env : Env) (attr : String) (label : QVariant) : String :=
  if label.type = QVariantType.List then
    let parts := quotedLabels env label.toList
    if parts.length > 1 then
      "WHEN " ++ QgsExpression.quotedColumnRef attr ++ " IN (" ++ QStringList.join parts ", " ++ ") "
    else
      "WHEN " ++ QgsExpression.createFieldEqualityExpression env attr (QVariantList.value label.toList 0) ++ " "
  else if label.type = QVariantType.String ∨ label.type = QVariantType.Int
      ∨ label.type = QVariantType.Double then
    "WHEN (" ++ QgsExpression.createFieldEqualityExpression env attr label ++ ") "
  else ""

/-- The loop of the conditional built for `match`: `rest` is the list from position `i`
on, and the loop runs while `i < expression.size() - 2`. -/
def matchCases (env : Env) (attr : String) : QVariantList → String
  | label :: output :: next :: rest =>
    matchWhen env attr label ++ "THEN " ++ QgsExpression.quotedValue env output ++ " "
      ++ matchCases env attr (next :: rest)
  | _ => ""

/-- The branch of `parseExpression` for `match`. -/
def parseMatch (env : Env) (expression : QVariantList) : Conv String := do
  let attr := (QVariantList.value (QVariantList.value expression 1).toList 1).toString env
  match expression with
  | [_, _, labels, QVariant.bool true, QVariant.bool false] =>
    if labels.type = QVariantType.List then
      let parts := quotedLabels env labels.toList
      if parts.length > 1 then
        pure (QgsExpression.quotedColumnRef attr ++ " IN (" ++ QStringList.join parts ", " ++ ")")
      else
        pure (QgsExpression.createFieldEqualityExpression env attr (QVariantList.value labels.toList 0))
    else if labels.type = QVariantType.String ∨ labels.type = QVariantType.Int
        ∨ labels.type = QVariantType.Double then
      pure (QgsExpression.createFieldEqualityExpression env attr labels)
    else do
      pushWarning "Skipping non-supported expression"
      pure ""
  | _ => do
    let caseString := "CASE " ++ matchCases env attr (expression.drop 2)
    let dflt ← QList.last expression
    pure (caseString ++ "ELSE " ++ QgsExpression.quotedValue env dflt ++ " END")

/-- The comparison operators of `parseExpression`. -/
def isComparison (op : String) : Bool :=
  op = "==" || op = "!=" || op = ">=" || op = ">" || op = "<=" || op = "<"

/-- The operator text of a comparison: `IS` and `IS NOT` take the place of `==` and `!=`. -/
def comparisonOperator (op : String) : String :=
  if op = "==" then "IS" else if op = "!=" then "IS NOT" else op

/-- The branches of `parseExpression`, in the order of its tests on the operator. -/
inductive Operator where
  | logical
  | negation
  | comparison
  | has
  | notHas
  | membership
  | get
  | matchLabels
  | toStringCast
  | unsupported
  deriving DecidableEq, Repr

/-- The branch `parseExpression` takes for an operator: its chain of tests. -/
def operatorOf (op : String) : Operator :=
  if op = "all" ∨ op = "any" ∨ op = "none" then Operator.logical
  else if op = "!" then Operator.negation
  else if isComparison op then Operator.comparison
  else if op = "has" then Operator.has
  else if op = "!has" then Operator.notHas
  else if op = "in" ∨ op = "!in" then Operator.membership
  else if op = "get" then Operator.get
  else if op = "match" then Operator.matchLabels
  else if op = "to-string" then Operator.toStringCast
  else Operator.unsupported

/-- The text of `all`, `any` and `none` from the texts of the parts. -/
def logicalText (op : String) (parts : List String) : String :=
  if op = "none" then "NOT (" ++ QStringList.join parts ") AND NOT (" ++ ")"
  else
    let operatorString :=
      if op = "all" then ") AND (" else if op = "any" then ") OR (" else ""
    "(" ++ QStringList.join parts operatorString ++ ")"

/-- The text of `in` and `!in` from the key and the texts of the values. -/
def membershipText (op key : String) (parts : List String) : String :=
  if op = "in" then key ++ " IN (" ++ QStringList.join parts ", " ++ ")"
  else "(" ++ key ++ " IS NULL OR " ++ key ++ " NOT IN (" ++ QStringList.join parts ", " ++ "))"

/-- The last branch of `parseExpression`: a warning and the empty text. -/
def unsupportedExpression : Conv String := do
  pushWarning "Skipping non-supported expression"
  pure ""

/-- The cases of `parseValue` for a value that is no list. -/
def parseScalarValue (env : Env) (value : QVariant) : Conv String :=
  match value.type with
  | QVariantType.String => pure (QgsExpression.quotedValue env (QVariant.string (value.toString env)))
  | QVariantType.Int => pure (value.toString env)
  | QVariantType.Double => pure (value.toString env)
  | _ => do
    pushWarning "Skipping unsupported expression part"
    pure ""

mutual

/-- Text of a value: `QgsMapBoxGlStyleConverter::parseValue`. -/
def parseValue (env : Env) : QVariant → Conv String
  | QVariant.list l => parseExpression env l
  | value => parseScalarValue env value

/-- The loop over the parts of `all`, `any`, `none`, `in` and `!in`: the texts of the
parts, or none with a warning at the first part whose text is empty. -/
def parseParts (env : Env) : QVariantList → Conv (Option (List String))
  | [] => pure (some [])
  | v :: vs => do
    let part ← parseValue env v
    if QString.isEmpty part then
      pushWarning "Skipping unsupported expression"
      pure none
    else
      match ← parseParts env vs with
      | some parts => pure (some (part :: parts))
      | none => pure none

/-- Text of a filter or expression list: `QgsMapBoxGlStyleConverter::parseExpression`. -/
def parseExpression (env : Env) : QVariantList → Conv String
  | [] => unsupportedExpression
  | first :: rest =>
    match operatorOf (first.toString env) with
    | Operator.logical => do
      match ← parseParts env rest with
      | none => pure ""
      | some parts => pure (logicalText (first.toString env) parts)
    | Operator.negation => parseNegated env (first.toString env) (first :: rest)
    | Operator.comparison => do
      let value ←
        match rest with
        | _ :: v :: _ => parseValue env v
        | _ => parseScalarValue env QVariant.invalid
      pure (parseKey env (QVariantList.value rest 0) ++ " "
        ++ comparisonOperator (first.toString env) ++ " " ++ value)
    | Operator.has => pure (parseKey env (QVariantList.value rest 0) ++ " IS NOT NULL")
    | Operator.notHas => pure (parseKey env (QVariantList.value rest 0) ++ " IS NULL")
    | Operator.membership => do
      let parts ←
        match rest with
        | _ :: values => parseParts env values
        | [] => pure (some [])
      match parts with
      | none => pure ""
      | some parts =>
        pure (membershipText (first.toString env) (parseKey env (QVariantList.value rest 0)) parts)
    | Operator.get => pure (parseKey env (QVariantList.value rest 0))
    | Operator.matchLabels => parseMatch env (first :: rest)
    | Operator.toStringCast => do
      let inner ←
        match rest with
        | QVariant.list l :: _ => parseExpression env l
        | _ => unsupportedExpression
      pure ("to_string(" ++ inner ++ ")")
    | Operator.unsupported => unsupportedExpression

end

end QgsMapBoxGlStyleConverter

/-! ## The style model the converter produces -/

/-- Units of a rendered size (`QgsUnitTypes::RenderUnit`). -/
inductive RenderUnit where
  | RenderMillimeters
  | RenderMapUnits
  | RenderPixels
  | RenderPercentage
  | RenderPoints
  | RenderInches
  | RenderUnknownUnit
  | RenderMetersInMapUnits
  deriving DecidableEq, Repr

/-- Geometry types of a rule (`QgsWkbTypes::GeometryType`). -/
inductive GeometryType where
  | PointGeometry
  | LineGeometry
  | PolygonGeometry
  | UnknownGeometry
  | NullGeometry
  deriving DecidableEq, Repr

/-- A point with real coordinates (`QPointF`). -/
structure QPointF where
  x : ℚ
  y : ℚ
  deriving DecidableEq, Repr

/-- Test for the origin: `QPointF::isNull()`. -/
def QPointF.isNull (p : QPointF) : Bool := decide (p.x = 0) && decide (p.y = 0)

/-- Modelled from the spec: `QgsProperty`, which is not part of the converter's file: a
"compiled data-defined expression (a string in the target expression language)" with its
"active" flag; the default-constructed property is invalid and inactive. -/
structure QgsProperty where
  isExpressionBased : Bool
  expressionString : String
  active : Bool
  deriving DecidableEq, Repr

namespace QgsProperty

/-- The default-constructed property `QgsProperty()`. -/
def invalid : QgsProperty := { isExpressionBased := false, expressionString := "", active := false }

/-- An active expression based property: `QgsProperty::fromExpression`. -/
def fromExpression (expression : String) : QgsProperty :=
  { isExpressionBased := true, expressionString := expression, active := true }

/-- Activity of a property: `QgsProperty::isActive()`. -/
def isActive (p : QgsProperty) : Bool := p.isExpressionBased && p.active

end QgsProperty

/-- Modelled from the spec: `QgsPropertyCollection`, which is not part of the converter's
file: "a mapping from a fixed enumeration of symbol/label property keys to a compiled
data-defined expression"; an invalid property is not stored. -/
structure QgsPropertyCollection (κ : Type) where
  properties : List (κ × QgsProperty)
  deriving DecidableEq, Repr

namespace QgsPropertyCollection

variable {κ : Type} [DecidableEq κ]

/-- The empty collection. -/
def empty : QgsPropertyCollection κ := { properties := [] }

/-- The property stored for a key, the invalid property when there is none. -/
def property (c : QgsPropertyCollection κ) (key : κ) : QgsProperty :=
  (c.properties.lookup key).getD QgsProperty.invalid

/-- Store a property under a key; an invalid property removes the key. -/
def setProperty (c : QgsPropertyCollection κ) (key : κ) (p : QgsProperty) : QgsPropertyCollection κ :=
  if p.isExpressionBased then
    { properties := (key, p) :: c.properties.filter (fun kv => decide (kv.1 ≠ key)) }
  else
    { properties := c.properties.filter (fun kv => decide (kv.1 ≠ key)) }

/-- Activity of the property stored for a key. -/
def isActive (c : QgsPropertyCollection κ) (key : κ) : Bool := (c.property key).isActive

end QgsPropertyCollection

/-- The keys of `QgsSymbolLayer::Property` the converter sets. -/
inductive SymbolLayerProperty where
  | PropertyFillColor
  | PropertyStrokeColor
  | PropertyStrokeWidth
  | PropertyOffset
  | PropertyOpacity
  | PropertyAngle
  | PropertyInterval
  deriving DecidableEq, Repr

/-- The keys of `QgsPalLayerSettings::Property` the converter sets. -/
inductive LabelProperty where
  | Size
  | AutoWrapLength
  | FontLetterSpacing
  | Color
  | BufferColor
  | BufferSize
  | OffsetQuad
  | OffsetXY
  deriving DecidableEq, Repr

/-- Pen cap styles (`Qt::PenCapStyle`). -/
inductive PenCapStyle where
  | FlatCap
  | SquareCap
  | RoundCap
  deriving DecidableEq, Repr

/-- Pen join styles (`Qt::PenJoinStyle`). -/
inductive PenJoinStyle where
  | MiterJoin
  | BevelJoin
  | RoundJoin
  deriving DecidableEq, Repr

/-- A raster marker, by what the converter sets on it (`QgsRasterMarkerSymbolLayer`);
none stands for a value left at the default of the constructor. -/
structure QgsRasterMarkerSymbolLayer where
  path : Option String
  size : Option ℚ
  sizeUnit : Option RenderUnit
  dataDefinedProperties : QgsPropertyCollection SymbolLayerProperty
  angle : ℚ
  opacity : Option ℚ
  deriving DecidableEq, Repr

/-- Placements of the markers of a marker line (`QgsTemplatedLineSymbolLayerBase::Placement`). -/
inductive MarkerPlacement where
  | Interval
  | CentralPoint
  deriving DecidableEq, Repr

/-- A symbol layer, by what the converter sets on it; none stands for a value left at the
default of the constructor. -/
inductive QgsSymbolLayer where
  | simpleFill (outputUnit offsetUnit : RenderUnit) (offset : Option QPointF)
      (dataDefinedProperties : QgsPropertyCollection SymbolLayerProperty)
      (strokeColor : Option QColor) (noPen : Bool) (fillColor : Option QColor) (noBrush : Bool)
  | rasterFill (imageFilePath : String) (viewportCoordinates : Bool) (opacity : Option ℚ)
      (dataDefinedProperties : QgsPropertyCollection SymbolLayerProperty)
  | simpleLine (outputUnit offsetUnit : RenderUnit) (penCapStyle : PenCapStyle)
      (penJoinStyle : PenJoinStyle)
      (dataDefinedProperties : QgsPropertyCollection SymbolLayerProperty) (offset : ℚ)
      (color : Option QColor) (width : Option ℚ) (customDashVector : Option (List ℚ))
  | markerLine (rotateMarkers : Bool) (interval : ℚ) (outputUnit : RenderUnit)
      (dataDefinedProperties : QgsPropertyCollection SymbolLayerProperty)
      (placement : MarkerPlacement) (subSymbol : QgsRasterMarkerSymbolLayer)
  | rasterMarker (marker : QgsRasterMarkerSymbolLayer)
  deriving DecidableEq, Repr

/-- A symbol: its layers, bottom first, its unit and its opacity when set (`QgsSymbol`). -/
structure QgsSymbol where
  symbolLayers : List QgsSymbolLayer
  outputUnit : Option RenderUnit
  opacity : Option ℚ
  deriving DecidableEq, Repr

/-- A rendering rule (`QgsVectorTileBasicRendererStyle`). -/
structure QgsVectorTileBasicRendererStyle where
  styleName : String
  layerName : String
  filterExpression : String
  minZoomLevel : Int
  maxZoomLevel : Int
  enabled : Bool
  geometryType : GeometryType
  symbol : Option QgsSymbol
  deriving DecidableEq, Repr

/-- The default-constructed rendering rule. -/
def QgsVectorTileBasicRendererStyle.default : QgsVectorTileBasicRendererStyle :=
  { styleName := "", layerName := "", filterExpression := "", minZoomLevel := -1,
    maxZoomLevel := -1, enabled := true, geometryType := GeometryType.UnknownGeometry,
    symbol := none }

/-- A font, by what the converter sets on it (`QFont`). -/
structure QFont where
  family : Option String
  styleName : Option String
  letterSpacing : Option ℚ
  deriving DecidableEq, Repr

/-- The halo of a text (`QgsTextBufferSettings`), with the blur level of its paint effect. -/
structure QgsTextBufferSettings where
  enabled : Bool
  size : Option ℚ
  sizeUnit : Option RenderUnit
  color : Option QColor
  blurLevel : Option ℚ
  blurUnit : Option RenderUnit
  deriving DecidableEq, Repr

/-- A text format, by what the converter sets on it (`QgsTextFormat`). -/
structure QgsTextFormat where
  sizeUnit : RenderUnit
  color : Option QColor
  size : Option ℚ
  font : QFont
  buffer : QgsTextBufferSettings
  deriving DecidableEq, Repr

/-- Placements of a label (`QgsPalLayerSettings::Placement`), as far as the converter sets them. -/
inductive LabelPlacement where
  | OverPoint
  | Curved
  deriving DecidableEq, Repr

/-- Quadrants of a label around its point (`QgsPalLayerSettings::QuadrantPosition`). -/
inductive QuadrantPosition where
  | QuadrantAboveLeft
  | QuadrantAbove
  | QuadrantAboveRight
  | QuadrantLeft
  | QuadrantOver
  | QuadrantRight
  | QuadrantBelowLeft
  | QuadrantBelow
  | QuadrantBelowRight
  deriving DecidableEq, Repr

/-- Label settings, by what the converter sets on them (`QgsPalLayerSettings`); none stands
for a value left at the default of the constructor. -/
structure QgsPalLayerSettings where
  fieldName : String
  isExpression : Bool
  placement : LabelPlacement
  onLine : Bool
  quadOffset : Option QuadrantPosition
  offsetUnits : Option RenderUnit
  xOffset : Option ℚ
  yOffset : Option ℚ
  priority : Option ℚ
  autoWrapLength : Option ℚ
  format : QgsTextFormat
  obstacleFactor : ℚ
  dataDefinedProperties : QgsPropertyCollection LabelProperty
  deriving DecidableEq, Repr

/-- A labeling rule (`QgsVectorTileBasicLabelingStyle`). -/
structure QgsVectorTileBasicLabelingStyle where
  styleName : String
  layerName : String
  filterExpression : String
  minZoomLevel : Int
  maxZoomLevel : Int
  enabled : Bool
  geometryType : GeometryType
  labelSettings : Option QgsPalLayerSettings
  deriving DecidableEq, Repr

/-- The default-constructed labeling rule. -/
def QgsVectorTileBasicLabelingStyle.default : QgsVectorTileBasicLabelingStyle :=
  { styleName := "", layerName := "", filterExpression := "", minZoomLevel := -1,
    maxZoomLevel := -1, enabled := true, geometryType := GeometryType.UnknownGeometry,
    labelSettings := none }

/-! ## The conversion context -/

/-- The conversion context (`QgsMapBoxGlStyleConversionContext`): the warnings pushed so
far and the settings of the caller. -/
structure QgsMapBoxGlStyleConversionContext where
  mWarnings : List String
  mTargetUnit : RenderUnit
  mSizeConversionFactor : ℚ
  mSpriteImage : QImage
  mSpriteDefinitions : QVariantMap

namespace QgsMapBoxGlStyleConversionContext

/-- The default-constructed context, the one `parseLayers` makes when it gets none. -/
def default : QgsMapBoxGlStyleConversionContext :=
  { mWarnings := [], mTargetUnit := RenderUnit.RenderPixels, mSizeConversionFactor := 1,
    mSpriteImage := QImage.null, mSpriteDefinitions := [] }

/-- The warnings of the context: `warnings()`. -/
def warnings (c : QgsMapBoxGlStyleConversionContext) : List String := c.mWarnings

/-- The context without warnings: `clearWarnings()`. -/
def clearWarnings (c : QgsMapBoxGlStyleConversionContext) : QgsMapBoxGlStyleConversionContext :=
  { c with mWarnings := [] }

/-- The target unit: `targetUnit()`. -/
def targetUnit (c : QgsMapBoxGlStyleConversionContext) : RenderUnit := c.mTargetUnit

/-- The pixel size conversion factor: `pixelSizeConversionFactor()`. -/
def pixelSizeConversionFactor (c : QgsMapBoxGlStyleConversionContext) : ℚ := c.mSizeConversionFactor

/-- The sprite bitmap: `spriteImage()`. -/
def spriteImage (c : QgsMapBoxGlStyleConversionContext) : QImage := c.mSpriteImage

/-- The sprite index: `spriteDefinitions()`. -/
def spriteDefinitions (c : QgsMapBoxGlStyleConversionContext) : QVariantMap := c.mSpriteDefinitions

end QgsMapBoxGlStyleConversionContext

/-! ## Value parser and interpolation compiler -/

namespace QgsMapBoxGlStyleConverter

/-- The value kinds of `parseInterpolateListByZoom` (`PropertyType`). -/
inductive PropertyType where
  | Color
  | Numeric
  | Opacity
  | Point
  deriving DecidableEq, Repr

/-- Colour of a value: `parseColor`; only a string has one. -/
def parseColor (env : Env) (color : QVariant) : Conv QColor :=
  if color.type ≠ QVariantType.String then do
    pushWarning ("Could not parse non-string color " ++ color.toString env ++ ", skipping")
    pure QColor.invalid
  else
    pure (env.parseColor (color.toString env))

/-- Truncation of a double to `int`, toward zero. -/
def truncToInt (q : ℚ) : Int := if 0 ≤ q then Rat.floor q else Rat.ceil q

/-- Hue, saturation, lightness and alpha of a colour: `colorAsHslaComponents`. -/
def colorAsHslaComponents (env : Env) (color : QColor) : Int × Int × Int × Int :=
  (max 0 (env.hslHue color),
   truncToInt ((env.hslSaturation color : ℚ) / 255 * 100),
   truncToInt ((env.lightness color : ℚ) / 255 * 100),
   color.alpha)

/-- Closeness of two doubles: `qgsDoubleNear` with its default epsilon, four times the
machine epsilon of a double. -/
def qgsDoubleNear (a b : ℚ) : Bool :=
  decide (a - b > - (4 / 2 ^ 52 : ℚ)) && decide (a - b ≤ (4 / 2 ^ 52 : ℚ))

/-- Scale expression between two stops: `interpolateExpression`. -/
def interpolateExpression (env : Env) (zoomMin zoomMax valueMin valueMax base multiplier : ℚ) : String :=
  if qgsDoubleNear valueMin valueMax then env.number (valueMin * multiplier)
  else
    let expression :=
      if base = 1 then
        "scale_linear(@zoom_level," ++ env.number zoomMin ++ "," ++ env.number zoomMax ++ ","
          ++ env.number valueMin ++ "," ++ env.number valueMax ++ ")"
      else
        "scale_exp(@zoom_level," ++ env.number zoomMin ++ "," ++ env.number zoomMax ++ ","
          ++ env.number valueMin ++ "," ++ env.number valueMax ++ "," ++ env.number base ++ ")"
    if multiplier ≠ 1 then expression ++ " * " ++ env.number multiplier
    else expression

/-- Cap style of its name: `parseCapStyle`. -/
def parseCapStyle (style : String) : PenCapStyle :=
  if style = "round" then PenCapStyle.RoundCap
  else if style = "square" then PenCapStyle.SquareCap
  else PenCapStyle.FlatCap

/-- Join style of its name: `parseJoinStyle`. -/
def parseJoinStyle (style : String) : PenJoinStyle :=
  if style = "bevel" then PenJoinStyle.BevelJoin
  else if style = "round" then PenJoinStyle.RoundJoin
  else PenJoinStyle.MiterJoin

/-- Zoom of a stop: `stop.toList().value( 0 )`. -/
def stopZoom (stop : QVariant) : QVariant := QVariantList.value stop.toList 0

/-- Value of a stop: `stop.toList().value( 1 )`. -/
def stopValue (stop : QVariant) : QVariant := QVariantList.value stop.toList 1

/-- The text `color_hsla(h, s, l, a)` of four component texts. -/
def colorHsla (h s l a : String) : String :=
  "color_hsla(" ++ h ++ ", " ++ s ++ ", " ++ l ++ ", " ++ a ++ ")"

/-- The loop of `parseInterpolateColorByZoom` over the pairs of consecutive stops. -/
def colorCases (env : Env) (base : ℚ) : QVariantList → Conv String
  | bottom :: top :: rest => do
    let bz := (stopZoom bottom).toString env
    let tz := (stopZoom top).toString env
    let bottomColor ← parseColor env (stopValue bottom)
    let topColor ← parseColor env (stopValue top)
    let (bcHue, bcSat, bcLight, bcAlpha) := colorAsHslaComponents env bottomColor
    let (tcHue, tcSat, tcLight, tcAlpha) := colorAsHslaComponents env topColor
    let zMin := QString.toDouble bz
    let zMax := QString.toDouble tz
    let branch := "WHEN @zoom_level >= " ++ bz ++ " AND @zoom_level < " ++ tz ++ " THEN "
      ++ colorHsla (interpolateExpression env zMin zMax bcHue tcHue base 1)
          (interpolateExpression env zMin zMax bcSat tcSat base 1)
          (interpolateExpression env zMin zMax bcLight tcLight base 1)
          (interpolateExpression env zMin zMax bcAlpha tcAlpha base 1) ++ " "
    let more ← colorCases env base (top :: rest)
    pure (branch ++ more)
  | _ => pure ""

/-- Colour property of a stops map: `parseInterpolateColorByZoom`; the second component is
the colour assigned through `defaultColor`, none when nothing is assigned. -/
def parseInterpolateColorByZoom (env : Env) (json : QVariantMap) : Conv (QgsProperty × Option QColor) := do
  let base := (QVariantMap.valueOr json "base" (QVariant.string "1")).toDouble
  let stops := (QVariantMap.value json "stops").toList
  if stops.isEmpty then pure (QgsProperty.invalid, none)
  else do
    let cases ← colorCases env base stops
    let top ← QList.last stops
    let tz := (stopZoom top).toString env
    let topColor ← parseColor env (stopValue top)
    let (tcHue, tcSat, tcLight, tcAlpha) := colorAsHslaComponents env topColor
    let hsla := colorHsla (QString.ofInt tcHue) (QString.ofInt tcSat) (QString.ofInt tcLight)
      (QString.ofInt tcAlpha)
    let caseString := "CASE " ++ cases ++ "WHEN @zoom_level >= " ++ tz ++ " THEN " ++ hsla
      ++ " ELSE " ++ hsla ++ " END"
    let defaultColor ← parseColor env
      (QVariant.string ((stopValue (QVariantList.value stops 0)).toString env))
    pure (QgsProperty.fromExpression caseString, some defaultColor)

/-- The loop of `parseStops`: the branches of the conditional, or none with a warning at
the first stop whose zoom is a list. -/
def stopsCases (env : Env) (base multiplier : ℚ) : QVariantList → Conv (Option String)
  | bottom :: top :: rest => do
    let bz := stopZoom bottom
    let bv := stopValue bottom
    if bz.type = QVariantType.List then
      pushWarning "QGIS does not support expressions in interpolation function, skipping."
      pure none
    else
      let tz := stopZoom top
      let tv := stopValue top
      if tz.type = QVariantType.List then
        pushWarning "QGIS does not support expressions in interpolation function, skipping."
        pure none
      else
        let branch := "WHEN @zoom_level > " ++ bz.toString env ++ " AND @zoom_level <= "
          ++ tz.toString env ++ " THEN "
          ++ interpolateExpression env bz.toDouble tz.toDouble bv.toDouble tv.toDouble base multiplier
          ++ " "
        match ← stopsCases env base multiplier (top :: rest) with
        | some more => pure (some (branch ++ more))
        | none => pure none
  | _ => pure (some "")

/-- Conditional of a numeric stops list: `parseStops`. -/
def parseStops (env : Env) (base : ℚ) (stops : QVariantList) (multiplier : ℚ) : Conv String := do
  match ← stopsCases env base multiplier stops with
  | some cases => pure ("CASE " ++ cases ++ "END")
  | none => pure ""

/-- Numeric property of a stops map: `parseInterpolateByZoom`; the second component is the
number assigned through `defaultNumber`, none when nothing is assigned. -/
def parseInterpolateByZoom (env : Env) (json : QVariantMap) (multiplier : ℚ) :
    Conv (QgsProperty × Option ℚ) := do
  let base := (QVariantMap.valueOr json "base" (QVariant.string "1")).toDouble
  let stops := (QVariantMap.value json "stops").toList
  if stops.isEmpty then pure (QgsProperty.invalid, none)
  else do
    let scaleExpression ←
      if stops.length ≤ 2 then do
        let top ← QList.last stops
        pure (interpolateExpression env (stopZoom (QVariantList.value stops 0)).toDouble
          (stopZoom top).toDouble (stopValue (QVariantList.value stops 0)).toDouble
          (stopValue top).toDouble base multiplier)
      else parseStops env base stops multiplier
    pure (QgsProperty.fromExpression scaleExpression,
      some ((stopValue (QVariantList.value stops 0)).toDouble * multiplier))

/-- The text `set_color_part(@symbol_color, 'alpha', a)`. -/
def setAlpha (a : String) : String := "set_color_part(@symbol_color, 'alpha', " ++ a ++ ")"

/-- The loop of `parseOpacityStops` over the pairs of consecutive stops. -/
def opacityCases (env : Env) (base : ℚ) (maxOpacity : Int) : QVariantList → String
  | bottom :: top :: rest =>
    " WHEN @zoom_level >= " ++ (stopZoom bottom).toString env ++ " AND @zoom_level < "
      ++ (stopZoom top).toString env ++ " THEN "
      ++ setAlpha (interpolateExpression env (stopZoom bottom).toDouble (stopZoom top).toDouble
          ((stopValue bottom).toDouble * maxOpacity) ((stopValue top).toDouble * maxOpacity) base 1)
      ++ opacityCases env base maxOpacity (top :: rest)
  | _ => ""

/-- Conditional of an opacity stops list: `parseOpacityStops`. -/
def parseOpacityStops (env : Env) (base : ℚ) (stops : QVariantList) (maxOpacity : Int) : Conv String := do
  let first := QVariantList.value stops 0
  let caseString := "CASE WHEN @zoom_level < " ++ (stopZoom first).toString env ++ " THEN "
    ++ setAlpha (env.number ((stopValue first).toDouble * maxOpacity))
  let cases := opacityCases env base maxOpacity stops
  let top ← QList.last stops
  pure (caseString ++ cases ++ " WHEN @zoom_level >= " ++ (stopZoom top).toString env ++ " THEN "
    ++ setAlpha (env.number ((stopValue top).toDouble * maxOpacity)) ++ " END")

/-- Opacity property of a stops map: `parseInterpolateOpacityByZoom`. -/
def parseInterpolateOpacityByZoom (env : Env) (json : QVariantMap) (maxOpacity : Int) : Conv QgsProperty := do
  let base := (QVariantMap.valueOr json "base" (QVariant.string "1")).toDouble
  let stops := (QVariantMap.value json "stops").toList
  if stops.isEmpty then pure QgsProperty.invalid
  else do
    let scaleExpression ←
      if stops.length ≤ 2 then do
        let top ← QList.last stops
        pure (setAlpha (interpolateExpression env (stopZoom (QVariantList.value stops 0)).toDouble
          (stopZoom top).toDouble ((stopValue (QVariantList.value stops 0)).toDouble * maxOpacity)
          ((stopValue top).toDouble * maxOpacity) base 1))
      else parseOpacityStops env base stops maxOpacity
    pure (QgsProperty.fromExpression scaleExpression)

/-- The loop of `parsePointStops`: the branches of the conditional, or none with a warning
at the first stop whose zoom is no list. -/
def pointCases (env : Env) (base multiplier : ℚ) : QVariantList → Conv (Option String)
  | bottom :: top :: rest => do
    let bz := stopZoom bottom
    let bv := stopValue bottom
    if bz.type ≠ QVariantType.List then
      pushWarning "Could not convert offset interpolation, skipping."
      pure none
    else
      let tz := stopZoom top
      let tv := stopValue top
      if tz.type ≠ QVariantType.List then
        pushWarning "Could not convert offset interpolation, skipping."
        pure none
      else
        let branch := "WHEN @zoom_level > " ++ bz.toString env ++ " AND @zoom_level <= "
          ++ tz.toString env ++ " THEN array("
          ++ interpolateExpression env bz.toDouble tz.toDouble
              (QVariantList.value bv.toList 0).toDouble (QVariantList.value tv.toList 0).toDouble
              base multiplier
          ++ ","
          ++ interpolateExpression env bz.toDouble tz.toDouble
              (QVariantList.value bv.toList 1).toDouble (QVariantList.value tv.toList 1).toDouble
              base multiplier
          ++ ")"
        match ← pointCases env base multiplier (top :: rest) with
        | some more => pure (some (branch ++ more))
        | none => pure none
  | _ => pure (some "")

/-- Conditional of a point stops list: `parsePointStops`. -/
def parsePointStops (env : Env) (base : ℚ) (stops : QVariantList) (multiplier : ℚ) : Conv String := do
  match ← pointCases env base multiplier stops with
  | some cases => pure ("CASE " ++ cases ++ "END")
  | none => pure ""

/-- Point property of a stops map: `parseInterpolatePointByZoom`; the second component is
the point assigned through `defaultPoint`, none when nothing is assigned. -/
def parseInterpolatePointByZoom (env : Env) (json : QVariantMap) (multiplier : ℚ) :
    Conv (QgsProperty × Option QPointF) := do
  let base := (QVariantMap.valueOr json "base" (QVariant.string "1")).toDouble
  let stops := (QVariantMap.value json "stops").toList
  if stops.isEmpty then pure (QgsProperty.invalid, none)
  else do
    let first := QVariantList.value stops 0
    let scaleExpression ←
      if stops.length ≤ 2 then do
        let top ← QList.last stops
        pure ("array("
          ++ interpolateExpression env (stopZoom first).toDouble (stopZoom top).toDouble
              (QVariantList.value (stopValue first).toList 0).toDouble
              (QVariantList.value (stopValue top).toList 0).toDouble base multiplier
          ++ ","
          ++ interpolateExpression env (stopZoom first).toDouble (stopZoom top).toDouble
              (QVariantList.value (stopValue first).toList 1).toDouble
              (QVariantList.value (stopValue top).toList 1).toDouble base multiplier
          ++ ")")
      else parsePointStops env base stops multiplier
    pure (QgsProperty.fromExpression scaleExpression,
      some { x := (QVariantList.value (stopValue first).toList 0).toDouble * multiplier,
             y := (QVariantList.value (stopValue first).toList 1).toDouble * multiplier })

/-- The loop of `parseStringStops`: the branches of the conditional, or none with a warning
at the first stop whose zoom is a list. -/
def stringCases (env : Env) (conversionMap : QVariantMap) : QVariantList → Conv (Option String)
  | bottom :: top :: rest => do
    let bz := stopZoom bottom
    let bv := (stopValue bottom).toString env
    if bz.type = QVariantType.List then
      pushWarning "QGIS does not support expressions in interpolation function, skipping."
      pure none
    else
      let tz := stopZoom top
      if tz.type = QVariantType.List then
        pushWarning "QGIS does not support expressions in interpolation function, skipping."
        pure none
      else
        let branch := "WHEN @zoom_level > " ++ bz.toString env ++ " AND @zoom_level <= "
          ++ tz.toString env ++ " THEN "
          ++ QgsExpression.quotedValue env (QVariantMap.valueOr conversionMap bv (QVariant.string bv))
          ++ " "
        match ← stringCases env conversionMap (top :: rest) with
        | some more => pure (some (branch ++ more))
        | none => pure none
  | _ => pure (some "")

/-- Conditional of a string stops list: `parseStringStops`; the second component is the
text assigned through `defaultString`, none when the routine returns before the assignment. -/
def parseStringStops (env : Env) (stops : QVariantList) (conversionMap : QVariantMap) :
    Conv (String × Option String) := do
  match ← stringCases env conversionMap stops with
  | none => pure ("", none)
  | some cases =>
    let top ← QList.last stops
    let caseString := "CASE " ++ cases ++ "ELSE "
      ++ QgsExpression.quotedValue env
          (QVariantMap.valueOr conversionMap ((stopValue top).toString env) (stopValue top))
      ++ " END"
    pure (caseString, some ((stopValue top).toString env))

/-- String property of a stops map: `parseInterpolateStringByZoom`. -/
def parseInterpolateStringByZoom (env : Env) (json : QVariantMap) (conversionMap : QVariantMap) :
    Conv (QgsProperty × Option String) := do
  let stops := (QVariantMap.value json "stops").toList
  if stops.isEmpty then pure (QgsProperty.invalid, none)
  else do
    let (scaleExpression, defaultString) ← parseStringStops env stops conversionMap
    pure (QgsProperty.fromExpression scaleExpression, defaultString)

/-- The stops of an `interpolate` list from position 3 on, as pairs of texts. -/
def listStops (env : Env) : QVariantList → QVariantList
  | [] => []
  | [zoom] => [QVariant.list [QVariant.string (zoom.toString env), QVariant.string ""]]
  | zoom :: value :: rest =>
    QVariant.list [QVariant.string (zoom.toString env), QVariant.string (value.toString env)]
      :: listStops env rest

/-- Property of an `interpolate` list: `parseInterpolateListByZoom`; the other components
are the values assigned through `defaultColor` and `defaultNumber`. -/
def parseInterpolateListByZoom (env : Env) (json : QVariantList) (type : PropertyType)
    (multiplier : ℚ) (maxOpacity : Int) : Conv (QgsProperty × Option QColor × Option ℚ) := do
  if (QVariantList.value json 0).toString env ≠ "interpolate" then
    pushWarning "Could not interpret value list"
    pure (QgsProperty.invalid, none, none)
  else
    let technique := (QVariantList.value (QVariantList.value json 1).toList 0).toString env
    let known := technique = "linear" ∨ technique = "exponential" ∨ technique = "cubic-bezier"
    if ¬ known then
      pushWarning ("Skipping not implemented interpolation method " ++ technique)
      pure (QgsProperty.invalid, none, none)
    else
      let base : ℚ :=
        if technique = "linear" then 1
        else if technique = "exponential" then
          (QVariantList.value (QVariantList.value json 1).toList 1).toDouble
        else 1
      if technique = "cubic-bezier" then
        pushWarning "QGIS does not support cubic-bezier interpolation, linear used instead."
      if (QVariantList.value (QVariantList.value json 2).toList 0).toString env ≠ "zoom" then
        pushWarning ("Skipping not implemented interpolation input "
          ++ (QVariantList.value json 2).toString env)
        pure (QgsProperty.invalid, none, none)
      else
        let stops := listStops env (json.drop 3)
        let props : QVariantMap := [("base", QVariant.double base), ("stops", QVariant.list stops)]
        match type with
        | PropertyType.Color => do
          let (p, c) ← parseInterpolateColorByZoom env props
          pure (p, c, none)
        | PropertyType.Numeric => do
          let (p, n) ← parseInterpolateByZoom env props multiplier
          pure (p, none, n)
        | PropertyType.Opacity => do
          let p ← parseInterpolateOpacityByZoom env props maxOpacity
          pure (p, none, none)
        | PropertyType.Point => do
          let (p, _) ← parseInterpolatePointByZoom env props multiplier
          pure (p, none, none)

/-! ## Sprite resolver -/

/-- Sprite of a name, the null image with a warning when it cannot be had: `retrieveSprite`. -/
def retrieveSprite (env : Env) (name : String) (context : QgsMapBoxGlStyleConversionContext) :
    Conv QImage := do
  if context.spriteImage.isNull then
    pushWarning ("Could not retrieve sprite '" ++ name ++ "'")
    pure QImage.null
  else
    let spriteDefinition := (QVariantMap.value context.spriteDefinitions name).toMap
    if spriteDefinition.length = 0 then
      pushWarning ("Could not retrieve sprite '" ++ name ++ "'")
      pure QImage.null
    else
      let sprite := env.imageCopy context.spriteImage
        (QVariantMap.value spriteDefinition "x").toInt
        (QVariantMap.value spriteDefinition "y").toInt
        (QVariantMap.value spriteDefinition "width").toInt
        (QVariantMap.value spriteDefinition "height").toInt
      if sprite.isNull then
        pushWarning ("Could not retrieve sprite '" ++ name ++ "'")
        pure QImage.null
      else pure sprite

/-- Sprite of a name as an embeddable path with its width and height, the empty path when
it cannot be had: `retrieveSpriteAsBase64`. -/
def retrieveSpriteAsBase64 (env : Env) (name : String) (context : QgsMapBoxGlStyleConversionContext) :
    Conv (String × Int × Int) := do
  let sprite ← retrieveSprite env name context
  if ¬ sprite.isNull then
    pure ("base64:" ++ env.pngBase64 sprite, sprite.width, sprite.height)
  else pure ("", -1, -1)

end QgsMapBoxGlStyleConverter

/-! ## Layer converters -/

namespace QgsMapBoxGlStyleConverter

open SymbolLayerProperty in
/-- Rendering rule of a `fill` layer: `parseFillLayer`; the flag tells whether `style`
was filled in. -/
def parseFillLayer (env : Env) (jsonLayer : QVariantMap) (style : QgsVectorTileBasicRendererStyle)
    (context : QgsMapBoxGlStyleConversionContext) :
    Conv (Bool × QgsVectorTileBasicRendererStyle) := do
  if ¬ QVariantMap.contains jsonLayer "paint" then
    pushWarning ("Style layer " ++ (QVariantMap.value jsonLayer "id").toString env
      ++ " has no paint property, skipping")
    pure (false, style)
  else
    let jsonPaint := (QVariantMap.value jsonLayer "paint").toMap
    let mut ddProperties : QgsPropertyCollection SymbolLayerProperty := QgsPropertyCollection.empty
    let mut ddRasterProperties : QgsPropertyCollection SymbolLayerProperty := QgsPropertyCollection.empty
    -- fill color
    let mut fillColor := QColor.invalid
    if QVariantMap.contains jsonPaint "fill-color" then
      let jsonFillColor := QVariantMap.value jsonPaint "fill-color"
      match jsonFillColor.type with
      | QVariantType.Map =>
        let (p, c) ← parseInterpolateColorByZoom env jsonFillColor.toMap
        fillColor := c.getD fillColor
        ddProperties := ddProperties.setProperty PropertyFillColor p
      | QVariantType.List =>
        let (p, c, _) ← parseInterpolateListByZoom env jsonFillColor.toList PropertyType.Color 1 255
        fillColor := c.getD fillColor
        ddProperties := ddProperties.setProperty PropertyFillColor p
      | QVariantType.String =>
        fillColor ← parseColor env (QVariant.string (jsonFillColor.toString env))
      | _ => pushWarning "Skipping non-implemented color expression"
    let mut fillOutlineColor := QColor.invalid
    if ¬ QVariantMap.contains jsonPaint "fill-outline-color" then
      -- fill-outline-color
      if fillColor.isValid then
        fillOutlineColor := fillColor
      else
        -- use fill color data defined property
        if ddProperties.isActive PropertyFillColor then
          ddProperties := ddProperties.setProperty PropertyStrokeColor
            (ddProperties.property PropertyFillColor)
    else
      let jsonFillOutlineColor := QVariantMap.value jsonPaint "fill-outline-color"
      match jsonFillOutlineColor.type with
      | QVariantType.Map =>
        let (p, c) ← parseInterpolateColorByZoom env jsonFillOutlineColor.toMap
        fillOutlineColor := c.getD fillOutlineColor
        ddProperties := ddProperties.setProperty PropertyStrokeColor p
      | QVariantType.List =>
        let (p, c, _) ← parseInterpolateListByZoom env jsonFillOutlineColor.toList PropertyType.Color 1 255
        fillOutlineColor := c.getD fillOutlineColor
        ddProperties := ddProperties.setProperty PropertyStrokeColor p
      | QVariantType.String =>
        fillOutlineColor ← parseColor env (QVariant.string (jsonFillOutlineColor.toString env))
      | _ => pushWarning "Skipping non-implemented color expression"
    let mut fillOpacity : ℚ := -1
    let mut rasterOpacity : ℚ := -1
    if QVariantMap.contains jsonPaint "fill-opacity" then
      let jsonFillOpacity := QVariantMap.value jsonPaint "fill-opacity"
      let fillAlpha : Int := if fillColor.isValid then fillColor.alpha else 255
      let outlineAlpha : Int := if fillOutlineColor.isValid then fillOutlineColor.alpha else 255
      match jsonFillOpacity.type with
      | QVariantType.Int | QVariantType.Double =>
        fillOpacity := jsonFillOpacity.toDouble
        rasterOpacity := fillOpacity
      | QVariantType.Map =>
        if ddProperties.isActive PropertyFillColor then
          pushWarning ("Could not set opacity of layer " ++ (QVariantMap.value jsonLayer "id").toString env
            ++ ", opacity already defined in fill color")
        else
          let p1 ← parseInterpolateOpacityByZoom env jsonFillOpacity.toMap fillAlpha
          ddProperties := ddProperties.setProperty PropertyFillColor p1
          let p2 ← parseInterpolateOpacityByZoom env jsonFillOpacity.toMap outlineAlpha
          ddProperties := ddProperties.setProperty PropertyStrokeColor p2
          let (p3, n) ← parseInterpolateByZoom env jsonFillOpacity.toMap 100
          rasterOpacity := n.getD rasterOpacity
          ddRasterProperties := ddRasterProperties.setProperty PropertyOpacity p3
      | QVariantType.List =>
        if ddProperties.isActive PropertyFillColor then
          pushWarning ("Could not set opacity of layer " ++ (QVariantMap.value jsonLayer "id").toString env
            ++ ", opacity already defined in fill color")
        else
          let (p1, _, _) ← parseInterpolateListByZoom env jsonFillOpacity.toList PropertyType.Opacity 1 fillAlpha
          ddProperties := ddProperties.setProperty PropertyFillColor p1
          let (p2, _, _) ← parseInterpolateListByZoom env jsonFillOpacity.toList PropertyType.Opacity 1 outlineAlpha
          ddProperties := ddProperties.setProperty PropertyStrokeColor p2
          let (p3, _, n) ← parseInterpolateListByZoom env jsonFillOpacity.toList PropertyType.Numeric 100 255
          rasterOpacity := n.getD rasterOpacity
          ddRasterProperties := ddRasterProperties.setProperty PropertyOpacity p3
      | _ => pushWarning "Skipping non-implemented opacity expression"
    -- fill-translate
    let mut fillTranslate : QPointF := { x := 0, y := 0 }
    if QVariantMap.contains jsonPaint "fill-translate" then
      let jsonFillTranslate := QVariantMap.value jsonPaint "fill-translate"
      match jsonFillTranslate.type with
      | QVariantType.Map =>
        let (p, pt) ← parseInterpolatePointByZoom env jsonFillTranslate.toMap context.pixelSizeConversionFactor
        fillTranslate := pt.getD fillTranslate
        ddProperties := ddProperties.setProperty PropertyOffset p
      | QVariantType.List =>
        fillTranslate :=
          { x := (QVariantList.value jsonFillTranslate.toList 0).toDouble * context.pixelSizeConversionFactor,
            y := (QVariantList.value jsonFillTranslate.toList 1).toDouble * context.pixelSizeConversionFactor }
      | _ => pushWarning "Skipping non-implemented fill-translate expression"
    -- the raster fill of a fill-pattern given as a string
    let mut rasterLayers : List QgsSymbolLayer := []
    if QVariantMap.contains jsonPaint "fill-pattern" then
      let fillPatternJson := QVariantMap.value jsonPaint "fill-pattern"
      match fillPatternJson.type with
      | QVariantType.String =>
        let (sprite, _, _) ← retrieveSpriteAsBase64 env (fillPatternJson.toString env) context
        if ¬ QString.isEmpty sprite then
          rasterLayers := [QgsSymbolLayer.rasterFill sprite true
            (if rasterOpacity ≥ 0 then some rasterOpacity else none) ddRasterProperties]
      | _ => pure ()
    let fillSymbol := QgsSymbolLayer.simpleFill context.targetUnit context.targetUnit
      (if ¬ fillTranslate.isNull then some fillTranslate else none)
      ddProperties
      (if fillOutlineColor.isValid then some fillOutlineColor else none)
      (¬ fillOutlineColor.isValid)
      (if fillColor.isValid then some fillColor else none)
      (¬ fillColor.isValid)
    let symbol : QgsSymbol :=
      { symbolLayers := fillSymbol :: rasterLayers,
        outputUnit := some context.targetUnit,
        opacity := if fillOpacity ≠ -1 then some fillOpacity else none }
    pure (true, { style with geometryType := GeometryType.PolygonGeometry, symbol := some symbol })

end QgsMapBoxGlStyleConverter

namespace QgsMapBoxGlStyleConverter

/-- The doubles of a dash list, each times the pixel size conversion factor. -/
def dashValues (dashSource : QVariantList) (factor : ℚ) : List ℚ :=
  dashSource.map (fun v => v.toDouble * factor)

open SymbolLayerProperty in
/-- Rendering rule of a `line` layer: `parseLineLayer`; the flag tells whether `style`
was filled in. -/
def parseLineLayer (env : Env) (jsonLayer : QVariantMap) (style : QgsVectorTileBasicRendererStyle)
    (context : QgsMapBoxGlStyleConversionContext) :
    Conv (Bool × QgsVectorTileBasicRendererStyle) := do
  if ¬ QVariantMap.contains jsonLayer "paint" then
    pushWarning ("Style layer " ++ (QVariantMap.value jsonLayer "id").toString env
      ++ " has no paint property, skipping")
    pure (false, style)
  else
    let jsonPaint := (QVariantMap.value jsonLayer "paint").toMap
    let mut ddProperties : QgsPropertyCollection SymbolLayerProperty := QgsPropertyCollection.empty
    -- line color
    let mut lineColor := QColor.invalid
    if QVariantMap.contains jsonPaint "line-color" then
      let jsonLineColor := QVariantMap.value jsonPaint "line-color"
      match jsonLineColor.type with
      | QVariantType.Map =>
        let (p, c) ← parseInterpolateColorByZoom env jsonLineColor.toMap
        lineColor := c.getD lineColor
        ddProperties := ddProperties.setProperty PropertyFillColor p
        ddProperties := ddProperties.setProperty PropertyStrokeColor (ddProperties.property PropertyFillColor)
      | QVariantType.List =>
        let (p, c, _) ← parseInterpolateListByZoom env jsonLineColor.toList PropertyType.Color 1 255
        lineColor := c.getD lineColor
        ddProperties := ddProperties.setProperty PropertyFillColor p
        ddProperties := ddProperties.setProperty PropertyStrokeColor (ddProperties.property PropertyFillColor)
      | QVariantType.String =>
        lineColor ← parseColor env (QVariant.string (jsonLineColor.toString env))
      | _ => pushWarning "Skipping non-implemented color expression"
    let mut lineWidth : ℚ := 1
    if QVariantMap.contains jsonPaint "line-width" then
      let jsonLineWidth := QVariantMap.value jsonPaint "line-width"
      match jsonLineWidth.type with
      | QVariantType.Int | QVariantType.Double =>
        lineWidth := jsonLineWidth.toDouble * context.pixelSizeConversionFactor
      | QVariantType.Map =>
        lineWidth := -1
        let (p, n) ← parseInterpolateByZoom env jsonLineWidth.toMap context.pixelSizeConversionFactor
        lineWidth := n.getD lineWidth
        ddProperties := ddProperties.setProperty PropertyStrokeWidth p
      | QVariantType.List =>
        let (p, _, n) ← parseInterpolateListByZoom env jsonLineWidth.toList PropertyType.Numeric
          context.pixelSizeConversionFactor 255
        lineWidth := n.getD lineWidth
        ddProperties := ddProperties.setProperty PropertyStrokeWidth p
      | _ => pushWarning "Skipping non-implemented line-width expression"
    let mut lineOffset : ℚ := 0
    if QVariantMap.contains jsonPaint "line-offset" then
      let jsonLineOffset := QVariantMap.value jsonPaint "line-offset"
      match jsonLineOffset.type with
      | QVariantType.Int | QVariantType.Double =>
        lineOffset := - jsonLineOffset.toDouble * context.pixelSizeConversionFactor
      | QVariantType.Map =>
        lineWidth := -1
        let (p, n) ← parseInterpolateByZoom env jsonLineOffset.toMap (context.pixelSizeConversionFactor * -1)
        lineOffset := n.getD lineOffset
        ddProperties := ddProperties.setProperty PropertyOffset p
      | QVariantType.List =>
        let (p, _, n) ← parseInterpolateListByZoom env jsonLineOffset.toList PropertyType.Numeric
          (context.pixelSizeConversionFactor * -1) 255
        lineOffset := n.getD lineOffset
        ddProperties := ddProperties.setProperty PropertyOffset p
      | _ => pushWarning "Skipping non-implemented line-offset expression"
    let mut lineOpacity : ℚ := -1
    if QVariantMap.contains jsonPaint "line-opacity" then
      let jsonLineOpacity := QVariantMap.value jsonPaint "line-opacity"
      let lineAlpha : Int := if lineColor.isValid then lineColor.alpha else 255
      match jsonLineOpacity.type with
      | QVariantType.Int | QVariantType.Double =>
        lineOpacity := jsonLineOpacity.toDouble
      | QVariantType.Map =>
        if ddProperties.isActive PropertyStrokeColor then
          pushWarning ("Could not set opacity of layer " ++ (QVariantMap.value jsonLayer "id").toString env
            ++ ", opacity already defined in stroke color")
        else
          let p ← parseInterpolateOpacityByZoom env jsonLineOpacity.toMap lineAlpha
          ddProperties := ddProperties.setProperty PropertyStrokeColor p
      | QVariantType.List =>
        if ddProperties.isActive PropertyStrokeColor then
          pushWarning ("Could not set opacity of layer " ++ (QVariantMap.value jsonLayer "id").toString env
            ++ ", opacity already defined in stroke color")
        else
          let (p, _, _) ← parseInterpolateListByZoom env jsonLineOpacity.toList PropertyType.Opacity 1 lineAlpha
          ddProperties := ddProperties.setProperty PropertyStrokeColor p
      | _ => pushWarning "Skipping non-implemented opacity expression"
    let mut dashVector : List ℚ := []
    if QVariantMap.contains jsonPaint "line-dasharray" then
      let jsonLineDashArray := QVariantMap.value jsonPaint "line-dasharray"
      match jsonLineDashArray.type with
      | QVariantType.Map =>
        let lastStop ← QList.last (QVariantMap.value jsonLineDashArray.toMap "stops").toList
        let dashSource := (QVariantList.value lastStop.toList 1).toList
        dashVector := dashValues dashSource context.pixelSizeConversionFactor
      | QVariantType.List =>
        let dashSource := jsonLineDashArray.toList
        dashVector := dashValues dashSource context.pixelSizeConversionFactor
      | _ => pushWarning "Skipping non-implemented dash vector expression"
    let mut penCapStyle := PenCapStyle.FlatCap
    let mut penJoinStyle := PenJoinStyle.MiterJoin
    if QVariantMap.contains jsonLayer "layout" then
      let jsonLayout := (QVariantMap.value jsonLayer "layout").toMap
      if QVariantMap.contains jsonLayout "line-cap" then
        penCapStyle := parseCapStyle ((QVariantMap.value jsonLayout "line-cap").toString env)
      if QVariantMap.contains jsonLayout "line-join" then
        penJoinStyle := parseJoinStyle ((QVariantMap.value jsonLayout "line-join").toString env)
    let lineSymbol := QgsSymbolLayer.simpleLine context.targetUnit context.targetUnit
      penCapStyle penJoinStyle ddProperties lineOffset
      (if lineColor.isValid then some lineColor else none)
      (if lineWidth ≠ -1 then some lineWidth else none)
      (if ¬ dashVector.isEmpty then some dashVector else none)
    let symbol : QgsSymbol :=
      { symbolLayers := [lineSymbol],
        outputUnit := some context.targetUnit,
        opacity := if lineOpacity ≠ -1 then some lineOpacity else none }
    pure (true, { style with geometryType := GeometryType.LineGeometry, symbol := some symbol })

end QgsMapBoxGlStyleConverter

namespace QgsMapBoxGlStyleConverter

/-- The opening brace of a field token of a label template. -/
def openBrace : Char := Char.ofNat 123

/-- The closing brace of a field token of a label template. -/
def closeBrace : Char := Char.ofNat 125

/-- The match of `^{([^}]+)}$`: the captured name when the text is one field token, at
its end or before a final line feed. -/
def singleFieldMatch (cs : List Char) : Option (List Char) :=
  match cs with
  | [] => none
  | c :: rest =>
    let inner := rest.takeWhile (fun x => x ≠ closeBrace)
    let tail := rest.dropWhile (fun x => x ≠ closeBrace)
    if c = openBrace ∧ inner ≠ [] ∧ (tail = [closeBrace] ∨ tail = [closeBrace, '\n']) then some inner
    else none

/-- The look-ahead `(?={[^}]+})` at the head of a character list: an opening brace, one
character or more other than the closing brace, and the closing brace. -/
def tokenAhead (cs : List Char) : Bool :=
  match cs with
  | c :: d :: rest => c = openBrace && d ≠ closeBrace && rest.contains closeBrace
  | _ => false

/-- The split of a text at every position where `tokenAhead` holds; `current` holds the
characters of the running part in reverse. -/
def splitAtTokens : List Char → List Char → List (List Char)
  | [], current => [current.reverse]
  | c :: rest, current =>
    if tokenAhead (c :: rest) then current.reverse :: splitAtTokens rest [c]
    else splitAtTokens rest (c :: current)

/-- The loop of `processLabelField` over the parts of a template. -/
def labelFieldParts (env : Env) : List String → Conv (List String)
  | [] => pure []
  | part :: parts => do
    if QString.isEmpty part then labelFieldParts env parts
    else
      -- part will start at a {field} reference
      let split := QString.split part closeBrace
      let name ← QList.elementAt split 0
      let literal ← QList.elementAt split 1
      let res := [QgsExpression.quotedColumnRef (QString.mid name 1)]
        ++ (if ¬ QString.isEmpty literal then [QgsExpression.quotedValue env (QVariant.string literal)] else [])
      let more ← labelFieldParts env parts
      pure (res ++ more)

/-- Field name or expression of a label template, with the flag `isExpression`: the
lambda `processLabelField` of `parseSymbolLayer`. -/
def processLabelField (env : Env) (string : String) : Conv (String × Bool) := do
  match singleFieldMatch string.data with
  | some name => pure (String.mk name, false)
  | none =>
    let parts := (splitAtTokens string.data []).map String.mk
    if parts.length > 1 then
      let res ← labelFieldParts env parts
      pure ("concat(" ++ QStringList.join res "," ++ ")", true)
    else pure (string, false)

/-- The loop over the parts of a `format` list: every second element from position 1 on. -/
def formatParts (env : Env) : QVariantList → Conv (List String)
  | [] => pure []
  | [text] => do
    let (part, isExpression) ← processLabelField env (text.toString env)
    pure [if ¬ isExpression then QgsExpression.quotedColumnRef part else part]
  | text :: _ :: rest => do
    let (part, isExpression) ← processLabelField env (text.toString env)
    let item := if ¬ isExpression then QgsExpression.quotedColumnRef part else part
    let more ← formatParts env rest
    pure (item :: more)

/-- The search of `parseSymbolLayer` for a family and a style among the words of a font
name: the first position from 1 on, below the number of words, at which the font database
knows the words before it as a family with the words from it on as a style. -/
def findFontSplit (env : Env) (textFontParts : List String) : Option (String × String) :=
  (List.range' 1 (textFontParts.length - 1)).findSome? (fun i =>
    let candidateFontName := QStringList.join (textFontParts.take i) " "
    let candidateFontStyle := QStringList.join (textFontParts.drop i) " "
    if env.fontFamilyHasStyle candidateFontName candidateFontStyle then
      some (candidateFontName, candidateFontStyle)
    else none)

/-- The table of `parseSymbolLayer` from anchor names to quadrant numbers. -/
def anchorConversionMap : QVariantMap :=
  [("center", QVariant.int 4), ("left", QVariant.int 5), ("right", QVariant.int 3),
   ("top", QVariant.int 7), ("bottom", QVariant.int 1), ("top-left", QVariant.int 8),
   ("top-right", QVariant.int 6), ("bottom-left", QVariant.int 2), ("bottom-right", QVariant.int 0)]

/-- Quadrant of an anchor name, none for a name outside of the table. -/
def anchorQuadrant (textAnchor : String) : Option QuadrantPosition :=
  if textAnchor = "center" then some QuadrantPosition.QuadrantOver
  else if textAnchor = "left" then some QuadrantPosition.QuadrantRight
  else if textAnchor = "right" then some QuadrantPosition.QuadrantLeft
  else if textAnchor = "top" then some QuadrantPosition.QuadrantBelow
  else if textAnchor = "bottom" then some QuadrantPosition.QuadrantAbove
  else if textAnchor = "top-left" then some QuadrantPosition.QuadrantBelowRight
  else if textAnchor = "top-right" then some QuadrantPosition.QuadrantBelowLeft
  else if textAnchor = "bottom-left" then some QuadrantPosition.QuadrantAboveRight
  else if textAnchor = "bottom-right" then some QuadrantPosition.QuadrantAboveLeft
  else none

open SymbolLayerProperty in
/-- Rendering rule of a `symbol` layer without text: `parseSymbolLayerAsRenderer`. -/
def parseSymbolLayerAsRenderer (env : Env) (jsonLayer : QVariantMap)
    (rendererStyle : QgsVectorTileBasicRendererStyle) (context : QgsMapBoxGlStyleConversionContext) :
    Conv (Bool × QgsVectorTileBasicRendererStyle) := do
  if ¬ QVariantMap.contains jsonLayer "layout" then
    pushWarning ("Style layer " ++ (QVariantMap.value jsonLayer "id").toString env
      ++ " has no layout property, skipping")
    pure (false, rendererStyle)
  else
    let jsonLayout := (QVariantMap.value jsonLayer "layout").toMap
    if (QVariantMap.value jsonLayout "symbol-placement").toString env = "line" then
      let mut ddProperties : QgsPropertyCollection SymbolLayerProperty := QgsPropertyCollection.empty
      let mut spacing : ℚ := -1
      if QVariantMap.contains jsonLayout "symbol-spacing" then
        let jsonSpacing := QVariantMap.value jsonLayout "symbol-spacing"
        match jsonSpacing.type with
        | QVariantType.Int | QVariantType.Double =>
          spacing := jsonSpacing.toDouble * context.pixelSizeConversionFactor
        | QVariantType.Map =>
          let (p, n) ← parseInterpolateByZoom env jsonSpacing.toMap context.pixelSizeConversionFactor
          spacing := n.getD spacing
          ddProperties := ddProperties.setProperty PropertyInterval p
        | QVariantType.List =>
          let (p, _, n) ← parseInterpolateListByZoom env jsonSpacing.toList PropertyType.Numeric
            context.pixelSizeConversionFactor 255
          spacing := n.getD spacing
          ddProperties := ddProperties.setProperty PropertyInterval p
        | _ => pushWarning "Skipping non-implemented symbol-spacing expression"
      let mut rotateMarkers := true
      if QVariantMap.contains jsonLayout "icon-rotation-alignment" then
        let alignment := (QVariantMap.value jsonLayout "icon-rotation-alignment").toString env
        if alignment = "map" ∨ alignment = "auto" then
          rotateMarkers := true
        else if alignment = "viewport" then
          rotateMarkers := false
      let mut markerDdProperties : QgsPropertyCollection SymbolLayerProperty := QgsPropertyCollection.empty
      let mut rotation : ℚ := 0
      if QVariantMap.contains jsonLayout "icon-rotate" then
        let jsonIconRotate := QVariantMap.value jsonLayout "icon-rotate"
        match jsonIconRotate.type with
        | QVariantType.Int | QVariantType.Double =>
          rotation := jsonIconRotate.toDouble
        | QVariantType.Map =>
          let (p, n) ← parseInterpolateByZoom env jsonIconRotate.toMap context.pixelSizeConversionFactor
          rotation := n.getD rotation
          markerDdProperties := markerDdProperties.setProperty PropertyAngle p
        | QVariantType.List =>
          let (p, _, n) ← parseInterpolateListByZoom env jsonIconRotate.toList PropertyType.Numeric
            context.pixelSizeConversionFactor 255
          rotation := n.getD rotation
          markerDdProperties := markerDdProperties.setProperty PropertyAngle p
        | _ => pushWarning "Skipping non-implemented icon-rotate expression"
      let (sprite, spriteWidth, _) ←
        retrieveSpriteAsBase64 env ((QVariantMap.value jsonLayout "icon-image").toString env) context
      let hasSprite : Bool := ¬ QString.isEmpty sprite
      let markerLayer : QgsRasterMarkerSymbolLayer :=
        { path := if hasSprite then some sprite else none,
          size := if hasSprite then some (context.pixelSizeConversionFactor * spriteWidth) else none,
          sizeUnit := if hasSprite then some context.targetUnit else none,
          dataDefinedProperties := markerDdProperties,
          angle := rotation,
          opacity := none }
      let lineSymbol := QgsSymbolLayer.markerLine rotateMarkers (if spacing > 0 then spacing else 1)
        context.targetUnit ddProperties
        (if spacing ≤ 0 then MarkerPlacement.CentralPoint else MarkerPlacement.Interval) markerLayer
      let symbol : QgsSymbol :=
        { symbolLayers := [lineSymbol], outputUnit := some context.targetUnit, opacity := none }
      pure (true, { rendererStyle with geometryType := GeometryType.LineGeometry, symbol := some symbol })
    else
      pure (false, rendererStyle)

end QgsMapBoxGlStyleConverter

namespace QgsMapBoxGlStyleConverter

/-- The default-constructed label settings with the default-constructed text format. -/
def defaultLabelSettings (context : QgsMapBoxGlStyleConversionContext) : QgsPalLayerSettings :=
  { fieldName := "", isExpression := false, placement := LabelPlacement.OverPoint, onLine := false,
    quadOffset := none, offsetUnits := none, xOffset := none, yOffset := none, priority := none,
    autoWrapLength := none,
    format :=
      { sizeUnit := context.targetUnit, color := none, size := none,
        font := { family := none, styleName := none, letterSpacing := none },
        buffer := { enabled := false, size := none, sizeUnit := none, color := none,
                    blurLevel := none, blurUnit := none } },
    obstacleFactor := 1, dataDefinedProperties := QgsPropertyCollection.empty }

/-! ### The routine `parseSymbolLayer`

The part of `parseSymbolLayer` that makes the label is cut at the end of each of its
properties: a step is the code of the routine for one property, in the order of the
source, and hands the variables it may have assigned to the rest of the routine, `next`. -/

open SymbolLayerProperty LabelProperty in
/-- The step of `parseSymbolLayer` for `text-size`. -/
def textSizeStep {ρ : Type} (env : Env) (jsonLayout : QVariantMap) (factor : ℚ)
    (next : QgsPropertyCollection LabelProperty → ℚ → Conv ρ) : Conv ρ := do
  let mut ddLabelProperties : QgsPropertyCollection LabelProperty := QgsPropertyCollection.empty
  let mut textSize : ℚ := 16
  if QVariantMap.contains jsonLayout "text-size" then
    let jsonTextSize := QVariantMap.value jsonLayout "text-size"
    match jsonTextSize.type with
    | QVariantType.Int | QVariantType.Double =>
      textSize := jsonTextSize.toDouble * factor
    | QVariantType.Map =>
      textSize := -1
      let (p, n) ← parseInterpolateByZoom env jsonTextSize.toMap factor
      textSize := n.getD textSize
      ddLabelProperties := ddLabelProperties.setProperty Size p
    | QVariantType.List =>
      textSize := -1
      let (p, _, n) ← parseInterpolateListByZoom env jsonTextSize.toList PropertyType.Numeric factor 255
      textSize := n.getD textSize
      ddLabelProperties := ddLabelProperties.setProperty Size p
    | _ => pushWarning "Skipping non-implemented text-size expression"
  next ddLabelProperties textSize

open SymbolLayerProperty LabelProperty in
/-- The step of `parseSymbolLayer` for `text-max-width`. -/
def textMaxWidthStep {ρ : Type} (env : Env) (jsonLayout : QVariantMap)
    (ddLabelProperties : QgsPropertyCollection LabelProperty)
    (next : QgsPropertyCollection LabelProperty → ℚ → Conv ρ) : Conv ρ := do
  let mut ddLabelProperties := ddLabelProperties
  -- em to character tends to underestimate, so scale up by ~40%
  let EM_TO_CHARS : ℚ := 14 / 10
  let mut textMaxWidth : ℚ := -1
  if QVariantMap.contains jsonLayout "text-max-width" then
    let jsonTextMaxWidth := QVariantMap.value jsonLayout "text-max-width"
    match jsonTextMaxWidth.type with
    | QVariantType.Int | QVariantType.Double =>
      textMaxWidth := jsonTextMaxWidth.toDouble * EM_TO_CHARS
    | QVariantType.Map =>
      let (p, n) ← parseInterpolateByZoom env jsonTextMaxWidth.toMap EM_TO_CHARS
      textMaxWidth := n.getD textMaxWidth
      ddLabelProperties := ddLabelProperties.setProperty AutoWrapLength p
    | QVariantType.List =>
      let (p, _, n) ← parseInterpolateListByZoom env jsonTextMaxWidth.toList PropertyType.Numeric EM_TO_CHARS 255
      textMaxWidth := n.getD textMaxWidth
      ddLabelProperties := ddLabelProperties.setProperty AutoWrapLength p
    | _ => pushWarning "Skipping non-implemented text-max-width expression"
  next ddLabelProperties textMaxWidth

open SymbolLayerProperty LabelProperty in
/-- The step of `parseSymbolLayer` for `text-letter-spacing`. -/
def textLetterSpacingStep {ρ : Type} (env : Env) (jsonLayout : QVariantMap)
    (ddLabelProperties : QgsPropertyCollection LabelProperty)
    (next : QgsPropertyCollection LabelProperty → ℚ → Conv ρ) : Conv ρ := do
  let mut ddLabelProperties := ddLabelProperties
  let mut textLetterSpacing : ℚ := -1
  if QVariantMap.contains jsonLayout "text-letter-spacing" then
    let jsonTextLetterSpacing := QVariantMap.value jsonLayout "text-letter-spacing"
    match jsonTextLetterSpacing.type with
    | QVariantType.Int | QVariantType.Double =>
      textLetterSpacing := jsonTextLetterSpacing.toDouble
    | QVariantType.Map =>
      let (p, n) ← parseInterpolateByZoom env jsonTextLetterSpacing.toMap 1
      textLetterSpacing := n.getD textLetterSpacing
      ddLabelProperties := ddLabelProperties.setProperty FontLetterSpacing p
    | QVariantType.List =>
      let (p, _, n) ← parseInterpolateListByZoom env jsonTextLetterSpacing.toList PropertyType.Numeric 1 255
      textLetterSpacing := n.getD textLetterSpacing
      ddLabelProperties := ddLabelProperties.setProperty FontLetterSpacing p
    | _ => pushWarning "Skipping non-implemented text-letter-spacing expression"
  next ddLabelProperties textLetterSpacing

open SymbolLayerProperty LabelProperty in
/-- The step of `parseSymbolLayer` for `text-font`. -/
def textFontStep {ρ : Type} (env : Env) (jsonLayout : QVariantMap) (next : QFont → Bool → Conv ρ) : Conv ρ := do
  let mut textFont : QFont := { family := none, styleName := none, letterSpacing := none }
  let mut foundFont := false
  if QVariantMap.contains jsonLayout "text-font" then
    let jsonTextFont := QVariantMap.value jsonLayout "text-font"
    if jsonTextFont.type ≠ QVariantType.List ∧ jsonTextFont.type ≠ QVariantType.String then
      pushWarning "Skipping non-implemented text-font expression"
    else
      let fontName :=
        match jsonTextFont.type with
        | QVariantType.List => (QVariantList.value jsonTextFont.toList 0).toString env
        | QVariantType.String => jsonTextFont.toString env
        | _ => ""
      let textFontParts := QString.split fontName ' '
      match findFontSplit env textFontParts with
      | some (candidateFontName, candidateFontStyle) =>
        textFont := { family := some candidateFontName, styleName := some candidateFontStyle,
                      letterSpacing := none }
        foundFont := true
      | none =>
        -- probably won't work, but we'll try anyway... maybe the json isn't following the spec correctly!!
        textFont := { family := some fontName, styleName := none, letterSpacing := none }
        foundFont := true
  next textFont foundFont

open SymbolLayerProperty LabelProperty in
/-- The step of `parseSymbolLayer` for `text-color`. -/
def textColorStep {ρ : Type} (env : Env) (jsonPaint : QVariantMap)
    (ddLabelProperties : QgsPropertyCollection LabelProperty)
    (next : QgsPropertyCollection LabelProperty → QColor → Conv ρ) : Conv ρ := do
  let mut ddLabelProperties := ddLabelProperties
  -- text color
  let mut textColor := QColor.invalid
  if QVariantMap.contains jsonPaint "text-color" then
    let jsonTextColor := QVariantMap.value jsonPaint "text-color"
    match jsonTextColor.type with
    | QVariantType.Map =>
      let (p, c) ← parseInterpolateColorByZoom env jsonTextColor.toMap
      textColor := c.getD textColor
      ddLabelProperties := ddLabelProperties.setProperty Color p
    | QVariantType.List =>
      let (p, c, _) ← parseInterpolateListByZoom env jsonTextColor.toList PropertyType.Color 1 255
      textColor := c.getD textColor
      ddLabelProperties := ddLabelProperties.setProperty Color p
    | QVariantType.String =>
      textColor ← parseColor env (QVariant.string (jsonTextColor.toString env))
    | _ => pushWarning "Skipping non-implemented text-color expression"
  next ddLabelProperties textColor

open SymbolLayerProperty LabelProperty in
/-- The step of `parseSymbolLayer` for `text-halo-color`. -/
def bufferColorStep {ρ : Type} (env : Env) (jsonPaint : QVariantMap)
    (ddLabelProperties : QgsPropertyCollection LabelProperty)
    (next : QgsPropertyCollection LabelProperty → QColor → Conv ρ) : Conv ρ := do
  let mut ddLabelProperties := ddLabelProperties
  -- buffer color
  let mut bufferColor := QColor.invalid
  if QVariantMap.contains jsonPaint "text-halo-color" then
    let jsonBufferColor := QVariantMap.value jsonPaint "text-halo-color"
    match jsonBufferColor.type with
    | QVariantType.Map =>
      let (p, c) ← parseInterpolateColorByZoom env jsonBufferColor.toMap
      bufferColor := c.getD bufferColor
      ddLabelProperties := ddLabelProperties.setProperty BufferColor p
    | QVariantType.List =>
      let (p, c, _) ← parseInterpolateListByZoom env jsonBufferColor.toList PropertyType.Color 1 255
      bufferColor := c.getD bufferColor
      ddLabelProperties := ddLabelProperties.setProperty BufferColor p
    | QVariantType.String =>
      bufferColor ← parseColor env (QVariant.string (jsonBufferColor.toString env))
    | _ => pushWarning "Skipping non-implemented text-halo-color expression"
  next ddLabelProperties bufferColor

open SymbolLayerProperty LabelProperty in
/-- The step of `parseSymbolLayer` for `text-halo-width`. -/
def bufferSizeStep {ρ : Type} (env : Env) (jsonPaint : QVariantMap) (factor : ℚ)
    (ddLabelProperties : QgsPropertyCollection LabelProperty)
    (next : QgsPropertyCollection LabelProperty → ℚ → Conv ρ) : Conv ρ := do
  let mut ddLabelProperties := ddLabelProperties
  let mut bufferSize : ℚ := 0
  if QVariantMap.contains jsonPaint "text-halo-width" then
    let jsonHaloWidth := QVariantMap.value jsonPaint "text-halo-width"
    match jsonHaloWidth.type with
    | QVariantType.Int | QVariantType.Double =>
      bufferSize := jsonHaloWidth.toDouble * factor
    | QVariantType.Map =>
      bufferSize := 1
      let (p, n) ← parseInterpolateByZoom env jsonHaloWidth.toMap factor
      bufferSize := n.getD bufferSize
      ddLabelProperties := ddLabelProperties.setProperty BufferSize p
    | QVariantType.List =>
      bufferSize := 1
      let (p, _, n) ← parseInterpolateListByZoom env jsonHaloWidth.toList PropertyType.Numeric factor 255
      bufferSize := n.getD bufferSize
      ddLabelProperties := ddLabelProperties.setProperty BufferSize p
    | _ => pushWarning "Skipping non-implemented text-halo-width expression"
  next ddLabelProperties bufferSize

open SymbolLayerProperty LabelProperty in
/-- The step of `parseSymbolLayer` for `text-halo-blur`. -/
def haloBlurStep {ρ : Type} (jsonPaint : QVariantMap) (factor : ℚ) (next : ℚ → Conv ρ) : Conv ρ := do
  let mut haloBlurSize : ℚ := 0
  if QVariantMap.contains jsonPaint "text-halo-blur" then
    let jsonTextHaloBlur := QVariantMap.value jsonPaint "text-halo-blur"
    match jsonTextHaloBlur.type with
    | QVariantType.Int | QVariantType.Double =>
      haloBlurSize := jsonTextHaloBlur.toDouble * factor
    | _ => pushWarning "Skipping non-implemented text-halo-width expression"
  next haloBlurSize

open SymbolLayerProperty LabelProperty in
/-- The step of `parseSymbolLayer` for the text format, put together from the values read so far. -/
def textFormatStep {ρ : Type} (context : QgsMapBoxGlStyleConversionContext) (textSize : ℚ)
    (textLetterSpacing : ℚ) (textFont : QFont) (foundFont : Bool) (textColor : QColor)
    (bufferColor : QColor) (bufferSize : ℚ) (haloBlurSize : ℚ) (next : QgsTextFormat → Conv ρ) : Conv ρ := do
  let mut format : QgsTextFormat := (defaultLabelSettings context).format
  if textColor.isValid then
    format := { format with color := some textColor }
  if textSize ≥ 0 then
    format := { format with size := some textSize }
  if foundFont then
    format := { format with font := textFont }
  if textLetterSpacing > 0 then
    format := { format with font := { format.font with letterSpacing := some textLetterSpacing } }
  if bufferSize > 0 then
    format := { format with buffer :=
      { enabled := true, size := some bufferSize, sizeUnit := some context.targetUnit,
        color := some bufferColor,
        blurLevel := if haloBlurSize > 0 then some haloBlurSize else none,
        blurUnit := if haloBlurSize > 0 then some context.targetUnit else none } }
  next format

open SymbolLayerProperty LabelProperty in
/-- The step of `parseSymbolLayer` for the wrap length and `text-field`. -/
def textFieldStep {ρ : Type} (env : Env) (jsonLayout : QVariantMap)
    (context : QgsMapBoxGlStyleConversionContext) (textMaxWidth : ℚ)
    (next : QgsPalLayerSettings → Conv ρ) : Conv ρ := do
  let mut labelSettings := defaultLabelSettings context
  if textMaxWidth > 0 then
    labelSettings := { labelSettings with autoWrapLength := some textMaxWidth }
  -- convert field name
  if QVariantMap.contains jsonLayout "text-field" then
    let jsonTextField := QVariantMap.value jsonLayout "text-field"
    match jsonTextField.type with
    | QVariantType.String =>
      let (fieldName, isExpression) ← processLabelField env (jsonTextField.toString env)
      labelSettings := { labelSettings with fieldName := fieldName, isExpression := isExpression }
    | QVariantType.List =>
      let textFieldList := jsonTextField.toList
      if textFieldList.length > 2 ∧ (QVariantList.value textFieldList 0).toString env = "format" then
        let parts ← formatParts env (textFieldList.drop 1)
        labelSettings := { labelSettings with
          fieldName := "concat(" ++ QStringList.join parts "," ++ ")", isExpression := true }
      else
        let fieldName ← parseExpression env textFieldList
        labelSettings := { labelSettings with fieldName := fieldName, isExpression := true }
    | _ => pushWarning "Skipping non-implemented text-field expression"
  next labelSettings

open SymbolLayerProperty LabelProperty in
/-- The step of `parseSymbolLayer` for `text-transform`. -/
def textTransformStep {ρ : Type} (env : Env) (jsonLayout : QVariantMap)
    (labelSettings : QgsPalLayerSettings) (next : QgsPalLayerSettings → Conv ρ) : Conv ρ := do
  let mut labelSettings := labelSettings
  if QVariantMap.contains jsonLayout "text-transform" then
    let textTransform := (QVariantMap.value jsonLayout "text-transform").toString env
    let argument :=
      if labelSettings.isExpression then labelSettings.fieldName
      else QgsExpression.quotedColumnRef labelSettings.fieldName
    if textTransform = "uppercase" then
      labelSettings := { labelSettings with fieldName := "upper(" ++ argument ++ ")" }
    else if textTransform = "lowercase" then
      labelSettings := { labelSettings with fieldName := "lower(" ++ argument ++ ")" }
    labelSettings := { labelSettings with isExpression := true }
  next labelSettings

open SymbolLayerProperty LabelProperty in
/-- The step of `parseSymbolLayer` for the placement and `symbol-placement`. -/
def labelPlacementStep {ρ : Type} (env : Env) (jsonLayout : QVariantMap)
    (labelSettings : QgsPalLayerSettings) (next : QgsPalLayerSettings → GeometryType → Conv ρ) : Conv ρ := do
  let mut labelSettings := labelSettings
  labelSettings := { labelSettings with placement := LabelPlacement.OverPoint }
  let mut geometryType := GeometryType.PointGeometry
  if QVariantMap.contains jsonLayout "symbol-placement" then
    let symbolPlacement := (QVariantMap.value jsonLayout "symbol-placement").toString env
    if symbolPlacement = "line" then
      labelSettings := { labelSettings with placement := LabelPlacement.Curved, onLine := true }
      geometryType := GeometryType.LineGeometry
  next labelSettings geometryType

open SymbolLayerProperty LabelProperty in
/-- The step of `parseSymbolLayer` for `text-anchor` and `text-offset`. -/
def textAnchorStep {ρ : Type} (env : Env) (jsonLayout : QVariantMap)
    (context : QgsMapBoxGlStyleConversionContext) (textSize : ℚ)
    (ddLabelProperties : QgsPropertyCollection LabelProperty) (labelSettings : QgsPalLayerSettings)
    (next : QgsPropertyCollection LabelProperty → QgsPalLayerSettings → Conv ρ) : Conv ρ := do
  let mut ddLabelProperties := ddLabelProperties
  let mut labelSettings := labelSettings
  if labelSettings.placement = LabelPlacement.OverPoint then
    if QVariantMap.contains jsonLayout "text-anchor" then
      let jsonTextAnchor := QVariantMap.value jsonLayout "text-anchor"
      let mut textAnchor := ""
      match jsonTextAnchor.type with
      | QVariantType.String =>
        textAnchor := jsonTextAnchor.toString env
      | QVariantType.List =>
        let (expression, anchor) ← parseStringStops env jsonTextAnchor.toList anchorConversionMap
        textAnchor := anchor.getD textAnchor
        ddLabelProperties := ddLabelProperties.setProperty OffsetQuad (QgsProperty.fromExpression expression)
      | QVariantType.Map =>
        let (p, anchor) ← parseInterpolateStringByZoom env jsonTextAnchor.toMap anchorConversionMap
        textAnchor := anchor.getD textAnchor
        ddLabelProperties := ddLabelProperties.setProperty OffsetQuad p
      | _ => pushWarning "Skipping non-implemented text-anchor expression"
      match anchorQuadrant textAnchor with
      | some quadrant => labelSettings := { labelSettings with quadOffset := some quadrant }
      | none => pure ()
    let mut textOffset : QPointF := { x := 0, y := 0 }
    if QVariantMap.contains jsonLayout "text-offset" then
      let jsonTextOffset := QVariantMap.value jsonLayout "text-offset"
      -- units are ems!
      match jsonTextOffset.type with
      | QVariantType.Map =>
        let (p, pt) ← parseInterpolatePointByZoom env jsonTextOffset.toMap textSize
        textOffset := pt.getD textOffset
        ddLabelProperties := ddLabelProperties.setProperty OffsetXY p
      | QVariantType.List =>
        textOffset := { x := (QVariantList.value jsonTextOffset.toList 0).toDouble * textSize,
                        y := (QVariantList.value jsonTextOffset.toList 1).toDouble * textSize }
      | _ => pushWarning "Skipping non-implemented fill-translate expression"
      if ¬ textOffset.isNull then
        labelSettings := { labelSettings with
          offsetUnits := some context.targetUnit, xOffset := some textOffset.x, yOffset := some textOffset.y }
  next ddLabelProperties labelSettings

open SymbolLayerProperty LabelProperty in
/-- The end of `parseSymbolLayer`: the priority, the label settings put together, and the
marker of `icon-image`. -/
def labelingTail (env : Env) (jsonLayout jsonPaint : QVariantMap) (factor : ℚ)
    (context : QgsMapBoxGlStyleConversionContext) (renderer : QgsVectorTileBasicRendererStyle)
    (labelingStyle : QgsVectorTileBasicLabelingStyle) (textSize : ℚ) (format : QgsTextFormat)
    (ddLabelProperties : QgsPropertyCollection LabelProperty) (labelSettings : QgsPalLayerSettings)
    (geometryType : GeometryType) :
    Conv (Bool × QgsVectorTileBasicRendererStyle × Bool × QgsVectorTileBasicLabelingStyle) := do
  let mut labelSettings := labelSettings
  if textSize ≥ 0 then
    labelSettings := { labelSettings with priority := some (min (textSize / (factor * 3)) 10) }
  labelSettings := { labelSettings with format := format }
  -- use a low obstacle weight for layers by default
  labelSettings := { labelSettings with obstacleFactor := 1 / 10 }
  labelSettings := { labelSettings with dataDefinedProperties := ddLabelProperties }
  let labelingStyle := { labelingStyle with geometryType := geometryType, labelSettings := some labelSettings }
  let hasLabeling := true
  if QVariantMap.contains jsonLayout "icon-image" then
    let (sprite, spriteWidth, _) ←
      retrieveSpriteAsBase64 env ((QVariantMap.value jsonLayout "icon-image").toString env) context
    if ¬ QString.isEmpty sprite then
      let mut markerDdProperties : QgsPropertyCollection SymbolLayerProperty := QgsPropertyCollection.empty
      let mut rotation : ℚ := 0
      if QVariantMap.contains jsonLayout "icon-rotate" then
        let jsonIconRotate := QVariantMap.value jsonLayout "icon-rotate"
        match jsonIconRotate.type with
        | QVariantType.Int | QVariantType.Double =>
          rotation := jsonIconRotate.toDouble
        | QVariantType.Map =>
          let (p, n) ← parseInterpolateByZoom env jsonIconRotate.toMap factor
          rotation := n.getD rotation
          markerDdProperties := markerDdProperties.setProperty PropertyAngle p
        | QVariantType.List =>
          let (p, _, n) ← parseInterpolateListByZoom env jsonIconRotate.toList PropertyType.Numeric factor 255
          rotation := n.getD rotation
          markerDdProperties := markerDdProperties.setProperty PropertyAngle p
        | _ => pushWarning "Skipping non-implemented icon-rotate expression"
      let mut iconOpacity : ℚ := -1
      if QVariantMap.contains jsonPaint "icon-opacity" then
        let jsonIconOpacity := QVariantMap.value jsonPaint "icon-opacity"
        match jsonIconOpacity.type with
        | QVariantType.Int | QVariantType.Double =>
          iconOpacity := jsonIconOpacity.toDouble
        | QVariantType.Map =>
          let (p, n) ← parseInterpolateByZoom env jsonIconOpacity.toMap 100
          iconOpacity := n.getD iconOpacity
          markerDdProperties := markerDdProperties.setProperty PropertyOpacity p
        | QVariantType.List =>
          let (p, _, n) ← parseInterpolateListByZoom env jsonIconOpacity.toList PropertyType.Numeric 100 255
          iconOpacity := n.getD iconOpacity
          markerDdProperties := markerDdProperties.setProperty PropertyOpacity p
        | _ => pushWarning "Skipping non-implemented icon-opacity expression"
      let rasterMarker : QgsRasterMarkerSymbolLayer :=
        { path := some sprite,
          size := some (factor * spriteWidth),
          sizeUnit := some context.targetUnit,
          dataDefinedProperties := markerDdProperties,
          angle := rotation,
          opacity := if iconOpacity ≥ 0 then some iconOpacity else none }
      let markerSymbol : QgsSymbol :=
        { symbolLayers := [QgsSymbolLayer.rasterMarker rasterMarker], outputUnit := none, opacity := none }
      return (true, { renderer with symbol := some markerSymbol, geometryType := GeometryType.PointGeometry },
        hasLabeling, labelingStyle)
  pure (false, renderer, hasLabeling, labelingStyle)

/-- Rules of a `symbol` layer: `parseSymbolLayer`, as the sequence of its steps. The result
holds `hasRenderer`, `renderer`, `hasLabeling` and `labelingStyle` as the routine leaves
them. -/
def parseSymbolLayer (env : Env) (jsonLayer : QVariantMap) (renderer : QgsVectorTileBasicRendererStyle)
    (labelingStyle : QgsVectorTileBasicLabelingStyle) (context : QgsMapBoxGlStyleConversionContext) :
    Conv (Bool × QgsVectorTileBasicRendererStyle × Bool × QgsVectorTileBasicLabelingStyle) :=
  if ¬ QVariantMap.contains jsonLayer "layout" then do
    pushWarning ("Style layer " ++ (QVariantMap.value jsonLayer "id").toString env
      ++ " has no layout property, skipping")
    pure (false, renderer, false, labelingStyle)
  else
  let jsonLayout := (QVariantMap.value jsonLayer "layout").toMap
  if ¬ QVariantMap.contains jsonLayout "text-field" then do
    let (hasRenderer, renderer) ← parseSymbolLayerAsRenderer env jsonLayer renderer context
    pure (hasRenderer, renderer, false, labelingStyle)
  else
  if ¬ QVariantMap.contains jsonLayer "paint" then do
    pushWarning ("Style layer " ++ (QVariantMap.value jsonLayer "id").toString env
      ++ " has no paint property, skipping")
    pure (false, renderer, false, labelingStyle)
  else
  let jsonPaint := (QVariantMap.value jsonLayer "paint").toMap
  let factor := context.pixelSizeConversionFactor
  textSizeStep env jsonLayout factor fun ddLabelProperties textSize =>
  textMaxWidthStep env jsonLayout ddLabelProperties fun ddLabelProperties textMaxWidth =>
  textLetterSpacingStep env jsonLayout ddLabelProperties fun ddLabelProperties textLetterSpacing =>
  textFontStep env jsonLayout fun textFont foundFont =>
  textColorStep env jsonPaint ddLabelProperties fun ddLabelProperties textColor =>
  bufferColorStep env jsonPaint ddLabelProperties fun ddLabelProperties bufferColor =>
  bufferSizeStep env jsonPaint factor ddLabelProperties fun ddLabelProperties bufferSize =>
  haloBlurStep jsonPaint factor fun haloBlurSize =>
  textFormatStep context textSize textLetterSpacing textFont foundFont textColor bufferColor
    bufferSize haloBlurSize fun format =>
  textFieldStep env jsonLayout context textMaxWidth fun labelSettings =>
  textTransformStep env jsonLayout labelSettings fun labelSettings =>
  labelPlacementStep env jsonLayout labelSettings fun labelSettings geometryType =>
  textAnchorStep env jsonLayout context textSize ddLabelProperties labelSettings
    fun ddLabelProperties labelSettings =>
  labelingTail env jsonLayout jsonPaint factor context renderer labelingStyle textSize format
    ddLabelProperties labelSettings geometryType

end QgsMapBoxGlStyleConverter

/-! ## The orchestrator -/

/-- The state of a converter object (`QgsMapBoxGlStyleConverter`): the error text, the
warnings, and the renderer and labeling it holds, none for a null pointer; a renderer and
a labeling are given by their lists of styles. -/
structure ConverterState where
  mError : String
  mWarnings : List String
  mRenderer : Option (List QgsVectorTileBasicRendererStyle)
  mLabeling : Option (List QgsVectorTileBasicLabelingStyle)
  deriving DecidableEq, Repr

namespace QgsMapBoxGlStyleConverter

/-- The results of `convert` (`QgsMapBoxGlStyleConverter::Result`). -/
inductive Result where
  | Success
  | NoLayerList
  deriving DecidableEq, Repr

/-- The freshly constructed converter: `QgsMapBoxGlStyleConverter()`. -/
def fresh : ConverterState := { mError := "", mWarnings := [], mRenderer := none, mLabeling := none }

/-- The renderer a converter exposes, none for a null pointer: `renderer()`. -/
def renderer (converter : ConverterState) : Option (List QgsVectorTileBasicRendererStyle) :=
  converter.mRenderer

/-- The labeling a converter exposes, none for a null pointer: `labeling()`. -/
def labeling (converter : ConverterState) : Option (List QgsVectorTileBasicLabelingStyle) :=
  converter.mLabeling

/-- What the loop of `parseLayers` holds between two layers: the warnings of the converter,
the warnings of the context, and the styles collected so far. -/
structure LoopState where
  mWarnings : List String
  contextWarnings : List String
  rendererStyles : List QgsVectorTileBasicRendererStyle
  labelingStyles : List QgsVectorTileBasicLabelingStyle
  deriving DecidableEq, Repr

/-- The styles of one layer as its converter leaves them. -/
structure LayerStyles where
  hasRendererStyle : Bool
  rendererStyle : QgsVectorTileBasicRendererStyle
  hasLabelingStyle : Bool
  labelingStyle : QgsVectorTileBasicLabelingStyle
  deriving DecidableEq, Repr

/-- The filter text of a layer: the translation of its `filter`, empty without one. -/
def layerFilter (env : Env) (jsonLayer : QVariantMap) : Conv String :=
  if QVariantMap.contains jsonLayer "filter" then
    parseExpression env (QVariantMap.value jsonLayer "filter").toList
  else pure ""

/-- The dispatch of `parseLayers` on the layer type, after the filter: the styles of the
layer, or none for a type that is none of fill, line and symbol. -/
def dispatchLayer (env : Env) (jsonLayer : QVariantMap) (layerType : String)
    (context : QgsMapBoxGlStyleConversionContext) : Conv (Option LayerStyles) := do
  let rendererStyle := QgsVectorTileBasicRendererStyle.default
  let labelingStyle := QgsVectorTileBasicLabelingStyle.default
  if layerType = "fill" then
    let (hasRendererStyle, rendererStyle) ← parseFillLayer env jsonLayer rendererStyle context
    pure (some { hasRendererStyle := hasRendererStyle, rendererStyle := rendererStyle,
                 hasLabelingStyle := false, labelingStyle := labelingStyle })
  else if layerType = "line" then
    let (hasRendererStyle, rendererStyle) ← parseLineLayer env jsonLayer rendererStyle context
    pure (some { hasRendererStyle := hasRendererStyle, rendererStyle := rendererStyle,
                 hasLabelingStyle := false, labelingStyle := labelingStyle })
  else if layerType = "symbol" then
    let (hasRendererStyle, rendererStyle, hasLabelingStyle, labelingStyle) ←
      parseSymbolLayer env jsonLayer rendererStyle labelingStyle context
    pure (some { hasRendererStyle := hasRendererStyle, rendererStyle := rendererStyle,
                 hasLabelingStyle := hasLabelingStyle, labelingStyle := labelingStyle })
  else pure none

/-- The body of the loop of `parseLayers` for one layer. A background layer changes
nothing. For another layer the warnings pushed by the filter and by the converter of the
layer join the warnings of the context; an unknown type adds its warning to the converter
and goes on to the next layer; otherwise the styles the converter reported get the
metadata of the layer and are appended, and the warnings of the context move to the
converter. -/
def parseLayer (env : Env) (context : QgsMapBoxGlStyleConversionContext) (state : LoopState)
    (layer : QVariant) : Except Fault LoopState :=
  let jsonLayer := layer.toMap
  let layerType := (QVariantMap.value jsonLayer "type").toString env
  if layerType = "background" then Except.ok state
  else
    let styleId := (QVariantMap.value jsonLayer "id").toString env
    let layerName := (QVariantMap.value jsonLayer "source-layer").toString env
    let minZoom := (QVariantMap.valueOr jsonLayer "minzoom" (QVariant.string "-1")).toInt
    let maxZoom := (QVariantMap.valueOr jsonLayer "maxzoom" (QVariant.string "-1")).toInt
    let enabled : Bool := (QVariantMap.value jsonLayer "visibility").toString env ≠ "none"
    match layerFilter env jsonLayer with
    | Conv.fault f => Except.error f
    | Conv.ok filterExpression filterWarnings =>
      match dispatchLayer env jsonLayer layerType context with
      | Conv.fault f => Except.error f
      | Conv.ok none layerWarnings =>
        Except.ok { state with
          mWarnings := state.mWarnings ++ ["Skipping unknown layer type: " ++ layerType],
          contextWarnings := state.contextWarnings ++ filterWarnings ++ layerWarnings }
      | Conv.ok (some styles) layerWarnings =>
        let rendererStyles :=
          if styles.hasRendererStyle then
            state.rendererStyles ++ [{ styles.rendererStyle with
              styleName := styleId, layerName := layerName, filterExpression := filterExpression,
              minZoomLevel := minZoom, maxZoomLevel := maxZoom, enabled := enabled }]
          else state.rendererStyles
        let labelingStyles :=
          if styles.hasLabelingStyle then
            state.labelingStyles ++ [{ styles.labelingStyle with
              styleName := styleId, layerName := layerName, filterExpression := filterExpression,
              minZoomLevel := minZoom, maxZoomLevel := maxZoom, enabled := enabled }]
          else state.labelingStyles
        Except.ok
          { mWarnings := state.mWarnings ++ (state.contextWarnings ++ filterWarnings ++ layerWarnings),
            contextWarnings := [],
            rendererStyles := rendererStyles,
            labelingStyles := labelingStyles }

/-- The loop of `parseLayers` over the layers, in order. -/
def parseLayersLoop (env : Env) (context : QgsMapBoxGlStyleConversionContext) :
    LoopState → QVariantList → Except Fault LoopState
  | state, [] => Except.ok state
  | state, layer :: layers =>
    match parseLayer env context state layer with
    | Except.error f => Except.error f
    | Except.ok next => parseLayersLoop env context next layers

/-- Conversion of the layer list: `parseLayers`. `context` is none for a null pointer; the
routine then works on a default context of its own, which it drops at the end. The result
is the converter and the context of the caller afterwards. -/
def parseLayers (env : Env) (converter : ConverterState) (layers : QVariantList)
    (context : Option QgsMapBoxGlStyleConversionContext) :
    Except Fault (ConverterState × Option QgsMapBoxGlStyleConversionContext) :=
  let working := context.getD QgsMapBoxGlStyleConversionContext.default
  let start : LoopState :=
    { mWarnings := converter.mWarnings, contextWarnings := working.warnings,
      rendererStyles := [], labelingStyles := [] }
  match parseLayersLoop env working start layers with
  | Except.error f => Except.error f
  | Except.ok final =>
    Except.ok
      ({ converter with
          mWarnings := final.mWarnings,
          mRenderer := some final.rendererStyles,
          mLabeling := some final.labelingStyles },
       context.map (fun c => { c with mWarnings := final.contextWarnings }))

/-- Conversion of a style document: `convert`. The result is the returned code, the
converter and the context of the caller afterwards. -/
def convert (env : Env) (converter : ConverterState) (style : QVariantMap)
    (context : Option QgsMapBoxGlStyleConversionContext) :
    Except Fault (Result × ConverterState × Option QgsMapBoxGlStyleConversionContext) :=
  let cleared := { converter with mError := "", mWarnings := [] }
  if QVariantMap.contains style "layers" then
    match parseLayers env cleared (QVariantMap.value style "layers").toList context with
    | Except.error f => Except.error f
    | Except.ok (converted, context) => Except.ok (Result.Success, converted, context)
  else
    Except.ok (Result.NoLayerList,
      { cleared with mError := "Could not find layers list in JSON" }, context)

end QgsMapBoxGlStyleConverter

/-! ## Notions used to state the properties of the orchestrator -/

namespace QgsMapBoxGlStyleConverter

/-- The type of a layer as `parseLayers` reads it. -/
def layerType (env : Env) (layer : QVariant) : String :=
  (QVariantMap.value layer.toMap "type").toString env

/-- The id of a layer as `parseLayers` reads it. -/
def layerId (env : Env) (layer : QVariant) : String :=
  (QVariantMap.value layer.toMap "id").toString env

/-- A layer of type `background`. -/
def isBackground (env : Env) (layer : QVariant) : Bool := layerType env layer = "background"

/-- A layer whose type is none of background, fill, line and symbol. -/
def isUnknownType (env : Env) (layer : QVariant) : Bool :=
  layerType env layer ≠ "background" && layerType env layer ≠ "fill"
    && layerType env layer ≠ "line" && layerType env layer ≠ "symbol"

/-- What the converter of a layer reported: the styles `dispatchLayer` returns for the
layer, none for a background layer, an unknown type or a stopped converter. -/
def layerStyles (env : Env) (context : QgsMapBoxGlStyleConversionContext) (layer : QVariant) :
    Option LayerStyles :=
  if isBackground env layer then none
  else
    match dispatchLayer env layer.toMap (layerType env layer) context with
    | Conv.ok (some styles) _ => some styles
    | _ => none

/-- The converter of the layer reported a rendering style. -/
def reportsRendererStyle (env : Env) (context : QgsMapBoxGlStyleConversionContext)
    (layer : QVariant) : Bool :=
  match layerStyles env context layer with
  | some styles => styles.hasRendererStyle
  | none => false

/-- The converter of the layer reported a labeling style. -/
def reportsLabelingStyle (env : Env) (context : QgsMapBoxGlStyleConversionContext)
    (layer : QVariant) : Bool :=
  match layerStyles env context layer with
  | some styles => styles.hasLabelingStyle
  | none => false

/-- The metadata of a layer on a rule: style name, layer name, filter expression and zoom
range are those `parseLayers` reads from the layer. -/
def CarriesMetadata (env : Env) (layer : QVariant) (styleName layerName filterExpression : String)
    (minZoomLevel maxZoomLevel : Int) : Prop :=
  styleName = (QVariantMap.value layer.toMap "id").toString env
  ∧ layerName = (QVariantMap.value layer.toMap "source-layer").toString env
  ∧ (QVariantMap.contains layer.toMap "filter" = true →
      (parseExpression env (QVariantMap.value layer.toMap "filter").toList).value?
        = some filterExpression)
  ∧ (QVariantMap.contains layer.toMap "filter" = false → filterExpression = "")
  ∧ minZoomLevel = (QVariantMap.valueOr layer.toMap "minzoom" (QVariant.string "-1")).toInt
  ∧ maxZoomLevel = (QVariantMap.valueOr layer.toMap "maxzoom" (QVariant.string "-1")).toInt
  ∧ (QVariantMap.contains layer.toMap "minzoom" = false → minZoomLevel = -1)
  ∧ (QVariantMap.contains layer.toMap "maxzoom" = false → maxZoomLevel = -1)

/-- The worked context of `parseLayers`: the one of the caller, or the default one. -/
def workingContext (context : Option QgsMapBoxGlStyleConversionContext) :
    QgsMapBoxGlStyleConversionContext :=
  context.getD QgsMapBoxGlStyleConversionContext.default

/-- The rendering rules a converter holds, none at all for a null renderer. -/
def rendererStyles (converter : ConverterState) : List QgsVectorTileBasicRendererStyle :=
  (renderer converter).getD []

/-- The labeling rules a converter holds, none at all for a null labeling. -/
def labelingStyles (converter : ConverterState) : List QgsVectorTileBasicLabelingStyle :=
  (labeling converter).getD []

end QgsMapBoxGlStyleConverter

namespace QgsMapBoxGlStyleConverter

/-- The conversion of one layer is not stopped: the layer is a background layer, or the
translation of its filter and its converter both complete. -/
def layerCompletes (env : Env) (context : QgsMapBoxGlStyleConversionContext) (layer : QVariant) : Bool :=
  isBackground env layer
    || ((layerFilter env layer.toMap).isOk
        && (dispatchLayer env layer.toMap (layerType env layer) context).isOk)

/-- The enabled flag `parseLayers` computes for a layer. -/
def layerEnabled (env : Env) (layer : QVariant) : Bool :=
  (QVariantMap.value layer.toMap "visibility").toString env ≠ "none"

/-- A rendering rule made from a layer: it carries the metadata and the enabled flag of
the layer. -/
def RendererRuleOf (env : Env) (rule : QgsVectorTileBasicRendererStyle) (layer : QVariant) : Prop :=
  CarriesMetadata env layer rule.styleName rule.layerName rule.filterExpression
    rule.minZoomLevel rule.maxZoomLevel
  ∧ rule.enabled = layerEnabled env layer

/-- A labeling rule made from a layer: it carries the metadata and the enabled flag of
the layer. -/
def LabelingRuleOf (env : Env) (rule : QgsVectorTileBasicLabelingStyle) (layer : QVariant) : Prop :=
  CarriesMetadata env layer rule.styleName rule.layerName rule.filterExpression
    rule.minZoomLevel rule.maxZoomLevel
  ∧ rule.enabled = layerEnabled env layer

end QgsMapBoxGlStyleConverter

/-! ## Notions of the properties of the filter translator -/

/-- Modelled from the spec: a boolean combination of translated sub-parts as the
expression language reads its text; the evaluator of the expression language is not part
of the converter's file. A sub-part stands in its own parentheses, `NOT` applies to what
follows it and binds tighter than `AND`. -/
inductive PartFormula where
  | part (text : String)
  | negation (of : PartFormula)
  | conjunction (left right : PartFormula)

namespace PartFormula

/-- The text of a combination in the expression language. -/
def text : PartFormula → String
  | part p => "(" ++ p ++ ")"
  | negation (conjunction l r) => "NOT (" ++ text l ++ " AND " ++ text r ++ ")"
  | negation (part p) => "NOT " ++ "(" ++ p ++ ")"
  | negation (negation f) => "NOT " ++ text (negation f)
  | conjunction l r => text l ++ " AND " ++ text r

/-- The truth value of a combination under truth values of the sub-parts. -/
def holds (valuation : String → Bool) : PartFormula → Bool
  | part p => valuation p
  | negation f => !holds valuation f
  | conjunction l r => holds valuation l && holds valuation r

/-- The conjunction of one combination or more, in order. -/
def conjunctionOf : PartFormula → List PartFormula → PartFormula
  | f, [] => f
  | f, g :: rest => conjunction f (conjunctionOf g rest)

/-- The negated conjunction of the sub-parts: `NOT ((p_1) AND ... AND (p_n))`. -/
def negatedConjunction (p : String) (ps : List String) : PartFormula :=
  negation (conjunctionOf (part p) (ps.map part))

/-- The conjunction of the negated sub-parts: `NOT (p_1) AND ... AND NOT (p_n)`. -/
def negatedParts (p : String) (ps : List String) : PartFormula :=
  conjunctionOf (negation (part p)) (ps.map (fun q => negation (part q)))

end PartFormula

namespace QgsMapBoxGlStyleConverter

/-- The values translate, in order, to the texts and warnings given, and no text is empty. -/
def Translated (env : Env) (values : QVariantList) (parts : List (String × List String)) : Prop :=
  List.Forall₂ (fun value part => parseValue env value = Conv.ok part.1 part.2 ∧ part.1 ≠ "")
    values parts

/-- The labels `match` has a test for: a list, a string or a number. -/
def isSupportedLabel (label : QVariant) : Bool :=
  label.type = QVariantType.List || label.type = QVariantType.String
    || label.type = QVariantType.Int || label.type = QVariantType.Double

/-- The direct test of the quoted column against a label of `match`, as the specification
words it: `IN` with the quoted entries for a list with more than one entry, the equality
test for a single label, which for a shorter list is its first entry. -/
def directTest (env : Env) (attr : String) (label : QVariant) : String :=
  match label with
  | QVariant.list (first :: second :: more) =>
    QgsExpression.quotedColumnRef attr ++ " IN ("
      ++ QStringList.join ((first :: second :: more).map (QgsExpression.quotedValue env)) ", " ++ ")"
  | QVariant.list entries =>
    QgsExpression.createFieldEqualityExpression env attr (QVariantList.value entries 0)
  | single => QgsExpression.createFieldEqualityExpression env attr single

/-- The test after `WHEN` for a label: the direct test, in parentheses when the label is
no list. -/
def whenTest (env : Env) (attr : String) (label : QVariant) : String :=
  match label with
  | QVariant.list _ => directTest env attr label
  | _ => "(" ++ directTest env attr label ++ ")"

/-- One `WHEN test THEN output` for every pair of a label and an output, in order. -/
def whenThens (env : Env) (attr : String) : List (QVariant × QVariant) → String
  | [] => ""
  | pair :: rest =>
    "WHEN " ++ whenTest env attr pair.1 ++ " THEN " ++ QgsExpression.quotedValue env pair.2 ++ " "
      ++ whenThens env attr rest

/-- The conditional the specification gives for `match`: `CASE`, one `WHEN test THEN output`
for every pair of a label and an output, in order, then `ELSE` with the default and `END`. -/
def caseText (env : Env) (attr : String) (pairs : List (QVariant × QVariant)) (dflt : QVariant) :
    String :=
  "CASE " ++ whenThens env attr pairs ++ "ELSE " ++ QgsExpression.quotedValue env dflt ++ " END"

/-- The list `["match", ["get", attr], label_1, output_1, ..., label_n, output_n, default]`. -/
def matchExpression (attr : String) (pairs : List (QVariant × QVariant)) (dflt : QVariant) :
    QVariantList :=
  QVariant.string "match" :: QVariant.list [QVariant.string "get", QVariant.string attr]
    :: (pairs.flatMap (fun pair => [pair.1, pair.2]) ++ [dflt])

/-- The 2-branch boolean-result pattern of `match`: one label with the output `true` and
the default `false`. -/
def IsBooleanPattern (pairs : List (QVariant × QVariant)) (dflt : QVariant) : Prop :=
  ∃ label, pairs = [(label, QVariant.bool true)] ∧ dflt = QVariant.bool false

/-- The symbol layer whose layout has the `text-field` given and nothing else, with an
empty `paint`. -/
def textFieldLayer (template : String) : QVariantMap :=
  [("layout", QVariant.map [("text-field", QVariant.string template)]),
   ("paint", QVariant.map [])]

end QgsMapBoxGlStyleConverter

/-! ## Notions of the properties of the interpolation compiler -/

namespace QgsMapBoxGlStyleConverter

/-- The scale call over the zoom between the stops `(z0, v0)` and `(z1, v1)`: linear for
the base 1, exponential otherwise. -/
def scaleCall (env : Env) (z0 z1 v0 v1 base : ℚ) : String :=
  if base = 1 then
    "scale_linear(@zoom_level," ++ env.number z0 ++ "," ++ env.number z1 ++ ","
      ++ env.number v0 ++ "," ++ env.number v1 ++ ")"
  else
    "scale_exp(@zoom_level," ++ env.number z0 ++ "," ++ env.number z1 ++ ","
      ++ env.number v0 ++ "," ++ env.number v1 ++ "," ++ env.number base ++ ")"

/-- An expression text followed by ` * m`, written only for a multiplier `m` other than 1. -/
def timesMultiplier (env : Env) (multiplier : ℚ) (expression : String) : String :=
  if multiplier = 1 then expression else expression ++ " * " ++ env.number multiplier

end QgsMapBoxGlStyleConverter

namespace QgsMapBoxGlStyleConverter

/-- The pairs of consecutive stops of a stops list, in order. -/
def stopPairs : QVariantList → List (QVariant × QVariant)
  | bottom :: top :: rest => (bottom, top) :: stopPairs (top :: rest)
  | _ => []

/-- The texts of a list one after the other. -/
def concatTexts : List String → String
  | [] => ""
  | text :: texts => text ++ concatTexts texts

/-- The branch of a conditional over the zoom for the numeric stops `bottom` and `top`: the
test `@zoom_level > bz AND @zoom_level <= tz` and the interpolation between the two. -/
def rangedBranch (env : Env) (base multiplier : ℚ) (pair : QVariant × QVariant) : String :=
  "WHEN @zoom_level > " ++ (stopZoom pair.1).toString env ++ " AND @zoom_level <= "
    ++ (stopZoom pair.2).toString env ++ " THEN "
    ++ interpolateExpression env (stopZoom pair.1).toDouble (stopZoom pair.2).toDouble
        (stopValue pair.1).toDouble (stopValue pair.2).toDouble base multiplier
    ++ " "

/-- Truth of the test `@zoom_level > bz AND @zoom_level <= tz` of the branch of a pair of
stops at a zoom. -/
def branchCovers (zoom : ℚ) (pair : QVariant × QVariant) : Bool :=
  decide ((stopZoom pair.1).toDouble < zoom) && decide (zoom ≤ (stopZoom pair.2).toDouble)

/-- Stops whose zooms ascend strictly. -/
def AscendingZooms (stops : QVariantList) : Prop :=
  stops.Pairwise (fun bottom top => (stopZoom bottom).toDouble < (stopZoom top).toDouble)

/-- The branch of a colour conditional for the stops `bottom` and `top`: the test
`@zoom_level >= bz AND @zoom_level < tz` and the `color_hsla` call whose four components
are interpolated between the components of the two colours. -/
def hslaBranch (env : Env) (base : ℚ) (pair : QVariant × QVariant) : String :=
  let bz := (stopZoom pair.1).toString env
  let tz := (stopZoom pair.2).toString env
  let bottomColor := colorAsHslaComponents env (env.parseColor ((stopValue pair.1).toString env))
  let topColor := colorAsHslaComponents env (env.parseColor ((stopValue pair.2).toString env))
  "WHEN @zoom_level >= " ++ bz ++ " AND @zoom_level < " ++ tz ++ " THEN "
    ++ colorHsla
        (interpolateExpression env (QString.toDouble bz) (QString.toDouble tz)
          bottomColor.1 topColor.1 base 1)
        (interpolateExpression env (QString.toDouble bz) (QString.toDouble tz)
          bottomColor.2.1 topColor.2.1 base 1)
        (interpolateExpression env (QString.toDouble bz) (QString.toDouble tz)
          bottomColor.2.2.1 topColor.2.2.1 base 1)
        (interpolateExpression env (QString.toDouble bz) (QString.toDouble tz)
          bottomColor.2.2.2 topColor.2.2.2 base 1)
    ++ " "

/-- The `color_hsla` call of the components of a colour, as integers. -/
def hslaOf (env : Env) (color : QColor) : String :=
  colorHsla (QString.ofInt (colorAsHslaComponents env color).1)
    (QString.ofInt (colorAsHslaComponents env color).2.1)
    (QString.ofInt (colorAsHslaComponents env color).2.2.1)
    (QString.ofInt (colorAsHslaComponents env color).2.2.2)

/-- The text `array(X,Y)` of the two channels interpolated between the point stops
`bottom` and `top`. -/
def pointArray (env : Env) (base multiplier : ℚ) (bottom top : QVariant) : String :=
  "array("
    ++ interpolateExpression env (stopZoom bottom).toDouble (stopZoom top).toDouble
        (QVariantList.value (stopValue bottom).toList 0).toDouble
        (QVariantList.value (stopValue top).toList 0).toDouble base multiplier
    ++ ","
    ++ interpolateExpression env (stopZoom bottom).toDouble (stopZoom top).toDouble
        (QVariantList.value (stopValue bottom).toList 1).toDouble
        (QVariantList.value (stopValue top).toList 1).toDouble base multiplier
    ++ ")"

/-- The first point of a stops list, times the multiplier. -/
def firstPoint (stops : QVariantList) (multiplier : ℚ) : QPointF :=
  { x := (QVariantList.value (stopValue (QVariantList.value stops 0)).toList 0).toDouble * multiplier,
    y := (QVariantList.value (stopValue (QVariantList.value stops 0)).toList 1).toDouble * multiplier }

end QgsMapBoxGlStyleConverter

namespace QgsMapBoxGlStyleConverter

/-- The warning of `parseInterpolateListByZoom` for the technique `cubic-bezier`, which it
replaces by the linear one; no warning for another technique. -/
def cubicBezierWarning (technique : String) : List String :=
  if technique = "cubic-bezier" then
    ["QGIS does not support cubic-bezier interpolation, linear used instead."]
  else []

/-- The base `parseInterpolateListByZoom` passes on: the second item of element 1 for the
technique `exponential`, 1 otherwise. -/
def listBase (json : QVariantList) (technique : String) : ℚ :=
  if technique = "linear" then 1
  else if technique = "exponential" then
    (QVariantList.value (QVariantList.value json 1).toList 1).toDouble
  else 1

/-- The compiler of stops maps for a value kind, as `parseInterpolateListByZoom` calls it. -/
def compileByKind (env : Env) (type : PropertyType) (props : QVariantMap) (multiplier : ℚ)
    (maxOpacity : Int) : Conv (QgsProperty × Option QColor × Option ℚ) :=
  match type with
  | PropertyType.Color => do
    let (p, c) ← parseInterpolateColorByZoom env props
    pure (p, c, none)
  | PropertyType.Numeric => do
    let (p, n) ← parseInterpolateByZoom env props multiplier
    pure (p, none, n)
  | PropertyType.Opacity => do
    let p ← parseInterpolateOpacityByZoom env props maxOpacity
    pure (p, none, none)
  | PropertyType.Point => do
    let (p, _) ← parseInterpolatePointByZoom env props multiplier
    pure (p, none, none)

end QgsMapBoxGlStyleConverter

namespace QgsMapBoxGlStyleConverter

/-- The technique of an `interpolate` list: the text of the first item of element 1. -/
def listTechnique (env : Env) (json : QVariantList) : String :=
  (QVariantList.value (QVariantList.value json 1).toList 0).toString env

/-- The input of an `interpolate` list: the text of the first item of element 2. -/
def listInput (env : Env) (json : QVariantList) : String :=
  (QVariantList.value (QVariantList.value json 2).toList 0).toString env

end QgsMapBoxGlStyleConverter

/-! ## The steps of `parseFillLayer`

The routine `parseFillLayer` cut at the end of each of its paint properties: a step is the
code of the routine for one property, and hands the variables it may have assigned to the
rest of the routine, `next`. -/

namespace QgsMapBoxGlStyleConverter

open SymbolLayerProperty

/-- The step of `parseFillLayer` for `fill-color`; `next` is the rest of the routine. -/
def fillColorStep {ρ : Type} (env : Env) (jsonPaint : QVariantMap)
    (next : QgsPropertyCollection SymbolLayerProperty → QColor → Conv ρ) : Conv ρ := do
  let mut ddProperties : QgsPropertyCollection SymbolLayerProperty := QgsPropertyCollection.empty
  let mut fillColor := QColor.invalid
  if QVariantMap.contains jsonPaint "fill-color" then
    let jsonFillColor := QVariantMap.value jsonPaint "fill-color"
    match jsonFillColor.type with
    | QVariantType.Map =>
      let (p, c) ← parseInterpolateColorByZoom env jsonFillColor.toMap
      fillColor := c.getD fillColor
      ddProperties := ddProperties.setProperty PropertyFillColor p
    | QVariantType.List =>
      let (p, c, _) ← parseInterpolateListByZoom env jsonFillColor.toList PropertyType.Color 1 255
      fillColor := c.getD fillColor
      ddProperties := ddProperties.setProperty PropertyFillColor p
    | QVariantType.String =>
      fillColor ← parseColor env (QVariant.string (jsonFillColor.toString env))
    | _ => pushWarning "Skipping non-implemented color expression"
  next ddProperties fillColor

/-- The step of `parseFillLayer` for `fill-outline-color`. -/
def fillOutlineColorStep {ρ : Type} (env : Env) (jsonPaint : QVariantMap)
    (ddProperties : QgsPropertyCollection SymbolLayerProperty) (fillColor : QColor)
    (next : QgsPropertyCollection SymbolLayerProperty → QColor → Conv ρ) : Conv ρ := do
  let mut ddProperties := ddProperties
  let mut fillOutlineColor := QColor.invalid
  if ¬ QVariantMap.contains jsonPaint "fill-outline-color" then
    -- fill-outline-color
    if fillColor.isValid then
      fillOutlineColor := fillColor
    else
      -- use fill color data defined property
      if ddProperties.isActive PropertyFillColor then
        ddProperties := ddProperties.setProperty PropertyStrokeColor
          (ddProperties.property PropertyFillColor)
  else
    let jsonFillOutlineColor := QVariantMap.value jsonPaint "fill-outline-color"
    match jsonFillOutlineColor.type with
    | QVariantType.Map =>
      let (p, c) ← parseInterpolateColorByZoom env jsonFillOutlineColor.toMap
      fillOutlineColor := c.getD fillOutlineColor
      ddProperties := ddProperties.setProperty PropertyStrokeColor p
    | QVariantType.List =>
      let (p, c, _) ← parseInterpolateListByZoom env jsonFillOutlineColor.toList PropertyType.Color 1 255
      fillOutlineColor := c.getD fillOutlineColor
      ddProperties := ddProperties.setProperty PropertyStrokeColor p
    | QVariantType.String =>
      fillOutlineColor ← parseColor env (QVariant.string (jsonFillOutlineColor.toString env))
    | _ => pushWarning "Skipping non-implemented color expression"
  next ddProperties fillOutlineColor

/-- The step of `parseFillLayer` for `fill-opacity`. -/
def fillOpacityStep {ρ : Type} (env : Env) (jsonLayer jsonPaint : QVariantMap)
    (ddProperties : QgsPropertyCollection SymbolLayerProperty) (fillColor fillOutlineColor : QColor)
    (next : QgsPropertyCollection SymbolLayerProperty → QgsPropertyCollection SymbolLayerProperty
      → ℚ → ℚ → Conv ρ) : Conv ρ := do
  let mut ddProperties := ddProperties
  let mut ddRasterProperties : QgsPropertyCollection SymbolLayerProperty := QgsPropertyCollection.empty
  let mut fillOpacity : ℚ := -1
  let mut rasterOpacity : ℚ := -1
  if QVariantMap.contains jsonPaint "fill-opacity" then
    let jsonFillOpacity := QVariantMap.value jsonPaint "fill-opacity"
    let fillAlpha : Int := if fillColor.isValid then fillColor.alpha else 255
    let outlineAlpha : Int := if fillOutlineColor.isValid then fillOutlineColor.alpha else 255
    match jsonFillOpacity.type with
    | QVariantType.Int | QVariantType.Double =>
      fillOpacity := jsonFillOpacity.toDouble
      rasterOpacity := fillOpacity
    | QVariantType.Map =>
      if ddProperties.isActive PropertyFillColor then
        pushWarning ("Could not set opacity of layer " ++ (QVariantMap.value jsonLayer "id").toString env
          ++ ", opacity already defined in fill color")
      else
        let p1 ← parseInterpolateOpacityByZoom env jsonFillOpacity.toMap fillAlpha
        ddProperties := ddProperties.setProperty PropertyFillColor p1
        let p2 ← parseInterpolateOpacityByZoom env jsonFillOpacity.toMap outlineAlpha
        ddProperties := ddProperties.setProperty PropertyStrokeColor p2
        let (p3, n) ← parseInterpolateByZoom env jsonFillOpacity.toMap 100
        rasterOpacity := n.getD rasterOpacity
        ddRasterProperties := ddRasterProperties.setProperty PropertyOpacity p3
    | QVariantType.List =>
      if ddProperties.isActive PropertyFillColor then
        pushWarning ("Could not set opacity of layer " ++ (QVariantMap.value jsonLayer "id").toString env
          ++ ", opacity already defined in fill color")
      else
        let (p1, _, _) ← parseInterpolateListByZoom env jsonFillOpacity.toList PropertyType.Opacity 1 fillAlpha
        ddProperties := ddProperties.setProperty PropertyFillColor p1
        let (p2, _, _) ← parseInterpolateListByZoom env jsonFillOpacity.toList PropertyType.Opacity 1 outlineAlpha
        ddProperties := ddProperties.setProperty PropertyStrokeColor p2
        let (p3, _, n) ← parseInterpolateListByZoom env jsonFillOpacity.toList PropertyType.Numeric 100 255
        rasterOpacity := n.getD rasterOpacity
        ddRasterProperties := ddRasterProperties.setProperty PropertyOpacity p3
    | _ => pushWarning "Skipping non-implemented opacity expression"
  next ddProperties ddRasterProperties fillOpacity rasterOpacity

/-- The step of `parseFillLayer` for `fill-translate`. -/
def fillTranslateStep {ρ : Type} (env : Env) (jsonPaint : QVariantMap)
    (context : QgsMapBoxGlStyleConversionContext)
    (ddProperties : QgsPropertyCollection SymbolLayerProperty)
    (next : QgsPropertyCollection SymbolLayerProperty → QPointF → Conv ρ) : Conv ρ := do
  let mut ddProperties := ddProperties
  let mut fillTranslate : QPointF := { x := 0, y := 0 }
  if QVariantMap.contains jsonPaint "fill-translate" then
    let jsonFillTranslate := QVariantMap.value jsonPaint "fill-translate"
    match jsonFillTranslate.type with
    | QVariantType.Map =>
      let (p, pt) ← parseInterpolatePointByZoom env jsonFillTranslate.toMap context.pixelSizeConversionFactor
      fillTranslate := pt.getD fillTranslate
      ddProperties := ddProperties.setProperty PropertyOffset p
    | QVariantType.List =>
      fillTranslate :=
        { x := (QVariantList.value jsonFillTranslate.toList 0).toDouble * context.pixelSizeConversionFactor,
          y := (QVariantList.value jsonFillTranslate.toList 1).toDouble * context.pixelSizeConversionFactor }
    | _ => pushWarning "Skipping non-implemented fill-translate expression"
  next ddProperties fillTranslate

/-- The step of `parseFillLayer` for `fill-pattern`. -/
def fillPatternStep {ρ : Type} (env : Env) (jsonPaint : QVariantMap)
    (context : QgsMapBoxGlStyleConversionContext)
    (ddRasterProperties : QgsPropertyCollection SymbolLayerProperty) (rasterOpacity : ℚ)
    (next : List QgsSymbolLayer → Conv ρ) : Conv ρ := do
  let mut rasterLayers : List QgsSymbolLayer := []
  if QVariantMap.contains jsonPaint "fill-pattern" then
    let fillPatternJson := QVariantMap.value jsonPaint "fill-pattern"
    match fillPatternJson.type with
    | QVariantType.String =>
      let (sprite, _, _) ← retrieveSpriteAsBase64 env (fillPatternJson.toString env) context
      if ¬ QString.isEmpty sprite then
        rasterLayers := [QgsSymbolLayer.rasterFill sprite true
          (if rasterOpacity ≥ 0 then some rasterOpacity else none) ddRasterProperties]
    | _ => pure ()
  next rasterLayers

/-- The end of `parseFillLayer`: the rule with the symbol made of what the steps found. -/
def fillStyle (style : QgsVectorTileBasicRendererStyle) (context : QgsMapBoxGlStyleConversionContext)
    (ddProperties : QgsPropertyCollection SymbolLayerProperty) (fillColor fillOutlineColor : QColor)
    (fillOpacity : ℚ) (fillTranslate : QPointF) (rasterLayers : List QgsSymbolLayer) :
    QgsVectorTileBasicRendererStyle :=
  let fillSymbol := QgsSymbolLayer.simpleFill context.targetUnit context.targetUnit
    (if ¬ fillTranslate.isNull then some fillTranslate else none)
    ddProperties
    (if fillOutlineColor.isValid then some fillOutlineColor else none)
    (¬ fillOutlineColor.isValid)
    (if fillColor.isValid then some fillColor else none)
    (¬ fillColor.isValid)
  let symbol : QgsSymbol :=
    { symbolLayers := fillSymbol :: rasterLayers,
      outputUnit := some context.targetUnit,
      opacity := if fillOpacity ≠ -1 then some fillOpacity else none }
  { style with geometryType := GeometryType.PolygonGeometry, symbol := some symbol }

/-- The routine `parseFillLayer` as the sequence of its steps. -/
def parseFillLayerSteps (env : Env) (jsonLayer : QVariantMap) (style : QgsVectorTileBasicRendererStyle)
    (context : QgsMapBoxGlStyleConversionContext) :
    Conv (Bool × QgsVectorTileBasicRendererStyle) :=
  if ¬ QVariantMap.contains jsonLayer "paint" then do
    pushWarning ("Style layer " ++ (QVariantMap.value jsonLayer "id").toString env
      ++ " has no paint property, skipping")
    pure (false, style)
  else
    let jsonPaint := (QVariantMap.value jsonLayer "paint").toMap
    fillColorStep env jsonPaint fun ddProperties fillColor =>
    fillOutlineColorStep env jsonPaint ddProperties fillColor fun ddProperties fillOutlineColor =>
    fillOpacityStep env jsonLayer jsonPaint ddProperties fillColor fillOutlineColor
      fun ddProperties ddRasterProperties fillOpacity rasterOpacity =>
    fillTranslateStep env jsonPaint context ddProperties fun ddProperties fillTranslate =>
    fillPatternStep env jsonPaint context ddRasterProperties rasterOpacity fun rasterLayers =>
    pure (true, fillStyle style context ddProperties fillColor fillOutlineColor fillOpacity
      fillTranslate rasterLayers)

/-- The warning of `parseFillLayer` for an opacity it drops. -/
def opacityConflictWarning (env : Env) (jsonLayer : QVariantMap) : String :=
  "Could not set opacity of layer " ++ (QVariantMap.value jsonLayer "id").toString env
    ++ ", opacity already defined in fill color"

end QgsMapBoxGlStyleConverter

/-! ## Notions of the properties of the layer converters -/

namespace QgsSymbolLayer

/-- The stroke colour set on a simple fill, none when it was not set. -/
def strokeColorSet : QgsSymbolLayer → Option QColor
  | simpleFill _ _ _ _ strokeColor _ _ _ => strokeColor
  | _ => none

/-- Whether the stroke style of a simple fill was set to no pen. -/
def hasNoPen : QgsSymbolLayer → Bool
  | simpleFill _ _ _ _ _ noPen _ _ => noPen
  | _ => false

/-- The fill colour set on a simple fill, none when it was not set. -/
def fillColorSet : QgsSymbolLayer → Option QColor
  | simpleFill _ _ _ _ _ _ fillColor _ => fillColor
  | _ => none

/-- The width set on a simple line, none when it was not set. -/
def widthSet : QgsSymbolLayer → Option ℚ
  | simpleLine _ _ _ _ _ _ _ width _ => width
  | _ => none

/-- The data-defined properties of a symbol layer. -/
def ddProperties : QgsSymbolLayer → QgsPropertyCollection SymbolLayerProperty
  | simpleFill _ _ _ dataDefinedProperties _ _ _ _ => dataDefinedProperties
  | rasterFill _ _ _ dataDefinedProperties => dataDefinedProperties
  | simpleLine _ _ _ _ dataDefinedProperties _ _ _ _ => dataDefinedProperties
  | markerLine _ _ _ dataDefinedProperties _ _ => dataDefinedProperties
  | rasterMarker marker => marker.dataDefinedProperties

end QgsSymbolLayer

/-- The symbol layers of a rendering rule, none without a symbol. -/
def QgsVectorTileBasicRendererStyle.symbolLayers (style : QgsVectorTileBasicRendererStyle) :
    List QgsSymbolLayer :=
  (style.symbol.map (fun symbol => symbol.symbolLayers)).getD []

/-- The first symbol layer of a rendering rule, the simple fill or simple line the layer
converter made. -/
def QgsVectorTileBasicRendererStyle.firstSymbolLayer (style : QgsVectorTileBasicRendererStyle) :
    Option QgsSymbolLayer :=
  style.symbolLayers.head?

/-! ## The outcome of each step of `parseFillLayer` -/

namespace QgsMapBoxGlStyleConverter

/-- What the step for `fill-color` leaves: the data-defined properties and the fill colour. -/
def fillColorOutcome (env : Env) (jsonPaint : QVariantMap) :
    Conv (QgsPropertyCollection SymbolLayerProperty × QColor) :=
  fillColorStep env jsonPaint (fun ddProperties fillColor => pure (ddProperties, fillColor))

/-- What the step for `fill-outline-color` leaves: the data-defined properties and the
outline colour. -/
def fillOutlineColorOutcome (env : Env) (jsonPaint : QVariantMap)
    (ddProperties : QgsPropertyCollection SymbolLayerProperty) (fillColor : QColor) :
    Conv (QgsPropertyCollection SymbolLayerProperty × QColor) :=
  fillOutlineColorStep env jsonPaint ddProperties fillColor
    (fun ddProperties fillOutlineColor => pure (ddProperties, fillOutlineColor))

/-- What the step for `fill-opacity` leaves: the data-defined properties of the fill and
of the raster fill, the opacity of the symbol and the opacity of the raster fill. -/
def fillOpacityOutcome (env : Env) (jsonLayer jsonPaint : QVariantMap)
    (ddProperties : QgsPropertyCollection SymbolLayerProperty) (fillColor fillOutlineColor : QColor) :
    Conv (QgsPropertyCollection SymbolLayerProperty × QgsPropertyCollection SymbolLayerProperty
      × ℚ × ℚ) :=
  fillOpacityStep env jsonLayer jsonPaint ddProperties fillColor fillOutlineColor
    (fun ddProperties ddRasterProperties fillOpacity rasterOpacity =>
      pure (ddProperties, ddRasterProperties, fillOpacity, rasterOpacity))

/-- What the step for `fill-translate` leaves: the data-defined properties and the offset. -/
def fillTranslateOutcome (env : Env) (jsonPaint : QVariantMap)
    (context : QgsMapBoxGlStyleConversionContext)
    (ddProperties : QgsPropertyCollection SymbolLayerProperty) :
    Conv (QgsPropertyCollection SymbolLayerProperty × QPointF) :=
  fillTranslateStep env jsonPaint context ddProperties
    (fun ddProperties fillTranslate => pure (ddProperties, fillTranslate))

/-- What the step for `fill-pattern` leaves: the raster fill, if any. -/
def fillPatternOutcome (env : Env) (jsonPaint : QVariantMap)
    (context : QgsMapBoxGlStyleConversionContext)
    (ddRasterProperties : QgsPropertyCollection SymbolLayerProperty) (rasterOpacity : ℚ) :
    Conv (List QgsSymbolLayer) :=
  fillPatternStep env jsonPaint context ddRasterProperties rasterOpacity
    (fun rasterLayers => pure rasterLayers)

end QgsMapBoxGlStyleConverter

/-! ## Notions of the runs of a routine -/

/-- A warning that does not start with `Could not set`, as the warnings about a dropped
opacity do. -/
def notAboutOpacity (warning : String) : Bool := !("Could not set".data.isPrefixOf warning.data)

namespace Conv

/-- The routine completes: it is not stopped by a fault. -/
def Completes {α : Type} (x : Conv α) : Prop := ∃ a w, x = Conv.ok a w

/-- The routine completes and none of its warnings is about a dropped opacity. -/
def Quiet {α : Type} (x : Conv α) : Prop :=
  ∃ a w, x = Conv.ok a w ∧ ∀ warning ∈ w, notAboutOpacity warning = true

end Conv

namespace Conv

/-- Every completed run of the routine returns a good value. -/
def Ensures {α : Type} (good : α → Prop) (x : Conv α) : Prop :=
  ∀ a w, x = Conv.ok a w → good a

end Conv

namespace QgsMapBoxGlStyleConverter

/-- The opacity property `parseFillLayer` compiles from a `fill-opacity` that is a stops
map or an `interpolate` list, for the alpha of a colour. -/
def fillOpacityProperty (env : Env) (json : QVariant) (maxOpacity : Int) : Conv QgsProperty :=
  match json.type with
  | QVariantType.Map => parseInterpolateOpacityByZoom env json.toMap maxOpacity
  | _ => do
    let (p, _, _) ← parseInterpolateListByZoom env json.toList PropertyType.Opacity 1 maxOpacity
    pure p

/-- The opacity property of the raster fill `parseFillLayer` compiles from a `fill-opacity`
that is a stops map or an `interpolate` list, with its default number. -/
def rasterOpacityProperty (env : Env) (json : QVariant) : Conv (QgsProperty × Option ℚ) :=
  match json.type with
  | QVariantType.Map => parseInterpolateByZoom env json.toMap 100
  | _ => do
    let (p, _, n) ← parseInterpolateListByZoom env json.toList PropertyType.Numeric 100 255
    pure (p, n)

/-- The alpha `parseFillLayer` takes for an opacity: the one of the colour when it is
valid, 255 otherwise. -/
def alphaOf (color : QColor) : Int := if color.isValid then color.alpha else 255

/-- A `fill-opacity` that depends on the zoom: a stops map or a list. -/
def zoomDependent (json : QVariant) : Bool :=
  decide (json.type = QVariantType.Map) || decide (json.type = QVariantType.List)

end QgsMapBoxGlStyleConverter

namespace QgsMapBoxGlStyleConverter

/-- The line layer whose paint has the width and the offset given, and nothing else. -/
def widthOffsetLayer (width offset : QVariant) : QVariantMap :=
  [("id", QVariant.string "road"), ("type", QVariant.string "line"),
   ("paint", QVariant.map [("line-width", width), ("line-offset", offset)])]

/-- The line layer whose paint has the width given, and nothing else. -/
def widthLayer (width : QVariant) : QVariantMap :=
  [("id", QVariant.string "road"), ("type", QVariant.string "line"),
   ("paint", QVariant.map [("line-width", width)])]

end QgsMapBoxGlStyleConverter

/-! ## Notions of the properties of the list adapter -/

namespace QgsMapBoxGlStyleConverter

/-- The `interpolate` list over the zoom with the technique and the stops given:
`["interpolate", technique, ["zoom"], z_0, v_0, ..., z_n, v_n]`. -/
def interpolateOverZoom (technique : QVariantList) (numbers : List (QVariant × QVariant)) :
    QVariantList :=
  QVariant.string "interpolate" :: QVariant.list technique
    :: QVariant.list [QVariant.string "zoom"] :: numbers.flatMap (fun stop => [stop.1, stop.2])

/-- The stops map `{base: b, stops: [[z_0, v_0], ..., [z_n, v_n]]}`. -/
def stopsTable (base : ℚ) (numbers : List (QVariant × QVariant)) : QVariantMap :=
  [("base", QVariant.double base),
   ("stops", QVariant.list (numbers.map (fun stop => QVariant.list [stop.1, stop.2])))]

/-- The base an `interpolate` list stands for: the one given for the technique
`exponential`, 1 for the other techniques. -/
def techniqueBase (env : Env) (technique : QVariantList) : ℚ :=
  if (QVariantList.value technique 0).toString env = "exponential" then
    (QVariantList.value technique 1).toDouble
  else 1

/-- A number that is read back from its text: the double of the text of the value is the
double of the value. -/
def ReadsBack (env : Env) (value : QVariant) : Prop :=
  QString.toDouble (value.toString env) = value.toDouble

/-- Two stops that the numeric compiler cannot tell apart: their zooms have the same text
and the same double and are both lists or both no lists, and their values have the same
double. -/
def SameStop (env : Env) (stop other : QVariant) : Prop :=
  (stopZoom stop).toString env = (stopZoom other).toString env
  ∧ (stopZoom stop).toDouble = (stopZoom other).toDouble
  ∧ ((stopZoom stop).type = QVariantType.List ↔ (stopZoom other).type = QVariantType.List)
  ∧ (stopValue stop).toDouble = (stopValue other).toDouble

end QgsMapBoxGlStyleConverter

/-! ## Notions of the properties of skipped layers -/

namespace QgsMapBoxGlStyleConverter

/-- The styles of a layer whose converter reported nothing and left the styles as they
were constructed. -/
def LayerStyles.untouched : LayerStyles :=
  { hasRendererStyle := false, rendererStyle := QgsVectorTileBasicRendererStyle.default,
    hasLabelingStyle := false, labelingStyle := QgsVectorTileBasicLabelingStyle.default }

end QgsMapBoxGlStyleConverter

/-! ## Notions of the properties of conditionals over the zoom -/

namespace QgsMapBoxGlStyleConverter

/-- A branch `WHEN test THEN result` of a conditional over the zoom. The test bounds the
zoom from below, `@zoom_level >= atLeast`, from above, `@zoom_level < below`, or both; the
bounds are the texts that stand in the expression. -/
structure ZoomBranch where
  atLeast : Option String
  below : Option String
  result : String
  deriving DecidableEq, Repr

namespace ZoomBranch

/-- The text of the test of a branch. -/
def test (branch : ZoomBranch) : String :=
  match branch.atLeast, branch.below with
  | some low, some high => "@zoom_level >= " ++ low ++ " AND @zoom_level < " ++ high
  | some low, none => "@zoom_level >= " ++ low
  | none, some high => "@zoom_level < " ++ high
  | none, none => ""

/-- The text of a branch. -/
def text (branch : ZoomBranch) : String :=
  "WHEN " ++ branch.test ++ " THEN " ++ branch.result

/-- Truth of the test of a branch at a zoom, the bounds read as numbers. -/
def holds (zoom : ℚ) (branch : ZoomBranch) : Bool :=
  (match branch.atLeast with
    | some low => decide (QString.toDouble low ≤ zoom)
    | none => true)
  && (match branch.below with
    | some high => decide (zoom < QString.toDouble high)
    | none => true)

end ZoomBranch

/-- Modelled from the spec: the value of a conditional `CASE WHEN ... THEN ... ELSE ... END`
at a zoom as the expression language reads it; the evaluator of the expression language is
not part of the converter's file. The value is the result of the first branch whose test
holds, the result after `ELSE` when no test holds, and none without an `ELSE` part. -/
def selectBranch (zoom : ℚ) (branches : List ZoomBranch) (otherwise : Option String) :
    Option String :=
  match branches.find? (ZoomBranch.holds zoom) with
  | some branch => some branch.result
  | none => otherwise

/-- The alpha at a stop of an opacity stops list: the value of the stop times the maximal
opacity, as a constant of the expression. -/
def stopAlpha (env : Env) (maxOpacity : Int) (stop : QVariant) : String :=
  env.number ((stopValue stop).toDouble * maxOpacity)

/-- The alpha between two stops of an opacity stops list: the interpolation between the
values of the two stops, each times the maximal opacity. -/
def pairAlpha (env : Env) (base : ℚ) (maxOpacity : Int) (pair : QVariant × QVariant) : String :=
  interpolateExpression env (stopZoom pair.1).toDouble (stopZoom pair.2).toDouble
    ((stopValue pair.1).toDouble * maxOpacity) ((stopValue pair.2).toDouble * maxOpacity) base 1

/-- The branch of an opacity conditional for two consecutive stops. -/
def opacityBranch (env : Env) (base : ℚ) (maxOpacity : Int) (pair : QVariant × QVariant) :
    ZoomBranch :=
  { atLeast := some ((stopZoom pair.1).toString env),
    below := some ((stopZoom pair.2).toString env),
    result := setAlpha (pairAlpha env base maxOpacity pair) }

/-- The branches of the opacity conditional of a stops list with the first stop `first`
and the last stop `last`: below the first stop, between two consecutive stops, and from
the last stop on. -/
def opacityBranches (env : Env) (base : ℚ) (maxOpacity : Int) (stops : QVariantList)
    (first last : QVariant) : List ZoomBranch :=
  { atLeast := none, below := some ((stopZoom first).toString env),
    result := setAlpha (stopAlpha env maxOpacity first) }
    :: ((stopPairs stops).map (opacityBranch env base maxOpacity)
      ++ [{ atLeast := some ((stopZoom last).toString env), below := none,
            result := setAlpha (stopAlpha env maxOpacity last) }])

/-- The colour `parseColor` gives for the value of a stop: the colour of the text of a
string, the invalid colour otherwise. -/
def stopColor (env : Env) (stop : QVariant) : QColor :=
  if (stopValue stop).type = QVariantType.String then env.parseColor ((stopValue stop).toString env)
  else QColor.invalid

/-- The branch of a colour conditional for two consecutive stops: the four components are
interpolated each on its own between the components of the two colours. -/
def colorBranch (env : Env) (base : ℚ) (pair : QVariant × QVariant) : ZoomBranch :=
  let bz := (stopZoom pair.1).toString env
  let tz := (stopZoom pair.2).toString env
  let bottomColor := colorAsHslaComponents env (stopColor env pair.1)
  let topColor := colorAsHslaComponents env (stopColor env pair.2)
  { atLeast := some bz,
    below := some tz,
    result := colorHsla
      (interpolateExpression env (QString.toDouble bz) (QString.toDouble tz)
        bottomColor.1 topColor.1 base 1)
      (interpolateExpression env (QString.toDouble bz) (QString.toDouble tz)
        bottomColor.2.1 topColor.2.1 base 1)
      (interpolateExpression env (QString.toDouble bz) (QString.toDouble tz)
        bottomColor.2.2.1 topColor.2.2.1 base 1)
      (interpolateExpression env (QString.toDouble bz) (QString.toDouble tz)
        bottomColor.2.2.2 topColor.2.2.2 base 1) }

/-- The branches of the colour conditional of a stops list with the last stop `last`:
between two consecutive stops, and from the last stop on. -/
def colorBranches (env : Env) (base : ℚ) (stops : QVariantList) (last : QVariant) :
    List ZoomBranch :=
  (stopPairs stops).map (colorBranch env base)
    ++ [{ atLeast := some ((stopZoom last).toString env), below := none,
          result := hslaOf env (stopColor env last) }]

end QgsMapBoxGlStyleConverter

/-! ## Notions of the properties of the labels -/

namespace QgsMapBoxGlStyleConverter

/-- A symbol layer whose layout defines `text-field`. -/
def definesLabel (env : Env) (layer : QVariant) : Bool :=
  layerType env layer = "symbol" && QVariantMap.contains layer.toMap "layout"
    && QVariantMap.contains (QVariantMap.value layer.toMap "layout").toMap "text-field"

/-- A layer with a `paint` key. -/
def hasPaint (layer : QVariant) : Bool := QVariantMap.contains layer.toMap "paint"

end QgsMapBoxGlStyleConverter

/-! ## The steps of `parseSymbolLayerAsRenderer`

The routine `parseSymbolLayerAsRenderer` for a layer placed along lines, cut at the end of
each of its layout properties: a step is the code of the routine for one property, and
hands the variables it may have assigned to the rest of the routine, `next`. -/

namespace QgsMapBoxGlStyleConverter

open SymbolLayerProperty

/-- The step of `parseSymbolLayerAsRenderer` for `symbol-spacing`. -/
def symbolSpacingStep {ρ : Type} (env : Env) (jsonLayout : QVariantMap) (context : QgsMapBoxGlStyleConversionContext)
    (next : QgsPropertyCollection SymbolLayerProperty → ℚ → Conv ρ) : Conv ρ := do
  let mut ddProperties : QgsPropertyCollection SymbolLayerProperty := QgsPropertyCollection.empty
  let mut spacing : ℚ := -1
  if QVariantMap.contains jsonLayout "symbol-spacing" then
    let jsonSpacing := QVariantMap.value jsonLayout "symbol-spacing"
    match jsonSpacing.type with
    | QVariantType.Int | QVariantType.Double =>
      spacing := jsonSpacing.toDouble * context.pixelSizeConversionFactor
    | QVariantType.Map =>
      let (p, n) ← parseInterpolateByZoom env jsonSpacing.toMap context.pixelSizeConversionFactor
      spacing := n.getD spacing
      ddProperties := ddProperties.setProperty PropertyInterval p
    | QVariantType.List =>
      let (p, _, n) ← parseInterpolateListByZoom env jsonSpacing.toList PropertyType.Numeric
        context.pixelSizeConversionFactor 255
      spacing := n.getD spacing
      ddProperties := ddProperties.setProperty PropertyInterval p
    | _ => pushWarning "Skipping non-implemented symbol-spacing expression"
  next ddProperties spacing

/-- The step of `parseSymbolLayerAsRenderer` for `icon-rotation-alignment`. -/
def iconAlignmentStep {ρ : Type} (env : Env) (jsonLayout : QVariantMap)
    (next : Bool → Conv ρ) : Conv ρ := do
  let mut rotateMarkers := true
  if QVariantMap.contains jsonLayout "icon-rotation-alignment" then
    let alignment := (QVariantMap.value jsonLayout "icon-rotation-alignment").toString env
    if alignment = "map" ∨ alignment = "auto" then
      rotateMarkers := true
    else if alignment = "viewport" then
      rotateMarkers := false
  next rotateMarkers

/-- The step of `parseSymbolLayerAsRenderer` for `icon-rotate`. -/
def iconRotateStep {ρ : Type} (env : Env) (jsonLayout : QVariantMap) (context : QgsMapBoxGlStyleConversionContext)
    (next : QgsPropertyCollection SymbolLayerProperty → ℚ → Conv ρ) : Conv ρ := do
  let mut markerDdProperties : QgsPropertyCollection SymbolLayerProperty := QgsPropertyCollection.empty
  let mut rotation : ℚ := 0
  if QVariantMap.contains jsonLayout "icon-rotate" then
    let jsonIconRotate := QVariantMap.value jsonLayout "icon-rotate"
    match jsonIconRotate.type with
    | QVariantType.Int | QVariantType.Double =>
      rotation := jsonIconRotate.toDouble
    | QVariantType.Map =>
      let (p, n) ← parseInterpolateByZoom env jsonIconRotate.toMap context.pixelSizeConversionFactor
      rotation := n.getD rotation
      markerDdProperties := markerDdProperties.setProperty PropertyAngle p
    | QVariantType.List =>
      let (p, _, n) ← parseInterpolateListByZoom env jsonIconRotate.toList PropertyType.Numeric
        context.pixelSizeConversionFactor 255
      rotation := n.getD rotation
      markerDdProperties := markerDdProperties.setProperty PropertyAngle p
    | _ => pushWarning "Skipping non-implemented icon-rotate expression"
  next markerDdProperties rotation

/-- The end of `parseSymbolLayerAsRenderer`: the marker of the sprite and the line of
markers. -/
def markerLineTail (env : Env) (jsonLayout : QVariantMap)
    (rendererStyle : QgsVectorTileBasicRendererStyle) (context : QgsMapBoxGlStyleConversionContext)
    (ddProperties : QgsPropertyCollection SymbolLayerProperty) (spacing : ℚ) (rotateMarkers : Bool)
    (markerDdProperties : QgsPropertyCollection SymbolLayerProperty) (rotation : ℚ) :
    Conv (Bool × QgsVectorTileBasicRendererStyle) := do
  let (sprite, spriteWidth, _) ←
    retrieveSpriteAsBase64 env ((QVariantMap.value jsonLayout "icon-image").toString env) context
  let hasSprite : Bool := ¬ QString.isEmpty sprite
  let markerLayer : QgsRasterMarkerSymbolLayer :=
    { path := if hasSprite then some sprite else none,
      size := if hasSprite then some (context.pixelSizeConversionFactor * spriteWidth) else none,
      sizeUnit := if hasSprite then some context.targetUnit else none,
      dataDefinedProperties := markerDdProperties,
      angle := rotation,
      opacity := none }
  let lineSymbol := QgsSymbolLayer.markerLine rotateMarkers (if spacing > 0 then spacing else 1)
    context.targetUnit ddProperties
    (if spacing ≤ 0 then MarkerPlacement.CentralPoint else MarkerPlacement.Interval) markerLayer
  let symbol : QgsSymbol :=
    { symbolLayers := [lineSymbol], outputUnit := some context.targetUnit, opacity := none }
  pure (true, { rendererStyle with geometryType := GeometryType.LineGeometry, symbol := some symbol })

/-- The routine `parseSymbolLayerAsRenderer` as the sequence of its steps. -/
def parseSymbolLayerAsRendererSteps (env : Env) (jsonLayer : QVariantMap)
    (rendererStyle : QgsVectorTileBasicRendererStyle) (context : QgsMapBoxGlStyleConversionContext) :
    Conv (Bool × QgsVectorTileBasicRendererStyle) :=
  if ¬ QVariantMap.contains jsonLayer "layout" then do
    pushWarning ("Style layer " ++ (QVariantMap.value jsonLayer "id").toString env
      ++ " has no layout property, skipping")
    pure (false, rendererStyle)
  else
    let jsonLayout := (QVariantMap.value jsonLayer "layout").toMap
    if (QVariantMap.value jsonLayout "symbol-placement").toString env = "line" then
      symbolSpacingStep env jsonLayout context fun ddProperties spacing =>
      iconAlignmentStep env jsonLayout fun rotateMarkers =>
      iconRotateStep env jsonLayout context fun markerDdProperties rotation =>
      markerLineTail env jsonLayout rendererStyle context ddProperties spacing rotateMarkers
        markerDdProperties rotation
    else
      pure (false, rendererStyle)

/-- What the step for `symbol-spacing` hands on: the properties and the spacing. -/
def symbolSpacingOutcome (env : Env) (jsonLayout : QVariantMap) (context : QgsMapBoxGlStyleConversionContext) :
    Conv (QgsPropertyCollection SymbolLayerProperty × ℚ) :=
  symbolSpacingStep env jsonLayout context fun ddProperties spacing => pure (ddProperties, spacing)

/-- What the step for `icon-rotation-alignment` hands on: whether the markers rotate. -/
def iconAlignmentOutcome (env : Env) (jsonLayout : QVariantMap) : Conv Bool :=
  iconAlignmentStep env jsonLayout fun rotateMarkers => pure rotateMarkers

/-- What the step for `icon-rotate` hands on: the properties of the marker and the
rotation. -/
def iconRotateOutcome (env : Env) (jsonLayout : QVariantMap) (context : QgsMapBoxGlStyleConversionContext) :
    Conv (QgsPropertyCollection SymbolLayerProperty × ℚ) :=
  iconRotateStep env jsonLayout context fun markerDdProperties rotation =>
    pure (markerDdProperties, rotation)

/-- The line of markers `parseSymbolLayerAsRenderer` makes from a spacing: markers at the
interval of the spacing when the spacing is positive, one marker at the central point
otherwise. -/
def markerLineOf (context : QgsMapBoxGlStyleConversionContext) (rotateMarkers : Bool) (spacing : ℚ)
    (ddProperties : QgsPropertyCollection SymbolLayerProperty) (marker : QgsRasterMarkerSymbolLayer) : QgsSymbolLayer :=
  QgsSymbolLayer.markerLine rotateMarkers (if spacing > 0 then spacing else 1)
    context.targetUnit ddProperties
    (if spacing ≤ 0 then MarkerPlacement.CentralPoint else MarkerPlacement.Interval) marker

end QgsMapBoxGlStyleConverter

/-! ## Sample collaborators and documents -/

namespace Sample

/-- Collaborators for the sample runs: numbers print as their integer part, colours do
not parse, no font is known and an image crops to itself. -/
def env : Env :=
  { doubleToString := fun q => QString.ofInt (Rat.floor q),
    number := fun q => QString.ofInt (Rat.floor q),
    parseColor := fun _ => QColor.invalid,
    hslHue := fun _ => -1,
    hslSaturation := fun _ => 0,
    lightness := fun _ => 0,
    fontFamilyHasStyle := fun _ _ => false,
    imageCopy := fun image _ _ _ _ => image,
    pngBase64 := fun _ => "" }

/-- A background layer and a filtered, hidden fill layer. -/
def layersBefore : QVariantList :=
  [QVariant.map [("id", QVariant.string "bg"), ("type", QVariant.string "background")],
   QVariant.map [("id", QVariant.string "water"), ("type", QVariant.string "fill"),
     ("source-layer", QVariant.string "hydro"), ("minzoom", QVariant.int 3),
     ("visibility", QVariant.string "none"),
     ("filter", QVariant.list [QVariant.string "==", QVariant.string "class", QVariant.string "lake"]),
     ("paint", QVariant.map [])]]

/-- A layer of the unknown type raster. -/
def rasterLayer : QVariant :=
  QVariant.map [("id", QVariant.string "sat"), ("type", QVariant.string "raster")]

/-- A symbol layer with a label and a line layer without paint. -/
def layersAfter : QVariantList :=
  [QVariant.map [("id", QVariant.string "label"), ("type", QVariant.string "symbol"),
     ("source-layer", QVariant.string "place"), ("maxzoom", QVariant.int 14),
     ("layout", QVariant.map [("text-field", QVariant.string "\x7bname\x7d")]),
     ("paint", QVariant.map [])],
   QVariant.map [("id", QVariant.string "road"), ("type", QVariant.string "line")]]

/-- The layer list of the three parts above. -/
def layers : QVariantList := layersBefore ++ rasterLayer :: layersAfter

/-- The document with the one layer given. -/
def document (layer : QVariantMap) : QVariantMap :=
  [("layers", QVariant.list [QVariant.map layer])]

/-- A fill layer whose filter is the list `["!"]`. -/
def negatedEmptyDocument : QVariantMap :=
  document [("id", QVariant.string "a"), ("type", QVariant.string "fill"),
    ("filter", QVariant.list [QVariant.string "!"]), ("paint", QVariant.map [])]

/-- A fill layer whose filter is the list `["!", "x"]`. -/
def negatedScalarDocument : QVariantMap :=
  document [("id", QVariant.string "a"), ("type", QVariant.string "fill"),
    ("filter", QVariant.list [QVariant.string "!", QVariant.string "x"]), ("paint", QVariant.map [])]

/-- A line layer whose `line-dasharray` is a map without `stops`. -/
def dashWithoutStopsDocument : QVariantMap :=
  document [("id", QVariant.string "a"), ("type", QVariant.string "line"),
    ("paint", QVariant.map [("line-dasharray", QVariant.map [("base", QVariant.int 1)])])]

/-- A line layer whose `line-dasharray` is a map with an empty `stops` list. -/
def dashEmptyStopsDocument : QVariantMap :=
  document [("id", QVariant.string "a"), ("type", QVariant.string "line"),
    ("paint", QVariant.map [("line-dasharray", QVariant.map [("stops", QVariant.list [])])])]

/-- A symbol layer whose `text-field` is the template `Name: {name}`. -/
def literalBeforeTokenDocument : QVariantMap :=
  document [("id", QVariant.string "a"), ("type", QVariant.string "symbol"),
    ("layout", QVariant.map [("text-field", QVariant.string "Name: \x7bname\x7d")]),
    ("paint", QVariant.map [])]

/-- A symbol layer whose `text-anchor` is the empty list. -/
def emptyAnchorDocument : QVariantMap :=
  document [("id", QVariant.string "a"), ("type", QVariant.string "symbol"),
    ("layout", QVariant.map [("text-field", QVariant.string "x"), ("text-anchor", QVariant.list [])]),
    ("paint", QVariant.map [])]

/-- A fill layer with an empty paint map. -/
def fillDocument : QVariantMap :=
  document [("id", QVariant.string "water"), ("type", QVariant.string "fill"),
    ("paint", QVariant.map [])]

/-- A document without a `layers` key. -/
def noLayersDocument : QVariantMap := [("version", QVariant.int 8)]

/-- A layer of the unknown type raster whose filter has the unsupported operator `within`. -/
def unknownTypeDocument : QVariantMap :=
  document [("id", QVariant.string "sat"), ("type", QVariant.string "raster"),
    ("filter", QVariant.list [QVariant.string "within", QVariant.string "area"])]

/-- The decimals of a fraction below one, at most `digits` of them. -/
def decimals : Nat → ℚ → List Char
  | 0, _ => []
  | digits + 1, q =>
    if q = 0 then []
    else Nat.digitChar (Rat.floor (q * 10)).toNat :: decimals digits (q * 10 - Rat.floor (q * 10))

/-- Text of a number that is not negative: its integer part, then the decimals if any. -/
def unsignedNumber (q : ℚ) : String :=
  if q = Rat.floor q then QString.ofInt (Rat.floor q)
  else QString.ofInt (Rat.floor q) ++ "." ++ String.mk (decimals 6 (q - Rat.floor q))

/-- Text of a number in decimal writing with at most six decimals. -/
def number (q : ℚ) : String :=
  if q < 0 then "-" ++ unsignedNumber (-q) else unsignedNumber q

/-- The colour white. -/
def white : QColor := { isValid := true, red := 255, green := 255, blue := 255, alpha := 255 }

/-- The colour black. -/
def black : QColor := { isValid := true, red := 0, green := 0, blue := 0, alpha := 255 }

/-- The colour blue. -/
def blue : QColor := { isValid := true, red := 0, green := 0, blue := 255, alpha := 255 }

/-- A colour parser that knows the three colours above by their hexadecimal names. -/
def parseColor (text : String) : QColor :=
  if text = "#ffffff" then white
  else if text = "#000000" then black
  else if text = "#0000ff" then blue
  else QColor.invalid

/-- Collaborators that print numbers in decimal writing and know white, black and blue:
a grey has the hue -1 and the saturation 0, the only other colour is blue. -/
def paletteEnv : Env :=
  { env with
    doubleToString := number,
    number := number,
    parseColor := parseColor,
    hslHue := fun c => if c.red = c.green ∧ c.green = c.blue then -1 else 240,
    hslSaturation := fun c => if c.red = c.green ∧ c.green = c.blue then 0 else 255,
    lightness := fun c =>
      ((max c.red (max c.green c.blue) + min c.red (min c.green c.blue)) / 2 : Nat) }

/-- A stops map with the stops `(5, 27)` and `(13, 29)` and the base given. -/
def twoStops (base : QVariant) : QVariantMap :=
  [("base", base),
   ("stops", QVariant.list [QVariant.list [QVariant.int 5, QVariant.int 27],
      QVariant.list [QVariant.int 13, QVariant.int 29]])]

/-- A stops map whose two values, 0 and 10⁻¹⁶, differ by less than the tolerance of
`qgsDoubleNear`. -/
def nearStops : QVariantMap :=
  [("stops", QVariant.list [QVariant.list [QVariant.int 5, QVariant.double 0],
      QVariant.list [QVariant.int 13, QVariant.double (1 / 10 ^ 16)]])]

/-- A numeric stops map with the three stops `(0, 1)`, `(5, 2)` and `(10, 3)`. -/
def threeStops : QVariantMap :=
  [("stops", QVariant.list [QVariant.list [QVariant.int 0, QVariant.int 1],
      QVariant.list [QVariant.int 5, QVariant.int 2],
      QVariant.list [QVariant.int 10, QVariant.int 3]])]

/-- A colour stops map from white at the zoom 0 to black at the zoom 10. -/
def greyStops : QVariantMap :=
  [("stops", QVariant.list [QVariant.list [QVariant.int 0, QVariant.string "#ffffff"],
      QVariant.list [QVariant.int 10, QVariant.string "#000000"]])]

/-- A point stops map with the three stops `(10, [0, 0])`, `(12, [2, 2])`, `(14, [4, 4])`. -/
def pointStops : QVariantMap :=
  [("stops", QVariant.list
      [QVariant.list [QVariant.int 10, QVariant.list [QVariant.int 0, QVariant.int 0]],
       QVariant.list [QVariant.int 12, QVariant.list [QVariant.int 2, QVariant.int 2]],
       QVariant.list [QVariant.int 14, QVariant.list [QVariant.int 4, QVariant.int 4]]])]

/-- Collaborators that act as Qt does on white and black: the two hexadecimal names parse
to the two colours, which have no hue and no saturation and the lightness 255 and 0, and
the numbers 0, 10, 100 and 255 print as integers. -/
def KnowsGreys (env : Env) : Prop :=
  env.parseColor "#ffffff" = white ∧ env.parseColor "#000000" = black
  ∧ env.hslHue white = -1 ∧ env.hslHue black = -1
  ∧ env.hslSaturation white = 0 ∧ env.hslSaturation black = 0
  ∧ env.lightness white = 255 ∧ env.lightness black = 0
  ∧ env.number 0 = "0" ∧ env.number 10 = "10" ∧ env.number 100 = "100"
  ∧ env.number 255 = "255"

/-- An `interpolate` list with the technique and the input given and the stops `(5, 27)`
and `(13, 29)`. -/
def interpolateList (technique : QVariantList) (input : String) : QVariantList :=
  [QVariant.string "interpolate", QVariant.list technique, QVariant.list [QVariant.string input],
   QVariant.int 5, QVariant.int 27, QVariant.int 13, QVariant.int 29]

/-- The fill layer `water` with the static fill colour `#0000ff`. -/
def waterLayer : QVariantMap :=
  [("id", QVariant.string "water"), ("type", QVariant.string "fill"),
   ("source-layer", QVariant.string "water"),
   ("paint", QVariant.map [("fill-color", QVariant.string "#0000ff")])]

/-- The document with the one layer `water`. -/
def waterDocument : QVariantMap := document waterLayer

/-- A fill layer whose fill colour goes from white at the zoom 0 to black at the zoom 10,
with the other paint properties given. -/
def greyFillLayer (others : QVariantMap) : QVariantMap :=
  [("id", QVariant.string "land"), ("type", QVariant.string "fill"),
   ("paint", QVariant.map (("fill-color", QVariant.map greyStops) :: others))]

/-- A fill opacity that goes from 0 at the zoom 5 to 1 at the zoom 13. -/
def opacityStops : QVariantMap :=
  [("stops", QVariant.list [QVariant.list [QVariant.int 5, QVariant.int 0],
      QVariant.list [QVariant.int 13, QVariant.int 1]])]

/-- The fill layer with the static fill colour `#0000ff` and an opacity that depends on
the zoom. -/
def fadingWaterLayer : QVariantMap :=
  [("id", QVariant.string "water"), ("type", QVariant.string "fill"),
   ("paint", QVariant.map [("fill-color", QVariant.string "#0000ff"),
      ("fill-opacity", QVariant.map opacityStops)])]

/-- The fill layer whose fill colour goes from white to black and whose opacity depends
on the zoom. -/
def fadingGreyLayer : QVariantMap := greyFillLayer [("fill-opacity", QVariant.map opacityStops)]

/-- The data-defined fill colour of the stops from white at the zoom 0 to black at the
zoom 10. -/
def greyProperty : QgsProperty :=
  QgsProperty.fromExpression
    ("CASE WHEN @zoom_level >= 0 AND @zoom_level < 10 THEN "
      ++ "color_hsla(0, 0, scale_linear(@zoom_level,0,10,100,0), 255) "
      ++ "WHEN @zoom_level >= 10 THEN color_hsla(0, 0, 0, 255) "
      ++ "ELSE color_hsla(0, 0, 0, 255) END")

/-- Three numeric stops, the second of which has a list as its zoom. -/
def listZoomStops : QVariantList :=
  [QVariant.list [QVariant.int 0, QVariant.int 1],
   QVariant.list [QVariant.list [QVariant.string "zoom"], QVariant.int 2],
   QVariant.list [QVariant.int 10, QVariant.int 3]]

/-- The symbol layer `label` of the sample layer list. -/
def labelLayer : QVariant :=
  QVariant.map [("id", QVariant.string "label"), ("type", QVariant.string "symbol"),
    ("source-layer", QVariant.string "place"), ("maxzoom", QVariant.int 14),
    ("layout", QVariant.map [("text-field", QVariant.string "\x7bname\x7d")]),
    ("paint", QVariant.map [])]

/-- An opacity stops map with the three stops `(0, 0)`, `(5, 1)`, `(10, 0)`. -/
def fadeStops : QVariantMap :=
  [("stops", QVariant.list [QVariant.list [QVariant.int 0, QVariant.int 0],
      QVariant.list [QVariant.int 5, QVariant.int 1],
      QVariant.list [QVariant.int 10, QVariant.int 0]])]

/-- A symbol layer with a `text-field` and no paint map. -/
def unpaintedLabelLayer : QVariantMap :=
  [("id", QVariant.string "label"), ("type", QVariant.string "symbol"),
   ("layout", QVariant.map [("text-field", QVariant.string "\x7bname\x7d")])]

/-- A symbol layer without `text-field` whose icons are placed along lines every 250
pixels. -/
def iconLineLayer : QVariant :=
  QVariant.map [("id", QVariant.string "oneway"), ("type", QVariant.string "symbol"),
    ("layout", QVariant.map [("icon-image", QVariant.string "arrow"),
      ("symbol-placement", QVariant.string "line"), ("symbol-spacing", QVariant.int 250)])]

/-- A symbol layer with nothing but an `icon-image` in its layout. -/
def iconLayer : QVariant :=
  QVariant.map [("id", QVariant.string "poi"), ("type", QVariant.string "symbol"),
    ("layout", QVariant.map [("icon-image", QVariant.string "arrow")])]

/-- A layer of the unknown type raster whose filter is the list `["!"]`. -/
def negatedRasterLayer : QVariant :=
  QVariant.map [("id", QVariant.string "sat"), ("type", QVariant.string "raster"),
    ("filter", QVariant.list [QVariant.string "!"])]

/-- The fill layer `water` with an empty paint map. -/
def plainFillLayer : QVariant :=
  QVariant.map [("id", QVariant.string "water"), ("type", QVariant.string "fill"),
    ("paint", QVariant.map [])]

/-- The symbol layer `a` with a paint map whose `text-field` is the template
`Name: {name}`. -/
def literalBeforeTokenLayer : QVariant :=
  QVariant.map [("id", QVariant.string "a"), ("type", QVariant.string "symbol"),
    ("layout", QVariant.map [("text-field", QVariant.string "Name: \x7bname\x7d")]),
    ("paint", QVariant.map [])]

end Sample

/-! ## Properties

Lemmas first, then one theorem for each property of the specification that was settled,
named after what it states; its doc comment names the property. -/

namespace Conv

@[simp] theorem pure_eq {α : Type} (a : α) : (pure a : Conv α) = Conv.ok a [] := rfl

@[simp] theorem bind_eq {α β : Type} (x : Conv α) (f : α → Conv β) : (x >>= f) = Conv.bind x f := rfl

@[simp] theorem bind_fault {α β : Type} (e : Fault) (f : α → Conv β) :
    Conv.bind (Conv.fault e) f = Conv.fault e := rfl

theorem bind_ok {α β : Type} (a : α) (w : List String) (f : α → Conv β) :
    Conv.bind (Conv.ok a w) f
      = match f a with
        | Conv.fault e => Conv.fault e
        | Conv.ok b w2 => Conv.ok b (w ++ w2) := rfl

end Conv

namespace QString

theorem digitChar_ne_n (m : Nat) (h : m < 10) : Nat.digitChar m ≠ 'n' := by
  interval_cases m <;> decide

theorem toDigitsCore_no_n (fuel : Nat) :
    ∀ (n : Nat) (ds : List Char), 'n' ∉ ds → 'n' ∉ Nat.toDigitsCore 10 fuel n ds := by
  induction fuel with
  | zero => intro n ds h; simpa [Nat.toDigitsCore] using h
  | succ fuel ih =>
    intro n ds h
    have hd : 'n' ∉ Nat.digitChar (n % 10) :: ds := by
      intro hm
      rcases List.mem_cons.mp hm with hm | hm
      · exact digitChar_ne_n (n % 10) (Nat.mod_lt _ (by decide)) hm.symm
      · exact h hm
    simp only [Nat.toDigitsCore]
    split
    · exact hd
    · exact ih _ _ hd

theorem natRepr_no_n (n : Nat) : 'n' ∉ (Nat.repr n).data := by
  simp only [Nat.repr, Nat.toDigits, List.asString]
  exact toDigitsCore_no_n _ _ _ (by simp)

/-- The text of an integer is never the word none. -/
theorem ofInt_ne_none (i : Int) : ofInt i ≠ "none" := by
  intro h
  have hd : (ofInt i).data = ['n', 'o', 'n', 'e'] := by rw [h]
  cases i with
  | ofNat n =>
    have := natRepr_no_n n
    simp only [ofInt, Int.repr] at hd
    rw [hd] at this
    simp at this
  | negSucc n =>
    simp only [ofInt, Int.repr] at hd
    have h2 : ("-" ++ Nat.repr (Nat.succ n)).data = '-' :: (Nat.repr (Nat.succ n)).data := rfl
    rw [h2] at hd
    injection hd with h3 _
    exact absurd h3 (by decide)

end QString

namespace QVariantMap

theorem lookup_of_not_contains (m : QVariantMap) (key : String)
    (h : contains m key = false) : m.lookup key = none := by
  induction m with
  | nil => rfl
  | cons kv rest ih =>
    obtain ⟨k, v⟩ := kv
    simp only [contains, List.any_cons, Bool.or_eq_false_iff] at h
    have hk : (key == k) = false := by
      have := h.1
      simp only [beq_eq_false_iff_ne, ne_eq] at this ⊢
      exact fun e => this e.symm
    simp only [List.lookup, hk]
    exact ih h.2

theorem valueOr_of_not_contains (m : QVariantMap) (key : String) (dflt : QVariant)
    (h : contains m key = false) : valueOr m key dflt = dflt := by
  simp [valueOr, lookup_of_not_contains m key h]

end QVariantMap

namespace QgsMapBoxGlStyleConverter

/-! ### The filter translator -/

theorem operatorOf_comparison (op : String) (hop : op ∈ ["==", "!=", ">=", ">", "<=", "<"]) :
    operatorOf op = Operator.comparison := by
  simp only [List.mem_cons, List.mem_singleton, List.not_mem_nil, or_false] at hop
  rcases hop with h | h | h | h | h | h <;> subst h <;> rfl

theorem comparisonOperator_eq (op : String) :
    comparisonOperator op = if op = "==" then "IS" else if op = "!=" then "IS NOT" else op := rfl

/-- C10: for every comparison filter `[op, key, value]` with `op` one of `==`, `!=`, `>=`,
`>`, `<=`, `<`, `parseExpression` runs `parseValue` on the value and returns the text
`parseKey(key)`, a blank, the operator (`IS` for `==`, `IS NOT` for `!=`, the operator
itself otherwise), a blank and the text of the value, with the warnings of `parseValue`;
and `["==", ["get", "class"], "river"]` gives `class IS 'river'` without a warning. -/
theorem parseExpression_comparison (env : Env) (op : String) (key value : QVariant)
    (hop : op ∈ ["==", "!=", ">=", ">", "<=", "<"]) :
    parseExpression env [QVariant.string op, key, value]
      = Conv.bind (parseValue env value) (fun text =>
          Conv.ok (parseKey env key ++ " "
            ++ (if op = "==" then "IS" else if op = "!=" then "IS NOT" else op) ++ " " ++ text) [])
    ∧ parseExpression env
        [QVariant.string "==", QVariant.list [QVariant.string "get", QVariant.string "class"],
          QVariant.string "river"]
      = Conv.ok "class IS 'river'" [] := by
  refine ⟨?_, rfl⟩
  unfold parseExpression
  simp only [QVariant.toString, operatorOf_comparison op hop, comparisonOperator_eq]
  rfl

/-- Witness of C10: the filter `["<", "height", 3]` and the filter `["!=", ["get", "a"], "b"]`. -/
theorem parseExpression_comparison_witness :
    "<" ∈ ["==", "!=", ">=", ">", "<=", "<"]
    ∧ parseExpression Sample.env [QVariant.string "<", QVariant.string "height", QVariant.int 3]
      = Conv.ok "\"height\" < 3" []
    ∧ parseExpression Sample.env
        [QVariant.string "!=", QVariant.list [QVariant.string "get", QVariant.string "a"],
          QVariant.string "b"]
      = Conv.ok "a IS NOT 'b'" [] := by
  refine ⟨by decide, ?_, ?_⟩
  · rw [(parseExpression_comparison Sample.env "<" (QVariant.string "height") (QVariant.int 3)
      (by decide)).1]
    rfl
  · rw [(parseExpression_comparison Sample.env "!=" _ _ (by decide)).1]
    rfl

/-! ### The loop of `parseLayers` -/

theorem toInt_minus_one : (QVariant.string "-1").toInt = -1 := by decide

theorem parseLayer_background (env : Env) (context : QgsMapBoxGlStyleConversionContext)
    (state : LoopState) (layer : QVariant) (h : isBackground env layer = true) :
    parseLayer env context state layer = Except.ok state := by
  simp only [isBackground, layerType, decide_eq_true_eq] at h
  simp [parseLayer, h]

/-- The three ways the body of the loop completes: a background layer, an unknown type,
and a converted layer. -/
theorem parseLayer_cases (env : Env) (context : QgsMapBoxGlStyleConversionContext)
    (state next : LoopState) (layer : QVariant)
    (h : parseLayer env context state layer = Except.ok next) :
    (isBackground env layer = true ∧ next = state)
    ∨ (isBackground env layer = false ∧
        ∃ filterExpression filterWarnings layerWarnings,
          layerFilter env layer.toMap = Conv.ok filterExpression filterWarnings
          ∧ ((dispatchLayer env layer.toMap (layerType env layer) context = Conv.ok none layerWarnings
              ∧ next = { state with
                  mWarnings := state.mWarnings ++ ["Skipping unknown layer type: " ++ layerType env layer],
                  contextWarnings := state.contextWarnings ++ filterWarnings ++ layerWarnings })
            ∨ (∃ styles, dispatchLayer env layer.toMap (layerType env layer) context
                  = Conv.ok (some styles) layerWarnings
              ∧ next =
                { mWarnings := state.mWarnings ++ (state.contextWarnings ++ filterWarnings ++ layerWarnings),
                  contextWarnings := [],
                  rendererStyles :=
                    if styles.hasRendererStyle then
                      state.rendererStyles ++ [{ styles.rendererStyle with
                        styleName := layerId env layer,
                        layerName := (QVariantMap.value layer.toMap "source-layer").toString env,
                        filterExpression := filterExpression,
                        minZoomLevel := (QVariantMap.valueOr layer.toMap "minzoom" (QVariant.string "-1")).toInt,
                        maxZoomLevel := (QVariantMap.valueOr layer.toMap "maxzoom" (QVariant.string "-1")).toInt,
                        enabled := layerEnabled env layer }]
                    else state.rendererStyles,
                  labelingStyles :=
                    if styles.hasLabelingStyle then
                      state.labelingStyles ++ [{ styles.labelingStyle with
                        styleName := layerId env layer,
                        layerName := (QVariantMap.value layer.toMap "source-layer").toString env,
                        filterExpression := filterExpression,
                        minZoomLevel := (QVariantMap.valueOr layer.toMap "minzoom" (QVariant.string "-1")).toInt,
                        maxZoomLevel := (QVariantMap.valueOr layer.toMap "maxzoom" (QVariant.string "-1")).toInt,
                        enabled := layerEnabled env layer }]
                    else state.labelingStyles }))) := by
  by_cases hb : isBackground env layer = true
  · left
    rw [parseLayer_background env context state layer hb] at h
    exact ⟨hb, (Except.ok.inj h).symm⟩
  · right
    have hb' : isBackground env layer = false := by simpa using hb
    refine ⟨hb', ?_⟩
    have hty : ¬ (QVariantMap.value layer.toMap "type").toString env = "background" := by
      simpa [isBackground, layerType] using hb'
    unfold parseLayer at h
    simp only [hty, if_false] at h
    cases hf : layerFilter env layer.toMap with
    | fault f => rw [hf] at h; cases h
    | ok filterExpression filterWarnings =>
      rw [hf] at h
      simp only at h
      cases hd : dispatchLayer env layer.toMap ((QVariantMap.value layer.toMap "type").toString env) context with
      | fault f => rw [hd] at h; cases h
      | ok outcome layerWarnings =>
        rw [hd] at h
        refine ⟨filterExpression, filterWarnings, layerWarnings, rfl, ?_⟩
        cases outcome with
        | none =>
          left
          exact ⟨hd, (Except.ok.inj h).symm⟩
        | some styles =>
          right
          exact ⟨styles, hd, (Except.ok.inj h).symm⟩

theorem carriesMetadata_of_filter (env : Env) (layer : QVariant) (filterExpression : String)
    (filterWarnings : List String)
    (hf : layerFilter env layer.toMap = Conv.ok filterExpression filterWarnings) :
    CarriesMetadata env layer (layerId env layer)
      ((QVariantMap.value layer.toMap "source-layer").toString env) filterExpression
      (QVariantMap.valueOr layer.toMap "minzoom" (QVariant.string "-1")).toInt
      (QVariantMap.valueOr layer.toMap "maxzoom" (QVariant.string "-1")).toInt := by
  refine ⟨rfl, rfl, ?_, ?_, rfl, rfl, ?_, ?_⟩
  · intro hc
    simp only [layerFilter, hc, if_true] at hf
    rw [hf]; rfl
  · intro hc
    simp only [layerFilter, hc] at hf
    have : (Conv.ok "" [] : Conv String) = Conv.ok filterExpression filterWarnings := hf
    injection this with h1 _
    exact h1.symm
  · intro hc
    rw [QVariantMap.valueOr_of_not_contains _ _ _ hc]; exact toInt_minus_one
  · intro hc
    rw [QVariantMap.valueOr_of_not_contains _ _ _ hc]; exact toInt_minus_one

/-- One layer adds at most one rendering rule and at most one labeling rule, each made
from the layer, exactly when the converter of the layer reported the style. -/
theorem parseLayer_styles (env : Env) (context : QgsMapBoxGlStyleConversionContext)
    (state next : LoopState) (layer : QVariant)
    (h : parseLayer env context state layer = Except.ok next) :
    (∃ added, next.rendererStyles = state.rendererStyles ++ added
      ∧ List.Forall₂ (RendererRuleOf env) added
          ([layer].filter (reportsRendererStyle env context)))
    ∧ (∃ added, next.labelingStyles = state.labelingStyles ++ added
      ∧ List.Forall₂ (LabelingRuleOf env) added
          ([layer].filter (reportsLabelingStyle env context))) := by
  rcases parseLayer_cases env context state next layer h with ⟨hb, rfl⟩ | ⟨hb, fe, fw, lw, hf, hcase⟩
  · have hs : layerStyles env context layer = none := by simp [layerStyles, hb]
    simp [reportsRendererStyle, reportsLabelingStyle, hs]
  · rcases hcase with ⟨hd, rfl⟩ | ⟨styles, hd, rfl⟩
    · have hs : layerStyles env context layer = none := by simp [layerStyles, hb, hd]
      simp [reportsRendererStyle, reportsLabelingStyle, hs]
    · have hs : layerStyles env context layer = some styles := by simp [layerStyles, hb, hd]
      have hm := carriesMetadata_of_filter env layer fe fw hf
      constructor
      · by_cases hr : styles.hasRendererStyle = true
        · refine ⟨_, by simp only [hr, if_true]; rfl, ?_⟩
          simp only [reportsRendererStyle, hs, hr, List.filter_cons_of_pos, List.filter_nil]
          exact List.Forall₂.cons ⟨hm, rfl⟩ List.Forall₂.nil
        · refine ⟨[], by simp [hr], ?_⟩
          simp [reportsRendererStyle, hs, hr]
      · by_cases hr : styles.hasLabelingStyle = true
        · refine ⟨_, by simp only [hr, if_true]; rfl, ?_⟩
          simp only [reportsLabelingStyle, hs, hr, List.filter_cons_of_pos, List.filter_nil]
          exact List.Forall₂.cons ⟨hm, rfl⟩ List.Forall₂.nil
        · refine ⟨[], by simp [hr], ?_⟩
          simp [reportsLabelingStyle, hs, hr]

/-- The loop adds, in the order of the layers, one rendering rule for each layer whose
converter reported a rendering style, and likewise for the labeling rules. -/
theorem parseLayersLoop_styles (env : Env) (context : QgsMapBoxGlStyleConversionContext)
    (layers : QVariantList) :
    ∀ (state final : LoopState), parseLayersLoop env context state layers = Except.ok final →
    (∃ added, final.rendererStyles = state.rendererStyles ++ added
      ∧ List.Forall₂ (RendererRuleOf env) added
          (layers.filter (reportsRendererStyle env context)))
    ∧ (∃ added, final.labelingStyles = state.labelingStyles ++ added
      ∧ List.Forall₂ (LabelingRuleOf env) added
          (layers.filter (reportsLabelingStyle env context))) := by
  induction layers with
  | nil =>
    intro state final h
    simp only [parseLayersLoop] at h
    cases h
    exact ⟨⟨[], by simp, by simp⟩, ⟨[], by simp, by simp⟩⟩
  | cons layer rest ih =>
    intro state final h
    simp only [parseLayersLoop] at h
    cases hstep : parseLayer env context state layer with
    | error f => rw [hstep] at h; cases h
    | ok next =>
      rw [hstep] at h
      simp only at h
      obtain ⟨⟨a1, ha1, hf1⟩, ⟨b1, hb1, hg1⟩⟩ := parseLayer_styles env context state next layer hstep
      obtain ⟨⟨a2, ha2, hf2⟩, ⟨b2, hb2, hg2⟩⟩ := ih next final h
      constructor
      · refine ⟨a1 ++ a2, by rw [ha2, ha1, List.append_assoc], ?_⟩
        have : (layer :: rest).filter (reportsRendererStyle env context)
            = [layer].filter (reportsRendererStyle env context)
              ++ rest.filter (reportsRendererStyle env context) := by
          rw [← List.filter_append]; rfl
        rw [this]
        exact List.rel_append hf1 hf2
      · refine ⟨b1 ++ b2, by rw [hb2, hb1, List.append_assoc], ?_⟩
        have : (layer :: rest).filter (reportsLabelingStyle env context)
            = [layer].filter (reportsLabelingStyle env context)
              ++ rest.filter (reportsLabelingStyle env context) := by
          rw [← List.filter_append]; rfl
        rw [this]
        exact List.rel_append hg1 hg2

/-- The rules of a completed `parseLayers` correspond, in order, to the layers whose
converter reported a style. -/
theorem parseLayers_styles (env : Env) (converter : ConverterState) (layers : QVariantList)
    (context : Option QgsMapBoxGlStyleConversionContext)
    (out : ConverterState × Option QgsMapBoxGlStyleConversionContext)
    (h : parseLayers env converter layers context = Except.ok out) :
    List.Forall₂ (RendererRuleOf env) (rendererStyles out.1)
        (layers.filter (reportsRendererStyle env (workingContext context)))
    ∧ List.Forall₂ (LabelingRuleOf env) (labelingStyles out.1)
        (layers.filter (reportsLabelingStyle env (workingContext context))) := by
  unfold parseLayers at h
  simp only at h
  split at h
  · cases h
  · rename_i final hloop
    obtain ⟨⟨a, ha, hfa⟩, ⟨b, hb, hfb⟩⟩ := parseLayersLoop_styles env _ layers _ final hloop
    cases h
    simp only [List.nil_append] at ha hb
    simp only [rendererStyles, labelingStyles, renderer, labeling, Option.getD_some, ha, hb]
    exact ⟨hfa, hfb⟩

theorem parseLayersLoop_append (env : Env) (context : QgsMapBoxGlStyleConversionContext)
    (before after : QVariantList) :
    ∀ state final, parseLayersLoop env context state (before ++ after) = Except.ok final →
      ∃ middle, parseLayersLoop env context state before = Except.ok middle
        ∧ parseLayersLoop env context middle after = Except.ok final := by
  induction before with
  | nil => intro state final h; exact ⟨state, rfl, h⟩
  | cons layer rest ih =>
    intro state final h
    simp only [List.cons_append, parseLayersLoop] at h ⊢
    cases hstep : parseLayer env context state layer with
    | error f => rw [hstep] at h; cases h
    | ok next =>
      rw [hstep] at h
      exact ih next final h

theorem parseLayer_mWarnings (env : Env) (context : QgsMapBoxGlStyleConversionContext)
    (state next : LoopState) (layer : QVariant)
    (h : parseLayer env context state layer = Except.ok next) :
    ∃ more, next.mWarnings = state.mWarnings ++ more := by
  rcases parseLayer_cases env context state next layer h with ⟨_, rfl⟩ | ⟨_, fe, fw, lw, _, hcase⟩
  · exact ⟨[], by simp⟩
  · rcases hcase with ⟨_, rfl⟩ | ⟨styles, _, rfl⟩
    · exact ⟨_, rfl⟩
    · exact ⟨_, rfl⟩

theorem parseLayersLoop_mWarnings (env : Env) (context : QgsMapBoxGlStyleConversionContext)
    (layers : QVariantList) :
    ∀ state final, parseLayersLoop env context state layers = Except.ok final →
      ∃ more, final.mWarnings = state.mWarnings ++ more := by
  induction layers with
  | nil => intro state final h; cases h; exact ⟨[], by simp⟩
  | cons layer rest ih =>
    intro state final h
    simp only [parseLayersLoop] at h
    cases hstep : parseLayer env context state layer with
    | error f => rw [hstep] at h; cases h
    | ok next =>
      rw [hstep] at h
      obtain ⟨m1, h1⟩ := parseLayer_mWarnings env context state next layer hstep
      obtain ⟨m2, h2⟩ := ih next final h
      exact ⟨m1 ++ m2, by rw [h2, h1, List.append_assoc]⟩

theorem parseLayersLoop_filter_background (env : Env) (context : QgsMapBoxGlStyleConversionContext)
    (layers : QVariantList) :
    ∀ state, parseLayersLoop env context state (layers.filter (fun layer => !isBackground env layer))
      = parseLayersLoop env context state layers := by
  induction layers with
  | nil => intro state; rfl
  | cons layer rest ih =>
    intro state
    by_cases hb : isBackground env layer = true
    · simp only [List.filter_cons, hb, Bool.not_true, Bool.false_eq_true, if_false, parseLayersLoop,
        parseLayer_background env context state layer hb]
      exact ih state
    · have hb' : isBackground env layer = false := by simpa using hb
      simp only [List.filter_cons, hb', Bool.not_false, if_true, parseLayersLoop]
      cases parseLayer env context state layer with
      | error f => rfl
      | ok next => exact ih next

theorem parseLayersLoop_only_background (env : Env) (context : QgsMapBoxGlStyleConversionContext)
    (layers : QVariantList) (state : LoopState) :
    parseLayersLoop env context state (layers.filter (isBackground env)) = Except.ok state := by
  induction layers with
  | nil => rfl
  | cons layer rest ih =>
    by_cases hb : isBackground env layer = true
    · simp only [hb, List.filter_cons_of_pos, parseLayersLoop,
        parseLayer_background env context state layer hb]
      exact ih
    · simp only [hb, Bool.false_eq_true, not_false_eq_true, List.filter_cons_of_neg]
      exact ih

theorem parseLayers_filter_background (env : Env) (converter : ConverterState)
    (layers : QVariantList) (context : Option QgsMapBoxGlStyleConversionContext) :
    parseLayers env converter (layers.filter (fun layer => !isBackground env layer)) context
      = parseLayers env converter layers context := by
  simp only [parseLayers, parseLayersLoop_filter_background]

theorem convert_layers (env : Env) (converter : ConverterState) (layers : QVariantList)
    (context : Option QgsMapBoxGlStyleConversionContext) :
    convert env converter [("layers", QVariant.list layers)] context
      = match parseLayers env { converter with mError := "", mWarnings := [] } layers context with
        | Except.error f => Except.error f
        | Except.ok (converted, context) => Except.ok (Result.Success, converted, context) := rfl

theorem dispatchLayer_unknown (env : Env) (context : QgsMapBoxGlStyleConversionContext)
    (layer : QVariant) (h : isUnknownType env layer = true) :
    dispatchLayer env layer.toMap (layerType env layer) context = Conv.ok none [] := by
  simp only [isUnknownType, Bool.and_eq_true, decide_eq_true_eq, ne_eq] at h
  obtain ⟨⟨⟨_, hf⟩, hl⟩, hs⟩ := h
  simp [dispatchLayer, hf, hl, hs]

theorem layerStyles_unknown (env : Env) (context : QgsMapBoxGlStyleConversionContext)
    (layer : QVariant) (h : isUnknownType env layer = true) :
    layerStyles env context layer = none := by
  simp [layerStyles, dispatchLayer_unknown env context layer h]

theorem parseLayer_unknown (env : Env) (context : QgsMapBoxGlStyleConversionContext)
    (state next : LoopState) (layer : QVariant) (hu : isUnknownType env layer = true)
    (h : parseLayer env context state layer = Except.ok next) :
    next.mWarnings = state.mWarnings ++ ["Skipping unknown layer type: " ++ layerType env layer]
    ∧ next.rendererStyles = state.rendererStyles ∧ next.labelingStyles = state.labelingStyles := by
  have hd := dispatchLayer_unknown env context layer hu
  rcases parseLayer_cases env context state next layer h with ⟨hb, _⟩ | ⟨_, fe, fw, lw, _, hcase⟩
  · simp [isUnknownType, isBackground] at hu hb
    exact absurd hb hu.1.1.1
  · rcases hcase with ⟨_, rfl⟩ | ⟨styles, hd2, _⟩
    · exact ⟨rfl, rfl, rfl⟩
    · rw [hd] at hd2; cases hd2

/-- The text of a value is the word none for the string none only. -/
theorem toString_eq_none_iff (env : Env) (hnum : ∀ d, env.doubleToString d ≠ "none")
    (v : QVariant) : v.toString env = "none" ↔ v = QVariant.string "none" := by
  cases v with
  | invalid => simp [QVariant.toString]
  | bool b => cases b <;> simp [QVariant.toString]
  | int i => simpa [QVariant.toString] using QString.ofInt_ne_none i
  | double d => simpa [QVariant.toString] using hnum d
  | string s => simp [QVariant.toString]
  | list l => simp [QVariant.toString]
  | map m => simp [QVariant.toString]

theorem layerEnabled_eq_false_iff (env : Env) (hnum : ∀ d, env.doubleToString d ≠ "none")
    (layer : QVariant) :
    layerEnabled env layer = false ↔ QVariantMap.value layer.toMap "visibility" = QVariant.string "none" := by
  simp [layerEnabled, toString_eq_none_iff env hnum]

theorem forall₂_map_styleName {α : Type} (env : Env) (name : α → String) (P : α → QVariant → Prop)
    (hP : ∀ r layer, P r layer → name r = layerId env layer) :
    ∀ (rules : List α) (layers : QVariantList), List.Forall₂ P rules layers →
      rules.map name = layers.map (layerId env) := by
  intro rules layers h
  induction h with
  | nil => rfl
  | cons hrl _ ih => simp [hP _ _ hrl, ih]

end QgsMapBoxGlStyleConverter

namespace QgsMapBoxGlStyleConverter

/-! ### The settled properties of the orchestrator -/

/-- C1: `convert` on the document whose one fill layer has the filter `["!", "x"]`: the
document has a `layers` key, and yet `convert` does not return `Success`: translating the
filter assigns element 0 of the empty list `expression.value( 1 ).toList()`, an access
out of range, which stops the call. -/
theorem convert_stops_on_negated_scalar_filter (env : Env) :
    QVariantMap.contains Sample.negatedScalarDocument "layers" = true
    ∧ convert env fresh Sample.negatedScalarDocument none = Except.error Fault.indexOutOfRange :=
  ⟨rfl, rfl⟩

/-- C2: one converter used twice: after a first `convert` that made the rendering rule
`water`, a second `convert` on a document without a `layers` key returns `NoLayerList`,
and the converter still exposes the rule `water` of the first call. -/
theorem convert_keeps_stale_rules (env : Env) :
    ∃ first second,
      convert env fresh Sample.fillDocument none = Except.ok (Result.Success, first, none)
      ∧ QVariantMap.contains Sample.noLayersDocument "layers" = false
      ∧ convert env first Sample.noLayersDocument none = Except.ok (Result.NoLayerList, second, none)
      ∧ (rendererStyles second).map (fun rule => rule.styleName) = ["water"]
      ∧ labeling second = some [] :=
  ⟨_, _, rfl, rfl, rfl, rfl, rfl⟩

/-- C3: in a completed `parseLayers` the style ids of the rendering rules are exactly the
ids of the layers whose converter reported a rendering style, in the order of the layer
list, hence a sublist of the list of layer ids with at most one rule for each layer; the
same holds for the labeling rules. -/
theorem parseLayers_rules_in_layer_order (env : Env) (converter : ConverterState)
    (layers : QVariantList) (context : Option QgsMapBoxGlStyleConversionContext)
    (out : ConverterState × Option QgsMapBoxGlStyleConversionContext)
    (h : parseLayers env converter layers context = Except.ok out) :
    ((rendererStyles out.1).map (fun rule => rule.styleName)
        = (layers.filter (reportsRendererStyle env (workingContext context))).map (layerId env)
      ∧ List.Sublist ((rendererStyles out.1).map (fun rule => rule.styleName)) (layers.map (layerId env)))
    ∧ ((labelingStyles out.1).map (fun rule => rule.styleName)
        = (layers.filter (reportsLabelingStyle env (workingContext context))).map (layerId env)
      ∧ List.Sublist ((labelingStyles out.1).map (fun rule => rule.styleName)) (layers.map (layerId env))) := by
  obtain ⟨hr, hl⟩ := parseLayers_styles env converter layers context out h
  have e1 := forall₂_map_styleName env (fun rule : QgsVectorTileBasicRendererStyle => rule.styleName)
    (RendererRuleOf env) (fun r layer hrl => hrl.1.1) _ _ hr
  have e2 := forall₂_map_styleName env (fun rule : QgsVectorTileBasicLabelingStyle => rule.styleName)
    (LabelingRuleOf env) (fun r layer hrl => hrl.1.1) _ _ hl
  refine ⟨⟨e1, ?_⟩, ⟨e2, ?_⟩⟩
  · rw [e1]; exact (List.filter_sublist _).map _
  · rw [e2]; exact (List.filter_sublist _).map _

/-- Witness of C3: the sample layer list (background, fill, raster, symbol with a label,
line without paint) converts, with the rendering rule `water` and the labeling rule
`label`. -/
theorem parseLayers_rules_in_layer_order_witness :
    ∃ out, parseLayers Sample.env fresh Sample.layers none = Except.ok out
      ∧ Sample.layers.map (layerId Sample.env) = ["bg", "water", "sat", "label", "road"]
      ∧ (rendererStyles out.1).map (fun rule => rule.styleName) = ["water"]
      ∧ (labelingStyles out.1).map (fun rule => rule.styleName) = ["label"] := by
  refine ⟨_, rfl, rfl, ?_, ?_⟩
  · rw [(parseLayers_rules_in_layer_order Sample.env fresh Sample.layers none _ rfl).1.1]
    rfl
  · rw [(parseLayers_rules_in_layer_order Sample.env fresh Sample.layers none _ rfl).2.1]
    rfl

/-- C4: in a completed `parseLayers` every rendering rule and every labeling rule carries
the metadata of the layer it was made from (the rules correspond, in order, to the layers
whose converter reported the style): style name = the `id` of the layer, layer name = its
`source-layer`, filter expression = `parseExpression` of its `filter` and empty without a
filter, min and max zoom = `toInt` of its `minzoom` and `maxzoom`, each -1 when the key is
absent. -/
theorem parseLayers_rules_carry_metadata (env : Env) (converter : ConverterState)
    (layers : QVariantList) (context : Option QgsMapBoxGlStyleConversionContext)
    (out : ConverterState × Option QgsMapBoxGlStyleConversionContext)
    (h : parseLayers env converter layers context = Except.ok out) :
    List.Forall₂
        (fun (rule : QgsVectorTileBasicRendererStyle) layer =>
          CarriesMetadata env layer rule.styleName rule.layerName rule.filterExpression
            rule.minZoomLevel rule.maxZoomLevel)
        (rendererStyles out.1) (layers.filter (reportsRendererStyle env (workingContext context)))
    ∧ List.Forall₂
        (fun (rule : QgsVectorTileBasicLabelingStyle) layer =>
          CarriesMetadata env layer rule.styleName rule.layerName rule.filterExpression
            rule.minZoomLevel rule.maxZoomLevel)
        (labelingStyles out.1) (layers.filter (reportsLabelingStyle env (workingContext context))) := by
  obtain ⟨hr, hl⟩ := parseLayers_styles env converter layers context out h
  exact ⟨hr.imp (fun _ _ hrl => hrl.1), hl.imp (fun _ _ hrl => hrl.1)⟩

/-- Witness of C4: the sample layer list converts; its rendering rule carries the
metadata of the fill layer and its labeling rule the metadata of the symbol layer. -/
theorem parseLayers_rules_carry_metadata_witness :
    ∃ out, parseLayers Sample.env fresh Sample.layers none = Except.ok out
      ∧ (rendererStyles out.1).map
          (fun rule => (rule.styleName, rule.layerName, rule.filterExpression,
            rule.minZoomLevel, rule.maxZoomLevel))
        = [("water", "hydro", "\"class\" IS 'lake'", 3, -1)]
      ∧ (labelingStyles out.1).map
          (fun rule => (rule.styleName, rule.layerName, rule.filterExpression,
            rule.minZoomLevel, rule.maxZoomLevel))
        = [("label", "place", "", -1, 14)]
      ∧ List.Forall₂
          (fun (rule : QgsVectorTileBasicRendererStyle) layer =>
            CarriesMetadata Sample.env layer rule.styleName rule.layerName rule.filterExpression
              rule.minZoomLevel rule.maxZoomLevel)
          (rendererStyles out.1)
          (Sample.layers.filter (reportsRendererStyle Sample.env (workingContext none)))
      ∧ List.Forall₂
          (fun (rule : QgsVectorTileBasicLabelingStyle) layer =>
            CarriesMetadata Sample.env layer rule.styleName rule.layerName rule.filterExpression
              rule.minZoomLevel rule.maxZoomLevel)
          (labelingStyles out.1)
          (Sample.layers.filter (reportsLabelingStyle Sample.env (workingContext none))) :=
  ⟨_, rfl, rfl, rfl, parseLayers_rules_carry_metadata Sample.env fresh Sample.layers none _ rfl⟩

/-- C5: in a completed `parseLayers`, for every layer that yields a rendering or a
labeling rule, the enabled flag of the rule is false if and only if the `visibility` value
of the layer is exactly the string `none`; the printer of doubles is assumed never to
print the word none. -/
theorem parseLayers_enabled_iff_visibility (env : Env) (hnum : ∀ d, env.doubleToString d ≠ "none")
    (converter : ConverterState)
    (layers : QVariantList) (context : Option QgsMapBoxGlStyleConversionContext)
    (out : ConverterState × Option QgsMapBoxGlStyleConversionContext)
    (h : parseLayers env converter layers context = Except.ok out) :
    List.Forall₂
        (fun (rule : QgsVectorTileBasicRendererStyle) layer =>
          rule.enabled = false ↔ QVariantMap.value layer.toMap "visibility" = QVariant.string "none")
        (rendererStyles out.1) (layers.filter (reportsRendererStyle env (workingContext context)))
    ∧ List.Forall₂
        (fun (rule : QgsVectorTileBasicLabelingStyle) layer =>
          rule.enabled = false ↔ QVariantMap.value layer.toMap "visibility" = QVariant.string "none")
        (labelingStyles out.1) (layers.filter (reportsLabelingStyle env (workingContext context))) := by
  obtain ⟨hr, hl⟩ := parseLayers_styles env converter layers context out h
  refine ⟨hr.imp (fun r layer hrl => ?_), hl.imp (fun r layer hrl => ?_)⟩
  · rw [hrl.2]; exact layerEnabled_eq_false_iff env hnum layer
  · rw [hrl.2]; exact layerEnabled_eq_false_iff env hnum layer

/-- Witness of C5: the sample layer list converts; the rule of the fill layer, whose
visibility is `none`, is disabled and the rule of the symbol layer, without visibility, is
enabled. -/
theorem parseLayers_enabled_iff_visibility_witness :
    (∀ d, Sample.env.doubleToString d ≠ "none")
    ∧ ∃ out, parseLayers Sample.env fresh Sample.layers none = Except.ok out
      ∧ (rendererStyles out.1).map (fun rule => rule.enabled) = [false]
      ∧ (labelingStyles out.1).map (fun rule => rule.enabled) = [true]
      ∧ List.Forall₂
          (fun (rule : QgsVectorTileBasicRendererStyle) layer =>
            rule.enabled = false ↔ QVariantMap.value layer.toMap "visibility" = QVariant.string "none")
          (rendererStyles out.1)
          (Sample.layers.filter (reportsRendererStyle Sample.env (workingContext none)))
      ∧ List.Forall₂
          (fun (rule : QgsVectorTileBasicLabelingStyle) layer =>
            rule.enabled = false ↔ QVariantMap.value layer.toMap "visibility" = QVariant.string "none")
          (labelingStyles out.1)
          (Sample.layers.filter (reportsLabelingStyle Sample.env (workingContext none))) :=
  ⟨fun _ => QString.ofInt_ne_none _,
   _, rfl, rfl, rfl,
   parseLayers_enabled_iff_visibility Sample.env (fun _ => QString.ofInt_ne_none _) fresh
     Sample.layers none _ rfl⟩

/-- C6: a background layer contributes nothing: for every layer list, converter and
context, `parseLayers` and `convert` give the same outcome (rules, warnings, context, or
the same fault) on the list and on the list without its background layers; and a document
with only background layers yields `Success` with no rule and no warning. -/
theorem background_layers_contribute_nothing (env : Env) (converter : ConverterState)
    (layers : QVariantList) (context : Option QgsMapBoxGlStyleConversionContext) :
    parseLayers env converter (layers.filter (fun layer => !isBackground env layer)) context
      = parseLayers env converter layers context
    ∧ convert env converter
        [("layers", QVariant.list (layers.filter (fun layer => !isBackground env layer)))] context
      = convert env converter [("layers", QVariant.list layers)] context
    ∧ convert env converter [("layers", QVariant.list (layers.filter (isBackground env)))] context
      = Except.ok (Result.Success,
          { mError := "", mWarnings := [], mRenderer := some [], mLabeling := some [] }, context) := by
  refine ⟨parseLayers_filter_background env converter layers context, ?_, ?_⟩
  · rw [convert_layers, convert_layers, parseLayers_filter_background]
  · rw [convert_layers]
    simp only [parseLayers, parseLayersLoop_only_background]
    cases context <;> rfl

/-- C8: `convert` with a context of the caller on the document whose one layer has the
unknown type raster and a filter with the unsupported operator `within`: translating the
filter pushes a warning to the context; afterwards the warnings of the converter hold the
warning for the unknown type only, and the warning of the filter is still in the context,
whose list is not empty; without a context of the caller the warning of the filter is
nowhere. -/
theorem convert_leaves_warning_in_context (env : Env) :
    (parseExpression env [QVariant.string "within", QVariant.string "area"]).pushed
      = ["Skipping non-supported expression"]
    ∧ convert env fresh Sample.unknownTypeDocument (some QgsMapBoxGlStyleConversionContext.default)
      = Except.ok (Result.Success,
          { mError := "", mWarnings := ["Skipping unknown layer type: raster"],
            mRenderer := some [], mLabeling := some [] },
          some { QgsMapBoxGlStyleConversionContext.default with
            mWarnings := ["Skipping non-supported expression"] })
    ∧ convert env fresh Sample.unknownTypeDocument none
      = Except.ok (Result.Success,
          { mError := "", mWarnings := ["Skipping unknown layer type: raster"],
            mRenderer := some [], mLabeling := some [] }, none) :=
  ⟨rfl, rfl, rfl⟩

/-- C9: `convert` reaches a list access out of range on each of these documents: a filter
`["!"]`, a filter `["!", "x"]`, a `line-dasharray` map without `stops`, a `line-dasharray`
map with empty `stops`, the label template `Name: {name}`, and a `text-anchor` that is the
empty list. -/
theorem convert_reaches_out_of_range_access (env : Env) :
    convert env fresh Sample.negatedEmptyDocument none = Except.error Fault.indexOutOfRange
    ∧ convert env fresh Sample.negatedScalarDocument none = Except.error Fault.indexOutOfRange
    ∧ convert env fresh Sample.dashWithoutStopsDocument none = Except.error Fault.indexOutOfRange
    ∧ convert env fresh Sample.dashEmptyStopsDocument none = Except.error Fault.indexOutOfRange
    ∧ convert env fresh Sample.literalBeforeTokenDocument none = Except.error Fault.indexOutOfRange
    ∧ convert env fresh Sample.emptyAnchorDocument none = Except.error Fault.indexOutOfRange :=
  ⟨rfl, rfl, rfl, rfl, rfl, rfl⟩

end QgsMapBoxGlStyleConverter

namespace QgsMapBoxGlStyleConverter

theorem parseLayer_completes_iff (env : Env) (context : QgsMapBoxGlStyleConversionContext)
    (state : LoopState) (layer : QVariant) :
    (∃ next, parseLayer env context state layer = Except.ok next)
      ↔ layerCompletes env context layer = true := by
  by_cases hb : isBackground env layer = true
  · simp [layerCompletes, hb, parseLayer_background env context state layer hb]
  · have hb' : isBackground env layer = false := by simpa using hb
    have hty : ¬ (QVariantMap.value layer.toMap "type").toString env = "background" := by
      simpa [isBackground, layerType] using hb'
    unfold parseLayer
    simp only [hty, if_false, layerCompletes, hb', Bool.false_or, layerType]
    cases hf : layerFilter env layer.toMap with
    | fault f => simp [Conv.isOk]
    | ok filterExpression filterWarnings =>
      cases hd : dispatchLayer env layer.toMap ((QVariantMap.value layer.toMap "type").toString env) context with
      | fault f => simp [Conv.isOk]
      | ok outcome layerWarnings =>
        cases outcome <;> simp [Conv.isOk]

/-- A call of `parseLayers` returns exactly when the conversion of none of its layers is
stopped, whatever the converter and the warnings of the context are. -/
theorem parseLayersLoop_completes_iff (env : Env) (context : QgsMapBoxGlStyleConversionContext)
    (layers : QVariantList) :
    ∀ state, (∃ final, parseLayersLoop env context state layers = Except.ok final)
      ↔ ∀ layer ∈ layers, layerCompletes env context layer = true := by
  induction layers with
  | nil => intro state; simp [parseLayersLoop]
  | cons layer rest ih =>
    intro state
    simp only [parseLayersLoop, List.mem_cons, forall_eq_or_imp]
    cases hstep : parseLayer env context state layer with
    | error f =>
      have hn : ¬ layerCompletes env context layer = true := by
        rw [← parseLayer_completes_iff env context state layer]
        rintro ⟨next, hnext⟩
        rw [hstep] at hnext; cases hnext
      simp [hn]
    | ok next =>
      have hy : layerCompletes env context layer = true :=
        (parseLayer_completes_iff env context state layer).mp ⟨next, hstep⟩
      simp only [hy, true_and]
      exact ih next

theorem parseLayers_completes_iff (env : Env) (converter : ConverterState)
    (layers : QVariantList) (context : Option QgsMapBoxGlStyleConversionContext) :
    (∃ out, parseLayers env converter layers context = Except.ok out)
      ↔ ∀ layer ∈ layers, layerCompletes env (workingContext context) layer = true := by
  rw [← parseLayersLoop_completes_iff env (workingContext context) layers
    { mWarnings := converter.mWarnings, contextWarnings := (workingContext context).warnings,
      rendererStyles := [], labelingStyles := [] }]
  unfold parseLayers workingContext
  simp only
  constructor
  · rintro ⟨out, h⟩
    split at h
    · cases h
    · rename_i final hloop
      exact ⟨final, hloop⟩
  · rintro ⟨final, hloop⟩
    rw [hloop]
    exact ⟨_, rfl⟩

/-- The return code of `convert`: without a `layers` key the call returns `NoLayerList`,
sets the error text and clears the warnings, leaving renderer, labeling and context as
they are; with a `layers` key a call that returns gives `Success` with an empty error
text, never `NoLayerList`. -/
theorem convert_return_code (env : Env) (converter : ConverterState) (style : QVariantMap)
    (context : Option QgsMapBoxGlStyleConversionContext) :
    (QVariantMap.contains style "layers" = false →
      convert env converter style context
        = Except.ok (Result.NoLayerList,
            { mError := "Could not find layers list in JSON", mWarnings := [],
              mRenderer := converter.mRenderer, mLabeling := converter.mLabeling }, context))
    ∧ (QVariantMap.contains style "layers" = true →
        ∀ code after left, convert env converter style context = Except.ok (code, after, left) →
          code = Result.Success ∧ after.mError = "") := by
  constructor
  · intro hc
    simp [convert, hc]
  · intro hc code after left h
    simp only [convert, hc, if_true] at h
    split at h
    · cases h
    · rename_i converted cx hp
      cases h
      refine ⟨rfl, ?_⟩
      unfold parseLayers at hp
      simp only at hp
      split at hp
      · cases hp
      · cases hp; rfl

/-- Sample runs of `convert_return_code`: the document without layers and the document
with one fill layer. -/
theorem convert_return_code_witness :
    QVariantMap.contains Sample.noLayersDocument "layers" = false
    ∧ convert Sample.env fresh Sample.noLayersDocument none
        = Except.ok (Result.NoLayerList,
            { mError := "Could not find layers list in JSON", mWarnings := [],
              mRenderer := none, mLabeling := none }, none)
    ∧ QVariantMap.contains Sample.fillDocument "layers" = true
    ∧ ∃ after, convert Sample.env fresh Sample.fillDocument none
        = Except.ok (Result.Success, after, none) ∧ after.mError = "" :=
  ⟨rfl, (convert_return_code Sample.env fresh Sample.noLayersDocument none).1 rfl, rfl,
   _, rfl, rfl⟩

end QgsMapBoxGlStyleConverter

/-! ### The filter translator, operator by operator -/

namespace PartFormula

theorem text_negatedParts (p : String) (ps : List String) :
    text (negatedParts p ps)
      = QStringList.join ((p :: ps).map (fun q => "NOT (" ++ q ++ ")")) " AND " := by
  unfold negatedParts
  induction ps generalizing p with
  | nil => simp [conjunctionOf, text, QStringList.join, String.append_assoc]
  | cons q rest ih =>
    have h := ih q
    simp only [List.map_cons, conjunctionOf, text, QStringList.join] at h ⊢
    rw [h]
    have e : "NOT (" = "NOT " ++ "(" := by decide
    rw [e]

theorem holds_negatedParts (valuation : String → Bool) (p : String) (ps : List String) :
    holds valuation (negatedParts p ps) = (!valuation p && ps.all (fun q => !valuation q)) := by
  unfold negatedParts
  induction ps generalizing p with
  | nil => simp [conjunctionOf, holds]
  | cons q rest ih => simp [conjunctionOf, holds, ih]

end PartFormula

namespace QgsMapBoxGlStyleConverter

theorem isEmpty_eq_false_of_ne (s : String) (h : s ≠ "") : QString.isEmpty s = false := by
  cases s with
  | mk data =>
    cases data with
    | nil => exact absurd rfl h
    | cons c cs => rfl

theorem parseParts_nil (env : Env) : parseParts env [] = Conv.ok (some []) [] := by
  unfold parseParts
  rfl

theorem parseParts_cons (env : Env) (v : QVariant) (vs : QVariantList) :
    parseParts env (v :: vs)
      = Conv.bind (parseValue env v) (fun part =>
          if QString.isEmpty part then Conv.ok none ["Skipping unsupported expression"]
          else Conv.bind (parseParts env vs) (fun r =>
            match r with
            | some parts => Conv.ok (some (part :: parts)) []
            | none => Conv.ok none [])) := by
  conv => lhs; unfold parseParts
  rfl

/-- The loop over values that each translate to a text that is not empty collects the
texts in order, with the warnings of the values in order. -/
theorem parseParts_translated (env : Env) (values : QVariantList)
    (parts : List (String × List String)) (h : Translated env values parts) :
    parseParts env values = Conv.ok (some (parts.map Prod.fst)) (parts.flatMap Prod.snd) := by
  induction h with
  | nil => exact parseParts_nil env
  | @cons v p vs ps hv _ ih =>
    rw [parseParts_cons, hv.1, Conv.bind_ok]
    simp only [isEmpty_eq_false_of_ne p.1 hv.2, Bool.false_eq_true, if_false, ih, Conv.bind_ok,
      List.map_cons, List.flatMap_cons, List.append_nil]

/-- The loop stops at the first value whose text is empty, with one warning more. -/
theorem parseParts_empty_part (env : Env) (values : QVariantList)
    (parts : List (String × List String)) (value : QVariant) (warnings : List String)
    (rest : QVariantList) (h : Translated env values parts)
    (hv : parseValue env value = Conv.ok "" warnings) :
    parseParts env (values ++ value :: rest)
      = Conv.ok none (parts.flatMap Prod.snd ++ warnings ++ ["Skipping unsupported expression"]) := by
  induction h with
  | nil =>
    rw [List.nil_append, parseParts_cons, hv, Conv.bind_ok]
    rfl
  | @cons v p vs ps hv2 _ ih =>
    rw [List.cons_append, parseParts_cons, hv2.1, Conv.bind_ok]
    simp only [isEmpty_eq_false_of_ne p.1 hv2.2, Bool.false_eq_true, if_false, ih, Conv.bind_ok,
      List.flatMap_cons, List.append_nil, List.append_assoc]

theorem join_parenthesised (s : String) (p : String) (ps : List String) :
    "(" ++ QStringList.join (p :: ps) (")" ++ s ++ "(") ++ ")"
      = QStringList.join ((p :: ps).map (fun part => "(" ++ part ++ ")")) s := by
  induction ps generalizing p with
  | nil => rfl
  | cons q rest ih =>
    have h := ih q
    simp only [List.map_cons, QStringList.join] at h ⊢
    rw [← h]
    simp only [String.append_assoc]

theorem join_negated (p : String) (ps : List String) :
    "NOT (" ++ QStringList.join (p :: ps) ") AND NOT (" ++ ")"
      = QStringList.join ((p :: ps).map (fun part => "NOT (" ++ part ++ ")")) " AND " := by
  induction ps generalizing p with
  | nil => rfl
  | cons q rest ih =>
    have h := ih q
    simp only [List.map_cons, QStringList.join] at h ⊢
    rw [← h]
    have e : ") AND NOT (" = ")" ++ " AND " ++ "NOT (" := by decide
    rw [e]
    simp only [String.append_assoc]

theorem parseExpression_logical (env : Env) (op : String) (values : QVariantList)
    (hop : op = "all" ∨ op = "any" ∨ op = "none") :
    parseExpression env (QVariant.string op :: values)
      = Conv.bind (parseParts env values) (fun r =>
          match r with
          | none => Conv.ok "" []
          | some parts => Conv.ok (logicalText op parts) []) := by
  have h : operatorOf op = Operator.logical := by
    rcases hop with h | h | h <;> subst h <;> rfl
  conv => lhs; unfold parseExpression
  simp only [QVariant.toString, h]
  rfl

theorem parseExpression_membership_eq (env : Env) (op : String) (key : QVariant)
    (values : QVariantList) (hop : op = "in" ∨ op = "!in") :
    parseExpression env (QVariant.string op :: key :: values)
      = Conv.bind (parseParts env values) (fun r =>
          match r with
          | none => Conv.ok "" []
          | some parts => Conv.ok (membershipText op (parseKey env key) parts) []) := by
  have h : operatorOf op = Operator.membership := by
    rcases hop with h | h <;> subst h <;> rfl
  conv => lhs; unfold parseExpression
  simp only [QVariant.toString, h]
  rfl

theorem parseExpression_match_eq (env : Env) (rest : QVariantList) :
    parseExpression env (QVariant.string "match" :: rest)
      = parseMatch env (QVariant.string "match" :: rest) := by
  have h : operatorOf "match" = Operator.matchLabels := rfl
  conv => lhs; unfold parseExpression
  simp only [QVariant.toString, h]

end QgsMapBoxGlStyleConverter

namespace QgsMapBoxGlStyleConverter

/-- C11: the branch of `parseExpression` for `!` hands the rewritten list to `parseKey`
and not to the translator. `["!", ["has", "level"]]` gives the text `level`, while the
rewritten filter `["!has", "level"]` gives `"level" IS NULL`; and for every inner list
`[op, argument, ...]` the result is the text of `argument`, whatever the operator is. -/
theorem parseExpression_negation_returns_second_element (env : Env) :
    parseExpression env
        [QVariant.string "!", QVariant.list [QVariant.string "has", QVariant.string "level"]]
      = Conv.ok "level" []
    ∧ parseExpression env [QVariant.string "!has", QVariant.string "level"]
      = Conv.ok "\"level\" IS NULL" []
    ∧ ∀ (op argument : QVariant) (arguments rest : QVariantList),
        parseExpression env
            (QVariant.string "!" :: QVariant.list (op :: argument :: arguments) :: rest)
          = Conv.ok (argument.toString env) [] := by
  refine ⟨rfl, rfl, ?_⟩
  intro op argument arguments rest
  unfold parseExpression
  simp only [QVariant.toString]
  have h : operatorOf "!" = Operator.negation := rfl
  simp only [h, parseNegated, QVariantList.value, List.getD_cons_succ, List.getD_cons_zero,
    QVariant.toList, QList.elementAt, QList.assign, parseKey]
  simp [Conv.bind, QVariant.toString, QVariant.type]

/-- C12: for every `all` (resp. `any`) filter with one sub-part or more, whose sub-parts
each translate to a text `p_i` that is not empty, `parseExpression` returns
`(p_1) AND (p_2) ... AND (p_n)` (resp. the same joined with `OR`): every sub-part, in
source order, each in its own parentheses, with the warnings of the sub-parts in order;
and `["all", ["==", ["get", "a"], 1], ["==", ["get", "b"], 2]]` gives
`(a IS 1) AND (b IS 2)`. -/
theorem parseExpression_all_any_parenthesised (env : Env) :
    (∀ (values : QVariantList) (parts : List (String × List String)),
      values ≠ [] → Translated env values parts →
        parseExpression env (QVariant.string "all" :: values)
          = Conv.ok (QStringList.join ((parts.map Prod.fst).map (fun p => "(" ++ p ++ ")")) " AND ")
              (parts.flatMap Prod.snd)
        ∧ parseExpression env (QVariant.string "any" :: values)
          = Conv.ok (QStringList.join ((parts.map Prod.fst).map (fun p => "(" ++ p ++ ")")) " OR ")
              (parts.flatMap Prod.snd))
    ∧ parseExpression env
        [QVariant.string "all",
          QVariant.list [QVariant.string "==",
            QVariant.list [QVariant.string "get", QVariant.string "a"], QVariant.int 1],
          QVariant.list [QVariant.string "==",
            QVariant.list [QVariant.string "get", QVariant.string "b"], QVariant.int 2]]
      = Conv.ok "(a IS 1) AND (b IS 2)" [] := by
  refine ⟨?_, rfl⟩
  intro values parts hn hparts
  have hp := parseParts_translated env values parts hparts
  constructor
  · rw [parseExpression_logical env "all" values (Or.inl rfl), hp, Conv.bind_ok]
    cases hparts with
    | nil => exact absurd rfl hn
    | @cons v p vs ps hv hrest =>
      simp only [List.append_nil]
      congr 1
      exact join_parenthesised " AND " p.1 (ps.map Prod.fst)
  · rw [parseExpression_logical env "any" values (Or.inr (Or.inl rfl)), hp, Conv.bind_ok]
    cases hparts with
    | nil => exact absurd rfl hn
    | @cons v p vs ps hv hrest =>
      simp only [List.append_nil]
      congr 1
      exact join_parenthesised " OR " p.1 (ps.map Prod.fst)

/-- Witness of C12: the filter `["any", ["has", "name"], ["in", "class", "a", "b"]]`, and
the filter `["all", ["==", "a", true], "x"]` whose first sub-part translates with a
warning. -/
theorem parseExpression_all_any_parenthesised_witness :
    Translated Sample.env
      [QVariant.list [QVariant.string "has", QVariant.string "name"],
       QVariant.list [QVariant.string "in", QVariant.string "class", QVariant.string "a",
         QVariant.string "b"]]
      [("\"name\" IS NOT NULL", []), ("\"class\" IN ('a', 'b')", [])]
    ∧ parseExpression Sample.env
        [QVariant.string "any", QVariant.list [QVariant.string "has", QVariant.string "name"],
          QVariant.list [QVariant.string "in", QVariant.string "class", QVariant.string "a",
            QVariant.string "b"]]
      = Conv.ok "(\"name\" IS NOT NULL) OR (\"class\" IN ('a', 'b'))" []
    ∧ Translated Sample.env
      [QVariant.list [QVariant.string "==", QVariant.string "a", QVariant.bool true],
       QVariant.string "x"]
      [("\"a\" IS ", ["Skipping unsupported expression part"]), ("'x'", [])]
    ∧ parseExpression Sample.env
        [QVariant.string "all",
          QVariant.list [QVariant.string "==", QVariant.string "a", QVariant.bool true],
          QVariant.string "x"]
      = Conv.ok "(\"a\" IS ) AND ('x')" ["Skipping unsupported expression part"] := by
  have h1 : Translated Sample.env
      [QVariant.list [QVariant.string "has", QVariant.string "name"],
       QVariant.list [QVariant.string "in", QVariant.string "class", QVariant.string "a",
         QVariant.string "b"]]
      [("\"name\" IS NOT NULL", []), ("\"class\" IN ('a', 'b')", [])] :=
    List.Forall₂.cons ⟨rfl, by decide⟩ (List.Forall₂.cons ⟨rfl, by decide⟩ List.Forall₂.nil)
  have h2 : Translated Sample.env
      [QVariant.list [QVariant.string "==", QVariant.string "a", QVariant.bool true],
       QVariant.string "x"]
      [("\"a\" IS ", ["Skipping unsupported expression part"]), ("'x'", [])] :=
    List.Forall₂.cons ⟨rfl, by decide⟩ (List.Forall₂.cons ⟨rfl, by decide⟩ List.Forall₂.nil)
  exact ⟨h1,
    ((parseExpression_all_any_parenthesised Sample.env).1 _ _ (List.cons_ne_nil _ _) h1).2,
    h2,
    ((parseExpression_all_any_parenthesised Sample.env).1 _ _ (List.cons_ne_nil _ _) h2).1⟩

/-- C13, as the code has it: for every `none` filter with one sub-part or more, whose
sub-parts each translate to a text `p_i` that is not empty, `parseExpression` returns
`NOT (p_1) AND NOT (p_2) ... AND NOT (p_n)`, the conjunction of the negated sub-parts,
each in its own parentheses, with the warnings of the sub-parts in order; under truth
values of the `p_i` this expression is true exactly when every `p_i` is false. -/
theorem parseExpression_none_negates_each_part (env : Env) (value : QVariant)
    (values : QVariantList) (part : String × List String) (parts : List (String × List String))
    (hparts : Translated env (value :: values) (part :: parts)) :
    parseExpression env (QVariant.string "none" :: value :: values)
      = Conv.ok
          (QStringList.join ((part.1 :: parts.map Prod.fst).map (fun p => "NOT (" ++ p ++ ")")) " AND ")
          (part.2 ++ parts.flatMap Prod.snd)
    ∧ QStringList.join ((part.1 :: parts.map Prod.fst).map (fun p => "NOT (" ++ p ++ ")")) " AND "
      = PartFormula.text (PartFormula.negatedParts part.1 (parts.map Prod.fst))
    ∧ ∀ valuation : String → Bool,
        PartFormula.holds valuation (PartFormula.negatedParts part.1 (parts.map Prod.fst)) = true
          ↔ ∀ p ∈ part.1 :: parts.map Prod.fst, valuation p = false := by
  refine ⟨?_, (PartFormula.text_negatedParts _ _).symm, ?_⟩
  · rw [parseExpression_logical env "none" _ (Or.inr (Or.inr rfl)),
      parseParts_translated env (value :: values) (part :: parts) hparts, Conv.bind_ok]
    simp only [List.append_nil, List.flatMap_cons, List.map_cons]
    congr 1
    exact join_negated part.1 (parts.map Prod.fst)
  · intro valuation
    rw [PartFormula.holds_negatedParts]
    simp only [Bool.and_eq_true, Bool.not_eq_true', List.all_eq_true, List.mem_cons,
      forall_eq_or_imp]

/-- Witness of C13: the filter `["none", ["has", "name"], ["==", "class", "x"]]`. -/
theorem parseExpression_none_negates_each_part_witness :
    Translated Sample.env
      [QVariant.list [QVariant.string "has", QVariant.string "name"],
       QVariant.list [QVariant.string "==", QVariant.string "class", QVariant.string "x"]]
      [("\"name\" IS NOT NULL", []), ("\"class\" IS 'x'", [])]
    ∧ parseExpression Sample.env
        [QVariant.string "none", QVariant.list [QVariant.string "has", QVariant.string "name"],
          QVariant.list [QVariant.string "==", QVariant.string "class", QVariant.string "x"]]
      = Conv.ok "NOT (\"name\" IS NOT NULL) AND NOT (\"class\" IS 'x')" [] := by
  have h : Translated Sample.env
      [QVariant.list [QVariant.string "has", QVariant.string "name"],
       QVariant.list [QVariant.string "==", QVariant.string "class", QVariant.string "x"]]
      [("\"name\" IS NOT NULL", []), ("\"class\" IS 'x'", [])] :=
    List.Forall₂.cons ⟨rfl, by decide⟩ (List.Forall₂.cons ⟨rfl, by decide⟩ List.Forall₂.nil)
  exact ⟨h, (parseExpression_none_negates_each_part Sample.env _ _ _ _ h).1⟩

/-- Counterexample of C13 as stated: `["none", ["==", ["get", "a"], 1], ["==", ["get", "b"], 2]]`
gives `NOT (a IS 1) AND NOT (b IS 2)`, which is the conjunction of the negated sub-parts
and not the text `NOT ((a IS 1) AND (b IS 2))` of the negated conjunction; where `a IS 1`
holds and `b IS 2` does not, the conjunction of the sub-parts is false and its negation
true, and the expression returned is false. -/
theorem parseExpression_none_is_not_the_negated_conjunction :
    parseExpression Sample.env
        [QVariant.string "none",
          QVariant.list [QVariant.string "==",
            QVariant.list [QVariant.string "get", QVariant.string "a"], QVariant.int 1],
          QVariant.list [QVariant.string "==",
            QVariant.list [QVariant.string "get", QVariant.string "b"], QVariant.int 2]]
      = Conv.ok "NOT (a IS 1) AND NOT (b IS 2)" []
    ∧ "NOT (a IS 1) AND NOT (b IS 2)"
      = PartFormula.text (PartFormula.negatedParts "a IS 1" ["b IS 2"])
    ∧ PartFormula.text (PartFormula.negatedConjunction "a IS 1" ["b IS 2"])
      = "NOT ((a IS 1) AND (b IS 2))"
    ∧ PartFormula.holds (fun p => p == "a IS 1")
        (PartFormula.conjunctionOf (PartFormula.part "a IS 1") [PartFormula.part "b IS 2"]) = false
    ∧ PartFormula.holds (fun p => p == "a IS 1")
        (PartFormula.negatedConjunction "a IS 1" ["b IS 2"]) = true
    ∧ PartFormula.holds (fun p => p == "a IS 1")
        (PartFormula.negatedParts "a IS 1" ["b IS 2"]) = false :=
  ⟨rfl, by decide, by decide, by decide, by decide, by decide⟩

/-- C14: for every key `k`, `parseExpression(["has", k])` is `parseKey(k)` followed by
` IS NOT NULL` and `parseExpression(["!has", k])` is `parseKey(k)` followed by ` IS NULL`,
without a warning. -/
theorem parseExpression_has_and_not_has (env : Env) (key : QVariant) :
    parseExpression env [QVariant.string "has", key]
      = Conv.ok (parseKey env key ++ " IS NOT NULL") []
    ∧ parseExpression env [QVariant.string "!has", key]
      = Conv.ok (parseKey env key ++ " IS NULL") [] :=
  ⟨rfl, rfl⟩

end QgsMapBoxGlStyleConverter

namespace QgsMapBoxGlStyleConverter

/-- C15: for every key `k` and values `v_1..v_n` that each translate to a text `t_i` that
is not empty, `parseExpression(["in", k, v_1..v_n])` is `K IN (t_1, ..., t_n)` and
`parseExpression(["!in", k, v_1..v_n])` is `(K IS NULL OR K NOT IN (t_1, ..., t_n))` with
`K = parseKey(k)`, with the warnings of the values in order; and when a value after them
translates to the empty text, the result is the empty text, whatever follows that value,
and the warning `Skipping unsupported expression` is recorded after the warnings of the
values translated. -/
theorem parseExpression_membership (env : Env) (key : QVariant) (values : QVariantList)
    (parts : List (String × List String)) (hparts : Translated env values parts) :
    parseExpression env (QVariant.string "in" :: key :: values)
      = Conv.ok (parseKey env key ++ " IN (" ++ QStringList.join (parts.map Prod.fst) ", " ++ ")")
          (parts.flatMap Prod.snd)
    ∧ parseExpression env (QVariant.string "!in" :: key :: values)
      = Conv.ok ("(" ++ parseKey env key ++ " IS NULL OR " ++ parseKey env key ++ " NOT IN ("
            ++ QStringList.join (parts.map Prod.fst) ", " ++ "))")
          (parts.flatMap Prod.snd)
    ∧ ∀ (value : QVariant) (warnings : List String) (rest : QVariantList),
        parseValue env value = Conv.ok "" warnings →
          parseExpression env (QVariant.string "in" :: key :: (values ++ value :: rest))
            = Conv.ok "" (parts.flatMap Prod.snd ++ warnings ++ ["Skipping unsupported expression"])
          ∧ parseExpression env (QVariant.string "!in" :: key :: (values ++ value :: rest))
            = Conv.ok "" (parts.flatMap Prod.snd ++ warnings ++ ["Skipping unsupported expression"]) := by
  refine ⟨?_, ?_, ?_⟩
  · rw [parseExpression_membership_eq env "in" key values (Or.inl rfl),
      parseParts_translated env values parts hparts, Conv.bind_ok]
    simp only [List.append_nil]
    rfl
  · rw [parseExpression_membership_eq env "!in" key values (Or.inr rfl),
      parseParts_translated env values parts hparts, Conv.bind_ok]
    simp only [List.append_nil]
    rfl
  · intro value warnings rest hvalue
    constructor
    · rw [parseExpression_membership_eq env "in" key _ (Or.inl rfl),
        parseParts_empty_part env values parts value warnings rest hparts hvalue, Conv.bind_ok]
      simp only [List.append_nil]
    · rw [parseExpression_membership_eq env "!in" key _ (Or.inr rfl),
        parseParts_empty_part env values parts value warnings rest hparts hvalue, Conv.bind_ok]
      simp only [List.append_nil]

/-- Witness of C15: the key `class` with the values `"motorway"` and `2`, then with the
value `true`, which has no text, and a value after it. -/
theorem parseExpression_membership_witness :
    Translated Sample.env [QVariant.string "motorway", QVariant.int 2] [("'motorway'", []), ("2", [])]
    ∧ parseValue Sample.env (QVariant.bool true) = Conv.ok "" ["Skipping unsupported expression part"]
    ∧ parseExpression Sample.env
        [QVariant.string "in", QVariant.string "class", QVariant.string "motorway", QVariant.int 2]
      = Conv.ok "\"class\" IN ('motorway', 2)" []
    ∧ parseExpression Sample.env
        [QVariant.string "!in", QVariant.string "class", QVariant.string "motorway", QVariant.int 2]
      = Conv.ok "(\"class\" IS NULL OR \"class\" NOT IN ('motorway', 2))" []
    ∧ parseExpression Sample.env
        [QVariant.string "in", QVariant.string "class", QVariant.string "motorway", QVariant.int 2,
          QVariant.bool true, QVariant.string "x"]
      = Conv.ok "" ["Skipping unsupported expression part", "Skipping unsupported expression"] := by
  have hparts : Translated Sample.env [QVariant.string "motorway", QVariant.int 2]
      [("'motorway'", []), ("2", [])] :=
    List.Forall₂.cons ⟨rfl, by decide⟩ (List.Forall₂.cons ⟨rfl, by decide⟩ List.Forall₂.nil)
  have h := parseExpression_membership Sample.env (QVariant.string "class")
    [QVariant.string "motorway", QVariant.int 2] [("'motorway'", []), ("2", [])] hparts
  exact ⟨hparts, rfl, h.1, h.2.1,
    (h.2.2 (QVariant.bool true) ["Skipping unsupported expression part"] [QVariant.string "x"] rfl).1⟩

theorem when_parenthesised (test : String) :
    "WHEN (" ++ test ++ ") " = "WHEN " ++ ("(" ++ test ++ ")") ++ " " := by
  have e1 : "WHEN (" = "WHEN " ++ "(" := by decide
  have e2 : ") " = ")" ++ " " := by decide
  rw [e1, e2]
  simp only [String.append_assoc]

theorem matchWhen_supported (env : Env) (attr : String) (label : QVariant)
    (h : isSupportedLabel label = true) :
    matchWhen env attr label = "WHEN " ++ whenTest env attr label ++ " " := by
  cases label with
  | list entries =>
    match entries with
    | [] => rfl
    | [_] => rfl
    | first :: second :: more =>
      simp only [matchWhen, QVariant.type, if_true, quotedLabels, QVariant.toList, List.map_cons,
        List.length_cons, whenTest, directTest, String.append_assoc]
      simp
  | string s => exact when_parenthesised _
  | int i => exact when_parenthesised _
  | double d => exact when_parenthesised _
  | invalid => simp [isSupportedLabel, QVariant.type] at h
  | bool b => simp [isSupportedLabel, QVariant.type] at h
  | map m => simp [isSupportedLabel, QVariant.type] at h

/-- The loop of the conditional emits one `WHEN test THEN output` for every pair. -/
theorem matchCases_pairs (env : Env) (attr : String) (pairs : List (QVariant × QVariant))
    (dflt : QVariant) (h : ∀ pair ∈ pairs, isSupportedLabel pair.1 = true) :
    matchCases env attr (pairs.flatMap (fun pair => [pair.1, pair.2]) ++ [dflt])
      = whenThens env attr pairs := by
  induction pairs with
  | nil => rfl
  | cons pair rest ih =>
    have hrest := ih (fun p hp => h p (List.mem_cons_of_mem _ hp))
    have hne : ∃ next more, rest.flatMap (fun pair => [pair.1, pair.2]) ++ [dflt] = next :: more := by
      cases rest with
      | nil => exact ⟨dflt, [], rfl⟩
      | cons p ps => exact ⟨p.1, _, rfl⟩
    obtain ⟨next, more, hnm⟩ := hne
    rw [hnm] at hrest
    have e : " THEN " = " " ++ "THEN " := by decide
    simp only [List.flatMap_cons, List.cons_append, List.nil_append, hnm, matchCases, hrest,
      matchWhen_supported env attr pair.1 (h pair (List.mem_cons_self _ _)), whenThens, e,
      String.append_assoc]

theorem getLast?_append_singleton {α : Type} (l : List α) (a : α) :
    (l ++ [a]).getLast? = some a := by
  simp

theorem parseMatch_case (env : Env) (attr : String) (pairs : List (QVariant × QVariant))
    (dflt : QVariant) (h : ∀ pair ∈ pairs, isSupportedLabel pair.1 = true)
    (hother : ¬ IsBooleanPattern pairs dflt) :
    parseMatch env (matchExpression attr pairs dflt) = Conv.ok (caseText env attr pairs dflt) [] := by
  have hlast : QList.last (matchExpression attr pairs dflt) = Conv.ok dflt [] := by
    unfold QList.last matchExpression
    rw [← List.cons_append, ← List.cons_append, getLast?_append_singleton]
  have hattr :
      (QVariantList.value (QVariantList.value (matchExpression attr pairs dflt) 1).toList 1).toString env
        = attr := rfl
  have hdrop : (matchExpression attr pairs dflt).drop 2
      = pairs.flatMap (fun pair => [pair.1, pair.2]) ++ [dflt] := rfl
  unfold parseMatch
  split
  · rename_i a b labels heq
    exfalso
    apply hother
    unfold matchExpression at heq
    match pairs, heq with
    | [], heq => simp at heq
    | [(l, o)], heq =>
      simp only [List.flatMap_cons, List.flatMap_nil, List.append_nil, List.cons_append,
        List.nil_append, List.cons.injEq, and_true] at heq
      obtain ⟨_, _, hl, ho, hd⟩ := heq
      exact ⟨l, by rw [ho], hd⟩
    | p :: q :: more, heq =>
      simp at heq
  · rw [hlast, hattr, hdrop]
    dsimp only
    rw [matchCases_pairs env attr pairs dflt h]
    rfl

theorem parseMatch_direct (env : Env) (attr : String) (label : QVariant)
    (h : isSupportedLabel label = true) :
    parseMatch env (matchExpression attr [(label, QVariant.bool true)] (QVariant.bool false))
      = Conv.ok (directTest env attr label) [] := by
  cases label with
  | list entries =>
    match entries with
    | [] => rfl
    | [_] => rfl
    | first :: second :: more =>
      simp only [parseMatch, matchExpression, List.flatMap_cons, List.flatMap_nil, List.append_nil,
        List.cons_append, List.nil_append, QVariant.type, if_true, quotedLabels, QVariant.toList,
        List.map_cons, List.length_cons, directTest]
      simp
      rfl
  | string s => rfl
  | int i => rfl
  | double d => rfl
  | invalid => simp [isSupportedLabel, QVariant.type] at h
  | bool b => simp [isSupportedLabel, QVariant.type] at h
  | map m => simp [isSupportedLabel, QVariant.type] at h

theorem parseMatch_unsupported_label (env : Env) (attr : String) (label : QVariant)
    (h : isSupportedLabel label = false) :
    parseMatch env (matchExpression attr [(label, QVariant.bool true)] (QVariant.bool false))
      = Conv.ok "" ["Skipping non-supported expression"] := by
  cases label with
  | list entries => simp [isSupportedLabel, QVariant.type] at h
  | string s => simp [isSupportedLabel, QVariant.type] at h
  | int i => simp [isSupportedLabel, QVariant.type] at h
  | double d => simp [isSupportedLabel, QVariant.type] at h
  | invalid => rfl
  | bool b => rfl
  | map m => rfl

end QgsMapBoxGlStyleConverter

namespace QgsMapBoxGlStyleConverter

/-- C16, as the code has it, for labels that are each a list, a string or a number. For
every `match` on `["get", attr]`: with exactly 5 elements, the 4th the boolean `true` and
the 5th the boolean `false`, `parseExpression` returns the direct test of the quoted
column against the label (`"attr" IN (v1, v2, ...)` for a label list with more than one
entry, the equality test for a single label or the one entry of a list); otherwise, for
`["match", ["get", attr], label_1, output_1, ..., label_n, output_n, default]`, it
returns `CASE WHEN test_1 THEN output_1 ... ELSE default END` with one `WHEN`/`THEN` for
each pair, in source order, and the last element after `ELSE`;
`["match", ["get", "type"], ["Air Transport", "Airport"], true, false]` gives
`"type" IN ('Air Transport', 'Airport')`. With a label of another type in the boolean
pattern the result is the empty text and the warning `Skipping non-supported expression`. -/
theorem parseExpression_match_supported_labels (env : Env) (attr : String) :
    (∀ label, isSupportedLabel label = true →
      parseExpression env (matchExpression attr [(label, QVariant.bool true)] (QVariant.bool false))
        = Conv.ok (directTest env attr label) [])
    ∧ (∀ pairs dflt, (∀ pair ∈ pairs, isSupportedLabel pair.1 = true) →
        ¬ IsBooleanPattern pairs dflt →
        parseExpression env (matchExpression attr pairs dflt)
          = Conv.ok (caseText env attr pairs dflt) [])
    ∧ parseExpression env
        [QVariant.string "match", QVariant.list [QVariant.string "get", QVariant.string "type"],
          QVariant.list [QVariant.string "Air Transport", QVariant.string "Airport"],
          QVariant.bool true, QVariant.bool false]
      = Conv.ok "\"type\" IN ('Air Transport', 'Airport')" []
    ∧ ∀ label, isSupportedLabel label = false →
        parseExpression env (matchExpression attr [(label, QVariant.bool true)] (QVariant.bool false))
          = Conv.ok "" ["Skipping non-supported expression"] := by
  refine ⟨?_, ?_, rfl, ?_⟩
  · intro label hlabel
    exact (parseExpression_match_eq env _).trans (parseMatch_direct env attr label hlabel)
  · intro pairs dflt hpairs hother
    exact (parseExpression_match_eq env _).trans (parseMatch_case env attr pairs dflt hpairs hother)
  · intro label hlabel
    exact (parseExpression_match_eq env _).trans (parseMatch_unsupported_label env attr label hlabel)

/-- Witness of C16: a `match` on `type` with the one label `["Airport"]` in the boolean
pattern, and one with three pairs whose labels are a list of two, a string and a list of
one. -/
theorem parseExpression_match_supported_labels_witness :
    isSupportedLabel (QVariant.list [QVariant.string "Airport"]) = true
    ∧ parseExpression Sample.env
        [QVariant.string "match", QVariant.list [QVariant.string "get", QVariant.string "type"],
          QVariant.list [QVariant.string "Airport"], QVariant.bool true, QVariant.bool false]
      = Conv.ok "\"type\" = 'Airport'" []
    ∧ parseExpression Sample.env
        [QVariant.string "match", QVariant.list [QVariant.string "get", QVariant.string "type"],
          QVariant.list [QVariant.string "a", QVariant.string "b"], QVariant.string "x",
          QVariant.string "c", QVariant.int 3,
          QVariant.list [QVariant.int 5], QVariant.bool true,
          QVariant.string "y"]
      = Conv.ok ("CASE WHEN \"type\" IN ('a', 'b') THEN 'x' WHEN (\"type\" = 'c') THEN 3 "
          ++ "WHEN \"type\" = 5 THEN TRUE ELSE 'y' END") [] := by
  have h := parseExpression_match_supported_labels Sample.env "type"
  exact ⟨rfl, h.1 (QVariant.list [QVariant.string "Airport"]) rfl,
    h.2.1
      [(QVariant.list [QVariant.string "a", QVariant.string "b"], QVariant.string "x"),
       (QVariant.string "c", QVariant.int 3),
       (QVariant.list [QVariant.int 5], QVariant.bool true)] (QVariant.string "y")
      (by
        intro pair hp
        simp only [List.mem_cons, List.mem_singleton, List.not_mem_nil, or_false] at hp
        rcases hp with e | e | e <;> subst e <;> rfl)
      (by rintro ⟨single, e, _⟩; simp at e)⟩

/-- Counterexample of C16 as stated: with the label `true`,
`["match", ["get", "type"], true, true, false]` has 5 elements, the 4th `true` and the 5th
`false`, and gives the empty text and a warning, no test on the column; and
`["match", ["get", "type"], true, "x", "y"]` gives `CASE THEN 'x' ELSE 'y' END`, a
conditional without a `WHEN` for its pair. -/
theorem parseExpression_match_label_without_test :
    parseExpression Sample.env
        [QVariant.string "match", QVariant.list [QVariant.string "get", QVariant.string "type"],
          QVariant.bool true, QVariant.bool true, QVariant.bool false]
      = Conv.ok "" ["Skipping non-supported expression"]
    ∧ parseExpression Sample.env
        [QVariant.string "match", QVariant.list [QVariant.string "get", QVariant.string "type"],
          QVariant.bool true, QVariant.string "x", QVariant.string "y"]
      = Conv.ok "CASE THEN 'x' ELSE 'y' END" [] :=
  ⟨rfl, rfl⟩

/-- C17: for every expression list whose first element has a text that is not one of
`all`, `any`, `none`, `!`, `==`, `!=`, `>=`, `>`, `<=`, `<`, `has`, `!has`, `in`, `!in`,
`get`, `match`, `to-string` (the empty list has the empty text there), `parseExpression`
returns the empty text and pushes exactly one warning, `Skipping non-supported expression`. -/
theorem parseExpression_unsupported_operator (env : Env) (expression : QVariantList)
    (h : (QVariantList.value expression 0).toString env
      ∉ ["all", "any", "none", "!", "==", "!=", ">=", ">", "<=", "<", "has", "!has", "in", "!in",
         "get", "match", "to-string"]) :
    parseExpression env expression = Conv.ok "" ["Skipping non-supported expression"] := by
  cases expression with
  | nil => unfold parseExpression; rfl
  | cons first rest =>
    have hv : QVariantList.value (first :: rest) 0 = first := rfl
    rw [hv] at h
    simp only [List.mem_cons, List.mem_singleton, List.not_mem_nil, or_false, not_or] at h
    have hop : operatorOf (first.toString env) = Operator.unsupported := by
      simp [operatorOf, isComparison, h]
    unfold parseExpression
    simp only [hop]
    rfl

/-- Witness of C17: the empty list, and the list `["within", "area"]`. -/
theorem parseExpression_unsupported_operator_witness :
    parseExpression Sample.env [] = Conv.ok "" ["Skipping non-supported expression"]
    ∧ parseExpression Sample.env [QVariant.string "within", QVariant.string "area"]
      = Conv.ok "" ["Skipping non-supported expression"] :=
  ⟨parseExpression_unsupported_operator Sample.env [] (by decide),
   parseExpression_unsupported_operator Sample.env
     [QVariant.string "within", QVariant.string "area"] (by decide)⟩

end QgsMapBoxGlStyleConverter

/-! ### Label templates -/

namespace QgsMapBoxGlStyleConverter

theorem takeWhile_before_brace (cs rest : List Char) (h : closeBrace ∉ cs) :
    (cs ++ closeBrace :: rest).takeWhile (fun x => decide (x ≠ closeBrace)) = cs := by
  induction cs with
  | nil => simp [List.takeWhile]
  | cons c cs ih =>
    have hc : c ≠ closeBrace := fun e => h (e ▸ List.mem_cons_self _ _)
    have hcs : closeBrace ∉ cs := fun m => h (List.mem_cons_of_mem _ m)
    have := ih hcs
    simp only [List.cons_append, List.takeWhile, hc, ne_eq, not_false_eq_true, decide_True]
    exact congrArg (List.cons c) this

theorem dropWhile_before_brace (cs rest : List Char) (h : closeBrace ∉ cs) :
    (cs ++ closeBrace :: rest).dropWhile (fun x => decide (x ≠ closeBrace)) = closeBrace :: rest := by
  induction cs with
  | nil => simp [List.dropWhile]
  | cons c cs ih =>
    have hc : c ≠ closeBrace := fun e => h (e ▸ List.mem_cons_self _ _)
    have hcs : closeBrace ∉ cs := fun m => h (List.mem_cons_of_mem _ m)
    have := ih hcs
    simp only [List.cons_append, List.dropWhile, hc, ne_eq, not_false_eq_true, decide_True]
    exact this

theorem singleFieldMatch_token (field : List Char) (hne : field ≠ []) (hbrace : closeBrace ∉ field) :
    singleFieldMatch (openBrace :: (field ++ [closeBrace])) = some field := by
  simp only [singleFieldMatch, takeWhile_before_brace field [] hbrace,
    dropWhile_before_brace field [] hbrace]
  simp [hne]

theorem data_ne_nil_of_ne (s : String) (h : s ≠ "") : s.data ≠ [] := by
  intro e
  apply h
  cases s
  simp only at e
  rw [e]

theorem processLabelField_token (env : Env) (field : String) (hne : field ≠ "")
    (hbrace : closeBrace ∉ field.data) :
    processLabelField env ("\x7b" ++ field ++ "\x7d") = Conv.ok (field, false) [] := by
  have hdata : ("\x7b" ++ field ++ "\x7d").data = openBrace :: (field.data ++ [closeBrace]) := by
    simp only [String.data_append]
    rfl
  unfold processLabelField
  rw [hdata, singleFieldMatch_token field.data (data_ne_nil_of_ne field hne) hbrace]
  rfl

/-- A symbol layer with nothing but a `text-field` that is a string gets the label
settings of `processLabelField` on that string. -/
theorem parseSymbolLayer_text_field (env : Env) (template : String)
    (renderer : QgsVectorTileBasicRendererStyle)
    (labelingStyle : QgsVectorTileBasicLabelingStyle) (context : QgsMapBoxGlStyleConversionContext)
    (fieldName : String) (isExpression : Bool) (warnings : List String)
    (h : processLabelField env template = Conv.ok (fieldName, isExpression) warnings) :
    parseSymbolLayer env (textFieldLayer template) renderer labelingStyle context
      = Conv.ok (false, renderer, true,
            { labelingStyle with
                geometryType := GeometryType.PointGeometry,
                labelSettings := some
                  { defaultLabelSettings context with
                      fieldName := fieldName, isExpression := isExpression,
                      priority := some (min (16 / (context.pixelSizeConversionFactor * 3)) 10),
                      format := { (defaultLabelSettings context).format with size := some 16 },
                      obstacleFactor := 1 / 10 } }) warnings := by
  unfold parseSymbolLayer textFieldLayer textSizeStep textMaxWidthStep textLetterSpacingStep
    textFontStep textColorStep bufferColorStep bufferSizeStep haloBlurStep textFormatStep
    textFieldStep textTransformStep labelPlacementStep textAnchorStep labelingTail
  simp [QVariantMap.contains, QVariantMap.value, QVariantMap.valueOr, QVariant.toMap, List.lookup,
    QVariant.type, QVariant.toString, h, Conv.bind, pure]
  norm_num [QColor.invalid, defaultLabelSettings]

theorem tokenAhead_of_ne (c : Char) (rest : List Char) (h : c ≠ openBrace) :
    tokenAhead (c :: rest) = false := by
  cases rest with
  | nil => rfl
  | cons d more => simp [tokenAhead, h]

theorem splitAtTokens_literal (literal rest current : List Char) (h : openBrace ∉ literal) :
    splitAtTokens (literal ++ rest) current = splitAtTokens rest (literal.reverse ++ current) := by
  induction literal generalizing current with
  | nil => rfl
  | cons c cs ih =>
    have hc : c ≠ openBrace := fun e => h (e ▸ List.mem_cons_self _ _)
    have hcs : openBrace ∉ cs := fun m => h (List.mem_cons_of_mem _ m)
    have h2 := ih (c :: current) hcs
    simp only [List.cons_append, splitAtTokens, tokenAhead_of_ne c _ hc, Bool.false_eq_true,
      if_false, List.reverse_cons, List.append_assoc, List.singleton_append]
    exact h2

theorem tokenAhead_token (field rest : List Char) (hne : field ≠ []) (hclose : closeBrace ∉ field) :
    tokenAhead (openBrace :: (field ++ closeBrace :: rest)) = true := by
  cases field with
  | nil => exact absurd rfl hne
  | cons d more =>
    have hd : d ≠ closeBrace := fun e => hclose (e ▸ List.mem_cons_self _ _)
    simp [tokenAhead, hd]

/-- The split of a literal followed by one field token: the literal, then the token. -/
theorem splitAtTokens_literal_token (literal field : List Char) (hl : openBrace ∉ literal)
    (hne : field ≠ []) (hopen : openBrace ∉ field) (hclose : closeBrace ∉ field) :
    splitAtTokens (literal ++ openBrace :: (field ++ [closeBrace])) []
      = [literal, openBrace :: (field ++ [closeBrace])] := by
  have hrest : openBrace ∉ field ++ [closeBrace] := by
    intro m
    rcases List.mem_append.mp m with m | m
    · exact hopen m
    · simp [openBrace, closeBrace] at m
  have h2 := splitAtTokens_literal (field ++ [closeBrace]) [] [openBrace] hrest
  rw [List.append_nil] at h2
  rw [splitAtTokens_literal literal _ [] hl]
  simp only [splitAtTokens, tokenAhead_token field [] hne hclose, if_true, List.append_nil,
    List.reverse_reverse, h2, List.reverse_append, List.reverse_cons, List.reverse_nil,
    List.nil_append, List.singleton_append, List.cons_append]

theorem splitChars_absent (c : Char) (cs : List Char) (h : c ∉ cs) :
    QString.splitChars c cs = [cs] := by
  induction cs with
  | nil => rfl
  | cons x xs ih =>
    have hx : x ≠ c := fun e => h (e ▸ List.mem_cons_self _ _)
    have hxs : c ∉ xs := fun m => h (List.mem_cons_of_mem _ m)
    simp only [QString.splitChars, hx, if_false, ih hxs]

theorem processLabelField_literal_first (env : Env) (literal field : String)
    (hl : literal ≠ "") (hlopen : openBrace ∉ literal.data) (hlclose : closeBrace ∉ literal.data)
    (hf : field ≠ "") (hfopen : openBrace ∉ field.data) (hfclose : closeBrace ∉ field.data) :
    processLabelField env (literal ++ "\x7b" ++ field ++ "\x7d") = Conv.fault Fault.indexOutOfRange := by
  have hdata : (literal ++ "\x7b" ++ field ++ "\x7d").data
      = literal.data ++ openBrace :: (field.data ++ [closeBrace]) := by
    simp only [String.data_append, List.append_assoc]
    rfl
  have hl2 := data_ne_nil_of_ne literal hl
  have hf2 := data_ne_nil_of_ne field hf
  obtain ⟨c, cs, hcs⟩ : ∃ c cs, literal.data = c :: cs := by
    cases hd : literal.data with
    | nil => exact absurd hd hl2
    | cons c cs => exact ⟨c, cs, rfl⟩
  have hc : c ≠ openBrace := fun e => hlopen (by rw [hcs, e]; exact List.mem_cons_self _ _)
  have hsingle :
      singleFieldMatch (literal.data ++ openBrace :: (field.data ++ [closeBrace])) = none := by
    rw [hcs]
    simp [singleFieldMatch, hc]
  have hsplit : QString.split (String.mk literal.data) closeBrace = [String.mk literal.data] := by
    simp only [QString.split, splitChars_absent closeBrace literal.data hlclose, List.map_cons,
      List.map_nil]
  have hempty : QString.isEmpty (String.mk literal.data) = false := by
    rw [hcs]; rfl
  unfold processLabelField
  rw [hdata, hsingle]
  simp only [splitAtTokens_literal_token literal.data field.data hlopen hf2 hfopen hfclose,
    List.map_cons, List.map_nil, List.length_cons, List.length_nil]
  simp [labelFieldParts, hempty, hsplit, QList.elementAt, Conv.bind]

/-! ### Interpolation between two stops -/

theorem qgsDoubleNear_self (a : ℚ) : qgsDoubleNear a a = true := by
  simp only [qgsDoubleNear, sub_self, Bool.and_eq_true, decide_eq_true_eq]
  constructor <;> norm_num

theorem interpolateExpression_self (env : Env) (zoomMin zoomMax value base multiplier : ℚ) :
    interpolateExpression env zoomMin zoomMax value value base multiplier
      = env.number (value * multiplier) := by
  simp only [interpolateExpression, qgsDoubleNear_self, if_true]

end QgsMapBoxGlStyleConverter

namespace QgsMapBoxGlStyleConverter

/-- C18: for every `text-field` string `{f}` where `f` is not empty and holds no `}`,
`processLabelField` returns the bare name `f` with `isExpression` false, without a
warning; and the symbol layer whose layout has this `text-field` and nothing else gets a
labeling rule whose label settings have the field name `f` and `isExpression` false. -/
theorem processLabelField_single_field (env : Env) (field : String) (hne : field ≠ "")
    (hbrace : closeBrace ∉ field.data) :
    processLabelField env ("\x7b" ++ field ++ "\x7d") = Conv.ok (field, false) []
    ∧ ∀ (renderer : QgsVectorTileBasicRendererStyle) (labelingStyle : QgsVectorTileBasicLabelingStyle)
        (context : QgsMapBoxGlStyleConversionContext),
        ∃ labelSettings,
          parseSymbolLayer env (textFieldLayer ("\x7b" ++ field ++ "\x7d")) renderer labelingStyle
              context
            = Conv.ok (false, renderer, true,
                { labelingStyle with geometryType := GeometryType.PointGeometry,
                                     labelSettings := some labelSettings }) []
          ∧ labelSettings.fieldName = field ∧ labelSettings.isExpression = false := by
  have h := processLabelField_token env field hne hbrace
  refine ⟨h, ?_⟩
  intro renderer labelingStyle context
  exact ⟨_, parseSymbolLayer_text_field env _ renderer labelingStyle context field false [] h,
    rfl, rfl⟩

/-- Witness of C18: the template `{name}`. -/
theorem processLabelField_single_field_witness :
    "name" ≠ "" ∧ closeBrace ∉ "name".data
    ∧ processLabelField Sample.env "\x7bname\x7d" = Conv.ok ("name", false) [] :=
  ⟨by decide, by decide,
   (processLabelField_single_field Sample.env "name" (by decide) (by decide)).1⟩

/-- C19: `processLabelField` on the template `Name: {name}` reaches `split.at( 1 )` on the
one-element split of the part `Name: ` and stops there, and so does every template made
of a literal without braces followed by one field token; the symbol layer with the
`text-field` `Name: {name}` stops with it. The template `{name_en} - {name_fr}`, which
starts at a token, gives `concat("name_en",' - ',"name_fr")` with `isExpression` true. -/
theorem processLabelField_literal_before_token_faults (env : Env) :
    processLabelField env "Name: \x7bname\x7d" = Conv.fault Fault.indexOutOfRange
    ∧ (∀ literal field : String,
        literal ≠ "" → openBrace ∉ literal.data → closeBrace ∉ literal.data →
        field ≠ "" → openBrace ∉ field.data → closeBrace ∉ field.data →
        processLabelField env (literal ++ "\x7b" ++ field ++ "\x7d")
          = Conv.fault Fault.indexOutOfRange)
    ∧ (∀ (renderer : QgsVectorTileBasicRendererStyle)
        (labelingStyle : QgsVectorTileBasicLabelingStyle)
        (context : QgsMapBoxGlStyleConversionContext),
        parseSymbolLayer env (textFieldLayer "Name: \x7bname\x7d") renderer labelingStyle context
          = Conv.fault Fault.indexOutOfRange)
    ∧ processLabelField env "\x7bname_en\x7d - \x7bname_fr\x7d"
      = Conv.ok ("concat(\"name_en\",' - ',\"name_fr\")", true) [] :=
  ⟨rfl, processLabelField_literal_first env, fun _ _ _ => rfl, rfl⟩

/-- Witness of C19: the literal `Name: ` and the field `name`. -/
theorem processLabelField_literal_before_token_faults_witness :
    processLabelField Sample.env "Name: \x7bname\x7d" = Conv.fault Fault.indexOutOfRange :=
  (processLabelField_literal_before_token_faults Sample.env).2.1 "Name: " "name"
    (by decide) (by decide) (by decide) (by decide) (by decide) (by decide)

/-- C20: for every interpolation between two stops whose values are equal (value `v`, any
zooms, any base, multiplier `m`), `interpolateExpression` is the text of the number `v*m`,
whatever the zooms and the base are, with no `scale_linear` or `scale_exp` call around it;
`parseInterpolateByZoom` on a map with two such stops gives the property with that text
and the default number `v*m`; and `interpolateExpression(5,13,27,27,1.5,2)` is `54` where
the number 54 prints as `54`. -/
theorem interpolateExpression_equal_values (env : Env) :
    (∀ zoomMin zoomMax value base multiplier : ℚ,
      interpolateExpression env zoomMin zoomMax value value base multiplier
        = env.number (value * multiplier))
    ∧ (∀ (json : QVariantMap) (bottom top : QVariant) (value multiplier : ℚ),
        (QVariantMap.value json "stops").toList = [bottom, top] →
        (stopValue bottom).toDouble = value → (stopValue top).toDouble = value →
        parseInterpolateByZoom env json multiplier
          = Conv.ok (QgsProperty.fromExpression (env.number (value * multiplier)),
              some (value * multiplier)) [])
    ∧ (env.number 54 = "54" → interpolateExpression env 5 13 27 27 (3 / 2) 2 = "54") := by
  refine ⟨interpolateExpression_self env, ?_, ?_⟩
  · intro json bottom top value multiplier hstops hbottom htop
    unfold parseInterpolateByZoom
    simp only [hstops, List.isEmpty_cons, Bool.false_eq_true, if_false, List.length_cons,
      List.length_nil, QList.last, List.getLast?, QVariantList.value]
    simp [Conv.bind, pure, hbottom, htop, interpolateExpression_self]
  · intro hnumber
    rw [interpolateExpression_self, ← hnumber]
    norm_num

/-- Witness of C20: the stops `[[5, 27], [13, 27]]` with the multiplier 2, where numbers
print as their integer part. -/
theorem interpolateExpression_equal_values_witness :
    Sample.env.number 54 = "54"
    ∧ interpolateExpression Sample.env 5 13 27 27 (3 / 2) 2 = "54"
    ∧ parseInterpolateByZoom Sample.env
        [("stops", QVariant.list [QVariant.list [QVariant.int 5, QVariant.int 27],
          QVariant.list [QVariant.int 13, QVariant.int 27]])] 2
      = Conv.ok (QgsProperty.fromExpression "54", some 54) [] :=
  ⟨rfl, (interpolateExpression_equal_values Sample.env).2.2 rfl,
   ((interpolateExpression_equal_values Sample.env).2.1
     [("stops", QVariant.list [QVariant.list [QVariant.int 5, QVariant.int 27],
       QVariant.list [QVariant.int 13, QVariant.int 27]])]
     (QVariant.list [QVariant.int 5, QVariant.int 27])
     (QVariant.list [QVariant.int 13, QVariant.int 27]) 27 2 rfl rfl rfl).trans
     (by norm_num; rfl)⟩

end QgsMapBoxGlStyleConverter

namespace QgsMapBoxGlStyleConverter

theorem interpolateExpression_far (env : Env) (zoomMin zoomMax valueMin valueMax base multiplier : ℚ)
    (hfar : qgsDoubleNear valueMin valueMax = false) :
    interpolateExpression env zoomMin zoomMax valueMin valueMax base multiplier
      = timesMultiplier env multiplier (scaleCall env zoomMin zoomMax valueMin valueMax base) := by
  unfold interpolateExpression timesMultiplier scaleCall
  simp only [hfar, Bool.false_eq_true, if_false]
  by_cases hm : multiplier = 1 <;> by_cases hb : base = 1 <;> simp [hm, hb]

/-- C21: for every stops map with two stops `(z0, v0)` and `(z1, v1)` whose values are not
near each other (they differ by more than the tolerance of `qgsDoubleNear`, four times the
machine epsilon), `parseInterpolateByZoom` gives, without a warning, the active property
whose expression is one scale call over the zoom, `scale_linear(@zoom_level,z0,z1,v0,v1)`
for the base 1 and `scale_exp(@zoom_level,z0,z1,v0,v1,base)` otherwise, followed by ` * m`
exactly when the multiplier `m` is not 1; the default number is `v0*m`. -/
theorem parseInterpolateByZoom_two_stops (env : Env) (json : QVariantMap) (multiplier : ℚ)
    (bottom top : QVariant)
    (hstops : QVariantMap.value json "stops" = QVariant.list [bottom, top])
    (hfar : qgsDoubleNear (stopValue bottom).toDouble (stopValue top).toDouble = false) :
    parseInterpolateByZoom env json multiplier
      = Conv.ok
          (QgsProperty.fromExpression
            (timesMultiplier env multiplier
              (scaleCall env (stopZoom bottom).toDouble (stopZoom top).toDouble
                (stopValue bottom).toDouble (stopValue top).toDouble
                (QVariantMap.valueOr json "base" (QVariant.string "1")).toDouble)),
           some ((stopValue bottom).toDouble * multiplier)) [] := by
  unfold parseInterpolateByZoom
  simp only [hstops, QVariant.toList, List.isEmpty_cons, Bool.false_eq_true, if_false,
    List.length_cons, List.length_nil, QList.last, List.getLast?, QVariantList.value]
  simp [Conv.bind, pure, interpolateExpression_far env _ _ _ _ _ _ hfar]

/-- Witness of C21: the stops `(5, 27)` and `(13, 29)`, with the base 1 and the multiplier
1, and with the base 1.5 and the multiplier 2, where numbers print in decimal writing. -/
theorem parseInterpolateByZoom_two_stops_witness :
    qgsDoubleNear 27 29 = false
    ∧ parseInterpolateByZoom Sample.paletteEnv (Sample.twoStops (QVariant.int 1)) 1
      = Conv.ok (QgsProperty.fromExpression "scale_linear(@zoom_level,5,13,27,29)", some 27) []
    ∧ parseInterpolateByZoom Sample.paletteEnv (Sample.twoStops (QVariant.double (3 / 2))) 2
      = Conv.ok (QgsProperty.fromExpression "scale_exp(@zoom_level,5,13,27,29,1.5) * 2",
          some 54) [] :=
  ⟨by decide!,
   (parseInterpolateByZoom_two_stops Sample.paletteEnv (Sample.twoStops (QVariant.int 1)) 1
     (QVariant.list [QVariant.int 5, QVariant.int 27])
     (QVariant.list [QVariant.int 13, QVariant.int 29]) rfl (by decide!)).trans
     (by decide!),
   (parseInterpolateByZoom_two_stops Sample.paletteEnv
     (Sample.twoStops (QVariant.double (3 / 2))) 2
     (QVariant.list [QVariant.int 5, QVariant.int 27])
     (QVariant.list [QVariant.int 13, QVariant.int 29]) rfl (by decide!)).trans
     (by decide!)⟩

/-- Counterexample to C21 as stated: the two stops `(5, 0)` and `(13, 10⁻¹⁶)` have
distinct values, and `parseInterpolateByZoom` gives the constant `0` and no scale call. -/
theorem parseInterpolateByZoom_two_distinct_near_values :
    (QVariant.double 0).toDouble ≠ (QVariant.double (1 / 10 ^ 16)).toDouble
    ∧ parseInterpolateByZoom Sample.paletteEnv Sample.nearStops 1
      = Conv.ok (QgsProperty.fromExpression "0", some 0) [] := by
  constructor
  · decide!
  · decide!

end QgsMapBoxGlStyleConverter

namespace QgsMapBoxGlStyleConverter

/-! ### Stops of more than two numbers -/

theorem stopsCases_numeric (env : Env) (base multiplier : ℚ) :
    ∀ stops : QVariantList, (∀ stop ∈ stops, (stopZoom stop).type ≠ QVariantType.List) →
      stopsCases env base multiplier stops
        = Conv.ok (some (concatTexts ((stopPairs stops).map (rangedBranch env base multiplier)))) []
  | [], _ => rfl
  | [_], _ => rfl
  | bottom :: top :: rest, h => by
    have hb := h bottom (List.mem_cons_self _ _)
    have ht := h top (List.mem_cons_of_mem _ (List.mem_cons_self _ _))
    have ih := stopsCases_numeric env base multiplier (top :: rest)
      (fun stop hs => h stop (List.mem_cons_of_mem _ hs))
    unfold stopsCases
    simp [hb, ht, ih, Conv.bind, pure, stopPairs, concatTexts, rangedBranch]

theorem stopPairs_mem : ∀ (stops : QVariantList) (pair : QVariant × QVariant),
    pair ∈ stopPairs stops → ∃ rest, (pair.1 :: pair.2 :: rest) <:+ stops
  | [], _, h => by simp [stopPairs] at h
  | [_], _, h => by simp [stopPairs] at h
  | bottom :: top :: rest, pair, h => by
    simp only [stopPairs, List.mem_cons] at h
    rcases h with h | h
    · subst h
      exact ⟨rest, List.suffix_refl _⟩
    · obtain ⟨rest2, h2⟩ := stopPairs_mem (top :: rest) pair h
      exact ⟨rest2, h2.trans (List.suffix_cons _ _)⟩

end QgsMapBoxGlStyleConverter
namespace QgsMapBoxGlStyleConverter

theorem branchCovers_at_or_below_first (stops : QVariantList) (first : QVariant)
    (hfirst : stops.head? = some first) (hasc : AscendingZooms stops) (zoom : ℚ)
    (hzoom : zoom ≤ (stopZoom first).toDouble) (pair : QVariant × QVariant)
    (hpair : pair ∈ stopPairs stops) : branchCovers zoom pair = false := by
  obtain ⟨rest, hsuffix⟩ := stopPairs_mem stops pair hpair
  have hmem : pair.1 ∈ stops := hsuffix.subset (List.mem_cons_self _ _)
  cases stops with
  | nil => simp at hfirst
  | cons head tail =>
    simp only [List.head?_cons, Option.some.injEq] at hfirst
    subst hfirst
    have hle : (stopZoom head).toDouble ≤ (stopZoom pair.1).toDouble := by
      rcases List.mem_cons.1 hmem with h | h
      · rw [h]
      · exact le_of_lt (List.rel_of_pairwise_cons hasc h)
    simp only [branchCovers, Bool.and_eq_false_imp, decide_eq_true_eq, decide_eq_false_iff_not,
      not_le]
    intro hlt
    exact absurd (lt_of_le_of_lt hle hlt) (not_lt.2 hzoom)

theorem branchCovers_above_last (stops : QVariantList) (last : QVariant)
    (hlast : stops.getLast? = some last) (hasc : AscendingZooms stops) (zoom : ℚ)
    (hzoom : (stopZoom last).toDouble < zoom) (pair : QVariant × QVariant)
    (hpair : pair ∈ stopPairs stops) : branchCovers zoom pair = false := by
  obtain ⟨rest, hsuffix⟩ := stopPairs_mem stops pair hpair
  have hmem : pair.2 ∈ stops :=
    hsuffix.subset (List.mem_cons_of_mem _ (List.mem_cons_self _ _))
  obtain ⟨init, hinit⟩ : ∃ init, stops = init ++ [last] := by
    rcases List.eq_nil_or_concat stops with h | ⟨init, l, h⟩
    · simp [h] at hlast
    · rw [h, List.concat_eq_append, List.getLast?_append_of_ne_nil _ (List.cons_ne_nil _ _)] at hlast
      simp only [List.getLast?_singleton, Option.some.injEq] at hlast
      exact ⟨init, by rw [h, hlast, List.concat_eq_append]⟩
  have hle : (stopZoom pair.2).toDouble ≤ (stopZoom last).toDouble := by
    rw [hinit] at hmem hasc
    rcases List.mem_append.1 hmem with h | h
    · exact le_of_lt ((List.pairwise_append.1 hasc).2.2 _ h _ (List.mem_singleton_self _))
    · rw [List.mem_singleton.1 h]
  simp only [branchCovers, Bool.and_eq_false_imp, decide_eq_true_eq, decide_eq_false_iff_not,
    not_le]
  intro _
  exact lt_of_le_of_lt hle hzoom

/-- C22: on a numeric stops map with more than two stops whose zooms are numbers,
`parseInterpolateByZoom` gives the conditional made of `CASE`, one branch
`WHEN @zoom_level > bz AND @zoom_level <= tz THEN ...` for each pair of consecutive stops,
and `END`, with no `ELSE` part; for stops of strictly ascending zoom the test of no branch
holds at the zoom of the first stop or below it, nor above the zoom of the last stop, so
the conditional has no value there. -/
theorem parseInterpolateByZoom_many_stops_leave_gaps (env : Env) :
    (∀ (json : QVariantMap) (multiplier : ℚ) (stops : QVariantList),
      QVariantMap.value json "stops" = QVariant.list stops → 2 < stops.length →
      (∀ stop ∈ stops, (stopZoom stop).type ≠ QVariantType.List) →
      parseInterpolateByZoom env json multiplier
        = Conv.ok
            (QgsProperty.fromExpression
              ("CASE "
                ++ concatTexts ((stopPairs stops).map
                    (rangedBranch env
                      (QVariantMap.valueOr json "base" (QVariant.string "1")).toDouble multiplier))
                ++ "END"),
             some ((stopValue (QVariantList.value stops 0)).toDouble * multiplier)) [])
    ∧ (∀ (stops : QVariantList) (first : QVariant) (zoom : ℚ),
        stops.head? = some first → AscendingZooms stops → zoom ≤ (stopZoom first).toDouble →
        ∀ pair ∈ stopPairs stops, branchCovers zoom pair = false)
    ∧ (∀ (stops : QVariantList) (last : QVariant) (zoom : ℚ),
        stops.getLast? = some last → AscendingZooms stops → (stopZoom last).toDouble < zoom →
        ∀ pair ∈ stopPairs stops, branchCovers zoom pair = false) := by
  refine ⟨?_, ?_, ?_⟩
  · intro json multiplier stops hstops hlength hzooms
    have hempty : stops.isEmpty = false := by
      cases stops with
      | nil => simp at hlength
      | cons _ _ => rfl
    unfold parseInterpolateByZoom parseStops
    simp only [hstops, QVariant.toList, hempty, Bool.false_eq_true, if_false,
      not_le.2 hlength, stopsCases_numeric env _ multiplier stops hzooms]
    simp [Conv.bind, pure]
  · intro stops first zoom hfirst hasc hzoom pair hpair
    exact branchCovers_at_or_below_first stops first hfirst hasc zoom hzoom pair hpair
  · intro stops last zoom hlast hasc hzoom pair hpair
    exact branchCovers_above_last stops last hlast hasc zoom hzoom pair hpair

/-- Witness of C22: the stops `(0, 1)`, `(5, 2)`, `(10, 3)`, where numbers print in decimal
writing; no branch holds at the zoom 0 of the first stop, nor at the zoom 11. -/
theorem parseInterpolateByZoom_many_stops_leave_gaps_witness :
    parseInterpolateByZoom Sample.paletteEnv Sample.threeStops 1
      = Conv.ok
          (QgsProperty.fromExpression
            ("CASE WHEN @zoom_level > 0 AND @zoom_level <= 5 THEN scale_linear(@zoom_level,0,5,1,2) "
              ++ "WHEN @zoom_level > 5 AND @zoom_level <= 10 THEN scale_linear(@zoom_level,5,10,2,3) "
              ++ "END"),
           some 1) []
    ∧ AscendingZooms (QVariantMap.value Sample.threeStops "stops").toList
    ∧ (∀ pair ∈ stopPairs (QVariantMap.value Sample.threeStops "stops").toList,
        branchCovers 0 pair = false)
    ∧ (∀ pair ∈ stopPairs (QVariantMap.value Sample.threeStops "stops").toList,
        branchCovers 11 pair = false) :=
  have hasc : AscendingZooms (QVariantMap.value Sample.threeStops "stops").toList := by
    simp only [AscendingZooms]
    decide!
  ⟨((parseInterpolateByZoom_many_stops_leave_gaps Sample.paletteEnv).1 Sample.threeStops 1 _ rfl
      (by decide) (by decide)).trans (by decide!),
   hasc,
   (parseInterpolateByZoom_many_stops_leave_gaps Sample.paletteEnv).2.1 _
     (QVariant.list [QVariant.int 0, QVariant.int 1]) 0 rfl hasc (by decide!),
   (parseInterpolateByZoom_many_stops_leave_gaps Sample.paletteEnv).2.2 _
     (QVariant.list [QVariant.int 10, QVariant.int 3]) 11 rfl hasc (by decide!)⟩

end QgsMapBoxGlStyleConverter

namespace QgsMapBoxGlStyleConverter

/-! ### Colour stops -/

theorem parseColor_string (env : Env) (color : QVariant) (h : color.type = QVariantType.String) :
    parseColor env color = Conv.ok (env.parseColor (color.toString env)) [] := by
  simp [parseColor, h]

theorem parseColor_of_text (env : Env) (text : String) :
    parseColor env (QVariant.string text) = Conv.ok (env.parseColor text) [] := rfl

theorem colorCases_strings (env : Env) (base : ℚ) :
    ∀ stops : QVariantList, (∀ stop ∈ stops, (stopValue stop).type = QVariantType.String) →
      colorCases env base stops
        = Conv.ok (concatTexts ((stopPairs stops).map (hslaBranch env base))) []
  | [], _ => rfl
  | [_], _ => rfl
  | bottom :: top :: rest, h => by
    have hb := parseColor_string env _ (h bottom (List.mem_cons_self _ _))
    have ht := parseColor_string env _ (h top (List.mem_cons_of_mem _ (List.mem_cons_self _ _)))
    have ih := colorCases_strings env base (top :: rest)
      (fun stop hs => h stop (List.mem_cons_of_mem _ hs))
    unfold colorCases
    simp [hb, ht, ih, Conv.bind, pure, stopPairs, concatTexts, hslaBranch, colorAsHslaComponents]

theorem parseInterpolateColorByZoom_strings (env : Env) (json : QVariantMap)
    (stops : QVariantList) (first last : QVariant)
    (hstops : QVariantMap.value json "stops" = QVariant.list stops)
    (hfirst : stops.head? = some first) (hlast : stops.getLast? = some last)
    (hcolors : ∀ stop ∈ stops, (stopValue stop).type = QVariantType.String) :
    parseInterpolateColorByZoom env json
      = Conv.ok
          (QgsProperty.fromExpression
            ("CASE "
              ++ concatTexts ((stopPairs stops).map
                  (hslaBranch env (QVariantMap.valueOr json "base" (QVariant.string "1")).toDouble))
              ++ "WHEN @zoom_level >= " ++ (stopZoom last).toString env ++ " THEN "
              ++ hslaOf env (env.parseColor ((stopValue last).toString env))
              ++ " ELSE " ++ hslaOf env (env.parseColor ((stopValue last).toString env))
              ++ " END"),
           some (env.parseColor ((stopValue first).toString env))) [] := by
  have hempty : stops.isEmpty = false := by
    cases stops with
    | nil => simp at hfirst
    | cons _ _ => rfl
  have hzero : QVariantList.value stops 0 = first := by
    cases stops with
    | nil => simp at hfirst
    | cons head _ =>
      simp only [List.head?_cons, Option.some.injEq] at hfirst
      simp [QVariantList.value, hfirst]
  have hmem : last ∈ stops := List.mem_of_getLast?_eq_some hlast
  unfold parseInterpolateColorByZoom
  simp only [hstops, QVariant.toList, hempty, Bool.false_eq_true, if_false,
    colorCases_strings env _ stops hcolors, QList.last, hlast, hzero,
    parseColor_string env _ (hcolors last hmem)]
  simp [Conv.bind, pure, parseColor_of_text, parseColor_string env _ (hcolors last hmem), hslaOf,
    colorAsHslaComponents, String.append_assoc]

end QgsMapBoxGlStyleConverter
namespace QgsMapBoxGlStyleConverter

theorem greyStops_example (env : Env) (h : Sample.KnowsGreys env) :
    parseInterpolateColorByZoom env Sample.greyStops
      = Conv.ok
          (QgsProperty.fromExpression
            ("CASE WHEN @zoom_level >= 0 AND @zoom_level < 10 THEN "
              ++ "color_hsla(0, 0, scale_linear(@zoom_level,0,10,100,0), 255) "
              ++ "WHEN @zoom_level >= 10 THEN color_hsla(0, 0, 0, 255) "
              ++ "ELSE color_hsla(0, 0, 0, 255) END"),
           some Sample.white) [] := by
  obtain ⟨hwhite, hblack, hhw, hhb, hsw, hsb, hlw, hlb, hn0, hn10, hn100, hn255⟩ := h
  have hz0 : QString.toDouble "0" = 0 := by decide!
  have hz1 : QString.toDouble "1" = 1 := by decide!
  have hz10 : QString.toDouble "10" = 10 := by decide!
  have ht100 : truncToInt 100 = 100 := by decide!
  have ht0 : truncToInt 0 = 0 := by decide!
  have hfar : qgsDoubleNear 100 0 = false := by decide!
  have hwa : Sample.white.alpha = 255 := rfl
  have hba : Sample.black.alpha = 255 := rfl
  have ho0 : QString.ofInt 0 = "0" := rfl
  have ho10 : QString.ofInt 10 = "10" := rfl
  have ho255 : QString.ofInt 255 = "255" := rfl
  rw [parseInterpolateColorByZoom_strings env Sample.greyStops _
    (QVariant.list [QVariant.int 0, QVariant.string "#ffffff"])
    (QVariant.list [QVariant.int 10, QVariant.string "#000000"]) rfl rfl rfl (by decide)]
  simp [stopPairs, concatTexts, hslaBranch, hslaOf, colorAsHslaComponents, stopZoom, stopValue,
    QVariantList.value, QVariant.toList, QVariant.toString, QVariant.toDouble, hwhite, hblack,
    hhw, hhb, hsw, hsb, hlw, hlb, Sample.greyStops,
    QVariantMap.valueOr, List.lookup, ho0, ho10, ho255, hz0, hz1, hz10, ht0, ht100,
    interpolateExpression_self, interpolateExpression_far env _ _ _ _ _ _ hfar, timesMultiplier,
    scaleCall, hn0, hn10, hn100, hn255, colorHsla]
  rw [hwa, hba, Int.cast_ofNat, interpolateExpression_self, mul_one, hn255, ho255]
  rfl

theorem knowsGreys_paletteEnv : Sample.KnowsGreys Sample.paletteEnv := by
  unfold Sample.KnowsGreys
  decide!

/-- C23: for every colour stops map with at least one stop whose colours are strings,
`parseInterpolateColorByZoom` returns, without a warning, an active property and the
colour of the first stop as the default; the expression of the property is a conditional
with one branch for each pair of consecutive stops, in which the hue, the saturation, the
lightness and the alpha are interpolated each on its own inside `color_hsla(...)`, and the
colour of the last stop from its zoom on and otherwise. For the stops
`[[0,"#ffffff"],[10,"#000000"]]`, where the collaborators act as Qt does on white and
black, the default is white and the expression is the text of the property. -/
theorem parseInterpolateColorByZoom_hsla_segments (env : Env) :
    (∀ (json : QVariantMap) (stops : QVariantList) (first last : QVariant),
      QVariantMap.value json "stops" = QVariant.list stops →
      stops.head? = some first → stops.getLast? = some last →
      (∀ stop ∈ stops, (stopValue stop).type = QVariantType.String) →
      ∃ property,
        parseInterpolateColorByZoom env json
          = Conv.ok (property, some (env.parseColor ((stopValue first).toString env))) []
        ∧ property.isActive = true
        ∧ property.expressionString
          = "CASE "
            ++ concatTexts ((stopPairs stops).map
                (hslaBranch env (QVariantMap.valueOr json "base" (QVariant.string "1")).toDouble))
            ++ "WHEN @zoom_level >= " ++ (stopZoom last).toString env ++ " THEN "
            ++ hslaOf env (env.parseColor ((stopValue last).toString env))
            ++ " ELSE " ++ hslaOf env (env.parseColor ((stopValue last).toString env))
            ++ " END")
    ∧ (Sample.KnowsGreys env →
        parseInterpolateColorByZoom env Sample.greyStops
          = Conv.ok
              (QgsProperty.fromExpression
                ("CASE WHEN @zoom_level >= 0 AND @zoom_level < 10 THEN "
                  ++ "color_hsla(0, 0, scale_linear(@zoom_level,0,10,100,0), 255) "
                  ++ "WHEN @zoom_level >= 10 THEN color_hsla(0, 0, 0, 255) "
                  ++ "ELSE color_hsla(0, 0, 0, 255) END"),
               some Sample.white) []) := by
  refine ⟨?_, greyStops_example env⟩
  intro json stops first last hstops hfirst hlast hcolors
  exact ⟨_, parseInterpolateColorByZoom_strings env json stops first last hstops hfirst hlast
    hcolors, rfl, rfl⟩

/-- Witness of C23: the stops from white at the zoom 0 to black at the zoom 10, with
collaborators that know the two colours. -/
theorem parseInterpolateColorByZoom_hsla_segments_witness :
    Sample.KnowsGreys Sample.paletteEnv
    ∧ (∀ stop ∈ (QVariantMap.value Sample.greyStops "stops").toList,
        (stopValue stop).type = QVariantType.String)
    ∧ (∃ property,
        parseInterpolateColorByZoom Sample.paletteEnv Sample.greyStops
          = Conv.ok (property, some Sample.white) []
        ∧ property.isActive = true)
    ∧ parseInterpolateColorByZoom Sample.paletteEnv Sample.greyStops
      = Conv.ok
          (QgsProperty.fromExpression
            ("CASE WHEN @zoom_level >= 0 AND @zoom_level < 10 THEN "
              ++ "color_hsla(0, 0, scale_linear(@zoom_level,0,10,100,0), 255) "
              ++ "WHEN @zoom_level >= 10 THEN color_hsla(0, 0, 0, 255) "
              ++ "ELSE color_hsla(0, 0, 0, 255) END"),
           some Sample.white) [] :=
  ⟨knowsGreys_paletteEnv, by decide,
   (((parseInterpolateColorByZoom_hsla_segments Sample.paletteEnv).1 Sample.greyStops _
      (QVariant.list [QVariant.int 0, QVariant.string "#ffffff"])
      (QVariant.list [QVariant.int 10, QVariant.string "#000000"]) rfl rfl rfl
      (by decide)).imp fun _ h => ⟨h.1, h.2.1⟩),
   (parseInterpolateColorByZoom_hsla_segments Sample.paletteEnv).2 knowsGreys_paletteEnv⟩

/-! ### Point stops -/

/-- C24: on a point stops map with more than two stops whose first zoom is not a list (a
number, say), `parseInterpolatePointByZoom` gives the property with the empty expression
and records the warning `Could not convert offset interpolation, skipping.`: no branch is
compiled. On a map with two stops it gives, without a warning, `array(X,Y)` with the two
channels interpolated each on its own. -/
theorem parseInterpolatePointByZoom_many_stops_skipped (env : Env) :
    (∀ (json : QVariantMap) (multiplier : ℚ) (bottom top third : QVariant) (rest : QVariantList),
      QVariantMap.value json "stops" = QVariant.list (bottom :: top :: third :: rest) →
      (stopZoom bottom).type ≠ QVariantType.List →
      parseInterpolatePointByZoom env json multiplier
        = Conv.ok (QgsProperty.fromExpression "",
            some (firstPoint (bottom :: top :: third :: rest) multiplier))
            ["Could not convert offset interpolation, skipping."])
    ∧ (∀ (json : QVariantMap) (multiplier : ℚ) (bottom top : QVariant),
        QVariantMap.value json "stops" = QVariant.list [bottom, top] →
        parseInterpolatePointByZoom env json multiplier
          = Conv.ok
              (QgsProperty.fromExpression
                (pointArray env (QVariantMap.valueOr json "base" (QVariant.string "1")).toDouble
                  multiplier bottom top),
               some (firstPoint [bottom, top] multiplier)) []) := by
  constructor
  · intro json multiplier bottom top third rest hstops hzoom
    unfold parseInterpolatePointByZoom parsePointStops pointCases
    simp [hstops, QVariant.toList, hzoom, Conv.bind, pure, pushWarning, firstPoint]
  · intro json multiplier bottom top hstops
    unfold parseInterpolatePointByZoom
    simp [hstops, QVariant.toList, Conv.bind, pure, QList.last, List.getLast?, firstPoint,
      pointArray, QVariantList.value]

/-- Witness of C24: the stops `(10, [0, 0])`, `(12, [2, 2])`, `(14, [4, 4])`. -/
theorem parseInterpolatePointByZoom_many_stops_skipped_witness :
    (stopZoom (QVariant.list [QVariant.int 10, QVariant.list [QVariant.int 0, QVariant.int 0]])).type
      ≠ QVariantType.List
    ∧ parseInterpolatePointByZoom Sample.paletteEnv Sample.pointStops 1
      = Conv.ok (QgsProperty.fromExpression "", some { x := 0, y := 0 })
          ["Could not convert offset interpolation, skipping."] :=
  ⟨by decide,
   ((parseInterpolatePointByZoom_many_stops_skipped Sample.paletteEnv).1 Sample.pointStops 1
      _ _ _ _ rfl (by decide)).trans (by decide!)⟩

end QgsMapBoxGlStyleConverter

namespace QgsMapBoxGlStyleConverter

/-! ### Interpolation lists -/

/-- C25: `parseInterpolateListByZoom` returns the invalid property, which is not active,
and no default, with one warning, when the first element of the list is not `interpolate`
and when the technique (first item of element 1) is none of `linear`, `exponential`,
`cubic-bezier`; with a known technique and an input (first item of element 2) other than
`zoom` it returns the invalid property with the warning of the input, after the warning of
the replaced technique for `cubic-bezier`. In all other cases it is the compiler of the
requested value kind on the base and the stops of the list, with no warning before it but
the one of the replaced technique for `cubic-bezier`. -/
theorem parseInterpolateListByZoom_rejections (env : Env) (json : QVariantList)
    (type : PropertyType) (multiplier : ℚ) (maxOpacity : Int) :
    ((QVariantList.value json 0).toString env ≠ "interpolate" →
      parseInterpolateListByZoom env json type multiplier maxOpacity
        = Conv.ok (QgsProperty.invalid, none, none) ["Could not interpret value list"])
    ∧ ((QVariantList.value json 0).toString env = "interpolate" →
        listTechnique env json ≠ "linear" → listTechnique env json ≠ "exponential" →
        listTechnique env json ≠ "cubic-bezier" →
        parseInterpolateListByZoom env json type multiplier maxOpacity
          = Conv.ok (QgsProperty.invalid, none, none)
              ["Skipping not implemented interpolation method " ++ listTechnique env json])
    ∧ ((QVariantList.value json 0).toString env = "interpolate" →
        (listTechnique env json = "linear" ∨ listTechnique env json = "exponential"
          ∨ listTechnique env json = "cubic-bezier") →
        listInput env json ≠ "zoom" →
        parseInterpolateListByZoom env json type multiplier maxOpacity
          = Conv.ok (QgsProperty.invalid, none, none)
              (cubicBezierWarning (listTechnique env json)
                ++ ["Skipping not implemented interpolation input "
                      ++ (QVariantList.value json 2).toString env]))
    ∧ ((QVariantList.value json 0).toString env = "interpolate" →
        (listTechnique env json = "linear" ∨ listTechnique env json = "exponential"
          ∨ listTechnique env json = "cubic-bezier") →
        listInput env json = "zoom" →
        parseInterpolateListByZoom env json type multiplier maxOpacity
          = Conv.bind (Conv.ok () (cubicBezierWarning (listTechnique env json))) (fun _ =>
              compileByKind env type
                [("base", QVariant.double (listBase json (listTechnique env json))),
                 ("stops", QVariant.list (listStops env (json.drop 3)))]
                multiplier maxOpacity))
    ∧ QgsProperty.invalid.isActive = false := by
  unfold listTechnique listInput
  refine ⟨?_, ?_, ?_, ?_, rfl⟩
  · intro hfirst
    unfold parseInterpolateListByZoom
    simp [hfirst, Conv.bind, pure, pushWarning]
  · intro hfirst h1 h2 h3
    unfold parseInterpolateListByZoom
    simp [hfirst, h1, h2, h3, Conv.bind, pure, pushWarning]
  · intro hfirst hknown hinput
    unfold parseInterpolateListByZoom
    rcases hknown with h | h | h <;>
      simp [hfirst, h, hinput, Conv.bind, pure, pushWarning, cubicBezierWarning]
  · intro hfirst hknown hinput
    unfold parseInterpolateListByZoom compileByKind listBase
    rcases hknown with h | h | h <;> cases type <;>
      simp [hfirst, h, hinput, Conv.bind, pure, pushWarning, cubicBezierWarning]

/-- Witness of C25: a list that starts with `step`; `interpolate` lists with the unknown
technique `cubic`, with the input `heatmap-density`, and with the technique exponential
of base 1.5 over the zoom, compiled as a number with the multiplier 2. -/
theorem parseInterpolateListByZoom_rejections_witness :
    parseInterpolateListByZoom Sample.paletteEnv [QVariant.string "step"] PropertyType.Numeric 1 255
      = Conv.ok (QgsProperty.invalid, none, none) ["Could not interpret value list"]
    ∧ parseInterpolateListByZoom Sample.paletteEnv
        (Sample.interpolateList [QVariant.string "cubic"] "zoom") PropertyType.Numeric 1 255
      = Conv.ok (QgsProperty.invalid, none, none)
          ["Skipping not implemented interpolation method cubic"]
    ∧ parseInterpolateListByZoom Sample.paletteEnv
        (Sample.interpolateList [QVariant.string "cubic-bezier"] "heatmap-density")
        PropertyType.Numeric 1 255
      = Conv.ok (QgsProperty.invalid, none, none)
          ["QGIS does not support cubic-bezier interpolation, linear used instead.",
           "Skipping not implemented interpolation input "]
    ∧ parseInterpolateListByZoom Sample.paletteEnv
        (Sample.interpolateList [QVariant.string "exponential", QVariant.double (3 / 2)] "zoom")
        PropertyType.Numeric 2 255
      = Conv.ok (QgsProperty.fromExpression "scale_exp(@zoom_level,5,13,27,29,1.5) * 2",
          none, some 54) [] :=
  ⟨(parseInterpolateListByZoom_rejections Sample.paletteEnv [QVariant.string "step"]
      PropertyType.Numeric 1 255).1 (by decide),
   ((parseInterpolateListByZoom_rejections Sample.paletteEnv
      (Sample.interpolateList [QVariant.string "cubic"] "zoom") PropertyType.Numeric 1 255).2.1
      (by decide) (by decide) (by decide) (by decide)).trans (by decide),
   ((parseInterpolateListByZoom_rejections Sample.paletteEnv
      (Sample.interpolateList [QVariant.string "cubic-bezier"] "heatmap-density")
      PropertyType.Numeric 1 255).2.2.1
      (by decide) (by decide) (by decide)).trans (by decide),
   ((parseInterpolateListByZoom_rejections Sample.paletteEnv
      (Sample.interpolateList [QVariant.string "exponential", QVariant.double (3 / 2)] "zoom")
      PropertyType.Numeric 2 255).2.2.2.1
      (by decide) (by decide) (by decide)).trans (by decide!)⟩

end QgsMapBoxGlStyleConverter

namespace QgsMapBoxGlStyleConverter

/-! ### The fill layer -/

theorem parseFillLayer_eq_steps (env : Env) (jsonLayer : QVariantMap)
    (style : QgsVectorTileBasicRendererStyle) (context : QgsMapBoxGlStyleConversionContext) :
    parseFillLayer env jsonLayer style context = parseFillLayerSteps env jsonLayer style context :=
  rfl

theorem parseFillLayer_water (env : Env) (color : QColor)
    (hcolor : env.parseColor "#0000ff" = color) (hvalid : color.isValid = true)
    (style : QgsVectorTileBasicRendererStyle) (context : QgsMapBoxGlStyleConversionContext) :
    parseFillLayer env Sample.waterLayer style context
      = Conv.ok (true,
          { style with
            geometryType := GeometryType.PolygonGeometry,
            symbol := some
              { symbolLayers :=
                  [QgsSymbolLayer.simpleFill context.targetUnit context.targetUnit none
                    QgsPropertyCollection.empty (some color) false (some color) false],
                outputUnit := some context.targetUnit,
                opacity := none } }) [] := by
  rw [parseFillLayer_eq_steps]
  simp [parseFillLayerSteps, fillColorStep, fillOutlineColorStep, fillOpacityStep,
    fillTranslateStep, fillPatternStep, fillStyle, Sample.waterLayer, QVariantMap.contains,
    QVariantMap.value, QVariantMap.valueOr, List.lookup, QVariant.toMap, QVariant.type,
    QVariant.toString, parseColor_of_text, hcolor, hvalid, Conv.bind, pure, QPointF.isNull]

end QgsMapBoxGlStyleConverter

namespace QgsMapBoxGlStyleConverter

theorem convert_water (env : Env) (converter : ConverterState) (color : QColor)
    (hcolor : env.parseColor "#0000ff" = color) (hvalid : color.isValid = true) :
    convert env converter Sample.waterDocument none
      = Except.ok (Result.Success,
          { mError := "", mWarnings := [],
            mRenderer := some
              [{ styleName := "water", layerName := "water", filterExpression := "",
                 minZoomLevel := -1, maxZoomLevel := -1, enabled := true,
                 geometryType := GeometryType.PolygonGeometry,
                 symbol := some
                   { symbolLayers :=
                       [QgsSymbolLayer.simpleFill RenderUnit.RenderPixels RenderUnit.RenderPixels none
                         QgsPropertyCollection.empty (some color) false (some color) false],
                     outputUnit := some RenderUnit.RenderPixels,
                     opacity := none } }],
            mLabeling := some [] }, none) := by
  have hfill := parseFillLayer_water env color hcolor hvalid
    QgsVectorTileBasicRendererStyle.default QgsMapBoxGlStyleConversionContext.default
  simp only [QgsVectorTileBasicRendererStyle.default, QgsMapBoxGlStyleConversionContext.default,
    QgsMapBoxGlStyleConversionContext.targetUnit] at hfill
  have htype : (QVariantMap.value Sample.waterLayer "type").toString env = "fill" := rfl
  have hid : (QVariantMap.value Sample.waterLayer "id").toString env = "water" := rfl
  have hsource : (QVariantMap.value Sample.waterLayer "source-layer").toString env = "water" := rfl
  have hmin : (QVariantMap.valueOr Sample.waterLayer "minzoom" (QVariant.string "-1")).toInt = -1 :=
    by decide
  have hmax : (QVariantMap.valueOr Sample.waterLayer "maxzoom" (QVariant.string "-1")).toInt = -1 :=
    by decide
  have hvisible : (QVariantMap.value Sample.waterLayer "visibility").toString env = "" := rfl
  have hfilter : layerFilter env Sample.waterLayer = Conv.ok "" [] := rfl
  have hlayers : (QVariantMap.value Sample.waterDocument "layers").toList
      = [QVariant.map Sample.waterLayer] := rfl
  have hcontains : QVariantMap.contains Sample.waterDocument "layers" = true := rfl
  unfold convert parseLayers
  simp only [hcontains, hlayers, if_true, parseLayersLoop, parseLayer, QVariant.toMap, htype,
    hid, hsource, hmin, hmax, hvisible, hfilter, dispatchLayer]
  simp [hfill, Conv.bind, pure, QgsMapBoxGlStyleConversionContext.default,
    QgsMapBoxGlStyleConversionContext.warnings, QgsMapBoxGlStyleConversionContext.targetUnit,
    QgsVectorTileBasicRendererStyle.default]

open SymbolLayerProperty in
/-- C26: converting the document with the one fill layer `water` whose paint is
`{"fill-color":"#0000ff"}`, without a context, where the colour parser reads `#0000ff` as
blue, returns `Success` and leaves the converter with no error, no warning, no labeling
rule and exactly one rendering rule; the rule has the geometry type polygon, the style
name and the layer name `water`, is enabled, has the zoom levels -1 and -1, and its symbol
is one simple fill with the static fill colour blue and no active data-defined fill
colour. -/
theorem convert_water_document (env : Env) (converter : ConverterState)
    (hblue : env.parseColor "#0000ff" = Sample.blue) :
    ∃ rule layer,
      convert env converter Sample.waterDocument none
        = Except.ok (Result.Success,
            { mError := "", mWarnings := [], mRenderer := some [rule], mLabeling := some [] },
            none)
      ∧ rule.geometryType = GeometryType.PolygonGeometry
      ∧ rule.styleName = "water" ∧ rule.layerName = "water"
      ∧ rule.enabled = true ∧ rule.minZoomLevel = -1 ∧ rule.maxZoomLevel = -1
      ∧ rule.symbolLayers = [layer]
      ∧ layer.fillColorSet = some Sample.blue
      ∧ layer.ddProperties.isActive PropertyFillColor = false :=
  ⟨_, _, convert_water env converter Sample.blue hblue rfl, rfl, rfl, rfl, rfl, rfl, rfl, rfl,
    rfl, rfl⟩

/-- Witness of C26: the collaborators that know blue, and a fresh converter. -/
theorem convert_water_document_witness :
    Sample.paletteEnv.parseColor "#0000ff" = Sample.blue
    ∧ ∃ rule layer,
        convert Sample.paletteEnv fresh Sample.waterDocument none
          = Except.ok (Result.Success,
              { mError := "", mWarnings := [], mRenderer := some [rule], mLabeling := some [] },
              none)
        ∧ rule.symbolLayers = [layer] ∧ layer.fillColorSet = some Sample.blue :=
  ⟨rfl, (convert_water_document Sample.paletteEnv fresh rfl).imp fun _ h =>
    h.imp fun _ h => ⟨h.1, h.2.2.2.2.2.2.2.1, h.2.2.2.2.2.2.2.2.1⟩⟩

end QgsMapBoxGlStyleConverter

namespace Conv

theorem ok_nil_bind {α β : Type} (a : α) (f : α → Conv β) : Conv.bind (Conv.ok a []) f = f a := by
  rw [Conv.bind_ok]
  split <;> simp_all

theorem bind_ok_nil {α : Type} (x : Conv α) : Conv.bind x (fun a => Conv.ok a []) = x := by
  cases x <;> simp [Conv.bind]

theorem bind_assoc {α β γ : Type} (x : Conv α) (f : α → Conv β) (g : β → Conv γ) :
    Conv.bind (Conv.bind x f) g = Conv.bind x (fun a => Conv.bind (f a) g) := by
  cases x with
  | fault e => rfl
  | ok a w =>
    simp only [Conv.bind]
    generalize f a = y
    cases y with
    | fault e => rfl
    | ok b w2 =>
      simp only
      generalize g b = z
      cases z with
      | fault e => rfl
      | ok c w3 => simp

theorem bind_eq_ok {α β : Type} (x : Conv α) (f : α → Conv β) (b : β) (w : List String) :
    Conv.bind x f = Conv.ok b w
      ↔ ∃ a w1 w2, x = Conv.ok a w1 ∧ f a = Conv.ok b w2 ∧ w = w1 ++ w2 := by
  cases x with
  | fault e => simp [Conv.bind]
  | ok a w1 =>
    simp only [Conv.bind]
    cases h : f a with
    | fault e => simp [h]
    | ok b2 w2 =>
      simp only [Conv.ok.injEq]
      constructor
      · rintro ⟨rfl, rfl⟩
        exact ⟨a, w1, w2, ⟨rfl, rfl⟩, h, rfl⟩
      · rintro ⟨a2, w3, w4, ⟨rfl, rfl⟩, h2, rfl⟩
        rw [h] at h2
        simp only [Conv.ok.injEq] at h2
        exact ⟨h2.1, by rw [h2.2]⟩

end Conv

namespace QgsMapBoxGlStyleConverter

open SymbolLayerProperty

theorem fillColorStep_eq {ρ : Type} (env : Env) (jsonPaint : QVariantMap)
    (next : QgsPropertyCollection SymbolLayerProperty → QColor → Conv ρ) :
    fillColorStep env jsonPaint next
      = Conv.bind (fillColorOutcome env jsonPaint) (fun r => next r.1 r.2) := by
  unfold fillColorOutcome fillColorStep
  simp only [Conv.bind_eq, Conv.pure_eq]
  split
  · split <;> simp [Conv.bind_assoc, Conv.ok_nil_bind, pushWarning]
  · simp [Conv.ok_nil_bind]

end QgsMapBoxGlStyleConverter

namespace QgsMapBoxGlStyleConverter

open SymbolLayerProperty

theorem fillOutlineColorStep_eq {ρ : Type} (env : Env) (jsonPaint : QVariantMap)
    (ddProperties : QgsPropertyCollection SymbolLayerProperty) (fillColor : QColor)
    (next : QgsPropertyCollection SymbolLayerProperty → QColor → Conv ρ) :
    fillOutlineColorStep env jsonPaint ddProperties fillColor next
      = Conv.bind (fillOutlineColorOutcome env jsonPaint ddProperties fillColor)
          (fun r => next r.1 r.2) := by
  unfold fillOutlineColorOutcome fillOutlineColorStep
  simp only [Conv.bind_eq, Conv.pure_eq]
  split
  · split
    · simp [Conv.ok_nil_bind]
    · split <;> simp [Conv.ok_nil_bind]
  · split <;> simp [Conv.bind_assoc, Conv.ok_nil_bind, pushWarning]

theorem fillOpacityStep_eq {ρ : Type} (env : Env) (jsonLayer jsonPaint : QVariantMap)
    (ddProperties : QgsPropertyCollection SymbolLayerProperty) (fillColor fillOutlineColor : QColor)
    (next : QgsPropertyCollection SymbolLayerProperty → QgsPropertyCollection SymbolLayerProperty
      → ℚ → ℚ → Conv ρ) :
    fillOpacityStep env jsonLayer jsonPaint ddProperties fillColor fillOutlineColor next
      = Conv.bind (fillOpacityOutcome env jsonLayer jsonPaint ddProperties fillColor
          fillOutlineColor) (fun r => next r.1 r.2.1 r.2.2.1 r.2.2.2) := by
  unfold fillOpacityOutcome fillOpacityStep
  simp only [Conv.bind_eq, Conv.pure_eq]
  split
  · split
    · simp [Conv.ok_nil_bind]
    · simp [Conv.ok_nil_bind]
    · split <;> simp [Conv.bind_assoc, Conv.ok_nil_bind, pushWarning]
    · split <;> simp [Conv.bind_assoc, Conv.ok_nil_bind, pushWarning]
    · simp [Conv.bind_assoc, Conv.ok_nil_bind, pushWarning]
  · simp [Conv.ok_nil_bind]

theorem fillTranslateStep_eq {ρ : Type} (env : Env) (jsonPaint : QVariantMap)
    (context : QgsMapBoxGlStyleConversionContext)
    (ddProperties : QgsPropertyCollection SymbolLayerProperty)
    (next : QgsPropertyCollection SymbolLayerProperty → QPointF → Conv ρ) :
    fillTranslateStep env jsonPaint context ddProperties next
      = Conv.bind (fillTranslateOutcome env jsonPaint context ddProperties)
          (fun r => next r.1 r.2) := by
  unfold fillTranslateOutcome fillTranslateStep
  simp only [Conv.bind_eq, Conv.pure_eq]
  split
  · split <;> simp [Conv.bind_assoc, Conv.ok_nil_bind, pushWarning]
  · simp [Conv.ok_nil_bind]

theorem fillPatternStep_eq {ρ : Type} (env : Env) (jsonPaint : QVariantMap)
    (context : QgsMapBoxGlStyleConversionContext)
    (ddRasterProperties : QgsPropertyCollection SymbolLayerProperty) (rasterOpacity : ℚ)
    (next : List QgsSymbolLayer → Conv ρ) :
    fillPatternStep env jsonPaint context ddRasterProperties rasterOpacity next
      = Conv.bind (fillPatternOutcome env jsonPaint context ddRasterProperties rasterOpacity)
          next := by
  unfold fillPatternOutcome fillPatternStep
  simp only [Conv.bind_eq, Conv.pure_eq]
  split
  · split
    · simp only [Conv.bind_assoc]
      congr 1
      funext r
      split <;> simp [Conv.ok_nil_bind]
    · simp [Conv.ok_nil_bind]
  · simp [Conv.ok_nil_bind]

end QgsMapBoxGlStyleConverter

namespace QgsMapBoxGlStyleConverter

open SymbolLayerProperty

theorem parseFillLayer_sequence (env : Env) (jsonLayer : QVariantMap)
    (style : QgsVectorTileBasicRendererStyle) (context : QgsMapBoxGlStyleConversionContext)
    (hpaint : QVariantMap.contains jsonLayer "paint" = true) :
    parseFillLayer env jsonLayer style context
      = Conv.bind (fillColorOutcome env (QVariantMap.value jsonLayer "paint").toMap) (fun r1 =>
        Conv.bind (fillOutlineColorOutcome env (QVariantMap.value jsonLayer "paint").toMap r1.1 r1.2)
          (fun r2 =>
        Conv.bind (fillOpacityOutcome env jsonLayer (QVariantMap.value jsonLayer "paint").toMap
          r2.1 r1.2 r2.2) (fun r3 =>
        Conv.bind (fillTranslateOutcome env (QVariantMap.value jsonLayer "paint").toMap context r3.1)
          (fun r4 =>
        Conv.bind (fillPatternOutcome env (QVariantMap.value jsonLayer "paint").toMap context
          r3.2.1 r3.2.2.2) (fun rasterLayers =>
        Conv.ok (true, fillStyle style context r4.1 r1.2 r2.2 r3.2.2.1 r4.2 rasterLayers) [])))))
    := by
  rw [parseFillLayer_eq_steps]
  unfold parseFillLayerSteps
  simp only [hpaint, not_true_eq_false, if_false]
  rw [fillColorStep_eq]
  congr 1
  funext r1
  rw [fillOutlineColorStep_eq]
  congr 1
  funext r2
  rw [fillOpacityStep_eq]
  congr 1
  funext r3
  rw [fillTranslateStep_eq]
  congr 1
  funext r4
  rw [fillPatternStep_eq]
  rfl

/-- Every completed run of `parseFillLayer` on a layer with a paint map is a run of the
five steps one after the other, and its rule is made of what they leave. -/
theorem parseFillLayer_outcome (env : Env) (jsonLayer : QVariantMap)
    (style : QgsVectorTileBasicRendererStyle) (context : QgsMapBoxGlStyleConversionContext)
    (hpaint : QVariantMap.contains jsonLayer "paint" = true)
    (out : Bool × QgsVectorTileBasicRendererStyle) (warnings : List String)
    (hrun : parseFillLayer env jsonLayer style context = Conv.ok out warnings) :
    ∃ r1 w1 r2 w2 r3 w3 r4 w4 rasterLayers w5,
      fillColorOutcome env (QVariantMap.value jsonLayer "paint").toMap = Conv.ok r1 w1
      ∧ fillOutlineColorOutcome env (QVariantMap.value jsonLayer "paint").toMap r1.1 r1.2
          = Conv.ok r2 w2
      ∧ fillOpacityOutcome env jsonLayer (QVariantMap.value jsonLayer "paint").toMap r2.1 r1.2
          r2.2 = Conv.ok r3 w3
      ∧ fillTranslateOutcome env (QVariantMap.value jsonLayer "paint").toMap context r3.1
          = Conv.ok r4 w4
      ∧ fillPatternOutcome env (QVariantMap.value jsonLayer "paint").toMap context r3.2.1
          r3.2.2.2 = Conv.ok rasterLayers w5
      ∧ out = (true, fillStyle style context r4.1 r1.2 r2.2 r3.2.2.1 r4.2 rasterLayers)
      ∧ warnings = w1 ++ (w2 ++ (w3 ++ (w4 ++ w5))) := by
  rw [parseFillLayer_sequence env jsonLayer style context hpaint, Conv.bind_eq_ok] at hrun
  obtain ⟨r1, w1, v1, h1, hrun, rfl⟩ := hrun
  rw [Conv.bind_eq_ok] at hrun
  obtain ⟨r2, w2, v2, h2, hrun, rfl⟩ := hrun
  rw [Conv.bind_eq_ok] at hrun
  obtain ⟨r3, w3, v3, h3, hrun, rfl⟩ := hrun
  rw [Conv.bind_eq_ok] at hrun
  obtain ⟨r4, w4, v4, h4, hrun, rfl⟩ := hrun
  rw [Conv.bind_eq_ok] at hrun
  obtain ⟨rasterLayers, w5, v5, h5, hrun, rfl⟩ := hrun
  simp only [Conv.ok.injEq] at hrun
  obtain ⟨rfl, rfl⟩ := hrun
  exact ⟨r1, w1, r2, w2, r3, w3, r4, w4, rasterLayers, w5, h1, h2, h3, h4, h5, rfl, by simp⟩

theorem fillColorOutcome_static (env : Env) (jsonPaint : QVariantMap) (text : String)
    (hfill : QVariantMap.contains jsonPaint "fill-color" = true)
    (htext : QVariantMap.value jsonPaint "fill-color" = QVariant.string text) :
    fillColorOutcome env jsonPaint
      = Conv.ok (QgsPropertyCollection.empty, env.parseColor text) [] := by
  unfold fillColorOutcome fillColorStep
  simp [hfill, htext, QVariant.type, QVariant.toString, parseColor_of_text, Conv.bind]

theorem fillOutlineColorOutcome_absent_valid (env : Env) (jsonPaint : QVariantMap)
    (ddProperties : QgsPropertyCollection SymbolLayerProperty) (fillColor : QColor)
    (houtline : QVariantMap.contains jsonPaint "fill-outline-color" = false)
    (hvalid : fillColor.isValid = true) :
    fillOutlineColorOutcome env jsonPaint ddProperties fillColor
      = Conv.ok (ddProperties, fillColor) [] := by
  unfold fillOutlineColorOutcome fillOutlineColorStep
  simp [houtline, hvalid, Conv.bind]

end QgsMapBoxGlStyleConverter

namespace Conv

theorem Quiet.completes {α : Type} {x : Conv α} (h : Quiet x) : Completes x :=
  let ⟨a, w, hx, _⟩ := h
  ⟨a, w, hx⟩

theorem quiet_ok_nil {α : Type} (a : α) : Quiet (Conv.ok a []) :=
  ⟨a, [], rfl, by simp⟩

theorem quiet_push (warning : String) (h : notAboutOpacity warning = true) :
    Quiet (pushWarning warning) :=
  ⟨(), [warning], rfl, by simpa using h⟩

theorem quiet_bind {α β : Type} {x : Conv α} {f : α → Conv β} (hx : Quiet x)
    (hf : ∀ a, Quiet (f a)) : Quiet (Conv.bind x f) := by
  obtain ⟨a, w, rfl, hw⟩ := hx
  obtain ⟨b, w2, hb, hw2⟩ := hf a
  refine ⟨b, w ++ w2, by simp [Conv.bind, hb], ?_⟩
  intro warning hmem
  rcases List.mem_append.1 hmem with h | h
  · exact hw _ h
  · exact hw2 _ h

theorem completes_bind {α β : Type} {x : Conv α} {f : α → Conv β} (hx : Completes x)
    (hf : ∀ a, Completes (f a)) : Completes (Conv.bind x f) := by
  obtain ⟨a, w, rfl⟩ := hx
  obtain ⟨b, w2, hb⟩ := hf a
  exact ⟨b, w ++ w2, by simp [Conv.bind, hb]⟩

theorem completes_ok {α : Type} (a : α) (w : List String) : Completes (Conv.ok a w) :=
  ⟨a, w, rfl⟩

end Conv

theorem notAboutOpacity_of_start (start warning : String)
    (hstart : start.data <+: warning.data) (h : notAboutOpacity start = true)
    (hlength : 13 ≤ start.data.length) : notAboutOpacity warning = true := by
  unfold notAboutOpacity at *
  simp only [Bool.not_eq_true'] at *
  rw [← Bool.not_eq_true] at *
  intro hprefix
  apply h
  rw [List.isPrefixOf_iff_prefix] at *
  exact List.prefix_of_prefix_length_le hprefix hstart hlength

namespace QgsMapBoxGlStyleConverter

theorem last_quiet {α : Type} (l : List α) (h : l.isEmpty = false) : (QList.last l).Quiet := by
  unfold QList.last
  cases hl : l.getLast? with
  | none =>
    rw [List.getLast?_eq_none_iff] at hl
    simp [hl] at h
  | some a => exact Conv.quiet_ok_nil a

theorem parseColor_quiet (env : Env) (color : QVariant) : (parseColor env color).Quiet := by
  unfold parseColor
  simp only [Conv.bind_eq, Conv.pure_eq]
  split
  · exact Conv.quiet_bind
      (Conv.quiet_push _ (notAboutOpacity_of_start "Could not parse" _
        (by simp [String.data_append]) (by decide) (by decide)))
      (fun _ => Conv.quiet_ok_nil _)
  · exact Conv.quiet_ok_nil _

end QgsMapBoxGlStyleConverter

namespace QgsMapBoxGlStyleConverter

theorem colorCases_quiet (env : Env) (base : ℚ) :
    ∀ stops : QVariantList, (colorCases env base stops).Quiet
  | [] => Conv.quiet_ok_nil _
  | [_] => Conv.quiet_ok_nil _
  | bottom :: top :: rest => by
    have ih := colorCases_quiet env base (top :: rest)
    unfold colorCases
    simp only [Conv.bind_eq, Conv.pure_eq]
    repeat' first
      | exact Conv.quiet_ok_nil _
      | exact parseColor_quiet _ _
      | exact ih
      | apply Conv.quiet_bind
      | intro _

theorem parseInterpolateColorByZoom_quiet (env : Env) (json : QVariantMap) :
    (parseInterpolateColorByZoom env json).Quiet := by
  unfold parseInterpolateColorByZoom
  simp only [Conv.bind_eq, Conv.pure_eq]
  split
  · exact Conv.quiet_ok_nil _
  · rename_i h
    repeat' first
      | exact Conv.quiet_ok_nil _
      | exact parseColor_quiet _ _
      | exact colorCases_quiet _ _ _
      | exact last_quiet _ (by simpa using h)
      | apply Conv.quiet_bind
      | intro _

theorem stopsCases_quiet (env : Env) (base multiplier : ℚ) :
    ∀ stops : QVariantList, (stopsCases env base multiplier stops).Quiet
  | [] => Conv.quiet_ok_nil _
  | [_] => Conv.quiet_ok_nil _
  | bottom :: top :: rest => by
    have ih := stopsCases_quiet env base multiplier (top :: rest)
    unfold stopsCases
    simp only [Conv.bind_eq, Conv.pure_eq]
    repeat' first
      | exact Conv.quiet_ok_nil _
      | exact Conv.quiet_push _ (by decide)
      | exact ih
      | apply Conv.quiet_bind
      | intro _
      | split

theorem parseInterpolateByZoom_quiet (env : Env) (json : QVariantMap) (multiplier : ℚ) :
    (parseInterpolateByZoom env json multiplier).Quiet := by
  unfold parseInterpolateByZoom parseStops
  simp only [Conv.bind_eq, Conv.pure_eq]
  split
  · exact Conv.quiet_ok_nil _
  · rename_i h
    repeat' first
      | exact Conv.quiet_ok_nil _
      | exact stopsCases_quiet _ _ _ _
      | exact last_quiet _ (by simpa using h)
      | apply Conv.quiet_bind
      | intro _
      | split

theorem parseInterpolateOpacityByZoom_quiet (env : Env) (json : QVariantMap) (maxOpacity : Int) :
    (parseInterpolateOpacityByZoom env json maxOpacity).Quiet := by
  unfold parseInterpolateOpacityByZoom parseOpacityStops
  simp only [Conv.bind_eq, Conv.pure_eq]
  split
  · exact Conv.quiet_ok_nil _
  · rename_i h
    repeat' first
      | exact Conv.quiet_ok_nil _
      | exact last_quiet _ (by simpa using h)
      | apply Conv.quiet_bind
      | intro _
      | split

theorem pointCases_quiet (env : Env) (base multiplier : ℚ) :
    ∀ stops : QVariantList, (pointCases env base multiplier stops).Quiet
  | [] => Conv.quiet_ok_nil _
  | [_] => Conv.quiet_ok_nil _
  | bottom :: top :: rest => by
    have ih := pointCases_quiet env base multiplier (top :: rest)
    unfold pointCases
    simp only [Conv.bind_eq, Conv.pure_eq]
    repeat' first
      | exact Conv.quiet_ok_nil _
      | exact Conv.quiet_push _ (by decide)
      | exact ih
      | apply Conv.quiet_bind
      | intro _
      | split

theorem parseInterpolatePointByZoom_quiet (env : Env) (json : QVariantMap) (multiplier : ℚ) :
    (parseInterpolatePointByZoom env json multiplier).Quiet := by
  unfold parseInterpolatePointByZoom parsePointStops
  simp only [Conv.bind_eq, Conv.pure_eq]
  split
  · exact Conv.quiet_ok_nil _
  · rename_i h
    repeat' first
      | exact Conv.quiet_ok_nil _
      | exact pointCases_quiet _ _ _ _
      | exact last_quiet _ (by simpa using h)
      | apply Conv.quiet_bind
      | intro _
      | split

theorem listStops_isEmpty (env : Env) (json : QVariantList) :
    (listStops env json).isEmpty = json.isEmpty := by
  cases json with
  | nil => rfl
  | cons zoom rest => cases rest <;> rfl

theorem parseInterpolateListByZoom_quiet (env : Env) (json : QVariantList) (type : PropertyType)
    (multiplier : ℚ) (maxOpacity : Int) :
    (parseInterpolateListByZoom env json type multiplier maxOpacity).Quiet := by
  unfold parseInterpolateListByZoom
  simp only [Conv.bind_eq, Conv.pure_eq]
  repeat' first
    | exact Conv.quiet_ok_nil _
    | exact Conv.quiet_push _ (by decide)
    | exact Conv.quiet_push _ (notAboutOpacity_of_start "Skipping not implemented" _
        (by simp [String.data_append]) (by decide) (by decide))
    | exact parseInterpolateColorByZoom_quiet _ _
    | exact parseInterpolateByZoom_quiet _ _ _
    | exact parseInterpolateOpacityByZoom_quiet _ _ _
    | exact parseInterpolatePointByZoom_quiet _ _ _
    | apply Conv.quiet_bind
    | intro _
    | split

theorem retrieveSpriteAsBase64_quiet (env : Env) (name : String)
    (context : QgsMapBoxGlStyleConversionContext) :
    (retrieveSpriteAsBase64 env name context).Quiet := by
  unfold retrieveSpriteAsBase64 retrieveSprite
  simp only [Conv.bind_eq, Conv.pure_eq]
  repeat' first
    | exact Conv.quiet_ok_nil _
    | exact Conv.quiet_push _ (notAboutOpacity_of_start "Could not retrieve" _
        (by simp [String.data_append]) (by decide) (by decide))
    | apply Conv.quiet_bind
    | intro _
    | split

end QgsMapBoxGlStyleConverter

namespace Conv

theorem ensures_ok {α : Type} {good : α → Prop} {a : α} {w : List String} (h : good a) :
    Ensures good (Conv.ok a w) := by
  intro b w2 hb
  simp only [Conv.ok.injEq] at hb
  exact hb.1 ▸ h

theorem ensures_bind {α β : Type} {good : β → Prop} {x : Conv α} {f : α → Conv β}
    (hf : ∀ a, Ensures good (f a)) : Ensures good (Conv.bind x f) := by
  intro b w hb
  rw [Conv.bind_eq_ok] at hb
  obtain ⟨a, w1, w2, _, h2, _⟩ := hb
  exact hf a b w2 h2

end Conv

namespace QgsPropertyCollection

variable {κ : Type} [DecidableEq κ]

theorem lookup_filter_ne (properties : List (κ × QgsProperty)) (key other : κ)
    (h : other ≠ key) :
    (properties.filter (fun kv => decide (kv.1 ≠ key))).lookup other = properties.lookup other := by
  induction properties with
  | nil => rfl
  | cons head tail ih =>
    obtain ⟨k, p⟩ := head
    by_cases hk : k = key
    · subst hk
      have hne : (other == k) = false := by simpa using h
      rw [List.filter_cons_of_neg (by simp), ih, List.lookup_cons, hne]
    · rw [List.filter_cons_of_pos (by simpa using hk), List.lookup_cons, List.lookup_cons, ih]

theorem property_setProperty_of_ne (c : QgsPropertyCollection κ) (key other : κ)
    (p : QgsProperty) (h : other ≠ key) :
    (c.setProperty key p).property other = c.property other := by
  have hne : (other == key) = false := by simpa using h
  unfold setProperty property
  split
  · simp only [List.lookup_cons, hne, lookup_filter_ne _ _ _ h]
  · simp only [lookup_filter_ne _ _ _ h]

theorem isActive_setProperty_of_ne (c : QgsPropertyCollection κ) (key other : κ)
    (p : QgsProperty) (h : other ≠ key) :
    (c.setProperty key p).isActive other = c.isActive other := by
  unfold isActive
  rw [property_setProperty_of_ne c key other p h]

end QgsPropertyCollection

namespace QgsMapBoxGlStyleConverter

open SymbolLayerProperty

theorem fillColorOutcome_quiet (env : Env) (jsonPaint : QVariantMap) :
    (fillColorOutcome env jsonPaint).Quiet := by
  unfold fillColorOutcome fillColorStep
  simp only [Conv.bind_eq, Conv.pure_eq]
  repeat' first
    | exact Conv.quiet_ok_nil _
    | exact Conv.quiet_push _ (by decide)
    | exact parseColor_quiet _ _
    | exact parseInterpolateColorByZoom_quiet _ _
    | exact parseInterpolateListByZoom_quiet _ _ _ _ _
    | apply Conv.quiet_bind
    | intro _
    | split

theorem fillOutlineColorOutcome_quiet (env : Env) (jsonPaint : QVariantMap)
    (ddProperties : QgsPropertyCollection SymbolLayerProperty) (fillColor : QColor) :
    (fillOutlineColorOutcome env jsonPaint ddProperties fillColor).Quiet := by
  unfold fillOutlineColorOutcome fillOutlineColorStep
  simp only [Conv.bind_eq, Conv.pure_eq]
  repeat' first
    | exact Conv.quiet_ok_nil _
    | exact Conv.quiet_push _ (by decide)
    | exact parseColor_quiet _ _
    | exact parseInterpolateColorByZoom_quiet _ _
    | exact parseInterpolateListByZoom_quiet _ _ _ _ _
    | apply Conv.quiet_bind
    | intro _
    | split

theorem fillTranslateOutcome_quiet (env : Env) (jsonPaint : QVariantMap)
    (context : QgsMapBoxGlStyleConversionContext)
    (ddProperties : QgsPropertyCollection SymbolLayerProperty) :
    (fillTranslateOutcome env jsonPaint context ddProperties).Quiet := by
  unfold fillTranslateOutcome fillTranslateStep
  simp only [Conv.bind_eq, Conv.pure_eq]
  repeat' first
    | exact Conv.quiet_ok_nil _
    | exact Conv.quiet_push _ (by decide)
    | exact parseInterpolatePointByZoom_quiet _ _ _
    | apply Conv.quiet_bind
    | intro _
    | split

theorem fillPatternOutcome_quiet (env : Env) (jsonPaint : QVariantMap)
    (context : QgsMapBoxGlStyleConversionContext)
    (ddRasterProperties : QgsPropertyCollection SymbolLayerProperty) (rasterOpacity : ℚ) :
    (fillPatternOutcome env jsonPaint context ddRasterProperties rasterOpacity).Quiet := by
  unfold fillPatternOutcome fillPatternStep
  simp only [Conv.bind_eq, Conv.pure_eq]
  repeat' first
    | exact Conv.quiet_ok_nil _
    | exact retrieveSpriteAsBase64_quiet _ _ _
    | apply Conv.quiet_bind
    | intro _
    | split

theorem fillOpacityOutcome_completes (env : Env) (jsonLayer jsonPaint : QVariantMap)
    (ddProperties : QgsPropertyCollection SymbolLayerProperty) (fillColor fillOutlineColor : QColor) :
    (fillOpacityOutcome env jsonLayer jsonPaint ddProperties fillColor fillOutlineColor).Completes
    := by
  unfold fillOpacityOutcome fillOpacityStep
  simp only [Conv.bind_eq, Conv.pure_eq]
  repeat' first
    | exact Conv.completes_ok _ _
    | exact (parseInterpolateOpacityByZoom_quiet _ _ _).completes
    | exact (parseInterpolateByZoom_quiet _ _ _).completes
    | exact (parseInterpolateListByZoom_quiet _ _ _ _ _).completes
    | apply Conv.completes_bind
    | intro _
    | split

/-- The routine `parseFillLayer` completes on every layer. -/
theorem parseFillLayer_completes (env : Env) (jsonLayer : QVariantMap)
    (style : QgsVectorTileBasicRendererStyle) (context : QgsMapBoxGlStyleConversionContext) :
    (parseFillLayer env jsonLayer style context).Completes := by
  by_cases hpaint : QVariantMap.contains jsonLayer "paint" = true
  · rw [parseFillLayer_sequence env jsonLayer style context hpaint]
    exact Conv.completes_bind (fillColorOutcome_quiet _ _).completes fun _ =>
      Conv.completes_bind (fillOutlineColorOutcome_quiet _ _ _ _).completes fun _ =>
      Conv.completes_bind (fillOpacityOutcome_completes _ _ _ _ _ _) fun _ =>
      Conv.completes_bind (fillTranslateOutcome_quiet _ _ _ _).completes fun _ =>
      Conv.completes_bind (fillPatternOutcome_quiet _ _ _ _ _).completes fun _ =>
      Conv.completes_ok _ _
  · rw [parseFillLayer_eq_steps]
    unfold parseFillLayerSteps
    simp only [hpaint, not_false_eq_true, if_true, Conv.bind_eq, Conv.pure_eq]
    exact Conv.completes_bind (Conv.completes_ok _ _) fun _ => Conv.completes_ok _ _

end QgsMapBoxGlStyleConverter

/-! ### What the steps of the fill layer keep -/

namespace QgsMapBoxGlStyleConverter

open SymbolLayerProperty

theorem fillOutlineColorOutcome_keeps_fill (env : Env) (jsonPaint : QVariantMap)
    (ddProperties : QgsPropertyCollection SymbolLayerProperty) (fillColor : QColor) :
    (fillOutlineColorOutcome env jsonPaint ddProperties fillColor).Ensures
      (fun r => r.1.property PropertyFillColor = ddProperties.property PropertyFillColor) := by
  unfold fillOutlineColorOutcome fillOutlineColorStep
  simp only [Conv.bind_eq, Conv.pure_eq]
  repeat' first
    | (guard_target = Conv.Ensures _ (Conv.ok _ _)
       first
         | exact Conv.ensures_ok rfl
         | exact Conv.ensures_ok
             (QgsPropertyCollection.property_setProperty_of_ne _ _ _ _ (by decide)))
    | (guard_target = Conv.Ensures _ (Conv.bind _ _)
       apply Conv.ensures_bind)
    | (fail_if_success guard_target = Conv.Ensures _ _
       intro _)
    | split

theorem fillTranslateOutcome_keeps_colors (env : Env) (jsonPaint : QVariantMap)
    (context : QgsMapBoxGlStyleConversionContext)
    (ddProperties : QgsPropertyCollection SymbolLayerProperty) :
    (fillTranslateOutcome env jsonPaint context ddProperties).Ensures
      (fun r => ∀ key, key ≠ PropertyOffset → r.1.property key = ddProperties.property key) := by
  unfold fillTranslateOutcome fillTranslateStep
  simp only [Conv.bind_eq, Conv.pure_eq]
  repeat' first
    | (guard_target = Conv.Ensures _ (Conv.ok _ _)
       first
         | exact Conv.ensures_ok (fun _ _ => rfl)
         | exact Conv.ensures_ok
             (fun _ h => QgsPropertyCollection.property_setProperty_of_ne _ _ _ _ h))
    | (guard_target = Conv.Ensures _ (Conv.bind _ _)
       apply Conv.ensures_bind)
    | (fail_if_success guard_target = Conv.Ensures _ _
       intro _)
    | split

theorem fillPatternOutcome_properties (env : Env) (jsonPaint : QVariantMap)
    (context : QgsMapBoxGlStyleConversionContext)
    (ddRasterProperties : QgsPropertyCollection SymbolLayerProperty) (rasterOpacity : ℚ) :
    (fillPatternOutcome env jsonPaint context ddRasterProperties rasterOpacity).Ensures
      (fun rasterLayers => ∀ layer ∈ rasterLayers, layer.ddProperties = ddRasterProperties) := by
  unfold fillPatternOutcome fillPatternStep
  simp only [Conv.bind_eq, Conv.pure_eq]
  repeat' first
    | (guard_target = Conv.Ensures _ (Conv.ok _ _)
       exact Conv.ensures_ok (by simp [QgsSymbolLayer.ddProperties]))
    | (guard_target = Conv.Ensures _ (Conv.bind _ _)
       apply Conv.ensures_bind)
    | (fail_if_success guard_target = Conv.Ensures _ _
       intro _)
    | split

theorem notAboutOpacity_conflict (env : Env) (jsonLayer : QVariantMap) :
    notAboutOpacity (opacityConflictWarning env jsonLayer) = false := by
  unfold notAboutOpacity opacityConflictWarning
  simp [String.data_append]

theorem conflict_not_pushed {α : Type} {x : Conv α} (hx : x.Quiet) (a : α) (w : List String)
    (h : x = Conv.ok a w) (env : Env) (jsonLayer : QVariantMap) :
    opacityConflictWarning env jsonLayer ∉ w := by
  obtain ⟨a2, w2, h2, hw⟩ := hx
  rw [h] at h2
  simp only [Conv.ok.injEq] at h2
  intro hmem
  have := hw _ (h2.2 ▸ hmem)
  rw [notAboutOpacity_conflict] at this
  exact Bool.false_ne_true this

theorem fillOpacityOutcome_absent (env : Env) (jsonLayer jsonPaint : QVariantMap)
    (ddProperties : QgsPropertyCollection SymbolLayerProperty) (fillColor fillOutlineColor : QColor)
    (habsent : QVariantMap.contains jsonPaint "fill-opacity" = false) :
    fillOpacityOutcome env jsonLayer jsonPaint ddProperties fillColor fillOutlineColor
      = Conv.ok (ddProperties, QgsPropertyCollection.empty, -1, -1) [] := by
  unfold fillOpacityOutcome fillOpacityStep
  simp [habsent, Conv.bind]

theorem fillOpacityOutcome_conflict (env : Env) (jsonLayer jsonPaint : QVariantMap)
    (ddProperties : QgsPropertyCollection SymbolLayerProperty) (fillColor fillOutlineColor : QColor)
    (hopacity : QVariantMap.contains jsonPaint "fill-opacity" = true)
    (hzoom : zoomDependent (QVariantMap.value jsonPaint "fill-opacity") = true)
    (hactive : ddProperties.isActive PropertyFillColor = true) :
    fillOpacityOutcome env jsonLayer jsonPaint ddProperties fillColor fillOutlineColor
      = Conv.ok (ddProperties, QgsPropertyCollection.empty, -1, -1)
          [opacityConflictWarning env jsonLayer] := by
  unfold fillOpacityOutcome fillOpacityStep
  simp only [zoomDependent, Bool.or_eq_true, decide_eq_true_eq] at hzoom
  rcases hzoom with h | h <;>
    simp [hopacity, h, hactive, Conv.bind, pushWarning, opacityConflictWarning]

theorem fillOpacityOutcome_installed (env : Env) (jsonLayer jsonPaint : QVariantMap)
    (ddProperties : QgsPropertyCollection SymbolLayerProperty) (fillColor fillOutlineColor : QColor)
    (hopacity : QVariantMap.contains jsonPaint "fill-opacity" = true)
    (hzoom : zoomDependent (QVariantMap.value jsonPaint "fill-opacity") = true)
    (hactive : ddProperties.isActive PropertyFillColor = false) :
    fillOpacityOutcome env jsonLayer jsonPaint ddProperties fillColor fillOutlineColor
      = Conv.bind (fillOpacityProperty env (QVariantMap.value jsonPaint "fill-opacity")
          (alphaOf fillColor)) (fun p1 =>
        Conv.bind (fillOpacityProperty env (QVariantMap.value jsonPaint "fill-opacity")
          (alphaOf fillOutlineColor)) (fun p2 =>
        Conv.bind (rasterOpacityProperty env (QVariantMap.value jsonPaint "fill-opacity"))
          (fun r =>
        Conv.ok (((ddProperties.setProperty PropertyFillColor p1).setProperty PropertyStrokeColor p2),
          QgsPropertyCollection.empty.setProperty PropertyOpacity r.1, -1, r.2.getD (-1)) []))) := by
  unfold fillOpacityOutcome fillOpacityStep fillOpacityProperty rasterOpacityProperty alphaOf
  simp only [zoomDependent, Bool.or_eq_true, decide_eq_true_eq] at hzoom
  rcases hzoom with h | h <;>
    simp [hopacity, h, hactive, Conv.bind_assoc, Conv.ok_nil_bind]

end QgsMapBoxGlStyleConverter

namespace QgsMapBoxGlStyleConverter

open SymbolLayerProperty

theorem contains_of_value_string (m : QVariantMap) (key text : String)
    (h : QVariantMap.value m key = QVariant.string text) : QVariantMap.contains m key = true := by
  by_contra hc
  have hfalse : QVariantMap.contains m key = false := by simpa using hc
  rw [QVariantMap.value, QVariantMap.valueOr_of_not_contains m key _ hfalse] at h
  cases h

/-- C27: for every fill layer whose paint has no `fill-outline-color` and whose
`fill-color` is a string that the colour parser reads as a valid colour, `parseFillLayer`
completes and reports a rule whose simple fill has that colour as its stroke colour and as
its fill colour; its stroke style is not set to no pen. -/
theorem parseFillLayer_static_fill_colors_the_stroke (env : Env) (jsonLayer : QVariantMap)
    (style : QgsVectorTileBasicRendererStyle) (context : QgsMapBoxGlStyleConversionContext)
    (text : String)
    (hpaint : QVariantMap.contains jsonLayer "paint" = true)
    (hcolor : QVariantMap.value (QVariantMap.value jsonLayer "paint").toMap "fill-color"
      = QVariant.string text)
    (hvalid : (env.parseColor text).isValid = true)
    (houtline : QVariantMap.contains (QVariantMap.value jsonLayer "paint").toMap
      "fill-outline-color" = false) :
    ∃ out warnings fill,
      parseFillLayer env jsonLayer style context = Conv.ok out warnings
      ∧ out.1 = true
      ∧ out.2.firstSymbolLayer = some fill
      ∧ fill.strokeColorSet = some (env.parseColor text)
      ∧ fill.hasNoPen = false
      ∧ fill.fillColorSet = some (env.parseColor text) := by
  obtain ⟨out, warnings, hrun⟩ := parseFillLayer_completes env jsonLayer style context
  obtain ⟨r1, w1, r2, w2, r3, w3, r4, w4, rasterLayers, w5, h1, h2, _, _, _, hout, _⟩ :=
    parseFillLayer_outcome env jsonLayer style context hpaint out warnings hrun
  rw [fillColorOutcome_static env _ text (contains_of_value_string _ _ _ hcolor) hcolor] at h1
  simp only [Conv.ok.injEq] at h1
  obtain ⟨rfl, _⟩ := h1
  rw [fillOutlineColorOutcome_absent_valid env _ _ _ houtline hvalid] at h2
  simp only [Conv.ok.injEq] at h2
  obtain ⟨rfl, _⟩ := h2
  refine ⟨out, warnings, _, hrun, by rw [hout], by rw [hout]; rfl, ?_, ?_, ?_⟩
  · simp [QgsSymbolLayer.strokeColorSet, hvalid]
  · simp [QgsSymbolLayer.hasNoPen, hvalid]
  · simp [QgsSymbolLayer.fillColorSet, hvalid]

/-- Witness of C27: the layer `water`, with the collaborators that know blue. -/
theorem parseFillLayer_static_fill_colors_the_stroke_witness :
    QVariantMap.contains Sample.waterLayer "paint" = true
    ∧ (Sample.paletteEnv.parseColor "#0000ff").isValid = true
    ∧ QVariantMap.contains (QVariantMap.value Sample.waterLayer "paint").toMap
        "fill-outline-color" = false
    ∧ ∃ out warnings fill,
        parseFillLayer Sample.paletteEnv Sample.waterLayer QgsVectorTileBasicRendererStyle.default
            QgsMapBoxGlStyleConversionContext.default = Conv.ok out warnings
        ∧ out.2.firstSymbolLayer = some fill
        ∧ fill.strokeColorSet = some Sample.blue
        ∧ fill.hasNoPen = false :=
  ⟨rfl, rfl, rfl,
   (parseFillLayer_static_fill_colors_the_stroke Sample.paletteEnv Sample.waterLayer
      QgsVectorTileBasicRendererStyle.default QgsMapBoxGlStyleConversionContext.default
      "#0000ff" rfl rfl rfl rfl).imp fun _ h => h.imp fun _ h => h.imp fun _ h =>
        ⟨h.1, h.2.2.1, h.2.2.2.1, h.2.2.2.2.1⟩⟩

/-- Counterexample to C27 as stated: the layer `water` has no `fill-outline-color` and the
static valid fill colour `#0000ff`, and the simple fill `parseFillLayer` makes for it has
the stroke colour blue and its stroke style is not set to no pen. -/
theorem parseFillLayer_water_has_a_stroke :
    QVariantMap.contains (QVariantMap.value Sample.waterLayer "paint").toMap
        "fill-outline-color" = false
    ∧ QVariantMap.value (QVariantMap.value Sample.waterLayer "paint").toMap "fill-color"
        = QVariant.string "#0000ff"
    ∧ (Sample.paletteEnv.parseColor "#0000ff").isValid = true
    ∧ ∃ rule fill,
        parseFillLayer Sample.paletteEnv Sample.waterLayer QgsVectorTileBasicRendererStyle.default
            QgsMapBoxGlStyleConversionContext.default = Conv.ok (true, rule) []
        ∧ rule.firstSymbolLayer = some fill
        ∧ fill.hasNoPen = false
        ∧ fill.strokeColorSet = some Sample.blue :=
  ⟨rfl, rfl, rfl, _, _,
   parseFillLayer_water Sample.paletteEnv Sample.blue rfl rfl
     QgsVectorTileBasicRendererStyle.default QgsMapBoxGlStyleConversionContext.default,
   rfl, rfl, rfl⟩

end QgsMapBoxGlStyleConverter

namespace QgsMapBoxGlStyleConverter

open SymbolLayerProperty

theorem parseLineLayer_width_offset_stops (env : Env) (width : ℚ) (offset : QVariantMap)
    (style : QgsVectorTileBasicRendererStyle) (context : QgsMapBoxGlStyleConversionContext) :
    ∃ out warnings line,
      parseLineLayer env (widthOffsetLayer (QVariant.double width) (QVariant.map offset)) style
          context = Conv.ok out warnings
      ∧ out.1 = true
      ∧ out.2.firstSymbolLayer = some line
      ∧ line.widthSet = none := by
  obtain ⟨r, w, hr, _⟩ := parseInterpolateByZoom_quiet env offset
    (-context.pixelSizeConversionFactor)
  unfold parseLineLayer widthOffsetLayer
  simp [QVariantMap.contains, QVariantMap.value, QVariantMap.valueOr, List.lookup, QVariant.toMap,
    QVariant.type, QVariant.toDouble, hr, Conv.bind, pure,
    QgsVectorTileBasicRendererStyle.firstSymbolLayer, QgsVectorTileBasicRendererStyle.symbolLayers,
    QgsSymbolLayer.widthSet]

theorem parseLineLayer_width_alone (env : Env) (width : ℚ)
    (style : QgsVectorTileBasicRendererStyle) (context : QgsMapBoxGlStyleConversionContext)
    (hwidth : width * context.pixelSizeConversionFactor ≠ -1) :
    ∃ out line,
      parseLineLayer env (widthLayer (QVariant.double width)) style context = Conv.ok out []
      ∧ out.1 = true
      ∧ out.2.firstSymbolLayer = some line
      ∧ line.widthSet = some (width * context.pixelSizeConversionFactor) := by
  unfold parseLineLayer widthLayer
  simp [QVariantMap.contains, QVariantMap.value, QVariantMap.valueOr, List.lookup, QVariant.toMap,
    QVariant.type, QVariant.toDouble, Conv.bind, pure,
    QgsVectorTileBasicRendererStyle.firstSymbolLayer, QgsVectorTileBasicRendererStyle.symbolLayers,
    QgsSymbolLayer.widthSet, hwidth]

end QgsMapBoxGlStyleConverter

namespace QgsMapBoxGlStyleConverter

/-- C30: for the line layer whose paint is a `line-width` number and a `line-offset` stops
map, whatever the number and the map are, `parseLineLayer` completes with a rule whose
simple line has no width set: the step for `line-offset` resets the width. The layer
with the same `line-width` and no `line-offset` gets the width times the pixel size
conversion factor of the context (when that product is not -1, the value that stands for
no width). -/
theorem parseLineLayer_offset_stops_drop_the_width (env : Env) :
    (∀ (width : ℚ) (offset : QVariantMap) (style : QgsVectorTileBasicRendererStyle)
        (context : QgsMapBoxGlStyleConversionContext),
      ∃ out warnings line,
        parseLineLayer env (widthOffsetLayer (QVariant.double width) (QVariant.map offset)) style
            context = Conv.ok out warnings
        ∧ out.1 = true
        ∧ out.2.firstSymbolLayer = some line
        ∧ line.widthSet = none)
    ∧ (∀ (width : ℚ) (style : QgsVectorTileBasicRendererStyle)
        (context : QgsMapBoxGlStyleConversionContext),
        width * context.pixelSizeConversionFactor ≠ -1 →
        ∃ out line,
          parseLineLayer env (widthLayer (QVariant.double width)) style context = Conv.ok out []
          ∧ out.1 = true
          ∧ out.2.firstSymbolLayer = some line
          ∧ line.widthSet = some (width * context.pixelSizeConversionFactor)) :=
  ⟨parseLineLayer_width_offset_stops env, parseLineLayer_width_alone env⟩

/-- Witness of C30: the width 3 with the offset stops `(5, 27)` and `(13, 29)`, and the
width 3 alone, in the default context. -/
theorem parseLineLayer_offset_stops_drop_the_width_witness :
    (3 : ℚ) * QgsMapBoxGlStyleConversionContext.default.pixelSizeConversionFactor ≠ -1
    ∧ (∃ out warnings line,
        parseLineLayer Sample.paletteEnv
            (widthOffsetLayer (QVariant.double 3) (QVariant.map (Sample.twoStops (QVariant.int 1))))
            QgsVectorTileBasicRendererStyle.default QgsMapBoxGlStyleConversionContext.default
          = Conv.ok out warnings
        ∧ out.2.firstSymbolLayer = some line ∧ line.widthSet = none)
    ∧ ∃ out line,
        parseLineLayer Sample.paletteEnv (widthLayer (QVariant.double 3))
            QgsVectorTileBasicRendererStyle.default QgsMapBoxGlStyleConversionContext.default
          = Conv.ok out []
        ∧ out.2.firstSymbolLayer = some line ∧ line.widthSet = some 3 :=
  have hwidth : (3 : ℚ) * QgsMapBoxGlStyleConversionContext.default.pixelSizeConversionFactor ≠ -1 :=
    by decide!
  ⟨hwidth,
   ((parseLineLayer_offset_stops_drop_the_width Sample.paletteEnv).1 3
      (Sample.twoStops (QVariant.int 1)) QgsVectorTileBasicRendererStyle.default
      QgsMapBoxGlStyleConversionContext.default).imp fun _ h => h.imp fun _ h => h.imp fun _ h =>
        ⟨h.1, h.2.2.1, h.2.2.2⟩,
   ((parseLineLayer_offset_stops_drop_the_width Sample.paletteEnv).2 3
      QgsVectorTileBasicRendererStyle.default QgsMapBoxGlStyleConversionContext.default
      hwidth).imp fun _ h => h.imp fun _ h =>
        ⟨h.1, h.2.2.1, h.2.2.2.trans (by decide!)⟩⟩

end QgsMapBoxGlStyleConverter

namespace QgsPropertyCollection

variable {κ : Type} [DecidableEq κ]

theorem property_setProperty_self (c : QgsPropertyCollection κ) (key : κ) (p : QgsProperty)
    (h : p.isExpressionBased = true) : (c.setProperty key p).property key = p := by
  unfold setProperty property
  simp [h, List.lookup_cons]

theorem property_empty (key : κ) :
    (QgsPropertyCollection.empty : QgsPropertyCollection κ).property key = QgsProperty.invalid :=
  rfl

end QgsPropertyCollection

namespace QgsMapBoxGlStyleConverter

open SymbolLayerProperty

theorem fillColorOutcome_stops (env : Env) (jsonPaint json : QVariantMap)
    (r : QgsProperty × Option QColor) (w : List String)
    (hcolor : QVariantMap.value jsonPaint "fill-color" = QVariant.map json)
    (hfill : QVariantMap.contains jsonPaint "fill-color" = true)
    (hrun : parseInterpolateColorByZoom env json = Conv.ok r w) :
    fillColorOutcome env jsonPaint
      = Conv.ok (QgsPropertyCollection.empty.setProperty PropertyFillColor r.1,
          r.2.getD QColor.invalid) w := by
  unfold fillColorOutcome fillColorStep
  simp [hfill, hcolor, QVariant.type, QVariant.toMap, hrun, Conv.bind]

theorem contains_of_value_map (m : QVariantMap) (key : String) (json : QVariantMap)
    (h : QVariantMap.value m key = QVariant.map json) : QVariantMap.contains m key = true := by
  by_contra hc
  have hfalse : QVariantMap.contains m key = false := by simpa using hc
  rw [QVariantMap.value, QVariantMap.valueOr_of_not_contains m key _ hfalse] at h
  cases h

/-- C28: for every fill layer whose paint has no `fill-outline-color` and no `fill-opacity`
and whose `fill-color` is a stops map of colour strings with a first colour that the parser
reads as valid, `parseFillLayer` completes with a rule whose simple fill has an active
data-defined fill colour, the first colour as its static stroke colour, and no active
data-defined stroke colour: the stroke does not follow the fill colour over the zooms. -/
theorem parseFillLayer_zoom_fill_leaves_static_stroke (env : Env) (jsonLayer : QVariantMap)
    (style : QgsVectorTileBasicRendererStyle) (context : QgsMapBoxGlStyleConversionContext)
    (json : QVariantMap) (stops : QVariantList) (first last : QVariant)
    (hpaint : QVariantMap.contains jsonLayer "paint" = true)
    (hcolor : QVariantMap.value (QVariantMap.value jsonLayer "paint").toMap "fill-color"
      = QVariant.map json)
    (hstops : QVariantMap.value json "stops" = QVariant.list stops)
    (hfirst : stops.head? = some first) (hlast : stops.getLast? = some last)
    (hcolors : ∀ stop ∈ stops, (stopValue stop).type = QVariantType.String)
    (hvalid : (env.parseColor ((stopValue first).toString env)).isValid = true)
    (houtline : QVariantMap.contains (QVariantMap.value jsonLayer "paint").toMap
      "fill-outline-color" = false)
    (hopacity : QVariantMap.contains (QVariantMap.value jsonLayer "paint").toMap
      "fill-opacity" = false) :
    ∃ out warnings fill,
      parseFillLayer env jsonLayer style context = Conv.ok out warnings
      ∧ out.2.firstSymbolLayer = some fill
      ∧ fill.ddProperties.isActive PropertyFillColor = true
      ∧ fill.ddProperties.isActive PropertyStrokeColor = false
      ∧ fill.strokeColorSet = some (env.parseColor ((stopValue first).toString env)) := by
  obtain ⟨out, warnings, hrun⟩ := parseFillLayer_completes env jsonLayer style context
  obtain ⟨r1, w1, r2, w2, r3, w3, r4, w4, rasterLayers, w5, h1, h2, h3, h4, _, hout, _⟩ :=
    parseFillLayer_outcome env jsonLayer style context hpaint out warnings hrun
  rw [fillColorOutcome_stops env _ json _ _ hcolor (contains_of_value_map _ _ _ hcolor)
    (parseInterpolateColorByZoom_strings env json stops first last hstops hfirst hlast hcolors)]
    at h1
  simp only [Conv.ok.injEq] at h1
  obtain ⟨rfl, _⟩ := h1
  simp only [Option.getD_some] at h2 h3 hout
  rw [fillOutlineColorOutcome_absent_valid env _ _ _ houtline hvalid] at h2
  simp only [Conv.ok.injEq] at h2
  obtain ⟨rfl, _⟩ := h2
  rw [fillOpacityOutcome_absent env _ _ _ _ _ hopacity] at h3
  simp only [Conv.ok.injEq] at h3
  obtain ⟨rfl, _⟩ := h3
  have hkeep := fillTranslateOutcome_keeps_colors env _ context _ r4 w4 h4
  refine ⟨out, warnings, _, hrun, by rw [hout]; rfl, ?_, ?_, ?_⟩
  · simp only [QgsSymbolLayer.ddProperties, QgsPropertyCollection.isActive]
    rw [hkeep PropertyFillColor (by decide),
      QgsPropertyCollection.property_setProperty_self _ _ _ rfl]
    rfl
  · simp only [QgsSymbolLayer.ddProperties, QgsPropertyCollection.isActive]
    rw [hkeep PropertyStrokeColor (by decide),
      QgsPropertyCollection.property_setProperty_of_ne _ _ _ _ (by decide)]
    rfl
  · simp [QgsSymbolLayer.strokeColorSet, hvalid]

/-- Witness of C28: the fill layer whose fill colour goes from white at the zoom 0 to black
at the zoom 10, with the collaborators that know the two colours. -/
theorem parseFillLayer_zoom_fill_leaves_static_stroke_witness :
    (Sample.paletteEnv.parseColor "#ffffff").isValid = true
    ∧ QVariantMap.contains (QVariantMap.value (Sample.greyFillLayer []) "paint").toMap
        "fill-outline-color" = false
    ∧ ∃ out warnings fill,
        parseFillLayer Sample.paletteEnv (Sample.greyFillLayer [])
            QgsVectorTileBasicRendererStyle.default QgsMapBoxGlStyleConversionContext.default
          = Conv.ok out warnings
        ∧ out.2.firstSymbolLayer = some fill
        ∧ fill.ddProperties.isActive PropertyFillColor = true
        ∧ fill.ddProperties.isActive PropertyStrokeColor = false
        ∧ fill.strokeColorSet = some Sample.white :=
  ⟨rfl, rfl,
   parseFillLayer_zoom_fill_leaves_static_stroke Sample.paletteEnv (Sample.greyFillLayer [])
     QgsVectorTileBasicRendererStyle.default QgsMapBoxGlStyleConversionContext.default
     Sample.greyStops _ (QVariant.list [QVariant.int 0, QVariant.string "#ffffff"])
     (QVariant.list [QVariant.int 10, QVariant.string "#000000"]) rfl rfl rfl rfl rfl
     (by decide) rfl rfl rfl⟩

end QgsMapBoxGlStyleConverter

namespace QgsPropertyCollection

variable {κ : Type} [DecidableEq κ]

theorem lookup_filter_self (properties : List (κ × QgsProperty)) (key : κ) :
    (properties.filter (fun kv => decide (kv.1 ≠ key))).lookup key = none := by
  induction properties with
  | nil => rfl
  | cons head tail ih =>
    obtain ⟨k, p⟩ := head
    by_cases hk : k = key
    · subst hk
      rw [List.filter_cons_of_neg (by simp), ih]
    · have hne : (key == k) = false := by simpa using fun h => hk h.symm
      rw [List.filter_cons_of_pos (by simpa using hk), List.lookup_cons, hne, ih]

theorem property_setProperty_same (c other : QgsPropertyCollection κ) (key : κ)
    (p : QgsProperty) :
    (c.setProperty key p).property key = (other.setProperty key p).property key := by
  unfold setProperty property
  split
  · simp only [List.lookup_cons, beq_self_eq_true]
  · simp only [lookup_filter_self]

end QgsPropertyCollection

namespace QgsMapBoxGlStyleConverter

open SymbolLayerProperty

theorem fillOpacityProperty_quiet (env : Env) (json : QVariant) (maxOpacity : Int) :
    (fillOpacityProperty env json maxOpacity).Quiet := by
  unfold fillOpacityProperty
  simp only [Conv.bind_eq, Conv.pure_eq]
  repeat' first
    | exact Conv.quiet_ok_nil _
    | exact parseInterpolateOpacityByZoom_quiet _ _ _
    | exact parseInterpolateListByZoom_quiet _ _ _ _ _
    | apply Conv.quiet_bind
    | intro _
    | split

theorem rasterOpacityProperty_quiet (env : Env) (json : QVariant) :
    (rasterOpacityProperty env json).Quiet := by
  unfold rasterOpacityProperty
  simp only [Conv.bind_eq, Conv.pure_eq]
  repeat' first
    | exact Conv.quiet_ok_nil _
    | exact parseInterpolateByZoom_quiet _ _ _
    | exact parseInterpolateListByZoom_quiet _ _ _ _ _
    | apply Conv.quiet_bind
    | intro _
    | split

theorem count_conflict_eq_zero {α : Type} {x : Conv α} (hx : x.Quiet) (a : α) (w : List String)
    (h : x = Conv.ok a w) (env : Env) (jsonLayer : QVariantMap) :
    w.count (opacityConflictWarning env jsonLayer) = 0 :=
  List.count_eq_zero.2 (conflict_not_pushed hx a w h env jsonLayer)

end QgsMapBoxGlStyleConverter
namespace QgsMapBoxGlStyleConverter

open SymbolLayerProperty

/-- C29: for every fill layer whose `fill-opacity` depends on the zoom (a stops map or a
list), where `r1` is what the step for `fill-color` leaves and `r2` what the step for
`fill-outline-color` leaves, `parseFillLayer` completes with a rule with a simple fill.
If the data-defined fill colour compiled from `fill-color` is active, the opacity is
dropped: the fill keeps that data-defined fill colour and the data-defined stroke colour
of the colour steps, the symbol gets no opacity, a raster fill gets no data-defined
property, and the warning `Could not set opacity of layer <id>, opacity already defined in
fill color` is recorded exactly once. If it is not active, the opacity properties compiled
for the alpha of the fill colour and of the outline colour are stored as the data-defined
fill colour and stroke colour, and that warning is not recorded. -/
theorem parseFillLayer_opacity_after_fill_color (env : Env) (jsonLayer : QVariantMap)
    (style : QgsVectorTileBasicRendererStyle) (context : QgsMapBoxGlStyleConversionContext)
    (r1 r2 : QgsPropertyCollection SymbolLayerProperty × QColor) (w1 w2 : List String)
    (hpaint : QVariantMap.contains jsonLayer "paint" = true)
    (hopacity : QVariantMap.contains (QVariantMap.value jsonLayer "paint").toMap "fill-opacity"
      = true)
    (hzoom : zoomDependent
      (QVariantMap.value (QVariantMap.value jsonLayer "paint").toMap "fill-opacity") = true)
    (h1 : fillColorOutcome env (QVariantMap.value jsonLayer "paint").toMap = Conv.ok r1 w1)
    (h2 : fillOutlineColorOutcome env (QVariantMap.value jsonLayer "paint").toMap r1.1 r1.2
      = Conv.ok r2 w2) :
    ∃ out warnings fill,
      parseFillLayer env jsonLayer style context = Conv.ok out warnings
      ∧ out.2.firstSymbolLayer = some fill
      ∧ (r1.1.isActive PropertyFillColor = true →
          fill.ddProperties.property PropertyFillColor = r1.1.property PropertyFillColor
          ∧ fill.ddProperties.property PropertyStrokeColor = r2.1.property PropertyStrokeColor
          ∧ out.2.symbol.bind (fun symbol => symbol.opacity) = none
          ∧ (∀ raster ∈ out.2.symbolLayers.tail,
              raster.ddProperties = QgsPropertyCollection.empty)
          ∧ warnings.count (opacityConflictWarning env jsonLayer) = 1)
      ∧ (r1.1.isActive PropertyFillColor = false →
          ∃ p1 v1 p2 v2,
            fillOpacityProperty env
                (QVariantMap.value (QVariantMap.value jsonLayer "paint").toMap "fill-opacity")
                (alphaOf r1.2) = Conv.ok p1 v1
            ∧ fillOpacityProperty env
                (QVariantMap.value (QVariantMap.value jsonLayer "paint").toMap "fill-opacity")
                (alphaOf r2.2) = Conv.ok p2 v2
            ∧ fill.ddProperties.property PropertyFillColor
              = (QgsPropertyCollection.empty.setProperty PropertyFillColor p1).property
                  PropertyFillColor
            ∧ fill.ddProperties.property PropertyStrokeColor
              = (QgsPropertyCollection.empty.setProperty PropertyStrokeColor p2).property
                  PropertyStrokeColor
            ∧ opacityConflictWarning env jsonLayer ∉ warnings) := by
  obtain ⟨out, warnings, hrun⟩ := parseFillLayer_completes env jsonLayer style context
  obtain ⟨s1, u1, s2, u2, r3, w3, r4, w4, rasterLayers, w5, g1, g2, h3, h4, h5, hout, hw⟩ :=
    parseFillLayer_outcome env jsonLayer style context hpaint out warnings hrun
  rw [h1] at g1
  simp only [Conv.ok.injEq] at g1
  obtain ⟨rfl, rfl⟩ := g1
  rw [h2] at g2
  simp only [Conv.ok.injEq] at g2
  obtain ⟨rfl, rfl⟩ := g2
  have hfillkeep := fillOutlineColorOutcome_keeps_fill env _ _ _ r2 w2 h2
  have hkeep := fillTranslateOutcome_keeps_colors env _ context _ r4 w4 h4
  have hraster := fillPatternOutcome_properties env _ context _ _ rasterLayers w5 h5
  have c1 := count_conflict_eq_zero (fillColorOutcome_quiet env _) _ _ h1 env jsonLayer
  have c2 := count_conflict_eq_zero (fillOutlineColorOutcome_quiet env _ _ _) _ _ h2 env jsonLayer
  have c4 := count_conflict_eq_zero (fillTranslateOutcome_quiet env _ _ _) _ _ h4 env jsonLayer
  have c5 := count_conflict_eq_zero (fillPatternOutcome_quiet env _ _ _ _) _ _ h5 env jsonLayer
  refine ⟨out, warnings, _, hrun, by rw [hout]; rfl, ?_, ?_⟩
  · intro hactive
    have hactive2 : r2.1.isActive PropertyFillColor = true := by
      unfold QgsPropertyCollection.isActive at hactive ⊢
      rw [hfillkeep]
      exact hactive
    rw [fillOpacityOutcome_conflict env _ _ _ _ _ hopacity hzoom hactive2] at h3
    simp only [Conv.ok.injEq] at h3
    obtain ⟨rfl, rfl⟩ := h3
    refine ⟨?_, ?_, ?_, ?_, ?_⟩
    · simp only [QgsSymbolLayer.ddProperties]
      rw [hkeep PropertyFillColor (by decide), hfillkeep]
    · simp only [QgsSymbolLayer.ddProperties]
      rw [hkeep PropertyStrokeColor (by decide)]
    · rw [hout]
      simp [fillStyle]
    · rw [hout]
      exact hraster
    · rw [hw]
      simp only [List.count_append, c1, c2, c4, c5, List.count_singleton_self]
  · intro hinactive
    have hinactive2 : r2.1.isActive PropertyFillColor = false := by
      unfold QgsPropertyCollection.isActive at hinactive ⊢
      rw [hfillkeep]
      exact hinactive
    rw [fillOpacityOutcome_installed env _ _ _ _ _ hopacity hzoom hinactive2,
      Conv.bind_eq_ok] at h3
    obtain ⟨p1, v1, x1, hp1, h3, rfl⟩ := h3
    rw [Conv.bind_eq_ok] at h3
    obtain ⟨p2, v2, x2, hp2, h3, rfl⟩ := h3
    rw [Conv.bind_eq_ok] at h3
    obtain ⟨p3, v3, x3, hp3, h3, rfl⟩ := h3
    simp only [Conv.ok.injEq] at h3
    obtain ⟨rfl, rfl⟩ := h3
    refine ⟨p1, v1, p2, v2, hp1, hp2, ?_, ?_, ?_⟩
    · simp only [QgsSymbolLayer.ddProperties]
      rw [hkeep PropertyFillColor (by decide),
        QgsPropertyCollection.property_setProperty_of_ne _ _ _ _ (by decide)]
      exact QgsPropertyCollection.property_setProperty_same _ _ _ _
    · simp only [QgsSymbolLayer.ddProperties]
      rw [hkeep PropertyStrokeColor (by decide)]
      exact QgsPropertyCollection.property_setProperty_same _ _ _ _
    · rw [hw]
      have d1 := conflict_not_pushed (fillColorOutcome_quiet env _) _ _ h1 env jsonLayer
      have d2 := conflict_not_pushed (fillOutlineColorOutcome_quiet env _ _ _) _ _ h2 env jsonLayer
      have d4 := conflict_not_pushed (fillTranslateOutcome_quiet env _ _ _) _ _ h4 env jsonLayer
      have d5 := conflict_not_pushed (fillPatternOutcome_quiet env _ _ _ _) _ _ h5 env jsonLayer
      have e1 := conflict_not_pushed (fillOpacityProperty_quiet env _ _) _ _ hp1 env jsonLayer
      have e2 := conflict_not_pushed (fillOpacityProperty_quiet env _ _) _ _ hp2 env jsonLayer
      have e3 := conflict_not_pushed (rasterOpacityProperty_quiet env _) _ _ hp3 env jsonLayer
      simp only [List.mem_append, not_or, List.not_mem_nil, not_false_eq_true, and_true]
      exact ⟨d1, d2, ⟨e1, e2, e3⟩, d4, d5⟩

end QgsMapBoxGlStyleConverter
namespace QgsMapBoxGlStyleConverter

open SymbolLayerProperty

/-- Witness of C29: the fill layer `land` whose fill colour goes from white to black over
the zooms, and the fill layer `water` with the static fill colour blue, each with an
opacity that depends on the zoom, with the collaborators that know the colours. -/
theorem parseFillLayer_opacity_after_fill_color_witness :
    zoomDependent (QVariant.map Sample.opacityStops) = true
    ∧ (∃ out warnings fill,
        parseFillLayer Sample.paletteEnv Sample.fadingGreyLayer
            QgsVectorTileBasicRendererStyle.default QgsMapBoxGlStyleConversionContext.default
          = Conv.ok out warnings
        ∧ out.2.firstSymbolLayer = some fill
        ∧ fill.ddProperties.property PropertyFillColor = Sample.greyProperty
        ∧ warnings.count "Could not set opacity of layer land, opacity already defined in fill color"
          = 1)
    ∧ ∃ out warnings fill,
        parseFillLayer Sample.paletteEnv Sample.fadingWaterLayer
            QgsVectorTileBasicRendererStyle.default QgsMapBoxGlStyleConversionContext.default
          = Conv.ok out warnings
        ∧ out.2.firstSymbolLayer = some fill
        ∧ fill.ddProperties.isActive PropertyFillColor = true
        ∧ "Could not set opacity of layer water, opacity already defined in fill color"
          ∉ warnings := by
  refine ⟨rfl, ?_, ?_⟩
  · have h1 : fillColorOutcome Sample.paletteEnv
        (QVariantMap.value Sample.fadingGreyLayer "paint").toMap
        = Conv.ok (QgsPropertyCollection.empty.setProperty PropertyFillColor Sample.greyProperty,
            Sample.white) [] := by decide!
    have h2 : fillOutlineColorOutcome Sample.paletteEnv
        (QVariantMap.value Sample.fadingGreyLayer "paint").toMap
        (QgsPropertyCollection.empty.setProperty PropertyFillColor Sample.greyProperty) Sample.white
        = Conv.ok (QgsPropertyCollection.empty.setProperty PropertyFillColor Sample.greyProperty,
            Sample.white) [] := by decide!
    obtain ⟨out, warnings, fill, hrun, hfill, hdropped, _⟩ :=
      parseFillLayer_opacity_after_fill_color Sample.paletteEnv Sample.fadingGreyLayer
        QgsVectorTileBasicRendererStyle.default QgsMapBoxGlStyleConversionContext.default
        _ _ _ _ rfl rfl rfl h1 h2
    obtain ⟨hkept, _, _, _, hcount⟩ := hdropped (by decide)
    exact ⟨out, warnings, fill, hrun, hfill, hkept.trans (by decide), hcount⟩
  · have h1 : fillColorOutcome Sample.paletteEnv
        (QVariantMap.value Sample.fadingWaterLayer "paint").toMap
        = Conv.ok (QgsPropertyCollection.empty, Sample.blue) [] := by decide!
    have h2 : fillOutlineColorOutcome Sample.paletteEnv
        (QVariantMap.value Sample.fadingWaterLayer "paint").toMap QgsPropertyCollection.empty
        Sample.blue = Conv.ok (QgsPropertyCollection.empty, Sample.blue) [] := by decide!
    obtain ⟨out, warnings, fill, hrun, hfill, _, hstored⟩ :=
      parseFillLayer_opacity_after_fill_color Sample.paletteEnv Sample.fadingWaterLayer
        QgsVectorTileBasicRendererStyle.default QgsMapBoxGlStyleConversionContext.default
        _ _ _ _ rfl rfl rfl h1 h2
    obtain ⟨p1, v1, p2, v2, hp1, _, hfillColor, _, habsent⟩ := hstored (by decide)
    refine ⟨out, warnings, fill, hrun, hfill, ?_, habsent⟩
    have hp : fillOpacityProperty Sample.paletteEnv
        (QVariantMap.value (QVariantMap.value Sample.fadingWaterLayer "paint").toMap "fill-opacity")
        (alphaOf Sample.blue)
        = Conv.ok (QgsProperty.fromExpression
            "set_color_part(@symbol_color, 'alpha', scale_linear(@zoom_level,5,13,0,255))") [] := by
      decide!
    rw [hp] at hp1
    simp only [Conv.ok.injEq] at hp1
    obtain ⟨rfl, _⟩ := hp1
    unfold QgsPropertyCollection.isActive
    rw [hfillColor]
    decide

end QgsMapBoxGlStyleConverter

/-! ### Unsupported values, keys and numeric stops -/

namespace QgsMapBoxGlStyleConverter

theorem append_space_ne_empty (text : String) : text ++ " " ≠ "" := by
  intro h
  have := congrArg String.length h
  simp only [String.length_append] at this
  have hone : " ".length = 1 := rfl
  have hzero : "".length = 0 := rfl
  omega

theorem parseValue_unsupported (env : Env) (value : QVariant)
    (h : value.type = QVariantType.Bool ∨ value.type = QVariantType.Invalid
      ∨ value.type = QVariantType.Map) :
    parseValue env value = Conv.ok "" ["Skipping unsupported expression part"] := by
  cases value <;> simp [QVariant.type] at h <;> rfl

/-- C34: for every comparison filter `[op, key, value]` with `op` one of `==`, `!=`, `>=`,
`>`, `<=`, `<` and a value that is a boolean, null or a map, `parseValue` returns the empty
text with the warning `Skipping unsupported expression part`, and `parseExpression`
returns the key, the operator and an empty right operand, a text that is not empty; the
filter `["==", "oneway", true]` gives `"oneway" IS ` with a blank at the end. -/
theorem parseExpression_comparison_keeps_empty_operand (env : Env) :
    (∀ (op : String) (key value : QVariant),
      op ∈ ["==", "!=", ">=", ">", "<=", "<"] →
      (value.type = QVariantType.Bool ∨ value.type = QVariantType.Invalid
        ∨ value.type = QVariantType.Map) →
      parseValue env value = Conv.ok "" ["Skipping unsupported expression part"]
      ∧ parseExpression env [QVariant.string op, key, value]
        = Conv.ok (parseKey env key ++ " " ++ comparisonOperator op ++ " ")
            ["Skipping unsupported expression part"]
      ∧ parseKey env key ++ " " ++ comparisonOperator op ++ " " ≠ "")
    ∧ parseExpression env [QVariant.string "==", QVariant.string "oneway", QVariant.bool true]
      = Conv.ok "\"oneway\" IS " ["Skipping unsupported expression part"] := by
  refine ⟨?_, rfl⟩
  intro op key value hop hvalue
  have hv := parseValue_unsupported env value hvalue
  refine ⟨hv, ?_, append_space_ne_empty _⟩
  unfold parseExpression
  simp only [QVariant.toString, operatorOf_comparison op hop, hv]
  simp [Conv.bind, QVariantList.value]

/-- Witness of C34: the filter `["<", "height", null]`. -/
theorem parseExpression_comparison_keeps_empty_operand_witness :
    "<" ∈ ["==", "!=", ">=", ">", "<=", "<"]
    ∧ parseExpression Sample.env [QVariant.string "<", QVariant.string "height", QVariant.invalid]
      = Conv.ok "\"height\" < " ["Skipping unsupported expression part"] :=
  ⟨by decide,
   ((parseExpression_comparison_keeps_empty_operand Sample.env).1 "<" (QVariant.string "height")
      QVariant.invalid (by decide) (Or.inr (Or.inl rfl))).2.1.trans (by decide)⟩

/-- C35: `parseKey` gives `_geom_type` for a value whose text is `$type`; for a list with
more than one element the text of its second element as it is, `class` for
`["get", "class"]`; for a list with at most one element the text of its first element,
empty for the empty list; and for every other value that is no list the quoted column
reference of its text, `"class"` in double quotes for the string `class`. -/
theorem parseKey_cases (env : Env) :
    (∀ value : QVariant, value.toString env = "$type" → parseKey env value = "_geom_type")
    ∧ (∀ items : QVariantList, 1 < items.length →
        parseKey env (QVariant.list items) = (QVariantList.value items 1).toString env)
    ∧ (∀ items : QVariantList, items.length ≤ 1 →
        parseKey env (QVariant.list items) = (QVariantList.value items 0).toString env)
    ∧ parseKey env (QVariant.list []) = ""
    ∧ (∀ value : QVariant, value.type ≠ QVariantType.List → value.toString env ≠ "$type" →
        parseKey env value = QgsExpression.quotedColumnRef (value.toString env))
    ∧ parseKey env (QVariant.list [QVariant.string "get", QVariant.string "class"]) = "class"
    ∧ parseKey env (QVariant.string "class") = "\"class\"" := by
  refine ⟨?_, ?_, ?_, rfl, ?_, rfl, rfl⟩
  · intro value h
    simp [parseKey, h]
  · intro items h
    have hne : (QVariant.list items).toString env ≠ "$type" := by
      simp only [QVariant.toString]
      decide
    simp only [parseKey, hne, if_false, QVariant.type, if_true, QVariant.toList, h, dite_true,
      QVariantList.value]
    rw [List.getD_eq_getElem _ _ h]
    rfl
  · intro items h
    have hne : (QVariant.list items).toString env ≠ "$type" := by
      simp only [QVariant.toString]
      decide
    simp only [parseKey, hne, if_false, QVariant.type, if_true, QVariant.toList,
      not_lt.2 h, dite_false]
  · intro value htype htext
    simp [parseKey, htype, htext]

/-- Witness of C35: the key `$type`, a list of three elements, a list of one element and
the number 7. -/
theorem parseKey_cases_witness :
    parseKey Sample.env (QVariant.string "$type") = "_geom_type"
    ∧ parseKey Sample.env
        (QVariant.list [QVariant.string "get", QVariant.string "name", QVariant.int 1]) = "name"
    ∧ parseKey Sample.env (QVariant.list [QVariant.string "name"]) = "name"
    ∧ parseKey Sample.env (QVariant.int 7) = "\"7\"" :=
  ⟨(parseKey_cases Sample.env).1 _ rfl,
   ((parseKey_cases Sample.env).2.1 _ (by decide)).trans rfl,
   ((parseKey_cases Sample.env).2.2.1 _ (by decide)).trans rfl,
   ((parseKey_cases Sample.env).2.2.2.2.1 _ (by decide) (by decide)).trans (by decide)⟩

end QgsMapBoxGlStyleConverter

namespace QgsMapBoxGlStyleConverter

theorem stopPairs_eq_zip : ∀ stops : QVariantList, stopPairs stops = stops.zip stops.tail
  | [] => rfl
  | [_] => rfl
  | bottom :: top :: rest => by
    have ih := stopPairs_eq_zip (top :: rest)
    simp only [stopPairs, List.tail_cons, List.zip_cons_cons] at ih ⊢
    rw [ih]

theorem stopPairs_length (stops : QVariantList) : (stopPairs stops).length = stops.length - 1 := by
  rw [stopPairs_eq_zip, List.length_zip, List.length_tail]
  omega

theorem stopsCases_list_zoom (env : Env) (base multiplier : ℚ) :
    ∀ stops : QVariantList, 2 ≤ stops.length →
      (∃ stop ∈ stops, (stopZoom stop).type = QVariantType.List) →
      stopsCases env base multiplier stops
        = Conv.ok none ["QGIS does not support expressions in interpolation function, skipping."]
  | [], h, _ => by simp at h
  | [_], h, _ => by simp at h
  | bottom :: top :: rest, _, hlist => by
    unfold stopsCases
    by_cases hb : (stopZoom bottom).type = QVariantType.List
    · simp [hb, Conv.bind, pushWarning]
    · by_cases ht : (stopZoom top).type = QVariantType.List
      · simp [hb, ht, Conv.bind, pushWarning]
      · obtain ⟨stop, hmem, hstop⟩ := hlist
        have hrest : stop ∈ rest := by
          rcases List.mem_cons.1 hmem with h | h
          · exact absurd (h ▸ hstop) hb
          · rcases List.mem_cons.1 h with h | h
            · exact absurd (h ▸ hstop) ht
            · exact h
        have hlength : 2 ≤ (top :: rest).length := by
          cases rest with
          | nil => simp at hrest
          | cons _ _ => simp
        have ih := stopsCases_list_zoom env base multiplier (top :: rest) hlength
          ⟨stop, List.mem_cons_of_mem _ hrest, hstop⟩
        simp [hb, ht, ih, Conv.bind]

/-- C36: for every stops list whose zooms are no lists, `parseStops` returns, without a
warning, `CASE ` followed by one branch
`WHEN @zoom_level > z_i AND @zoom_level <= z_(i+1) THEN ` and the interpolation between
the two stops and a blank for each pair of consecutive stops, in order, followed by `END`:
one branch less than there are stops, each for the zooms above `z_i` up to `z_(i+1)`, and
nothing else. For a list of two or more stops one of which has a list as its zoom it
returns the empty text and records one warning. -/
theorem parseStops_ranged_branches (env : Env) (base multiplier : ℚ) (stops : QVariantList) :
    ((∀ stop ∈ stops, (stopZoom stop).type ≠ QVariantType.List) →
      parseStops env base stops multiplier
        = Conv.ok ("CASE "
            ++ concatTexts ((stopPairs stops).map (rangedBranch env base multiplier)) ++ "END") [])
    ∧ stopPairs stops = stops.zip stops.tail
    ∧ (stopPairs stops).length = stops.length - 1
    ∧ (∀ pair : QVariant × QVariant,
        rangedBranch env base multiplier pair
          = "WHEN @zoom_level > " ++ (stopZoom pair.1).toString env ++ " AND @zoom_level <= "
            ++ (stopZoom pair.2).toString env ++ " THEN "
            ++ interpolateExpression env (stopZoom pair.1).toDouble (stopZoom pair.2).toDouble
                (stopValue pair.1).toDouble (stopValue pair.2).toDouble base multiplier
            ++ " ")
    ∧ (∀ (zoom : ℚ) (pair : QVariant × QVariant),
        branchCovers zoom pair = true
          ↔ (stopZoom pair.1).toDouble < zoom ∧ zoom ≤ (stopZoom pair.2).toDouble)
    ∧ (2 ≤ stops.length → (∃ stop ∈ stops, (stopZoom stop).type = QVariantType.List) →
        parseStops env base stops multiplier
          = Conv.ok ""
              ["QGIS does not support expressions in interpolation function, skipping."]) := by
  refine ⟨?_, stopPairs_eq_zip stops, stopPairs_length stops, fun _ => rfl, ?_, ?_⟩
  · intro hzooms
    unfold parseStops
    simp [stopsCases_numeric env base multiplier stops hzooms, Conv.bind]
  · intro zoom pair
    simp [branchCovers]
  · intro hlength hlist
    unfold parseStops
    simp [stopsCases_list_zoom env base multiplier stops hlength hlist, Conv.bind]

/-- Witness of C36: the stops `(0, 1)`, `(5, 2)`, `(10, 3)`, and the same stops with a list
as the zoom of the second. -/
theorem parseStops_ranged_branches_witness :
    parseStops Sample.paletteEnv 1 (QVariantMap.value Sample.threeStops "stops").toList 1
      = Conv.ok
          ("CASE WHEN @zoom_level > 0 AND @zoom_level <= 5 THEN scale_linear(@zoom_level,0,5,1,2) "
            ++ "WHEN @zoom_level > 5 AND @zoom_level <= 10 THEN scale_linear(@zoom_level,5,10,2,3) "
            ++ "END") []
    ∧ parseStops Sample.paletteEnv 1 Sample.listZoomStops 1
      = Conv.ok "" ["QGIS does not support expressions in interpolation function, skipping."] :=
  ⟨((parseStops_ranged_branches Sample.paletteEnv 1 1
      (QVariantMap.value Sample.threeStops "stops").toList).1 (by decide)).trans (by decide!),
   (parseStops_ranged_branches Sample.paletteEnv 1 1 Sample.listZoomStops).2.2.2.2.2
     (by decide) ⟨_, List.mem_cons_of_mem _ (List.mem_cons_self _ _), rfl⟩⟩

end QgsMapBoxGlStyleConverter

/-! ### The list adapter and the stops table -/

namespace QgsMapBoxGlStyleConverter

theorem stopsCases_congr (env : Env) (base multiplier : ℚ) :
    ∀ stops others : QVariantList, List.Forall₂ (SameStop env) stops others →
      stopsCases env base multiplier stops = stopsCases env base multiplier others
  | [], _, h => by cases h; rfl
  | [_], _, h => by
    cases h with
    | cons _ h2 => cases h2; rfl
  | bottom :: top :: rest, _, h => by
    cases h with
    | cons hb h2 =>
      cases h2 with
      | cons ht h3 =>
        have ih := stopsCases_congr env base multiplier (top :: rest) _ (List.Forall₂.cons ht h3)
        obtain ⟨hb1, hb2, hb3, hb4⟩ := hb
        obtain ⟨ht1, ht2, ht3, ht4⟩ := ht
        unfold stopsCases
        simp only [hb1, hb2, hb3, hb4, ht1, ht2, ht3, ht4, ih]

theorem value_zero_same (env : Env) (stops others : QVariantList)
    (h : List.Forall₂ (SameStop env) stops others) (hne : stops ≠ []) :
    SameStop env (QVariantList.value stops 0) (QVariantList.value others 0) := by
  cases h with
  | nil => exact absurd rfl hne
  | cons hb _ => exact hb

theorem getLast?_same (env : Env) :
    ∀ stops others : QVariantList, List.Forall₂ (SameStop env) stops others →
      (stops.getLast? = none ∧ others.getLast? = none)
      ∨ ∃ last other, stops.getLast? = some last ∧ others.getLast? = some other
          ∧ SameStop env last other
  | [], _, h => by cases h; exact Or.inl ⟨rfl, rfl⟩
  | [stop], _, h => by
    cases h with
    | cons hb h2 => cases h2; exact Or.inr ⟨_, _, rfl, rfl, hb⟩
  | stop :: next :: rest, _, h => by
    cases h with
    | cons hb h2 =>
      cases h2 with
      | cons ht h3 =>
        rcases getLast?_same env (next :: rest) _ (List.Forall₂.cons ht h3) with h | h
        · simp at h
        · obtain ⟨last, other, h1, h2, h3⟩ := h
          refine Or.inr ⟨last, other, ?_, ?_, h3⟩
          · rw [List.getLast?_cons_cons]; exact h1
          · rw [List.getLast?_cons_cons]; exact h2

theorem parseInterpolateByZoom_congr (env : Env) (base : QVariant) (multiplier : ℚ)
    (stops others : QVariantList) (h : List.Forall₂ (SameStop env) stops others) :
    parseInterpolateByZoom env [("base", base), ("stops", QVariant.list stops)] multiplier
      = parseInterpolateByZoom env [("base", base), ("stops", QVariant.list others)] multiplier
    := by
  have hlength := h.length_eq
  by_cases hne : stops = []
  · subst hne
    cases h
    rfl
  · have hne2 : others ≠ [] := by
      intro h2
      rw [h2] at hlength
      exact hne (List.length_eq_zero.1 hlength)
    have hempty : stops.isEmpty = false := by simpa using hne
    have hempty2 : others.isEmpty = false := by simpa using hne2
    obtain ⟨f1, f2, f3, f4⟩ := value_zero_same env stops others h hne
    have hs1 : QVariantMap.value [("base", base), ("stops", QVariant.list stops)] "stops"
        = QVariant.list stops := rfl
    have hs2 : QVariantMap.value [("base", base), ("stops", QVariant.list others)] "stops"
        = QVariant.list others := rfl
    have hb1 : QVariantMap.valueOr [("base", base), ("stops", QVariant.list stops)] "base"
        (QVariant.string "1") = base := rfl
    have hb2 : QVariantMap.valueOr [("base", base), ("stops", QVariant.list others)] "base"
        (QVariant.string "1") = base := rfl
    unfold parseInterpolateByZoom
    simp only [hs1, hs2, hb1, hb2, QVariant.toList, hempty, hempty2, Bool.false_eq_true,
      if_false, hlength, f2, f4]
    rcases getLast?_same env stops others h with hl | ⟨last, other, hl1, hl2, l1, l2, l3, l4⟩
    · rw [List.getLast?_eq_none_iff] at hl
      exact absurd hl.1 hne
    · unfold parseStops QList.last
      simp only [hl1, hl2, stopsCases_congr env _ multiplier stops others h]
      split
      · simp [Conv.bind, l2, l4]
      · rfl

theorem listStops_flatMap (env : Env) :
    ∀ numbers : List (QVariant × QVariant),
      listStops env (numbers.flatMap (fun stop => [stop.1, stop.2]))
        = numbers.map (fun stop =>
            QVariant.list [QVariant.string (stop.1.toString env),
              QVariant.string (stop.2.toString env)])
  | [] => rfl
  | stop :: rest => by
    have ih := listStops_flatMap env rest
    rw [List.flatMap_cons, List.map_cons, ← ih]
    rfl

theorem sameStop_of_readsBack (env : Env) :
    ∀ numbers : List (QVariant × QVariant),
      (∀ stop ∈ numbers, stop.1.type ≠ QVariantType.List ∧ ReadsBack env stop.1
        ∧ ReadsBack env stop.2) →
      List.Forall₂ (SameStop env)
        (numbers.map (fun stop =>
          QVariant.list [QVariant.string (stop.1.toString env),
            QVariant.string (stop.2.toString env)]))
        (numbers.map (fun stop => QVariant.list [stop.1, stop.2]))
  | [], _ => List.Forall₂.nil
  | stop :: rest, h => by
    obtain ⟨h1, h2, h3⟩ := h stop (List.mem_cons_self _ _)
    refine List.Forall₂.cons ⟨rfl, h2, ?_, h3⟩
      (sameStop_of_readsBack env rest (fun s hs => h s (List.mem_cons_of_mem _ hs)))
    show (QVariant.string (stop.1.toString env)).type = QVariantType.List
      ↔ stop.1.type = QVariantType.List
    constructor
    · intro h4
      cases h4
    · intro h4
      exact absurd h4 h1

end QgsMapBoxGlStyleConverter
namespace QgsMapBoxGlStyleConverter

theorem parseInterpolateListByZoom_delegates (env : Env) (json : QVariantList)
    (type : PropertyType) (multiplier : ℚ) (maxOpacity : Int)
    (hfirst : (QVariantList.value json 0).toString env = "interpolate")
    (hknown : listTechnique env json = "linear" ∨ listTechnique env json = "exponential"
      ∨ listTechnique env json = "cubic-bezier")
    (hinput : listInput env json = "zoom") :
    parseInterpolateListByZoom env json type multiplier maxOpacity
      = Conv.bind (Conv.ok () (cubicBezierWarning (listTechnique env json))) (fun _ =>
          compileByKind env type
            [("base", QVariant.double (listBase json (listTechnique env json))),
             ("stops", QVariant.list (listStops env (json.drop 3)))]
            multiplier maxOpacity) := by
  unfold listTechnique listInput at *
  unfold parseInterpolateListByZoom compileByKind listBase
  rcases hknown with h | h | h <;> cases type <;>
    simp [hfirst, h, hinput, Conv.bind, pure, pushWarning, cubicBezierWarning]

theorem listBase_interpolateOverZoom (env : Env) (technique : QVariantList)
    (numbers : List (QVariant × QVariant)) :
    listBase (interpolateOverZoom technique numbers)
        (listTechnique env (interpolateOverZoom technique numbers))
      = techniqueBase env technique := by
  have ht : listTechnique env (interpolateOverZoom technique numbers)
      = (QVariantList.value technique 0).toString env := rfl
  rw [ht]
  unfold listBase techniqueBase
  by_cases h1 : (QVariantList.value technique 0).toString env = "linear"
  · have h2 : (QVariantList.value technique 0).toString env ≠ "exponential" := by
      rw [h1]
      decide
    simp [h1, h2]
  · simp only [h1, if_false]
    rfl

/-- C39: for every list `["interpolate", technique, ["zoom"], z_0, v_0, ..., z_n, v_n]`
whose technique is `linear`, `exponential` or `cubic-bezier`, whose zooms are no lists and
whose zooms and values are numbers that are read back from their text,
`parseInterpolateListByZoom` with the kind `Numeric` and the multiplier `m` returns the
property and the default number that `parseInterpolateByZoom` returns on the stops map
`{base: b, stops: [[z_0, v_0], ..., [z_n, v_n]]}` with the same `m`, where `b` is the base
given for `exponential` and 1 otherwise; its warnings are those of `parseInterpolateByZoom`,
after the warning that the linear technique is used instead for `cubic-bezier`. -/
theorem parseInterpolateListByZoom_agrees_with_table (env : Env) (technique : QVariantList)
    (numbers : List (QVariant × QVariant)) (multiplier : ℚ) (maxOpacity : Int)
    (hknown : (QVariantList.value technique 0).toString env = "linear"
      ∨ (QVariantList.value technique 0).toString env = "exponential"
      ∨ (QVariantList.value technique 0).toString env = "cubic-bezier")
    (hnumbers : ∀ stop ∈ numbers, stop.1.type ≠ QVariantType.List ∧ ReadsBack env stop.1
      ∧ ReadsBack env stop.2) :
    ∃ property number warnings,
      parseInterpolateByZoom env (stopsTable (techniqueBase env technique) numbers) multiplier
        = Conv.ok (property, number) warnings
      ∧ parseInterpolateListByZoom env (interpolateOverZoom technique numbers)
          PropertyType.Numeric multiplier maxOpacity
        = Conv.ok (property, none, number)
            (cubicBezierWarning ((QVariantList.value technique 0).toString env) ++ warnings) := by
  obtain ⟨r, warnings, hrun, _⟩ := parseInterpolateByZoom_quiet env
    (stopsTable (techniqueBase env technique) numbers) multiplier
  refine ⟨r.1, r.2, warnings, hrun, ?_⟩
  have hfirst : (QVariantList.value (interpolateOverZoom technique numbers) 0).toString env
      = "interpolate" := rfl
  have hinput : listInput env (interpolateOverZoom technique numbers) = "zoom" := rfl
  have hknown2 : listTechnique env (interpolateOverZoom technique numbers) = "linear"
      ∨ listTechnique env (interpolateOverZoom technique numbers) = "exponential"
      ∨ listTechnique env (interpolateOverZoom technique numbers) = "cubic-bezier" := hknown
  rw [parseInterpolateListByZoom_delegates env _ PropertyType.Numeric multiplier maxOpacity
    hfirst hknown2 hinput, listBase_interpolateOverZoom]
  have hdrop : (interpolateOverZoom technique numbers).drop 3
      = numbers.flatMap (fun stop => [stop.1, stop.2]) := rfl
  have ht : listTechnique env (interpolateOverZoom technique numbers)
      = (QVariantList.value technique 0).toString env := rfl
  rw [hdrop, listStops_flatMap, ht]
  unfold compileByKind
  simp only [Conv.bind_eq, Conv.pure_eq]
  rw [parseInterpolateByZoom_congr env _ multiplier _ _ (sameStop_of_readsBack env numbers hnumbers)]
  have htable : stopsTable (techniqueBase env technique) numbers
      = [("base", QVariant.double (techniqueBase env technique)),
         ("stops", QVariant.list (numbers.map (fun stop => QVariant.list [stop.1, stop.2])))] := rfl
  rw [← htable, hrun]
  simp [Conv.bind]

/-- Witness of C39: the stops `(5, 27)` and `(13, 29)` with the technique exponential of
base 1.5 and the multiplier 2, and with the technique cubic-bezier, where numbers print in
decimal writing. -/
theorem parseInterpolateListByZoom_agrees_with_table_witness :
    (∀ stop ∈ [(QVariant.int 5, QVariant.int 27), (QVariant.int 13, QVariant.int 29)],
      stop.1.type ≠ QVariantType.List ∧ ReadsBack Sample.paletteEnv stop.1
        ∧ ReadsBack Sample.paletteEnv stop.2)
    ∧ (∃ property number warnings,
        parseInterpolateByZoom Sample.paletteEnv
            (stopsTable (3 / 2) [(QVariant.int 5, QVariant.int 27), (QVariant.int 13, QVariant.int 29)])
            2 = Conv.ok (property, number) warnings
        ∧ parseInterpolateListByZoom Sample.paletteEnv
            (interpolateOverZoom [QVariant.string "exponential", QVariant.double (3 / 2)]
              [(QVariant.int 5, QVariant.int 27), (QVariant.int 13, QVariant.int 29)])
            PropertyType.Numeric 2 255 = Conv.ok (property, none, number) warnings)
    ∧ ∃ property number warnings,
        parseInterpolateByZoom Sample.paletteEnv
            (stopsTable 1 [(QVariant.int 5, QVariant.int 27), (QVariant.int 13, QVariant.int 29)])
            1 = Conv.ok (property, number) warnings
        ∧ parseInterpolateListByZoom Sample.paletteEnv
            (interpolateOverZoom [QVariant.string "cubic-bezier"]
              [(QVariant.int 5, QVariant.int 27), (QVariant.int 13, QVariant.int 29)])
            PropertyType.Numeric 1 255
          = Conv.ok (property, none, number)
              ("QGIS does not support cubic-bezier interpolation, linear used instead."
                :: warnings) :=
  have hnumbers : ∀ stop ∈ [(QVariant.int 5, QVariant.int 27), (QVariant.int 13, QVariant.int 29)],
      stop.1.type ≠ QVariantType.List ∧ ReadsBack Sample.paletteEnv stop.1
        ∧ ReadsBack Sample.paletteEnv stop.2 := by
    unfold ReadsBack
    decide!
  ⟨hnumbers,
   parseInterpolateListByZoom_agrees_with_table Sample.paletteEnv
     [QVariant.string "exponential", QVariant.double (3 / 2)] _ 2 255
     (Or.inr (Or.inl rfl)) hnumbers,
   parseInterpolateListByZoom_agrees_with_table Sample.paletteEnv
     [QVariant.string "cubic-bezier"] _ 1 255 (Or.inr (Or.inr rfl)) hnumbers⟩

end QgsMapBoxGlStyleConverter

/-! ### Independence of the layers -/

namespace QgsMapBoxGlStyleConverter

/-- The rules one layer adds do not depend on what the loop holds before it. -/
theorem parseLayer_shift (env : Env) (context : QgsMapBoxGlStyleConversionContext)
    (state next other : LoopState) (layer : QVariant)
    (h : parseLayer env context state layer = Except.ok next) :
    ∃ after renderers labels, parseLayer env context other layer = Except.ok after
      ∧ next.rendererStyles = state.rendererStyles ++ renderers
      ∧ after.rendererStyles = other.rendererStyles ++ renderers
      ∧ next.labelingStyles = state.labelingStyles ++ labels
      ∧ after.labelingStyles = other.labelingStyles ++ labels := by
  by_cases hb : isBackground env layer = true
  · rw [parseLayer_background env context state layer hb] at h
    cases h
    exact ⟨other, [], [], parseLayer_background env context other layer hb, by simp, by simp,
      by simp, by simp⟩
  · have hty : ¬ (QVariantMap.value layer.toMap "type").toString env = "background" := by
      simpa [isBackground, layerType] using hb
    unfold parseLayer at h ⊢
    simp only [hty, if_false] at h ⊢
    cases hf : layerFilter env layer.toMap with
    | fault f => rw [hf] at h; cases h
    | ok filterExpression filterWarnings =>
      rw [hf] at h
      simp only at h ⊢
      cases hd : dispatchLayer env layer.toMap ((QVariantMap.value layer.toMap "type").toString env) context with
      | fault f => rw [hd] at h; cases h
      | ok outcome layerWarnings =>
        rw [hd] at h
        cases outcome with
        | none =>
          cases h
          exact ⟨_, [], [], rfl, by simp, by simp, by simp, by simp⟩
        | some styles =>
          cases h
          by_cases hr : styles.hasRendererStyle = true <;> by_cases hl : styles.hasLabelingStyle = true
          · exact ⟨_, [_], [_], rfl, if_pos hr, if_pos hr, if_pos hl, if_pos hl⟩
          · exact ⟨_, [_], [], rfl, if_pos hr, if_pos hr, (if_neg hl).trans (List.append_nil _).symm,
              (if_neg hl).trans (List.append_nil _).symm⟩
          · exact ⟨_, [], [_], rfl, (if_neg hr).trans (List.append_nil _).symm,
              (if_neg hr).trans (List.append_nil _).symm, if_pos hl, if_pos hl⟩
          · exact ⟨_, [], [], rfl, (if_neg hr).trans (List.append_nil _).symm,
              (if_neg hr).trans (List.append_nil _).symm, (if_neg hl).trans (List.append_nil _).symm,
              (if_neg hl).trans (List.append_nil _).symm⟩

/-- The rules a list of layers adds do not depend on what the loop holds before it. -/
theorem parseLayersLoop_shift (env : Env) (context : QgsMapBoxGlStyleConversionContext)
    (layers : QVariantList) :
    ∀ state final other, parseLayersLoop env context state layers = Except.ok final →
      ∃ after renderers labels, parseLayersLoop env context other layers = Except.ok after
        ∧ final.rendererStyles = state.rendererStyles ++ renderers
        ∧ after.rendererStyles = other.rendererStyles ++ renderers
        ∧ final.labelingStyles = state.labelingStyles ++ labels
        ∧ after.labelingStyles = other.labelingStyles ++ labels := by
  induction layers with
  | nil =>
    intro state final other h
    cases h
    exact ⟨other, [], [], rfl, by simp, by simp, by simp, by simp⟩
  | cons layer rest ih =>
    intro state final other h
    simp only [parseLayersLoop] at h ⊢
    cases hstep : parseLayer env context state layer with
    | error f => rw [hstep] at h; cases h
    | ok next =>
      rw [hstep] at h
      obtain ⟨after1, r1, l1, h1, e1, e2, e3, e4⟩ :=
        parseLayer_shift env context state next other layer hstep
      obtain ⟨after2, r2, l2, h2, f1, f2, f3, f4⟩ := ih next final after1 h
      rw [h1]
      refine ⟨after2, r1 ++ r2, l1 ++ l2, h2, ?_, ?_, ?_, ?_⟩
      · rw [f1, e1, List.append_assoc]
      · rw [f2, e2, List.append_assoc]
      · rw [f3, e3, List.append_assoc]
      · rw [f4, e4, List.append_assoc]

theorem parseLayersLoop_join (env : Env) (context : QgsMapBoxGlStyleConversionContext)
    (before after : QVariantList) :
    ∀ state middle final, parseLayersLoop env context state before = Except.ok middle →
      parseLayersLoop env context middle after = Except.ok final →
      parseLayersLoop env context state (before ++ after) = Except.ok final := by
  induction before with
  | nil => intro state middle final h1 h2; cases h1; exact h2
  | cons layer rest ih =>
    intro state middle final h1 h2
    simp only [List.cons_append, parseLayersLoop] at h1 ⊢
    cases hstep : parseLayer env context state layer with
    | error f => rw [hstep] at h1; cases h1
    | ok next =>
      rw [hstep] at h1
      exact ih next middle final h1 h2

/-- A completed `parseLayers` in terms of its loop. -/
theorem parseLayers_eq_ok (env : Env) (converter : ConverterState) (layers : QVariantList)
    (context : Option QgsMapBoxGlStyleConversionContext)
    (out : ConverterState × Option QgsMapBoxGlStyleConversionContext)
    (h : parseLayers env converter layers context = Except.ok out) :
    ∃ final, parseLayersLoop env (workingContext context)
        { mWarnings := converter.mWarnings, contextWarnings := (workingContext context).warnings,
          rendererStyles := [], labelingStyles := [] } layers = Except.ok final
      ∧ rendererStyles out.1 = final.rendererStyles
      ∧ labelingStyles out.1 = final.labelingStyles
      ∧ out.1.mWarnings = final.mWarnings := by
  unfold parseLayers at h
  simp only at h
  split at h
  · cases h
  · rename_i final hloop
    cases h
    exact ⟨final, hloop, rfl, rfl, rfl⟩

theorem parseLayers_of_loop (env : Env) (converter : ConverterState) (layers : QVariantList)
    (context : Option QgsMapBoxGlStyleConversionContext) (final : LoopState)
    (h : parseLayersLoop env (workingContext context)
        { mWarnings := converter.mWarnings, contextWarnings := (workingContext context).warnings,
          rendererStyles := [], labelingStyles := [] } layers = Except.ok final) :
    ∃ out, parseLayers env converter layers context = Except.ok out
      ∧ rendererStyles out.1 = final.rendererStyles
      ∧ labelingStyles out.1 = final.labelingStyles := by
  unfold workingContext at h
  unfold parseLayers
  simp only
  rw [h]
  exact ⟨_, rfl, rfl, rfl⟩

end QgsMapBoxGlStyleConverter
namespace QgsMapBoxGlStyleConverter

/-- A completed `convert` on a document with a layer list, in terms of the loop. -/
theorem convert_layers_eq_ok (env : Env) (converter : ConverterState) (layers : QVariantList)
    (context : Option QgsMapBoxGlStyleConversionContext) (code : Result) (out : ConverterState)
    (left : Option QgsMapBoxGlStyleConversionContext)
    (h : convert env converter [("layers", QVariant.list layers)] context
      = Except.ok (code, out, left)) :
    code = Result.Success
    ∧ ∃ final, parseLayersLoop env (workingContext context)
        { mWarnings := [], contextWarnings := (workingContext context).warnings,
          rendererStyles := [], labelingStyles := [] } layers = Except.ok final
      ∧ rendererStyles out = final.rendererStyles
      ∧ labelingStyles out = final.labelingStyles
      ∧ out.mWarnings = final.mWarnings := by
  rw [convert_layers] at h
  split at h
  · cases h
  · rename_i converted cx hp
    cases h
    exact ⟨rfl, parseLayers_eq_ok env _ layers context _ hp⟩

theorem convert_layers_of_loop (env : Env) (converter : ConverterState) (layers : QVariantList)
    (context : Option QgsMapBoxGlStyleConversionContext) (final : LoopState)
    (h : parseLayersLoop env (workingContext context)
        { mWarnings := [], contextWarnings := (workingContext context).warnings,
          rendererStyles := [], labelingStyles := [] } layers = Except.ok final) :
    ∃ out left, convert env converter [("layers", QVariant.list layers)] context
        = Except.ok (Result.Success, out, left)
      ∧ rendererStyles out = final.rendererStyles
      ∧ labelingStyles out = final.labelingStyles := by
  obtain ⟨out, hp, h1, h2⟩ := parseLayers_of_loop env { converter with mError := "", mWarnings := [] }
    layers context final h
  rw [convert_layers, hp]
  exact ⟨out.1, out.2, rfl, h1, h2⟩

/-- C40: the conversion of the layers is independent layer by layer: for all layer lists
`before` and `after`, every context and all converters, a `parseLayers` that returns on
`before ++ after` returns on `before` and on `after`, and its rendering rules are the
rendering rules for `before` followed by those for `after`, likewise its labeling rules;
when it returns on `before` and on `after` it returns on `before ++ after`; and a `convert`
that returns on a document with a layer list returns on the same document with any other
converter and the same context, with the same code and identical rule lists. -/
theorem parseLayers_rules_of_concatenation (env : Env) (whole first second : ConverterState)
    (before after : QVariantList) (context : Option QgsMapBoxGlStyleConversionContext) :
    (∀ out, parseLayers env whole (before ++ after) context = Except.ok out →
      ∃ out1 out2, parseLayers env first before context = Except.ok out1
        ∧ parseLayers env second after context = Except.ok out2
        ∧ rendererStyles out.1 = rendererStyles out1.1 ++ rendererStyles out2.1
        ∧ labelingStyles out.1 = labelingStyles out1.1 ++ labelingStyles out2.1)
    ∧ (∀ out1 out2, parseLayers env first before context = Except.ok out1 →
        parseLayers env second after context = Except.ok out2 →
        ∃ out, parseLayers env whole (before ++ after) context = Except.ok out
          ∧ rendererStyles out.1 = rendererStyles out1.1 ++ rendererStyles out2.1
          ∧ labelingStyles out.1 = labelingStyles out1.1 ++ labelingStyles out2.1)
    ∧ ∀ layers code out left,
        convert env first [("layers", QVariant.list layers)] context = Except.ok (code, out, left) →
        ∃ again left2,
          convert env second [("layers", QVariant.list layers)] context
            = Except.ok (code, again, left2)
          ∧ rendererStyles again = rendererStyles out
          ∧ labelingStyles again = labelingStyles out := by
  refine ⟨?_, ?_, ?_⟩
  · intro out h
    obtain ⟨final, hloop, hr, hl, _⟩ := parseLayers_eq_ok env whole _ context out h
    obtain ⟨middle, hbefore, hafter⟩ := parseLayersLoop_append env _ before after _ final hloop
    obtain ⟨m1, r1, l1, hb1, a1, a2, a3, a4⟩ := parseLayersLoop_shift env _ before _ middle
      { mWarnings := first.mWarnings, contextWarnings := (workingContext context).warnings,
        rendererStyles := [], labelingStyles := [] } hbefore
    obtain ⟨m2, r2, l2, hb2, b1, b2, b3, b4⟩ := parseLayersLoop_shift env _ after _ final
      { mWarnings := second.mWarnings, contextWarnings := (workingContext context).warnings,
        rendererStyles := [], labelingStyles := [] } hafter
    obtain ⟨out1, ho1, p1, p2⟩ := parseLayers_of_loop env first before context m1 hb1
    obtain ⟨out2, ho2, q1, q2⟩ := parseLayers_of_loop env second after context m2 hb2
    refine ⟨out1, out2, ho1, ho2, ?_, ?_⟩
    · rw [hr, p1, q1, b1, a1, a2, b2]
      simp
    · rw [hl, p2, q2, b3, a3, a4, b4]
      simp
  · intro out1 out2 h1 h2
    obtain ⟨f1, hloop1, hr1, hl1, _⟩ := parseLayers_eq_ok env first _ context out1 h1
    obtain ⟨f2, hloop2, hr2, hl2, _⟩ := parseLayers_eq_ok env second _ context out2 h2
    obtain ⟨m1, r1, l1, hb1, a1, a2, a3, a4⟩ := parseLayersLoop_shift env _ before _ f1
      { mWarnings := whole.mWarnings, contextWarnings := (workingContext context).warnings,
        rendererStyles := [], labelingStyles := [] } hloop1
    obtain ⟨m2, r2, l2, hb2, b1, b2, b3, b4⟩ := parseLayersLoop_shift env _ after _ f2 m1 hloop2
    obtain ⟨out, ho, p1, p2⟩ := parseLayers_of_loop env whole (before ++ after) context m2
      (parseLayersLoop_join env _ before after _ m1 m2 hb1 hb2)
    refine ⟨out, ho, ?_, ?_⟩
    · rw [p1, hr1, hr2, b2, a2, a1, b1]
      simp
    · rw [p2, hl1, hl2, b4, a4, a3, b3]
      simp
  · intro layers code out left h
    obtain ⟨hcode, final, hloop, hr, hl, _⟩ := convert_layers_eq_ok env first layers context code out left h
    obtain ⟨again, left2, hconv, p1, p2⟩ := convert_layers_of_loop env second layers context final hloop
    exact ⟨again, left2, hcode ▸ hconv, p1.trans hr.symm, p2.trans hl.symm⟩

/-- Witness of C40: the sample layer list is the two layers before the raster layer
followed by the raster layer and the two layers after it; the first part converts to the
rendering rule `water`, the second to the labeling rule `label`, and the whole list to
both. -/
theorem parseLayers_rules_of_concatenation_witness :
    ∃ out1 out2, parseLayers Sample.env fresh Sample.layersBefore none = Except.ok out1
      ∧ parseLayers Sample.env fresh (Sample.rasterLayer :: Sample.layersAfter) none = Except.ok out2
      ∧ (rendererStyles out1.1).map (fun rule => rule.styleName) = ["water"]
      ∧ (labelingStyles out1.1).map (fun rule => rule.styleName) = []
      ∧ (rendererStyles out2.1).map (fun rule => rule.styleName) = []
      ∧ (labelingStyles out2.1).map (fun rule => rule.styleName) = ["label"]
      ∧ ∃ out, parseLayers Sample.env fresh
            (Sample.layersBefore ++ Sample.rasterLayer :: Sample.layersAfter) none = Except.ok out
          ∧ rendererStyles out.1 = rendererStyles out1.1 ++ rendererStyles out2.1
          ∧ labelingStyles out.1 = labelingStyles out1.1 ++ labelingStyles out2.1 :=
  ⟨_, _, rfl, rfl, rfl, rfl, rfl, rfl,
   (parseLayers_rules_of_concatenation Sample.env fresh fresh fresh Sample.layersBefore
      (Sample.rasterLayer :: Sample.layersAfter) none).2.1 _ _ rfl rfl⟩

end QgsMapBoxGlStyleConverter

/-! ### Conditionals over the zoom: opacity and colour -/

namespace QgsMapBoxGlStyleConverter

theorem ZoomBranch.holds_between (zoom : ℚ) (branch : ZoomBranch) (low high : String)
    (hlow : branch.atLeast = some low) (hhigh : branch.below = some high) :
    branch.holds zoom = (decide (QString.toDouble low ≤ zoom) && decide (zoom < QString.toDouble high)) := by
  simp [ZoomBranch.holds, hlow, hhigh]

theorem ascending_first_le (stops : QVariantList) (first : QVariant)
    (hfirst : stops.head? = some first) (hasc : AscendingZooms stops) :
    ∀ stop ∈ stops, (stopZoom first).toDouble ≤ (stopZoom stop).toDouble := by
  intro stop hmem
  cases stops with
  | nil => simp at hfirst
  | cons head tail =>
    simp only [List.head?_cons, Option.some.injEq] at hfirst
    subst hfirst
    rcases List.mem_cons.1 hmem with h | h
    · rw [h]
    · exact le_of_lt (List.rel_of_pairwise_cons hasc h)

theorem ascending_le_last (stops : QVariantList) (last : QVariant)
    (hlast : stops.getLast? = some last) (hasc : AscendingZooms stops) :
    ∀ stop ∈ stops, (stopZoom stop).toDouble ≤ (stopZoom last).toDouble := by
  intro stop hmem
  obtain ⟨init, hinit⟩ : ∃ init, stops = init ++ [last] := by
    rcases List.eq_nil_or_concat stops with h | ⟨init, l, h⟩
    · simp [h] at hlast
    · rw [h, List.concat_eq_append, List.getLast?_append_of_ne_nil _ (List.cons_ne_nil _ _)] at hlast
      simp only [List.getLast?_singleton, Option.some.injEq] at hlast
      exact ⟨init, by rw [h, hlast, List.concat_eq_append]⟩
  rw [hinit] at hmem hasc
  rcases List.mem_append.1 hmem with h | h
  · exact le_of_lt ((List.pairwise_append.1 hasc).2.2 _ h _ (List.mem_singleton_self _))
  · rw [List.mem_singleton.1 h]

theorem stopPairs_mem_stops (stops : QVariantList) (pair : QVariant × QVariant)
    (h : pair ∈ stopPairs stops) : pair.1 ∈ stops ∧ pair.2 ∈ stops := by
  rw [stopPairs_eq_zip] at h
  obtain ⟨h1, h2⟩ := List.of_mem_zip h
  exact ⟨h1, List.mem_of_mem_tail h2⟩

/-- The branches of the pairs of consecutive stops all fail at a zoom that is not below
the zoom of any stop but the first. -/
theorem find_pairs_from_last (env : Env) (branchOf : QVariant × QVariant → ZoomBranch)
    (hbelow : ∀ pair, (branchOf pair).below = some ((stopZoom pair.2).toString env))
    (zoom : ℚ) (stops : QVariantList) (tail : List ZoomBranch)
    (hread : ∀ stop ∈ stops, ReadsBack env (stopZoom stop))
    (hzoom : ∀ stop ∈ stops.tail, (stopZoom stop).toDouble ≤ zoom) :
    ((stopPairs stops).map branchOf ++ tail).find? (ZoomBranch.holds zoom)
      = tail.find? (ZoomBranch.holds zoom) := by
  have hnone : ((stopPairs stops).map branchOf).find? (ZoomBranch.holds zoom) = none := by
    rw [List.find?_eq_none]
    intro branch hmem
    obtain ⟨pair, hpair, rfl⟩ := List.mem_map.1 hmem
    rw [stopPairs_eq_zip] at hpair
    obtain ⟨_, h2⟩ := List.of_mem_zip hpair
    have hr := hread pair.2 (List.mem_of_mem_tail h2)
    unfold ReadsBack at hr
    simp only [ZoomBranch.holds, hbelow pair, hr, Bool.and_eq_true, decide_eq_true_eq, not_and,
      not_lt]
    intro _
    exact hzoom pair.2 h2
  rw [List.find?_append, hnone]
  rfl

/-- The branches of the pairs of consecutive stops all fail at a zoom below the zoom of
every stop. -/
theorem find_pairs_below_first (env : Env) (branchOf : QVariant × QVariant → ZoomBranch)
    (hatLeast : ∀ pair, (branchOf pair).atLeast = some ((stopZoom pair.1).toString env))
    (zoom : ℚ) (stops : QVariantList) (tail : List ZoomBranch)
    (hread : ∀ stop ∈ stops, ReadsBack env (stopZoom stop))
    (hzoom : ∀ stop ∈ stops, zoom < (stopZoom stop).toDouble) :
    ((stopPairs stops).map branchOf ++ tail).find? (ZoomBranch.holds zoom)
      = tail.find? (ZoomBranch.holds zoom) := by
  have hnone : ((stopPairs stops).map branchOf).find? (ZoomBranch.holds zoom) = none := by
    rw [List.find?_eq_none]
    intro branch hmem
    obtain ⟨pair, hpair, rfl⟩ := List.mem_map.1 hmem
    obtain ⟨h1, _⟩ := stopPairs_mem_stops stops pair hpair
    have hr := hread pair.1 h1
    unfold ReadsBack at hr
    simp only [ZoomBranch.holds, hatLeast pair, hr, Bool.and_eq_true, decide_eq_true_eq, not_and,
      not_le]
    intro hle
    exact absurd (hzoom pair.1 h1) (not_lt.2 hle)
  rw [List.find?_append, hnone]
  rfl

/-- For stops of ascending zoom, the first branch that holds at a zoom between the zooms
of two consecutive stops is the branch of the two. -/
theorem find_pairs_between (env : Env) (branchOf : QVariant × QVariant → ZoomBranch)
    (hatLeast : ∀ pair, (branchOf pair).atLeast = some ((stopZoom pair.1).toString env))
    (hbelow : ∀ pair, (branchOf pair).below = some ((stopZoom pair.2).toString env))
    (zoom : ℚ) (tail : List ZoomBranch) :
    ∀ (stops : QVariantList) (pair : QVariant × QVariant),
      (∀ stop ∈ stops, ReadsBack env (stopZoom stop)) → AscendingZooms stops →
      pair ∈ stopPairs stops →
      (stopZoom pair.1).toDouble ≤ zoom → zoom < (stopZoom pair.2).toDouble →
      ((stopPairs stops).map branchOf ++ tail).find? (ZoomBranch.holds zoom)
        = some (branchOf pair)
  | [], _, _, _, hpair, _, _ => by simp [stopPairs] at hpair
  | [_], _, _, _, hpair, _, _ => by simp [stopPairs] at hpair
  | bottom :: top :: rest, pair, hread, hasc, hpair, hlow, hhigh => by
    have hrb := hread bottom (List.mem_cons_self _ _)
    have hrt := hread top (List.mem_cons_of_mem _ (List.mem_cons_self _ _))
    unfold ReadsBack at hrb hrt
    simp only [stopPairs, List.map_cons, List.cons_append, List.find?_cons]
    rcases List.mem_cons.1 (by simpa [stopPairs] using hpair : pair ∈ (bottom, top) :: stopPairs (top :: rest))
      with h | h
    · subst h
      have : (branchOf (bottom, top)).holds zoom = true := by
        rw [ZoomBranch.holds_between zoom _ _ _ (hatLeast _) (hbelow _), hrb, hrt]
        simp [hlow, hhigh]
      rw [this]
    · have hmem := (stopPairs_mem_stops (top :: rest) pair h).1
      have hle : (stopZoom top).toDouble ≤ (stopZoom pair.1).toDouble :=
        ascending_first_le (top :: rest) top rfl (List.Pairwise.of_cons hasc) pair.1 hmem
      have : (branchOf (bottom, top)).holds zoom = false := by
        rw [ZoomBranch.holds_between zoom _ _ _ (hatLeast _) (hbelow _), hrb, hrt]
        simp only [Bool.and_eq_false_imp, decide_eq_true_eq, decide_eq_false_iff_not, not_lt]
        intro _
        exact le_trans hle hlow
      rw [this]
      exact find_pairs_between env branchOf hatLeast hbelow zoom tail (top :: rest) pair
        (fun stop hs => hread stop (List.mem_cons_of_mem _ hs)) (List.Pairwise.of_cons hasc) h
        hlow hhigh

end QgsMapBoxGlStyleConverter
namespace QgsMapBoxGlStyleConverter

theorem concatTexts_append (front back : List String) :
    concatTexts (front ++ back) = concatTexts front ++ concatTexts back := by
  induction front with
  | nil => simp [concatTexts]
  | cons text texts ih => simp [concatTexts, ih, String.append_assoc]

theorem opacityBranch_text (env : Env) (base : ℚ) (maxOpacity : Int) (pair : QVariant × QVariant)
    (more : String) :
    " " ++ (opacityBranch env base maxOpacity pair).text ++ more
      = " WHEN @zoom_level >= " ++ (stopZoom pair.1).toString env ++ " AND @zoom_level < "
        ++ (stopZoom pair.2).toString env ++ " THEN "
        ++ setAlpha (pairAlpha env base maxOpacity pair) ++ more := by
  have e : " WHEN @zoom_level >= " = " " ++ ("WHEN " ++ "@zoom_level >= ") := by decide
  rw [e]
  simp only [opacityBranch, ZoomBranch.text, ZoomBranch.test, String.append_assoc]

theorem opacityCases_eq (env : Env) (base : ℚ) (maxOpacity : Int) :
    ∀ stops : QVariantList,
      opacityCases env base maxOpacity stops
        = concatTexts ((stopPairs stops).map
            (fun pair => " " ++ (opacityBranch env base maxOpacity pair).text))
  | [] => rfl
  | [_] => rfl
  | bottom :: top :: rest => by
    have ih := opacityCases_eq env base maxOpacity (top :: rest)
    unfold opacityCases
    simp only [stopPairs, List.map_cons, concatTexts]
    rw [ih, opacityBranch_text]
    rfl

theorem parseOpacityStops_eq (env : Env) (base : ℚ) (maxOpacity : Int) (stops : QVariantList)
    (first last : QVariant) (hfirst : stops.head? = some first)
    (hlast : stops.getLast? = some last) :
    parseOpacityStops env base stops maxOpacity
      = Conv.ok ("CASE"
          ++ concatTexts ((opacityBranches env base maxOpacity stops first last).map
              (fun branch => " " ++ branch.text))
          ++ " END") [] := by
  have hzero : QVariantList.value stops 0 = first := by
    cases stops with
    | nil => simp at hfirst
    | cons head _ =>
      simp only [List.head?_cons, Option.some.injEq] at hfirst
      simp [QVariantList.value, hfirst]
  have e1 : "CASE WHEN @zoom_level < " = "CASE" ++ (" " ++ ("WHEN " ++ "@zoom_level < ")) := by
    decide
  have e2 : " WHEN @zoom_level >= " = " " ++ ("WHEN " ++ "@zoom_level >= ") := by decide
  unfold parseOpacityStops
  simp only [QList.last, hlast, hzero, opacityCases_eq, Conv.bind_eq, Conv.pure_eq]
  simp only [Conv.bind, opacityBranches, List.map_cons, List.map_append, concatTexts,
    concatTexts_append, List.map_nil, ZoomBranch.text, ZoomBranch.test, stopAlpha, e1, e2,
    String.append_assoc, String.append_empty, List.append_nil, List.map_map]
  rfl

end QgsMapBoxGlStyleConverter
namespace QgsMapBoxGlStyleConverter

theorem head_value_zero (stops : QVariantList) (first : QVariant)
    (hfirst : stops.head? = some first) : QVariantList.value stops 0 = first := by
  cases stops with
  | nil => simp at hfirst
  | cons head _ =>
    simp only [List.head?_cons, Option.some.injEq] at hfirst
    simp [QVariantList.value, hfirst]

theorem isEmpty_of_head (stops : QVariantList) (first : QVariant)
    (hfirst : stops.head? = some first) : stops.isEmpty = false := by
  cases stops with
  | nil => simp at hfirst
  | cons _ _ => rfl

/-- C37: for every opacity stops map with at least one stop and every maximal opacity,
`parseInterpolateOpacityByZoom` returns without a warning. With at most two stops the
expression is `set_color_part(@symbol_color, 'alpha', a)` with `a` the interpolation
between the values of the first and the last stop, each times the maximal opacity. With
more than two stops it is the conditional of the branches `opacityBranches`, the result of
each of which has the form `set_color_part(@symbol_color, 'alpha', a)`. For stops of
strictly ascending zoom whose zooms are numbers read back from their text, the conditional
has a value at every zoom: below the first stop `a` is the value of the first stop times
the maximal opacity, from the zoom of a stop up to the zoom of the next stop `a` is the
interpolation between the values of the two, each times the maximal opacity, and from the
last stop on `a` is the value of the last stop times the maximal opacity. -/
theorem parseInterpolateOpacityByZoom_sets_alpha (env : Env) (json : QVariantMap)
    (maxOpacity : Int) (stops : QVariantList) (first last : QVariant)
    (hstops : QVariantMap.value json "stops" = QVariant.list stops)
    (hfirst : stops.head? = some first) (hlast : stops.getLast? = some last) :
    (stops.length ≤ 2 →
      parseInterpolateOpacityByZoom env json maxOpacity
        = Conv.ok (QgsProperty.fromExpression
            (setAlpha (pairAlpha env (QVariantMap.valueOr json "base" (QVariant.string "1")).toDouble
              maxOpacity (first, last)))) [])
    ∧ (2 < stops.length →
      parseInterpolateOpacityByZoom env json maxOpacity
        = Conv.ok (QgsProperty.fromExpression
            ("CASE"
              ++ concatTexts ((opacityBranches env
                    (QVariantMap.valueOr json "base" (QVariant.string "1")).toDouble
                    maxOpacity stops first last).map (fun branch => " " ++ branch.text))
              ++ " END")) [])
    ∧ (∀ base : ℚ, ∀ branch ∈ opacityBranches env base maxOpacity stops first last,
        ∃ alpha, branch.result = setAlpha alpha)
    ∧ (AscendingZooms stops → (∀ stop ∈ stops, ReadsBack env (stopZoom stop)) →
        ∀ (base zoom : ℚ),
          (zoom < (stopZoom first).toDouble →
            selectBranch zoom (opacityBranches env base maxOpacity stops first last) none
              = some (setAlpha (stopAlpha env maxOpacity first)))
          ∧ (∀ pair ∈ stopPairs stops,
              (stopZoom pair.1).toDouble ≤ zoom → zoom < (stopZoom pair.2).toDouble →
              selectBranch zoom (opacityBranches env base maxOpacity stops first last) none
                = some (setAlpha (pairAlpha env base maxOpacity pair)))
          ∧ ((stopZoom last).toDouble ≤ zoom →
              selectBranch zoom (opacityBranches env base maxOpacity stops first last) none
                = some (setAlpha (stopAlpha env maxOpacity last)))) := by
  have hempty := isEmpty_of_head stops first hfirst
  have hzero := head_value_zero stops first hfirst
  refine ⟨?_, ?_, ?_, ?_⟩
  · intro hlength
    unfold parseInterpolateOpacityByZoom
    simp only [hstops, QVariant.toList, hempty, Bool.false_eq_true, if_false, hlength, if_true,
      QList.last, hlast, hzero, Conv.bind_eq, Conv.pure_eq]
    rfl
  · intro hlength
    unfold parseInterpolateOpacityByZoom
    simp only [hstops, QVariant.toList, hempty, Bool.false_eq_true, if_false, not_le.2 hlength,
      parseOpacityStops_eq env _ maxOpacity stops first last hfirst hlast, Conv.bind_eq,
      Conv.pure_eq]
    rfl
  · intro base branch hmem
    simp only [opacityBranches, List.mem_cons, List.mem_append, List.mem_map, List.mem_singleton,
      List.not_mem_nil, or_false] at hmem
    rcases hmem with rfl | ⟨pair, _, rfl⟩ | rfl
    · exact ⟨_, rfl⟩
    · exact ⟨_, rfl⟩
    · exact ⟨_, rfl⟩
  · intro hasc hread base zoom
    have hrf : QString.toDouble ((stopZoom first).toString env) = (stopZoom first).toDouble :=
      hread first (List.mem_of_mem_head? hfirst)
    have hrl : QString.toDouble ((stopZoom last).toString env) = (stopZoom last).toDouble :=
      hread last (List.mem_of_getLast?_eq_some hlast)
    refine ⟨?_, ?_, ?_⟩
    · intro hzoom
      simp [selectBranch, opacityBranches, ZoomBranch.holds, hrf, hzoom]
    · intro pair hpair hlow hhigh
      have hle := ascending_first_le stops first hfirst hasc pair.1
        (stopPairs_mem_stops stops pair hpair).1
      have hnot : ¬ zoom < (stopZoom first).toDouble := not_lt.2 (le_trans hle hlow)
      unfold selectBranch opacityBranches
      rw [List.find?_cons]
      simp only [ZoomBranch.holds, hrf, hnot, decide_False, Bool.and_false, Bool.true_and]
      rw [find_pairs_between env _ (fun _ => rfl) (fun _ => rfl) zoom _ stops pair hread hasc hpair
        hlow hhigh]
      rfl
    · intro hzoom
      have hle := ascending_first_le stops first hfirst hasc last
        (List.mem_of_getLast?_eq_some hlast)
      have hnot : ¬ zoom < (stopZoom first).toDouble := not_lt.2 (le_trans hle hzoom)
      unfold selectBranch opacityBranches
      rw [List.find?_cons]
      simp only [ZoomBranch.holds, hrf, hnot, decide_False, Bool.and_false, Bool.true_and]
      rw [find_pairs_from_last env _ (fun _ => rfl) zoom stops _ hread
        (fun stop hs => le_trans (ascending_le_last stops last hlast hasc stop
          (List.mem_of_mem_tail hs)) hzoom)]
      simp [ZoomBranch.holds, hrl, hzoom]

/-- Witness of C37: the opacity stops `(0, 0)`, `(5, 1)`, `(10, 0)` with the maximal opacity
255, where numbers print in decimal writing; at the zoom 7 the alpha is interpolated
between the zooms 5 and 10. -/
theorem parseInterpolateOpacityByZoom_sets_alpha_witness :
    AscendingZooms (QVariantMap.value Sample.fadeStops "stops").toList
    ∧ (∀ stop ∈ (QVariantMap.value Sample.fadeStops "stops").toList,
        ReadsBack Sample.paletteEnv (stopZoom stop))
    ∧ parseInterpolateOpacityByZoom Sample.paletteEnv Sample.fadeStops 255
      = Conv.ok (QgsProperty.fromExpression
          ("CASE WHEN @zoom_level < 0 THEN set_color_part(@symbol_color, 'alpha', 0)"
            ++ " WHEN @zoom_level >= 0 AND @zoom_level < 5 THEN "
            ++ "set_color_part(@symbol_color, 'alpha', scale_linear(@zoom_level,0,5,0,255))"
            ++ " WHEN @zoom_level >= 5 AND @zoom_level < 10 THEN "
            ++ "set_color_part(@symbol_color, 'alpha', scale_linear(@zoom_level,5,10,255,0))"
            ++ " WHEN @zoom_level >= 10 THEN set_color_part(@symbol_color, 'alpha', 0) END")) []
    ∧ selectBranch 7
        (opacityBranches Sample.paletteEnv 1 255 (QVariantMap.value Sample.fadeStops "stops").toList
          (QVariant.list [QVariant.int 0, QVariant.int 0])
          (QVariant.list [QVariant.int 10, QVariant.int 0])) none
      = some "set_color_part(@symbol_color, 'alpha', scale_linear(@zoom_level,5,10,255,0))" :=
  have hasc : AscendingZooms (QVariantMap.value Sample.fadeStops "stops").toList := by
    simp only [AscendingZooms]
    decide!
  have hread : ∀ stop ∈ (QVariantMap.value Sample.fadeStops "stops").toList,
      ReadsBack Sample.paletteEnv (stopZoom stop) := by
    unfold ReadsBack
    decide!
  ⟨hasc, hread,
   ((parseInterpolateOpacityByZoom_sets_alpha Sample.paletteEnv Sample.fadeStops 255 _
      (QVariant.list [QVariant.int 0, QVariant.int 0])
      (QVariant.list [QVariant.int 10, QVariant.int 0]) rfl rfl rfl).2.1 (by decide)).trans
     (by decide!),
   (((parseInterpolateOpacityByZoom_sets_alpha Sample.paletteEnv Sample.fadeStops 255 _
      (QVariant.list [QVariant.int 0, QVariant.int 0])
      (QVariant.list [QVariant.int 10, QVariant.int 0]) rfl rfl rfl).2.2.2 hasc hread 1 7).2.1
      (QVariant.list [QVariant.int 5, QVariant.int 1], QVariant.list [QVariant.int 10, QVariant.int 0])
      (by simp [stopPairs]) (by decide!) (by decide!)).trans (by decide!)⟩

end QgsMapBoxGlStyleConverter
namespace QgsMapBoxGlStyleConverter

theorem parseColor_stopColor (env : Env) (stop : QVariant) :
    ∃ warnings, parseColor env (stopValue stop) = Conv.ok (stopColor env stop) warnings := by
  unfold parseColor stopColor
  by_cases h : (stopValue stop).type = QVariantType.String
  · exact ⟨[], by simp [h]⟩
  · exact ⟨_, by simp [h, Conv.bind, pushWarning]; rfl⟩

theorem colorBranch_text (env : Env) (base : ℚ) (pair : QVariant × QVariant) :
    (colorBranch env base pair).text ++ " "
      = "WHEN @zoom_level >= " ++ (stopZoom pair.1).toString env ++ " AND @zoom_level < "
        ++ (stopZoom pair.2).toString env ++ " THEN "
        ++ (colorBranch env base pair).result ++ " " := by
  have e : "WHEN @zoom_level >= " = "WHEN " ++ "@zoom_level >= " := by decide
  rw [e]
  simp only [colorBranch, ZoomBranch.text, ZoomBranch.test, String.append_assoc]

theorem colorCases_branches (env : Env) (base : ℚ) :
    ∀ stops : QVariantList, ∃ warnings,
      colorCases env base stops
        = Conv.ok (concatTexts ((stopPairs stops).map
            (fun pair => (colorBranch env base pair).text ++ " "))) warnings
  | [] => ⟨[], rfl⟩
  | [_] => ⟨[], rfl⟩
  | bottom :: top :: rest => by
    obtain ⟨wb, hb⟩ := parseColor_stopColor env bottom
    obtain ⟨wt, ht⟩ := parseColor_stopColor env top
    obtain ⟨wr, ih⟩ := colorCases_branches env base (top :: rest)
    refine ⟨wb ++ (wt ++ wr), ?_⟩
    unfold colorCases
    simp only [hb, ht, ih, Conv.bind_eq, Conv.pure_eq, Conv.bind, stopPairs, List.map_cons,
      concatTexts, colorBranch_text]
    simp [colorBranch, colorAsHslaComponents, String.append_assoc]

theorem parseInterpolateColorByZoom_branches (env : Env) (json : QVariantMap)
    (stops : QVariantList) (first last : QVariant)
    (hstops : QVariantMap.value json "stops" = QVariant.list stops)
    (hfirst : stops.head? = some first) (hlast : stops.getLast? = some last) :
    ∃ warnings,
      parseInterpolateColorByZoom env json
        = Conv.ok
            (QgsProperty.fromExpression
              ("CASE "
                ++ concatTexts ((colorBranches env
                      (QVariantMap.valueOr json "base" (QVariant.string "1")).toDouble stops last).map
                    (fun branch => branch.text ++ " "))
                ++ "ELSE " ++ hslaOf env (stopColor env last) ++ " END"),
             some (env.parseColor ((stopValue first).toString env))) warnings := by
  have hempty := isEmpty_of_head stops first hfirst
  have hzero := head_value_zero stops first hfirst
  obtain ⟨wc, hc⟩ := colorCases_branches env
    (QVariantMap.valueOr json "base" (QVariant.string "1")).toDouble stops
  obtain ⟨wl, hl⟩ := parseColor_stopColor env last
  have e1 : "WHEN @zoom_level >= " = "WHEN " ++ "@zoom_level >= " := by decide
  have e2 : " ELSE " = " " ++ "ELSE " := by decide
  refine ⟨wc ++ wl, ?_⟩
  unfold parseInterpolateColorByZoom
  simp only [hstops, QVariant.toList, hempty, Bool.false_eq_true, if_false, hc, QList.last, hlast,
    hzero, hl, parseColor_of_text, Conv.bind_eq, Conv.pure_eq, Conv.bind]
  simp only [colorBranches, List.map_append, List.map_cons, List.map_nil, concatTexts_append,
    concatTexts, ZoomBranch.text, ZoomBranch.test, hslaOf, e1, e2, String.append_assoc,
    String.append_empty, List.append_nil, List.map_map]
  rfl

end QgsMapBoxGlStyleConverter
namespace QgsMapBoxGlStyleConverter

/-- C38: for every colour stops map with at least one stop, `parseInterpolateColorByZoom`
returns the conditional of the branches `colorBranches`, one for each pair of consecutive
stops and one from the last stop on, with the `color_hsla` call of the colour of the last
stop after `ELSE`. For stops of strictly ascending zoom whose zooms are numbers read back
from their text: at every zoom at or above the zoom of the last stop the conditional has
the colour of the last stop; at every zoom below the zoom of the first stop the test of no
branch holds and the conditional has, through its `ELSE` part, the colour of the last stop
too; and the branch of two consecutive stops holds exactly from the zoom of the first up to
the zoom of the second, where the conditional has the result of that branch. -/
theorem parseInterpolateColorByZoom_clamps_to_last (env : Env) (json : QVariantMap)
    (stops : QVariantList) (first last : QVariant)
    (hstops : QVariantMap.value json "stops" = QVariant.list stops)
    (hfirst : stops.head? = some first) (hlast : stops.getLast? = some last) :
    (∃ warnings,
      parseInterpolateColorByZoom env json
        = Conv.ok
            (QgsProperty.fromExpression
              ("CASE "
                ++ concatTexts ((colorBranches env
                      (QVariantMap.valueOr json "base" (QVariant.string "1")).toDouble stops last).map
                    (fun branch => branch.text ++ " "))
                ++ "ELSE " ++ hslaOf env (stopColor env last) ++ " END"),
             some (env.parseColor ((stopValue first).toString env))) warnings)
    ∧ (AscendingZooms stops → (∀ stop ∈ stops, ReadsBack env (stopZoom stop)) →
        ∀ (base zoom : ℚ),
          ((stopZoom last).toDouble ≤ zoom →
            selectBranch zoom (colorBranches env base stops last)
                (some (hslaOf env (stopColor env last)))
              = some (hslaOf env (stopColor env last)))
          ∧ (zoom < (stopZoom first).toDouble →
              (∀ branch ∈ colorBranches env base stops last, branch.holds zoom = false)
              ∧ selectBranch zoom (colorBranches env base stops last)
                  (some (hslaOf env (stopColor env last)))
                = some (hslaOf env (stopColor env last)))
          ∧ (∀ pair ∈ stopPairs stops,
              ((colorBranch env base pair).holds zoom = true
                ↔ (stopZoom pair.1).toDouble ≤ zoom ∧ zoom < (stopZoom pair.2).toDouble)
              ∧ ((stopZoom pair.1).toDouble ≤ zoom → zoom < (stopZoom pair.2).toDouble →
                  selectBranch zoom (colorBranches env base stops last)
                      (some (hslaOf env (stopColor env last)))
                    = some (colorBranch env base pair).result))) := by
  refine ⟨parseInterpolateColorByZoom_branches env json stops first last hstops hfirst hlast, ?_⟩
  intro hasc hread base zoom
  have hrl : QString.toDouble ((stopZoom last).toString env) = (stopZoom last).toDouble :=
    hread last (List.mem_of_getLast?_eq_some hlast)
  refine ⟨?_, ?_, ?_⟩
  · intro hzoom
    unfold selectBranch colorBranches
    rw [find_pairs_from_last env _ (fun _ => rfl) zoom stops _ hread
      (fun stop hs => le_trans (ascending_le_last stops last hlast hasc stop
        (List.mem_of_mem_tail hs)) hzoom)]
    simp [ZoomBranch.holds, hrl, hzoom]
  · intro hzoom
    have hall : ∀ stop ∈ stops, zoom < (stopZoom stop).toDouble := fun stop hs =>
      lt_of_lt_of_le hzoom (ascending_first_le stops first hfirst hasc stop hs)
    have hnot : ¬ (stopZoom last).toDouble ≤ zoom :=
      not_le.2 (hall last (List.mem_of_getLast?_eq_some hlast))
    have hfind : (colorBranches env base stops last).find? (ZoomBranch.holds zoom) = none := by
      unfold colorBranches
      rw [find_pairs_below_first env _ (fun _ => rfl) zoom stops _ hread hall]
      simp [ZoomBranch.holds, hrl, hnot]
    constructor
    · intro branch hmem
      have := List.find?_eq_none.1 hfind branch hmem
      simpa using this
    · unfold selectBranch
      rw [hfind]
  · intro pair hpair
    have hr1 : QString.toDouble ((stopZoom pair.1).toString env) = (stopZoom pair.1).toDouble :=
      hread pair.1 (stopPairs_mem_stops stops pair hpair).1
    have hr2 : QString.toDouble ((stopZoom pair.2).toString env) = (stopZoom pair.2).toDouble :=
      hread pair.2 (stopPairs_mem_stops stops pair hpair).2
    constructor
    · rw [ZoomBranch.holds_between zoom (colorBranch env base pair) _ _ rfl rfl, hr1, hr2]
      simp
    · intro hlow hhigh
      unfold selectBranch colorBranches
      rw [find_pairs_between env _ (fun _ => rfl) (fun _ => rfl) zoom _ stops pair hread hasc hpair
        hlow hhigh]

/-- Witness of C38: the stops from white at the zoom 0 to black at the zoom 10, with
collaborators that know the two colours: the conditional has black, the colour of the last
stop, at the zoom 12 and at the zoom -1. -/
theorem parseInterpolateColorByZoom_clamps_to_last_witness :
    AscendingZooms (QVariantMap.value Sample.greyStops "stops").toList
    ∧ (∀ stop ∈ (QVariantMap.value Sample.greyStops "stops").toList,
        ReadsBack Sample.paletteEnv (stopZoom stop))
    ∧ hslaOf Sample.paletteEnv
        (stopColor Sample.paletteEnv (QVariant.list [QVariant.int 10, QVariant.string "#000000"]))
      = "color_hsla(0, 0, 0, 255)"
    ∧ selectBranch 12
        (colorBranches Sample.paletteEnv 1 (QVariantMap.value Sample.greyStops "stops").toList
          (QVariant.list [QVariant.int 10, QVariant.string "#000000"]))
        (some "color_hsla(0, 0, 0, 255)")
      = some "color_hsla(0, 0, 0, 255)"
    ∧ selectBranch (-1)
        (colorBranches Sample.paletteEnv 1 (QVariantMap.value Sample.greyStops "stops").toList
          (QVariant.list [QVariant.int 10, QVariant.string "#000000"]))
        (some "color_hsla(0, 0, 0, 255)")
      = some "color_hsla(0, 0, 0, 255)"
    ∧ ∃ warnings,
        parseInterpolateColorByZoom Sample.paletteEnv Sample.greyStops
          = Conv.ok
              (QgsProperty.fromExpression
                ("CASE WHEN @zoom_level >= 0 AND @zoom_level < 10 THEN "
                  ++ "color_hsla(0, 0, scale_linear(@zoom_level,0,10,100,0), 255) "
                  ++ "WHEN @zoom_level >= 10 THEN color_hsla(0, 0, 0, 255) "
                  ++ "ELSE color_hsla(0, 0, 0, 255) END"),
               some Sample.white) warnings :=
  have hasc : AscendingZooms (QVariantMap.value Sample.greyStops "stops").toList := by
    simp only [AscendingZooms]
    decide!
  have hread : ∀ stop ∈ (QVariantMap.value Sample.greyStops "stops").toList,
      ReadsBack Sample.paletteEnv (stopZoom stop) := by
    unfold ReadsBack
    decide!
  have hblack : hslaOf Sample.paletteEnv
      (stopColor Sample.paletteEnv (QVariant.list [QVariant.int 10, QVariant.string "#000000"]))
      = "color_hsla(0, 0, 0, 255)" := by decide!
  have hgrey : (QgsProperty.fromExpression
        ("CASE "
          ++ concatTexts ((colorBranches Sample.paletteEnv
                (QVariantMap.valueOr Sample.greyStops "base" (QVariant.string "1")).toDouble
                (QVariantMap.value Sample.greyStops "stops").toList
                (QVariant.list [QVariant.int 10, QVariant.string "#000000"])).map
              (fun branch => branch.text ++ " "))
          ++ "ELSE " ++ hslaOf Sample.paletteEnv
            (stopColor Sample.paletteEnv (QVariant.list [QVariant.int 10, QVariant.string "#000000"]))
          ++ " END"),
       some (Sample.paletteEnv.parseColor
        ((stopValue (QVariant.list [QVariant.int 0, QVariant.string "#ffffff"])).toString
          Sample.paletteEnv)))
      = (QgsProperty.fromExpression
          ("CASE WHEN @zoom_level >= 0 AND @zoom_level < 10 THEN "
            ++ "color_hsla(0, 0, scale_linear(@zoom_level,0,10,100,0), 255) "
            ++ "WHEN @zoom_level >= 10 THEN color_hsla(0, 0, 0, 255) "
            ++ "ELSE color_hsla(0, 0, 0, 255) END"),
         some Sample.white) := by decide!
  ⟨hasc, hread, hblack,
   hblack ▸ ((parseInterpolateColorByZoom_clamps_to_last Sample.paletteEnv Sample.greyStops _
      (QVariant.list [QVariant.int 0, QVariant.string "#ffffff"])
      (QVariant.list [QVariant.int 10, QVariant.string "#000000"]) rfl rfl rfl).2 hasc hread 1
      12).1 (by decide!),
   hblack ▸ (((parseInterpolateColorByZoom_clamps_to_last Sample.paletteEnv Sample.greyStops _
      (QVariant.list [QVariant.int 0, QVariant.string "#ffffff"])
      (QVariant.list [QVariant.int 10, QVariant.string "#000000"]) rfl rfl rfl).2 hasc hread 1
      (-1)).2.1 (by decide!)).2,
   (parseInterpolateColorByZoom_clamps_to_last Sample.paletteEnv Sample.greyStops _
      (QVariant.list [QVariant.int 0, QVariant.string "#ffffff"])
      (QVariant.list [QVariant.int 10, QVariant.string "#000000"]) rfl rfl rfl).1.imp
     fun warnings h => h.trans (congrArg (fun r => Conv.ok r warnings) hgrey)⟩

end QgsMapBoxGlStyleConverter

/-! ### The label of a symbol layer -/

namespace QgsMapBoxGlStyleConverter

theorem textSizeStep_ensures {ρ : Type} (good : ρ → Prop) (env : Env) (jsonLayout : QVariantMap)
    (factor : ℚ)
    (next : QgsPropertyCollection LabelProperty → ℚ → Conv ρ) (h : ∀ a b, (next a b).Ensures good) :
    (textSizeStep env jsonLayout factor next).Ensures good := by
  unfold textSizeStep
  simp only [Conv.bind_eq, Conv.pure_eq]
  repeat' first
    | (guard_target = Conv.Ensures _ (next _ _)
       exact h _ _)
    | (guard_target = Conv.Ensures _ (Conv.bind _ _)
       apply Conv.ensures_bind)
    | (fail_if_success guard_target = Conv.Ensures _ _
       intro _)
    | split

theorem textMaxWidthStep_ensures {ρ : Type} (good : ρ → Prop) (env : Env) (jsonLayout : QVariantMap)
    (ddLabelProperties : QgsPropertyCollection LabelProperty)
    (next : QgsPropertyCollection LabelProperty → ℚ → Conv ρ) (h : ∀ a b, (next a b).Ensures good) :
    (textMaxWidthStep env jsonLayout ddLabelProperties next).Ensures good := by
  unfold textMaxWidthStep
  simp only [Conv.bind_eq, Conv.pure_eq]
  repeat' first
    | (guard_target = Conv.Ensures _ (next _ _)
       exact h _ _)
    | (guard_target = Conv.Ensures _ (Conv.bind _ _)
       apply Conv.ensures_bind)
    | (fail_if_success guard_target = Conv.Ensures _ _
       intro _)
    | split

theorem textLetterSpacingStep_ensures {ρ : Type} (good : ρ → Prop) (env : Env)
    (jsonLayout : QVariantMap) (ddLabelProperties : QgsPropertyCollection LabelProperty)
    (next : QgsPropertyCollection LabelProperty → ℚ → Conv ρ) (h : ∀ a b, (next a b).Ensures good) :
    (textLetterSpacingStep env jsonLayout ddLabelProperties next).Ensures good := by
  unfold textLetterSpacingStep
  simp only [Conv.bind_eq, Conv.pure_eq]
  repeat' first
    | (guard_target = Conv.Ensures _ (next _ _)
       exact h _ _)
    | (guard_target = Conv.Ensures _ (Conv.bind _ _)
       apply Conv.ensures_bind)
    | (fail_if_success guard_target = Conv.Ensures _ _
       intro _)
    | split

theorem textFontStep_ensures {ρ : Type} (good : ρ → Prop) (env : Env) (jsonLayout : QVariantMap)
    (next : QFont → Bool → Conv ρ) (h : ∀ a b, (next a b).Ensures good) :
    (textFontStep env jsonLayout next).Ensures good := by
  unfold textFontStep
  simp only [Conv.bind_eq, Conv.pure_eq]
  repeat' first
    | (guard_target = Conv.Ensures _ (next _ _)
       exact h _ _)
    | (guard_target = Conv.Ensures _ (Conv.bind _ _)
       apply Conv.ensures_bind)
    | (fail_if_success guard_target = Conv.Ensures _ _
       intro _)
    | split

theorem textColorStep_ensures {ρ : Type} (good : ρ → Prop) (env : Env) (jsonPaint : QVariantMap)
    (ddLabelProperties : QgsPropertyCollection LabelProperty)
        (next : QgsPropertyCollection LabelProperty → QColor → Conv ρ)
      (h : ∀ a b, (next a b).Ensures good) :
    (textColorStep env jsonPaint ddLabelProperties next).Ensures good := by
  unfold textColorStep
  simp only [Conv.bind_eq, Conv.pure_eq]
  repeat' first
    | (guard_target = Conv.Ensures _ (next _ _)
       exact h _ _)
    | (guard_target = Conv.Ensures _ (Conv.bind _ _)
       apply Conv.ensures_bind)
    | (fail_if_success guard_target = Conv.Ensures _ _
       intro _)
    | split

theorem bufferColorStep_ensures {ρ : Type} (good : ρ → Prop) (env : Env) (jsonPaint : QVariantMap)
    (ddLabelProperties : QgsPropertyCollection LabelProperty)
        (next : QgsPropertyCollection LabelProperty → QColor → Conv ρ)
      (h : ∀ a b, (next a b).Ensures good) :
    (bufferColorStep env jsonPaint ddLabelProperties next).Ensures good := by
  unfold bufferColorStep
  simp only [Conv.bind_eq, Conv.pure_eq]
  repeat' first
    | (guard_target = Conv.Ensures _ (next _ _)
       exact h _ _)
    | (guard_target = Conv.Ensures _ (Conv.bind _ _)
       apply Conv.ensures_bind)
    | (fail_if_success guard_target = Conv.Ensures _ _
       intro _)
    | split

theorem bufferSizeStep_ensures {ρ : Type} (good : ρ → Prop) (env : Env) (jsonPaint : QVariantMap)
    (factor : ℚ) (ddLabelProperties : QgsPropertyCollection LabelProperty)
    (next : QgsPropertyCollection LabelProperty → ℚ → Conv ρ) (h : ∀ a b, (next a b).Ensures good) :
    (bufferSizeStep env jsonPaint factor ddLabelProperties next).Ensures good := by
  unfold bufferSizeStep
  simp only [Conv.bind_eq, Conv.pure_eq]
  repeat' first
    | (guard_target = Conv.Ensures _ (next _ _)
       exact h _ _)
    | (guard_target = Conv.Ensures _ (Conv.bind _ _)
       apply Conv.ensures_bind)
    | (fail_if_success guard_target = Conv.Ensures _ _
       intro _)
    | split

theorem haloBlurStep_ensures {ρ : Type} (good : ρ → Prop) (jsonPaint : QVariantMap) (factor : ℚ)
    (next : ℚ → Conv ρ) (h : ∀ a, (next a).Ensures good) :
    (haloBlurStep jsonPaint factor next).Ensures good := by
  unfold haloBlurStep
  simp only [Conv.bind_eq, Conv.pure_eq]
  repeat' first
    | (guard_target = Conv.Ensures _ (next _)
       exact h _)
    | (guard_target = Conv.Ensures _ (Conv.bind _ _)
       apply Conv.ensures_bind)
    | (fail_if_success guard_target = Conv.Ensures _ _
       intro _)
    | split

theorem textFormatStep_eq {ρ : Type} (context : QgsMapBoxGlStyleConversionContext)
    (textSize textLetterSpacing : ℚ) (textFont : QFont) (foundFont : Bool)
    (textColor bufferColor : QColor) (bufferSize haloBlurSize : ℚ)
    (next : QgsTextFormat → Conv ρ) :
    ∃ format, textFormatStep context textSize textLetterSpacing textFont foundFont textColor
      bufferColor bufferSize haloBlurSize next = next format := by
  unfold textFormatStep
  by_cases h1 : textColor.isValid = true <;> by_cases h2 : textSize ≥ 0 <;>
    by_cases h3 : foundFont = true <;> by_cases h4 : textLetterSpacing > 0 <;>
    by_cases h5 : bufferSize > 0 <;>
    simp only [h1, h2, h3, h4, h5, if_true, if_false, Conv.bind_eq, Conv.pure_eq,
      Conv.ok_nil_bind] <;>
    exact ⟨_, rfl⟩

theorem textFormatStep_ensures {ρ : Type} (good : ρ → Prop)
    (context : QgsMapBoxGlStyleConversionContext)
    (textSize textLetterSpacing : ℚ) (textFont : QFont) (foundFont : Bool)
    (textColor bufferColor : QColor) (bufferSize haloBlurSize : ℚ)
    (next : QgsTextFormat → Conv ρ) (h : ∀ a, (next a).Ensures good) :
    (textFormatStep context textSize textLetterSpacing textFont foundFont textColor bufferColor
      bufferSize haloBlurSize next).Ensures good := by
  obtain ⟨format, hf⟩ := textFormatStep_eq context textSize textLetterSpacing textFont foundFont
    textColor bufferColor bufferSize haloBlurSize next
  rw [hf]
  exact h format

theorem textFieldStep_ensures {ρ : Type} (good : ρ → Prop) (env : Env) (jsonLayout : QVariantMap)
    (context : QgsMapBoxGlStyleConversionContext) (textMaxWidth : ℚ)
    (next : QgsPalLayerSettings → Conv ρ) (h : ∀ a, (next a).Ensures good) :
    (textFieldStep env jsonLayout context textMaxWidth next).Ensures good := by
  unfold textFieldStep
  simp only [Conv.bind_eq, Conv.pure_eq]
  repeat' first
    | (guard_target = Conv.Ensures _ (next _)
       exact h _)
    | (guard_target = Conv.Ensures _ (Conv.bind _ _)
       apply Conv.ensures_bind)
    | (fail_if_success guard_target = Conv.Ensures _ _
       intro _)
    | split

theorem textTransformStep_ensures {ρ : Type} (good : ρ → Prop) (env : Env)
    (jsonLayout : QVariantMap) (labelSettings : QgsPalLayerSettings)
    (next : QgsPalLayerSettings → Conv ρ) (h : ∀ a, (next a).Ensures good) :
    (textTransformStep env jsonLayout labelSettings next).Ensures good := by
  unfold textTransformStep
  simp only [Conv.bind_eq, Conv.pure_eq]
  repeat' first
    | (guard_target = Conv.Ensures _ (next _)
       exact h _)
    | (guard_target = Conv.Ensures _ (Conv.bind _ _)
       apply Conv.ensures_bind)
    | (fail_if_success guard_target = Conv.Ensures _ _
       intro _)
    | split

theorem labelPlacementStep_ensures {ρ : Type} (good : ρ → Prop) (env : Env)
    (jsonLayout : QVariantMap) (labelSettings : QgsPalLayerSettings)
    (next : QgsPalLayerSettings → GeometryType → Conv ρ) (h : ∀ a b, (next a b).Ensures good) :
    (labelPlacementStep env jsonLayout labelSettings next).Ensures good := by
  unfold labelPlacementStep
  simp only [Conv.bind_eq, Conv.pure_eq]
  repeat' first
    | (guard_target = Conv.Ensures _ (next _ _)
       exact h _ _)
    | (guard_target = Conv.Ensures _ (Conv.bind _ _)
       apply Conv.ensures_bind)
    | (fail_if_success guard_target = Conv.Ensures _ _
       intro _)
    | split

theorem textAnchorStep_ensures {ρ : Type} (good : ρ → Prop) (env : Env) (jsonLayout : QVariantMap)
    (context : QgsMapBoxGlStyleConversionContext) (textSize : ℚ)
    (ddLabelProperties : QgsPropertyCollection LabelProperty) (labelSettings : QgsPalLayerSettings)
        (next : QgsPropertyCollection LabelProperty → QgsPalLayerSettings → Conv ρ)
      (h : ∀ a b, (next a b).Ensures good) :
       
      (textAnchorStep env jsonLayout context textSize ddLabelProperties labelSettings next).Ensures
      good := by
  unfold textAnchorStep
  simp only [Conv.bind_eq, Conv.pure_eq]
  repeat' first
    | (guard_target = Conv.Ensures _ (next _ _)
       exact h _ _)
    | (guard_target = Conv.Ensures _ (Conv.bind _ _)
       apply Conv.ensures_bind)
    | (fail_if_success guard_target = Conv.Ensures _ _
       intro _)
    | split

end QgsMapBoxGlStyleConverter
namespace Conv

theorem ensures_bind_of {α β : Type} {holds : α → Prop} {good : β → Prop} {x : Conv α}
    {f : α → Conv β} (hx : Ensures holds x) (hf : ∀ a, holds a → Ensures good (f a)) :
    Ensures good (Conv.bind x f) := by
  intro b w hb
  rw [Conv.bind_eq_ok] at hb
  obtain ⟨a, w1, w2, h1, h2, _⟩ := hb
  exact hf a (hx a w1 h1) b w2 h2

theorem ensures_ite {α : Type} {good : α → Prop} {c : Prop} [Decidable c] {x y : Conv α}
    (hx : c → Ensures good x) (hy : ¬ c → Ensures good y) :
    Ensures good (if c then x else y) := by
  split
  · exact hx ‹_›
  · exact hy ‹_›

end Conv

namespace QgsMapBoxGlStyleConverter

theorem labelingTail_ensures (env : Env) (jsonLayout jsonPaint : QVariantMap) (factor : ℚ)
    (context : QgsMapBoxGlStyleConversionContext) (renderer : QgsVectorTileBasicRendererStyle)
    (labelingStyle : QgsVectorTileBasicLabelingStyle) (textSize : ℚ) (format : QgsTextFormat)
    (ddLabelProperties : QgsPropertyCollection LabelProperty) (labelSettings : QgsPalLayerSettings)
    (geometryType : GeometryType) :
    (labelingTail env jsonLayout jsonPaint factor context renderer labelingStyle textSize format
      ddLabelProperties labelSettings geometryType).Ensures (fun r => r.2.2.1 = true) := by
  unfold labelingTail
  simp only [Conv.bind_eq, Conv.pure_eq]
  repeat' first
    | (guard_target = Conv.Ensures _ (Conv.ok _ _)
       exact Conv.ensures_ok rfl)
    | (guard_target = Conv.Ensures _ (Conv.bind _ _)
       apply Conv.ensures_bind)
    | (fail_if_success guard_target = Conv.Ensures _ _
       intro _)
    | apply Conv.ensures_ite
    | split

/-- A symbol layer with a layout that defines `text-field` and with a paint map reports a
labeling style whenever its converter completes. -/
theorem parseSymbolLayer_labels (env : Env) (jsonLayer : QVariantMap)
    (renderer : QgsVectorTileBasicRendererStyle) (labelingStyle : QgsVectorTileBasicLabelingStyle)
    (context : QgsMapBoxGlStyleConversionContext)
    (hl : QVariantMap.contains jsonLayer "layout" = true)
    (ht : QVariantMap.contains (QVariantMap.value jsonLayer "layout").toMap "text-field" = true)
    (hp : QVariantMap.contains jsonLayer "paint" = true) :
    (parseSymbolLayer env jsonLayer renderer labelingStyle context).Ensures
      (fun r => r.2.2.1 = true) := by
  unfold parseSymbolLayer
  simp only [hl, ht, hp, not_true_eq_false, if_false]
  apply textSizeStep_ensures; intro ddLabelProperties textSize
  apply textMaxWidthStep_ensures; intro ddLabelProperties textMaxWidth
  apply textLetterSpacingStep_ensures; intro ddLabelProperties textLetterSpacing
  apply textFontStep_ensures; intro textFont foundFont
  apply textColorStep_ensures; intro ddLabelProperties textColor
  apply bufferColorStep_ensures; intro ddLabelProperties bufferColor
  apply bufferSizeStep_ensures; intro ddLabelProperties bufferSize
  apply haloBlurStep_ensures; intro haloBlurSize
  apply textFormatStep_ensures; intro format
  apply textFieldStep_ensures; intro labelSettings
  apply textTransformStep_ensures; intro labelSettings
  apply labelPlacementStep_ensures; intro labelSettings geometryType
  apply textAnchorStep_ensures; intro ddLabelProperties labelSettings
  exact labelingTail_ensures _ _ _ _ _ _ _ _ _ _ _ _

/-- A symbol layer without a layout, without `text-field` in its layout or without a paint
map reports no labeling style. -/
theorem parseSymbolLayer_no_label (env : Env) (jsonLayer : QVariantMap)
    (renderer : QgsVectorTileBasicRendererStyle) (labelingStyle : QgsVectorTileBasicLabelingStyle)
    (context : QgsMapBoxGlStyleConversionContext)
    (h : ¬ (QVariantMap.contains jsonLayer "layout" = true
      ∧ QVariantMap.contains (QVariantMap.value jsonLayer "layout").toMap "text-field" = true
      ∧ QVariantMap.contains jsonLayer "paint" = true)) :
    (parseSymbolLayer env jsonLayer renderer labelingStyle context).Ensures
      (fun r => r.2.2.1 = false) := by
  unfold parseSymbolLayer
  by_cases hl : QVariantMap.contains jsonLayer "layout" = true
  · by_cases ht : QVariantMap.contains (QVariantMap.value jsonLayer "layout").toMap "text-field" = true
    · have hp : ¬ QVariantMap.contains jsonLayer "paint" = true := fun hp => h ⟨hl, ht, hp⟩
      simp only [hl, ht, hp, not_true_eq_false, not_false_eq_true, if_false, if_true,
        Bool.false_eq_true, Conv.bind_eq, Conv.pure_eq]
      exact Conv.ensures_bind fun _ => Conv.ensures_ok rfl
    · simp only [hl, ht, not_true_eq_false, not_false_eq_true, if_false, if_true,
        Bool.false_eq_true, Conv.bind_eq, Conv.pure_eq]
      exact Conv.ensures_bind fun _ => Conv.ensures_ok rfl
  · simp only [hl, not_false_eq_true, if_true, Bool.false_eq_true, Conv.bind_eq, Conv.pure_eq]
    exact Conv.ensures_bind fun _ => Conv.ensures_ok rfl

/-- What the dispatch tells about the labeling style of a layer. -/
theorem dispatchLayer_label (env : Env) (context : QgsMapBoxGlStyleConversionContext)
    (layer : QVariant) :
    (dispatchLayer env layer.toMap (layerType env layer) context).Ensures
      (fun outcome => ∀ styles, outcome = some styles →
        styles.hasLabelingStyle = (definesLabel env layer && hasPaint layer)) := by
  unfold dispatchLayer
  simp only [Conv.bind_eq, Conv.pure_eq]
  by_cases hf : layerType env layer = "fill"
  · have hd : definesLabel env layer = false := by simp [definesLabel, hf]
    simp only [hf, if_true]
    refine Conv.ensures_bind fun _ => Conv.ensures_ok ?_
    intro styles hs
    cases hs
    simp [hd]
  · by_cases hli : layerType env layer = "line"
    · have hd : definesLabel env layer = false := by simp [definesLabel, hli]
      simp only [hf, hli, if_true, if_false]
      refine Conv.ensures_bind fun _ => Conv.ensures_ok ?_
      intro styles hs
      cases hs
      simp [hd]
    · by_cases hsy : layerType env layer = "symbol"
      · simp only [hsy]
        rw [if_neg (by decide : ¬ "symbol" = "fill"), if_neg (by decide : ¬ "symbol" = "line"),
          if_pos trivial]
        by_cases hall : QVariantMap.contains layer.toMap "layout" = true
            ∧ QVariantMap.contains (QVariantMap.value layer.toMap "layout").toMap "text-field" = true
            ∧ QVariantMap.contains layer.toMap "paint" = true
        · have hd : (definesLabel env layer && hasPaint layer) = true := by
            simp [definesLabel, hasPaint, hsy, hall.1, hall.2.1, hall.2.2]
          refine Conv.ensures_bind_of
            (parseSymbolLayer_labels env layer.toMap _ _ context hall.1 hall.2.1 hall.2.2) ?_
          intro r hr
          refine Conv.ensures_ok ?_
          intro styles hs
          cases hs
          rw [hd]
          exact hr
        · have hd : (definesLabel env layer && hasPaint layer) = false := by
            simp only [definesLabel, hasPaint, hsy, decide_True, Bool.true_and]
            simpa [Bool.and_assoc] using hall
          refine Conv.ensures_bind_of (parseSymbolLayer_no_label env layer.toMap _ _ context hall) ?_
          intro r hr
          refine Conv.ensures_ok ?_
          intro styles hs
          cases hs
          rw [hd]
          exact hr
      · simp only [hf, hli, hsy, if_false]
        refine Conv.ensures_ok ?_
        intro styles hs
        cases hs

theorem reportsLabelingStyle_of_completes (env : Env)
    (context : QgsMapBoxGlStyleConversionContext) (layer : QVariant)
    (hc : layerCompletes env context layer = true) :
    reportsLabelingStyle env context layer = (definesLabel env layer && hasPaint layer) := by
  unfold reportsLabelingStyle layerStyles
  by_cases hb : isBackground env layer = true
  · have hty : layerType env layer = "background" := by simpa [isBackground] using hb
    simp [hb, definesLabel, hty]
  · have hb' : isBackground env layer = false := by simpa using hb
    simp only [layerCompletes, hb', Bool.false_or, Bool.and_eq_true] at hc
    simp only [hb', Bool.false_eq_true, if_false]
    cases hd : dispatchLayer env layer.toMap (layerType env layer) context with
    | fault f => rw [hd] at hc; simp [Conv.isOk] at hc
    | ok outcome warnings =>
      cases outcome with
      | some styles => exact dispatchLayer_label env context layer _ _ hd styles rfl
      | none =>
        simp only
        have hsy : layerType env layer ≠ "symbol" := by
          intro hsy
          unfold dispatchLayer at hd
          simp only [hsy, Conv.bind_eq, Conv.pure_eq] at hd
          rw [if_neg (by decide : ¬ "symbol" = "fill"), if_neg (by decide : ¬ "symbol" = "line"),
            if_pos trivial, Conv.bind_eq_ok] at hd
          obtain ⟨_, _, _, _, h2, _⟩ := hd
          cases h2
        simp [definesLabel, hsy]

theorem reportsLabelingStyle_true (env : Env) (context : QgsMapBoxGlStyleConversionContext)
    (layer : QVariant) (h : reportsLabelingStyle env context layer = true) :
    (definesLabel env layer && hasPaint layer) = true := by
  unfold reportsLabelingStyle layerStyles at h
  by_cases hb : isBackground env layer = true
  · simp [hb] at h
  · simp only [hb, if_false] at h
    cases hd : dispatchLayer env layer.toMap (layerType env layer) context with
    | fault f => rw [hd] at h; simp at h
    | ok outcome warnings =>
      rw [hd] at h
      cases outcome with
      | some styles =>
        rw [← dispatchLayer_label env context layer _ _ hd styles rfl]
        exact h
      | none => simp at h

end QgsMapBoxGlStyleConverter
namespace QgsMapBoxGlStyleConverter

theorem parseLayersLoop_layers_complete (env : Env) (converter : ConverterState)
    (layers : QVariantList) (context : Option QgsMapBoxGlStyleConversionContext)
    (out : ConverterState × Option QgsMapBoxGlStyleConversionContext)
    (h : parseLayers env converter layers context = Except.ok out) :
    ∀ layer ∈ layers, layerCompletes env (workingContext context) layer = true := by
  obtain ⟨final, hloop, _⟩ := parseLayers_eq_ok env converter layers context out h
  exact (parseLayersLoop_completes_iff env (workingContext context) layers _).1 ⟨final, hloop⟩

/-- The symbol layer `label` with the `text-field` `{name}` and no paint map: its layout
defines `text-field`, and `convert` returns `Success` with the warning that the layer has
no paint property, with no rendering rule and no labeling rule. -/
theorem unpainted_label_yields_no_labeling_rule :
    definesLabel Sample.env (QVariant.map Sample.unpaintedLabelLayer) = true
    ∧ hasPaint (QVariant.map Sample.unpaintedLabelLayer) = false
    ∧ convert Sample.env fresh (Sample.document Sample.unpaintedLabelLayer) none
      = Except.ok (Result.Success,
          { mError := "", mWarnings := ["Style layer label has no paint property, skipping"],
            mRenderer := some [], mLabeling := some [] }, none) :=
  ⟨rfl, rfl, rfl⟩

end QgsMapBoxGlStyleConverter

/-! ### A symbol layer without a label -/

namespace QgsMapBoxGlStyleConverter

open SymbolLayerProperty

theorem parseSymbolLayerAsRenderer_eq_steps (env : Env) (jsonLayer : QVariantMap)
    (rendererStyle : QgsVectorTileBasicRendererStyle) (context : QgsMapBoxGlStyleConversionContext) :
    parseSymbolLayerAsRenderer env jsonLayer rendererStyle context
      = parseSymbolLayerAsRendererSteps env jsonLayer rendererStyle context :=
  rfl

theorem symbolSpacingStep_eq {ρ : Type} (env : Env) (jsonLayout : QVariantMap)
    (context : QgsMapBoxGlStyleConversionContext)
    (next : QgsPropertyCollection SymbolLayerProperty → ℚ → Conv ρ) :
    symbolSpacingStep env jsonLayout context next
      = Conv.bind (symbolSpacingOutcome env jsonLayout context) (fun r => next r.1 r.2) := by
  unfold symbolSpacingOutcome symbolSpacingStep
  simp only [Conv.bind_eq, Conv.pure_eq]
  split
  · split <;> simp [Conv.bind_assoc, Conv.ok_nil_bind, pushWarning]
  · simp [Conv.ok_nil_bind]

theorem iconAlignmentStep_eq {ρ : Type} (env : Env) (jsonLayout : QVariantMap)
    (next : Bool → Conv ρ) :
    iconAlignmentStep env jsonLayout next
      = Conv.bind (iconAlignmentOutcome env jsonLayout) next := by
  unfold iconAlignmentOutcome iconAlignmentStep
  simp only [Conv.bind_eq, Conv.pure_eq]
  split
  · split
    · simp [Conv.ok_nil_bind]
    · split <;> simp [Conv.ok_nil_bind]
  · simp [Conv.ok_nil_bind]

theorem iconRotateStep_eq {ρ : Type} (env : Env) (jsonLayout : QVariantMap)
    (context : QgsMapBoxGlStyleConversionContext)
    (next : QgsPropertyCollection SymbolLayerProperty → ℚ → Conv ρ) :
    iconRotateStep env jsonLayout context next
      = Conv.bind (iconRotateOutcome env jsonLayout context) (fun r => next r.1 r.2) := by
  unfold iconRotateOutcome iconRotateStep
  simp only [Conv.bind_eq, Conv.pure_eq]
  split
  · split <;> simp [Conv.bind_assoc, Conv.ok_nil_bind, pushWarning]
  · simp [Conv.ok_nil_bind]

end QgsMapBoxGlStyleConverter
namespace QgsMapBoxGlStyleConverter

open SymbolLayerProperty

theorem symbolSpacingOutcome_quiet (env : Env) (jsonLayout : QVariantMap)
    (context : QgsMapBoxGlStyleConversionContext) :
    (symbolSpacingOutcome env jsonLayout context).Quiet := by
  unfold symbolSpacingOutcome symbolSpacingStep
  simp only [Conv.bind_eq, Conv.pure_eq]
  repeat' first
    | exact Conv.quiet_ok_nil _
    | exact Conv.quiet_push _ (by decide)
    | exact parseInterpolateByZoom_quiet _ _ _
    | exact parseInterpolateListByZoom_quiet _ _ _ _ _
    | apply Conv.quiet_bind
    | intro _
    | split

theorem iconAlignmentOutcome_quiet (env : Env) (jsonLayout : QVariantMap) :
    (iconAlignmentOutcome env jsonLayout).Quiet := by
  unfold iconAlignmentOutcome iconAlignmentStep
  simp only [Conv.bind_eq, Conv.pure_eq]
  repeat' first
    | exact Conv.quiet_ok_nil _
    | apply Conv.quiet_bind
    | intro _
    | split

theorem iconRotateOutcome_quiet (env : Env) (jsonLayout : QVariantMap)
    (context : QgsMapBoxGlStyleConversionContext) :
    (iconRotateOutcome env jsonLayout context).Quiet := by
  unfold iconRotateOutcome iconRotateStep
  simp only [Conv.bind_eq, Conv.pure_eq]
  repeat' first
    | exact Conv.quiet_ok_nil _
    | exact Conv.quiet_push _ (by decide)
    | exact parseInterpolateByZoom_quiet _ _ _
    | exact parseInterpolateListByZoom_quiet _ _ _ _ _
    | apply Conv.quiet_bind
    | intro _
    | split

/-- The spacing the step for `symbol-spacing` hands on: -1 without the key, and the number
times the conversion factor for a number. -/
theorem symbolSpacingOutcome_spacing (env : Env) (jsonLayout : QVariantMap)
    (context : QgsMapBoxGlStyleConversionContext) :
    (symbolSpacingOutcome env jsonLayout context).Ensures (fun r =>
      (QVariantMap.contains jsonLayout "symbol-spacing" = false → r.2 = -1)
      ∧ (QVariantMap.contains jsonLayout "symbol-spacing" = true →
          ((QVariantMap.value jsonLayout "symbol-spacing").type = QVariantType.Int
            ∨ (QVariantMap.value jsonLayout "symbol-spacing").type = QVariantType.Double) →
          r.2 = (QVariantMap.value jsonLayout "symbol-spacing").toDouble
            * context.pixelSizeConversionFactor)) := by
  unfold symbolSpacingOutcome symbolSpacingStep
  simp only [Conv.bind_eq, Conv.pure_eq]
  by_cases hc : QVariantMap.contains jsonLayout "symbol-spacing" = true
  · simp only [hc, if_true]
    cases ht : (QVariantMap.value jsonLayout "symbol-spacing").type <;>
      simp only [reduceCtorEq, false_or, or_false, or_self, false_implies, true_implies,
        implies_true, and_true, true_and, Bool.true_eq_false] <;>
      repeat' first
        | (guard_target = Conv.Ensures _ (Conv.ok _ _)
           exact Conv.ensures_ok (by simp))
        | (guard_target = Conv.Ensures _ (Conv.bind _ _)
           apply Conv.ensures_bind)
        | (fail_if_success guard_target = Conv.Ensures _ _
           intro _)
  · have hc' : QVariantMap.contains jsonLayout "symbol-spacing" = false := by simpa using hc
    simp only [hc', Bool.false_eq_true, if_false]
    exact Conv.ensures_bind fun _ => Conv.ensures_ok (by simp)

/-- On a layer with a layout whose `symbol-placement` is `line`,
`parseSymbolLayerAsRenderer` completes with a rule of line geometry whose symbol is one
line of markers. -/
theorem parseSymbolLayerAsRenderer_line (env : Env) (jsonLayer : QVariantMap)
    (rendererStyle : QgsVectorTileBasicRendererStyle) (context : QgsMapBoxGlStyleConversionContext)
    (hl : QVariantMap.contains jsonLayer "layout" = true)
    (hline : (QVariantMap.value (QVariantMap.value jsonLayer "layout").toMap
      "symbol-placement").toString env = "line") :
    ∃ rotateMarkers spacing ddProperties marker warnings,
      parseSymbolLayerAsRenderer env jsonLayer rendererStyle context
        = Conv.ok (true,
            { rendererStyle with
              geometryType := GeometryType.LineGeometry,
              symbol := some
                { symbolLayers := [markerLineOf context rotateMarkers spacing ddProperties marker],
                  outputUnit := some context.targetUnit, opacity := none } }) warnings
      ∧ (QVariantMap.contains (QVariantMap.value jsonLayer "layout").toMap "symbol-spacing" = false →
          spacing = -1)
      ∧ (QVariantMap.contains (QVariantMap.value jsonLayer "layout").toMap "symbol-spacing" = true →
          ((QVariantMap.value (QVariantMap.value jsonLayer "layout").toMap "symbol-spacing").type
              = QVariantType.Int
            ∨ (QVariantMap.value (QVariantMap.value jsonLayer "layout").toMap "symbol-spacing").type
              = QVariantType.Double) →
          spacing = (QVariantMap.value (QVariantMap.value jsonLayer "layout").toMap
              "symbol-spacing").toDouble * context.pixelSizeConversionFactor) := by
  obtain ⟨r1, w1, h1, _⟩ := symbolSpacingOutcome_quiet env
    (QVariantMap.value jsonLayer "layout").toMap context
  obtain ⟨r2, w2, h2, _⟩ := iconAlignmentOutcome_quiet env (QVariantMap.value jsonLayer "layout").toMap
  obtain ⟨r3, w3, h3, _⟩ := iconRotateOutcome_quiet env
    (QVariantMap.value jsonLayer "layout").toMap context
  obtain ⟨r4, w4, h4, _⟩ := retrieveSpriteAsBase64_quiet env
    ((QVariantMap.value (QVariantMap.value jsonLayer "layout").toMap "icon-image").toString env)
    context
  have hspacing := symbolSpacingOutcome_spacing env (QVariantMap.value jsonLayer "layout").toMap
    context r1 w1 h1
  refine ⟨r2, r1.2, r1.1,
    { path := if (decide (¬ QString.isEmpty r4.1) : Bool) then some r4.1 else none,
      size := if (decide (¬ QString.isEmpty r4.1) : Bool)
        then some (context.pixelSizeConversionFactor * r4.2.1) else none,
      sizeUnit := if (decide (¬ QString.isEmpty r4.1) : Bool) then some context.targetUnit else none,
      dataDefinedProperties := r3.1,
      angle := r3.2,
      opacity := none },
    w1 ++ (w2 ++ (w3 ++ w4)), ?_, hspacing.1, hspacing.2⟩
  rw [parseSymbolLayerAsRenderer_eq_steps]
  unfold parseSymbolLayerAsRendererSteps
  simp only [hl, not_true_eq_false, if_false, hline, if_true]
  rw [symbolSpacingStep_eq, h1, Conv.bind_ok, iconAlignmentStep_eq, h2, Conv.bind_ok,
    iconRotateStep_eq, h3, Conv.bind_ok]
  unfold markerLineTail
  simp only [Conv.bind_eq, Conv.pure_eq, h4, Conv.bind_ok, List.append_nil]
  rfl

theorem parseSymbolLayerAsRenderer_other (env : Env) (jsonLayer : QVariantMap)
    (rendererStyle : QgsVectorTileBasicRendererStyle) (context : QgsMapBoxGlStyleConversionContext)
    (hl : QVariantMap.contains jsonLayer "layout" = true)
    (hline : (QVariantMap.value (QVariantMap.value jsonLayer "layout").toMap
      "symbol-placement").toString env ≠ "line") :
    parseSymbolLayerAsRenderer env jsonLayer rendererStyle context
      = Conv.ok (false, rendererStyle) [] := by
  rw [parseSymbolLayerAsRenderer_eq_steps]
  unfold parseSymbolLayerAsRendererSteps
  simp only [hl, not_true_eq_false, if_false, hline, Conv.pure_eq]

end QgsMapBoxGlStyleConverter
namespace QgsMapBoxGlStyleConverter

open SymbolLayerProperty

theorem parseSymbolLayer_without_text_field (env : Env) (jsonLayer : QVariantMap)
    (renderer : QgsVectorTileBasicRendererStyle) (labelingStyle : QgsVectorTileBasicLabelingStyle)
    (context : QgsMapBoxGlStyleConversionContext)
    (hl : QVariantMap.contains jsonLayer "layout" = true)
    (ht : QVariantMap.contains (QVariantMap.value jsonLayer "layout").toMap "text-field" = false) :
    parseSymbolLayer env jsonLayer renderer labelingStyle context
      = Conv.bind (parseSymbolLayerAsRenderer env jsonLayer renderer context)
          (fun r => Conv.ok (r.1, r.2, false, labelingStyle) []) := by
  unfold parseSymbolLayer
  simp only [hl, ht, not_true_eq_false, if_false, Bool.false_eq_true, not_false_eq_true, if_true,
    Conv.bind_eq, Conv.pure_eq]

theorem dispatchLayer_symbol (env : Env) (context : QgsMapBoxGlStyleConversionContext)
    (layer : QVariant) (hsymbol : layerType env layer = "symbol") :
    dispatchLayer env layer.toMap (layerType env layer) context
      = Conv.bind (parseSymbolLayer env layer.toMap QgsVectorTileBasicRendererStyle.default
          QgsVectorTileBasicLabelingStyle.default context)
          (fun r => Conv.ok
            (some
              { hasRendererStyle := r.1, rendererStyle := r.2.1,
                hasLabelingStyle := r.2.2.1, labelingStyle := r.2.2.2 }) []) := by
  unfold dispatchLayer
  simp only [hsymbol, Conv.bind_eq, Conv.pure_eq]
  rw [if_neg (by decide : ¬ "symbol" = "fill"), if_neg (by decide : ¬ "symbol" = "line"),
    if_pos trivial]

/-- C33: for every symbol layer with a layout that has no `text-field`. When the text of
`symbol-placement` is `line`, `parseSymbolLayer` completes and reports a rendering style
of line geometry whose symbol has one symbol layer, a line of markers, and no labeling
style; the line of markers is made from a spacing that is -1 without `symbol-spacing` and
the number times the conversion factor for a `symbol-spacing` that is a number: markers at
the interval of the spacing when the spacing is positive, one marker at the central point
otherwise. When the text of `symbol-placement` is not `line`, `parseSymbolLayer` completes
with no rendering style and no labeling style, and without a warning. So the converter of
the layer reports a rendering style exactly when the placement is `line`, and never a
labeling style. -/
theorem symbol_layer_without_text_field (env : Env) (layer : QVariant)
    (context : QgsMapBoxGlStyleConversionContext)
    (hsymbol : layerType env layer = "symbol")
    (hl : QVariantMap.contains layer.toMap "layout" = true)
    (ht : QVariantMap.contains (QVariantMap.value layer.toMap "layout").toMap "text-field" = false) :
    (∀ (renderer : QgsVectorTileBasicRendererStyle) (labelingStyle : QgsVectorTileBasicLabelingStyle),
      (QVariantMap.value (QVariantMap.value layer.toMap "layout").toMap "symbol-placement").toString env
        = "line" →
      ∃ rotateMarkers spacing ddProperties marker warnings,
        parseSymbolLayer env layer.toMap renderer labelingStyle context
          = Conv.ok (true,
              { renderer with
                geometryType := GeometryType.LineGeometry,
                symbol := some
                  { symbolLayers := [markerLineOf context rotateMarkers spacing ddProperties marker],
                    outputUnit := some context.targetUnit, opacity := none } },
              false, labelingStyle) warnings
        ∧ (QVariantMap.contains (QVariantMap.value layer.toMap "layout").toMap "symbol-spacing"
            = false → spacing = -1)
        ∧ (QVariantMap.contains (QVariantMap.value layer.toMap "layout").toMap "symbol-spacing"
            = true →
            ((QVariantMap.value (QVariantMap.value layer.toMap "layout").toMap "symbol-spacing").type
                = QVariantType.Int
              ∨ (QVariantMap.value (QVariantMap.value layer.toMap "layout").toMap
                  "symbol-spacing").type = QVariantType.Double) →
            spacing = (QVariantMap.value (QVariantMap.value layer.toMap "layout").toMap
                "symbol-spacing").toDouble * context.pixelSizeConversionFactor))
    ∧ (∀ (rotateMarkers : Bool) (spacing : ℚ)
        (ddProperties : QgsPropertyCollection SymbolLayerProperty)
        (marker : QgsRasterMarkerSymbolLayer),
        (0 < spacing →
          markerLineOf context rotateMarkers spacing ddProperties marker
            = QgsSymbolLayer.markerLine rotateMarkers spacing context.targetUnit ddProperties
                MarkerPlacement.Interval marker)
        ∧ (spacing ≤ 0 →
          markerLineOf context rotateMarkers spacing ddProperties marker
            = QgsSymbolLayer.markerLine rotateMarkers 1 context.targetUnit ddProperties
                MarkerPlacement.CentralPoint marker))
    ∧ (∀ (renderer : QgsVectorTileBasicRendererStyle) (labelingStyle : QgsVectorTileBasicLabelingStyle),
        (QVariantMap.value (QVariantMap.value layer.toMap "layout").toMap "symbol-placement").toString
          env ≠ "line" →
        parseSymbolLayer env layer.toMap renderer labelingStyle context
          = Conv.ok (false, renderer, false, labelingStyle) [])
    ∧ (dispatchLayer env layer.toMap (layerType env layer) context).isOk = true
    ∧ (reportsRendererStyle env context layer = true
        ↔ (QVariantMap.value (QVariantMap.value layer.toMap "layout").toMap
            "symbol-placement").toString env = "line")
    ∧ reportsLabelingStyle env context layer = false := by
  have hline : ∀ (renderer : QgsVectorTileBasicRendererStyle)
      (labelingStyle : QgsVectorTileBasicLabelingStyle),
      (QVariantMap.value (QVariantMap.value layer.toMap "layout").toMap "symbol-placement").toString env
        = "line" →
      ∃ rotateMarkers spacing ddProperties marker warnings,
        parseSymbolLayer env layer.toMap renderer labelingStyle context
          = Conv.ok (true,
              { renderer with
                geometryType := GeometryType.LineGeometry,
                symbol := some
                  { symbolLayers := [markerLineOf context rotateMarkers spacing ddProperties marker],
                    outputUnit := some context.targetUnit, opacity := none } },
              false, labelingStyle) warnings
        ∧ (QVariantMap.contains (QVariantMap.value layer.toMap "layout").toMap "symbol-spacing"
            = false → spacing = -1)
        ∧ (QVariantMap.contains (QVariantMap.value layer.toMap "layout").toMap "symbol-spacing"
            = true →
            ((QVariantMap.value (QVariantMap.value layer.toMap "layout").toMap "symbol-spacing").type
                = QVariantType.Int
              ∨ (QVariantMap.value (QVariantMap.value layer.toMap "layout").toMap
                  "symbol-spacing").type = QVariantType.Double) →
            spacing = (QVariantMap.value (QVariantMap.value layer.toMap "layout").toMap
                "symbol-spacing").toDouble * context.pixelSizeConversionFactor) := by
    intro renderer labelingStyle hp
    obtain ⟨rotateMarkers, spacing, ddProperties, marker, warnings, hrun, h1, h2⟩ :=
      parseSymbolLayerAsRenderer_line env layer.toMap renderer context hl hp
    refine ⟨rotateMarkers, spacing, ddProperties, marker, warnings, ?_, h1, h2⟩
    rw [parseSymbolLayer_without_text_field env layer.toMap renderer labelingStyle context hl ht,
      hrun]
    simp [Conv.bind]
  have hother : ∀ (renderer : QgsVectorTileBasicRendererStyle)
      (labelingStyle : QgsVectorTileBasicLabelingStyle),
      (QVariantMap.value (QVariantMap.value layer.toMap "layout").toMap "symbol-placement").toString
        env ≠ "line" →
      parseSymbolLayer env layer.toMap renderer labelingStyle context
        = Conv.ok (false, renderer, false, labelingStyle) [] := by
    intro renderer labelingStyle hp
    rw [parseSymbolLayer_without_text_field env layer.toMap renderer labelingStyle context hl ht,
      parseSymbolLayerAsRenderer_other env layer.toMap renderer context hl hp]
    rfl
  have hb : isBackground env layer = false := by simp [isBackground, hsymbol]
  have hdispatch := dispatchLayer_symbol env context layer hsymbol
  refine ⟨hline, ?_, hother, ?_, ?_, ?_⟩
  · intro rotateMarkers spacing ddProperties marker
    constructor
    · intro hpos
      simp [markerLineOf, hpos, not_le.2 hpos]
    · intro hneg
      simp [markerLineOf, hneg, not_lt.2 hneg]
  · by_cases hp : (QVariantMap.value (QVariantMap.value layer.toMap "layout").toMap
        "symbol-placement").toString env = "line"
    · obtain ⟨_, _, _, _, _, hrun, _⟩ := hline QgsVectorTileBasicRendererStyle.default
        QgsVectorTileBasicLabelingStyle.default hp
      rw [hdispatch, hrun]
      rfl
    · rw [hdispatch, hother _ _ hp]
      rfl
  · by_cases hp : (QVariantMap.value (QVariantMap.value layer.toMap "layout").toMap
        "symbol-placement").toString env = "line"
    · obtain ⟨_, _, _, _, _, hrun, _⟩ := hline QgsVectorTileBasicRendererStyle.default
        QgsVectorTileBasicLabelingStyle.default hp
      simp [reportsRendererStyle, layerStyles, hb, hdispatch, hrun, Conv.bind, hp]
    · simp [reportsRendererStyle, layerStyles, hb, hdispatch, hother _ _ hp, Conv.bind, hp]
  · by_cases hp : (QVariantMap.value (QVariantMap.value layer.toMap "layout").toMap
        "symbol-placement").toString env = "line"
    · obtain ⟨_, _, _, _, _, hrun, _⟩ := hline QgsVectorTileBasicRendererStyle.default
        QgsVectorTileBasicLabelingStyle.default hp
      simp [reportsLabelingStyle, layerStyles, hb, hdispatch, hrun, Conv.bind]
    · simp [reportsLabelingStyle, layerStyles, hb, hdispatch, hother _ _ hp, Conv.bind]

/-- Witness of C33: the symbol layer `oneway` with icons along lines every 250 pixels gets
one rendering rule of line geometry, a line of markers at the interval 250; the symbol
layer `poi` with nothing but an icon gets no rule. -/
theorem symbol_layer_without_text_field_witness :
    (reportsRendererStyle Sample.env QgsMapBoxGlStyleConversionContext.default Sample.iconLineLayer
        = true
      ↔ (QVariantMap.value (QVariantMap.value Sample.iconLineLayer.toMap "layout").toMap
          "symbol-placement").toString Sample.env = "line")
    ∧ reportsLabelingStyle Sample.env QgsMapBoxGlStyleConversionContext.default Sample.iconLineLayer
        = false
    ∧ parseSymbolLayer Sample.env Sample.iconLayer.toMap QgsVectorTileBasicRendererStyle.default
        QgsVectorTileBasicLabelingStyle.default QgsMapBoxGlStyleConversionContext.default
      = Conv.ok (false, QgsVectorTileBasicRendererStyle.default, false,
          QgsVectorTileBasicLabelingStyle.default) []
    ∧ ∃ out, convert Sample.env fresh
          [("layers", QVariant.list [Sample.iconLineLayer, Sample.iconLayer])] none
        = Except.ok (Result.Success, out, none)
      ∧ rendererStyles out
        = [{ styleName := "oneway", layerName := "", filterExpression := "", minZoomLevel := -1,
             maxZoomLevel := -1, enabled := true, geometryType := GeometryType.LineGeometry,
             symbol := some
               { symbolLayers :=
                   [QgsSymbolLayer.markerLine true 250 RenderUnit.RenderPixels
                     QgsPropertyCollection.empty MarkerPlacement.Interval
                     { path := none, size := none, sizeUnit := none,
                       dataDefinedProperties := QgsPropertyCollection.empty, angle := 0,
                       opacity := none }],
                 outputUnit := some RenderUnit.RenderPixels, opacity := none } }]
      ∧ labelingStyles out = [] :=
  ⟨(symbol_layer_without_text_field Sample.env Sample.iconLineLayer
      QgsMapBoxGlStyleConversionContext.default rfl rfl rfl).2.2.2.2.1,
   (symbol_layer_without_text_field Sample.env Sample.iconLineLayer
      QgsMapBoxGlStyleConversionContext.default rfl rfl rfl).2.2.2.2.2,
   (symbol_layer_without_text_field Sample.env Sample.iconLayer
      QgsMapBoxGlStyleConversionContext.default rfl rfl rfl).2.2.1 _ _ (by decide),
   _, rfl, by decide!, rfl⟩

end QgsMapBoxGlStyleConverter

/-! ### Layers of an unknown type and labels, whatever the filter and the text do -/

namespace QgsMapBoxGlStyleConverter

/-- A call of `parseLayers` returns exactly when the conversion of none of its layers is
stopped. -/
theorem parseLayers_returns_iff (env : Env) (converter : ConverterState) (layers : QVariantList)
    (context : Option QgsMapBoxGlStyleConversionContext) :
    (∃ out, parseLayers env converter layers context = Except.ok out)
      ↔ ∀ layer ∈ layers, layerCompletes env (workingContext context) layer = true := by
  rw [← parseLayersLoop_completes_iff env (workingContext context) layers
    { mWarnings := converter.mWarnings, contextWarnings := (workingContext context).warnings,
      rendererStyles := [], labelingStyles := [] }]
  constructor
  · rintro ⟨out, h⟩
    obtain ⟨final, hloop, _⟩ := parseLayers_eq_ok env converter layers context out h
    exact ⟨final, hloop⟩
  · rintro ⟨final, hloop⟩
    obtain ⟨out, h, _⟩ := parseLayers_of_loop env converter layers context final hloop
    exact ⟨out, h⟩

theorem layerCompletes_unknown (env : Env) (context : QgsMapBoxGlStyleConversionContext)
    (layer : QVariant) (h : isUnknownType env layer = true) :
    layerCompletes env context layer = (layerFilter env layer.toMap).isOk := by
  have hd := dispatchLayer_unknown env context layer h
  have hb : isBackground env layer = false := by
    simp only [isUnknownType, Bool.and_eq_true, decide_eq_true_eq, ne_eq] at h
    simpa [isBackground] using h.1.1.1
  simp [layerCompletes, hb, hd, Conv.isOk]

/-- C7: for every layer whose type is none of background, fill, line and symbol. The
dispatch of `parseLayers` makes no style for it, so its converter reports neither a
rendering nor a labeling style. `parseLayers` returns on a layer list with the layer
exactly when it returns on the list without the layer and the filter of the layer
translates; a `parseLayers` that returns holds the warning
`Skipping unknown layer type: <type>` among the warnings of the converter and exactly the
rendering and labeling rules of the conversion of the other layers. The filter is
translated before the type is looked at: on the raster layer with the filter `["!"]`
followed by a fill layer, `parseLayers` is stopped by the access out of range in the
filter, so no warning is recorded and the fill layer after it is not converted. -/
theorem unknown_layer_type_skipped_unless_filter_stops (env : Env) (converter : ConverterState)
    (context : Option QgsMapBoxGlStyleConversionContext) :
    (∀ (before after : QVariantList) (layer : QVariant), isUnknownType env layer = true →
      dispatchLayer env layer.toMap (layerType env layer) (workingContext context)
        = Conv.ok none []
      ∧ reportsRendererStyle env (workingContext context) layer = false
      ∧ reportsLabelingStyle env (workingContext context) layer = false
      ∧ ((∃ out, parseLayers env converter (before ++ layer :: after) context = Except.ok out)
          ↔ (∃ out, parseLayers env converter (before ++ after) context = Except.ok out)
            ∧ (layerFilter env layer.toMap).isOk = true)
      ∧ ∀ out, parseLayers env converter (before ++ layer :: after) context = Except.ok out →
          ("Skipping unknown layer type: " ++ layerType env layer) ∈ out.1.mWarnings
          ∧ ∃ others, parseLayers env converter (before ++ after) context = Except.ok others
            ∧ rendererStyles out.1 = rendererStyles others.1
            ∧ labelingStyles out.1 = labelingStyles others.1)
    ∧ isUnknownType env Sample.negatedRasterLayer = true
    ∧ parseLayers env converter [Sample.negatedRasterLayer, Sample.plainFillLayer] context
      = Except.error Fault.indexOutOfRange
    ∧ ∃ out, parseLayers env converter [Sample.plainFillLayer] context = Except.ok out
      ∧ (rendererStyles out.1).map (fun rule => rule.styleName) = ["water"] := by
  refine ⟨?_, rfl, rfl, _, rfl, rfl⟩
  intro before after layer hu
  have hs := layerStyles_unknown env (workingContext context) layer hu
  refine ⟨dispatchLayer_unknown env _ layer hu, by simp [reportsRendererStyle, hs],
    by simp [reportsLabelingStyle, hs], ?_, ?_⟩
  · rw [parseLayers_returns_iff, parseLayers_returns_iff,
      ← layerCompletes_unknown env (workingContext context) layer hu]
    simp only [List.mem_append, List.mem_cons]
    constructor
    · intro h
      exact ⟨fun l hl => h l (hl.elim Or.inl (fun x => Or.inr (Or.inr x))),
        h layer (Or.inr (Or.inl rfl))⟩
    · rintro ⟨h1, h2⟩ l (hl | rfl | hl)
      · exact h1 l (Or.inl hl)
      · exact h2
      · exact h1 l (Or.inr hl)
  · intro out h
    obtain ⟨final, hloop, hr, hl, hw⟩ := parseLayers_eq_ok env converter _ context out h
    obtain ⟨middle, hbefore, hrest⟩ :=
      parseLayersLoop_append env _ before (layer :: after) _ final hloop
    simp only [parseLayersLoop] at hrest
    cases hstep : parseLayer env (workingContext context) middle layer with
    | error f => rw [hstep] at hrest; cases hrest
    | ok next =>
      rw [hstep] at hrest
      simp only at hrest
      obtain ⟨hin, hsr, hsl⟩ := parseLayer_unknown env _ middle next layer hu hstep
      obtain ⟨more, hm⟩ := parseLayersLoop_mWarnings env _ after next final hrest
      obtain ⟨final2, rs, ls, hloop2, e1, e2, e3, e4⟩ :=
        parseLayersLoop_shift env _ after next final middle hrest
      obtain ⟨others, hothers, o1, o2⟩ := parseLayers_of_loop env converter (before ++ after)
        context final2 (parseLayersLoop_join env _ before after _ middle final2 hbefore hloop2)
      refine ⟨?_, others, hothers, ?_, ?_⟩
      · rw [hw, hm, hin]
        simp
      · rw [hr, o1, e1, e2, hsr]
      · rw [hl, o2, e3, e4, hsl]

/-- Witness of C7: in the sample layer list the raster layer stands between two layers
before it and two after it, and it has no filter; the list converts, the warning of the
raster layer is recorded, and the rules are the rule `water` of the fill layer before it
and the label of the symbol layer after it. -/
theorem unknown_layer_type_skipped_unless_filter_stops_witness :
    isUnknownType Sample.env Sample.rasterLayer = true
    ∧ (layerFilter Sample.env Sample.rasterLayer.toMap).isOk = true
    ∧ ∃ out, parseLayers Sample.env fresh
          (Sample.layersBefore ++ Sample.rasterLayer :: Sample.layersAfter) none = Except.ok out
      ∧ "Skipping unknown layer type: raster" ∈ out.1.mWarnings
      ∧ (rendererStyles out.1).map (fun rule => rule.styleName) = ["water"]
      ∧ (labelingStyles out.1).map (fun rule => rule.styleName) = ["label"]
      ∧ ∃ others, parseLayers Sample.env fresh (Sample.layersBefore ++ Sample.layersAfter) none
          = Except.ok others
        ∧ rendererStyles out.1 = rendererStyles others.1
        ∧ labelingStyles out.1 = labelingStyles others.1 :=
  ⟨rfl, rfl, _, rfl,
   (((unknown_layer_type_skipped_unless_filter_stops Sample.env fresh none).1
      Sample.layersBefore Sample.layersAfter Sample.rasterLayer rfl).2.2.2.2 _ rfl).1,
   rfl, rfl,
   (((unknown_layer_type_skipped_unless_filter_stops Sample.env fresh none).1
      Sample.layersBefore Sample.layersAfter Sample.rasterLayer rfl).2.2.2.2 _ rfl).2⟩

end QgsMapBoxGlStyleConverter
namespace QgsMapBoxGlStyleConverter

/-- The converter of a layer reports a labeling style exactly when the layer is a symbol
layer whose layout defines `text-field`, it has a paint map, and its converter is not
stopped. -/
theorem reportsLabelingStyle_iff (env : Env) (context : QgsMapBoxGlStyleConversionContext)
    (layer : QVariant) :
    reportsLabelingStyle env context layer = true
      ↔ (definesLabel env layer = true ∧ hasPaint layer = true
          ∧ (dispatchLayer env layer.toMap (layerType env layer) context).isOk = true) := by
  constructor
  · intro h
    have hd := reportsLabelingStyle_true env context layer h
    simp only [Bool.and_eq_true] at hd
    refine ⟨hd.1, hd.2, ?_⟩
    unfold reportsLabelingStyle layerStyles at h
    by_cases hb : isBackground env layer = true
    · simp [hb] at h
    · simp only [hb, if_false] at h
      cases hdis : dispatchLayer env layer.toMap (layerType env layer) context with
      | fault f => rw [hdis] at h; simp at h
      | ok outcome warnings => rfl
  · rintro ⟨hd, hp, hok⟩
    have hsy : layerType env layer = "symbol" := by
      simp only [definesLabel, Bool.and_eq_true, decide_eq_true_eq] at hd
      exact hd.1.1
    have hb : isBackground env layer = false := by simp [isBackground, hsy]
    unfold reportsLabelingStyle layerStyles
    simp only [hb, Bool.false_eq_true, if_false]
    cases hdis : dispatchLayer env layer.toMap (layerType env layer) context with
    | fault f => rw [hdis] at hok; simp [Conv.isOk] at hok
    | ok outcome warnings =>
      cases outcome with
      | some styles =>
        simp only
        rw [dispatchLayer_label env context layer _ _ hdis styles rfl, hd, hp]
        rfl
      | none =>
        exfalso
        rw [dispatchLayer_symbol env context layer hsy, Conv.bind_eq_ok] at hdis
        obtain ⟨_, _, _, _, h2, _⟩ := hdis
        cases h2

/-- C32, as the code has it: the converter of a layer reports a labeling style exactly
when the layer is a symbol layer whose layout defines `text-field`, the layer has a paint
map, and the converter of the layer is not stopped; so no layer of another kind and no
symbol layer without `text-field` yields a labeling rule. A symbol layer that defines
`text-field` and has no paint map is skipped with the warning that it has no paint
property and reports no style. The symbol layer with a paint map whose `text-field` is
`Name: {name}` is stopped by an access out of range and reports no style. `parseLayers`
returns exactly when the conversion of none of its layers is stopped, and then its
labeling rules correspond, in order and one to one, to the symbol layers that define
`text-field` and have a paint map. -/
theorem labeling_rule_for_text_field_with_paint (env : Env) :
    (∀ (context : QgsMapBoxGlStyleConversionContext) (layer : QVariant),
      reportsLabelingStyle env context layer = true
        ↔ (definesLabel env layer = true ∧ hasPaint layer = true
            ∧ (dispatchLayer env layer.toMap (layerType env layer) context).isOk = true))
    ∧ (∀ (context : QgsMapBoxGlStyleConversionContext) (layer : QVariant),
        definesLabel env layer = true → hasPaint layer = false →
        dispatchLayer env layer.toMap (layerType env layer) context
          = Conv.ok (some LayerStyles.untouched)
              ["Style layer " ++ layerId env layer ++ " has no paint property, skipping"])
    ∧ (∀ context : QgsMapBoxGlStyleConversionContext,
        definesLabel env Sample.literalBeforeTokenLayer = true
        ∧ hasPaint Sample.literalBeforeTokenLayer = true
        ∧ dispatchLayer env Sample.literalBeforeTokenLayer.toMap
            (layerType env Sample.literalBeforeTokenLayer) context
          = Conv.fault Fault.indexOutOfRange
        ∧ reportsLabelingStyle env context Sample.literalBeforeTokenLayer = false)
    ∧ (∀ (converter : ConverterState) (layers : QVariantList)
        (context : Option QgsMapBoxGlStyleConversionContext),
        ((∃ out, parseLayers env converter layers context = Except.ok out)
          ↔ ∀ layer ∈ layers, layerCompletes env (workingContext context) layer = true)
        ∧ ∀ out, parseLayers env converter layers context = Except.ok out →
            List.Forall₂ (LabelingRuleOf env) (labelingStyles out.1)
              (layers.filter (fun layer => definesLabel env layer && hasPaint layer))) := by
  refine ⟨reportsLabelingStyle_iff env, ?_, ?_, ?_⟩
  · intro context layer hd hp
    simp only [definesLabel, Bool.and_eq_true, decide_eq_true_eq] at hd
    obtain ⟨⟨hty, hl⟩, ht⟩ := hd
    simp only [hasPaint] at hp
    rw [dispatchLayer_symbol env context layer hty]
    simp [parseSymbolLayer, hl, ht, hp, Conv.bind, pure, pushWarning, layerId,
      LayerStyles.untouched]
  · intro context
    exact ⟨rfl, rfl, rfl, rfl⟩
  · intro converter layers context
    refine ⟨parseLayers_returns_iff env converter layers context, ?_⟩
    intro out h
    have hcomplete := parseLayersLoop_layers_complete env converter layers context out h
    have hfilter : layers.filter (reportsLabelingStyle env (workingContext context))
        = layers.filter (fun layer => definesLabel env layer && hasPaint layer) :=
      List.filter_congr fun layer hmem =>
        reportsLabelingStyle_of_completes env (workingContext context) layer (hcomplete layer hmem)
    rw [← hfilter]
    exact (parseLayers_styles env converter layers context out h).2

/-- Witness of C32: in the sample layer list the symbol layer `label` defines `text-field`
and has a paint map, and its converter is not stopped; the list converts, and the labeling
rules are the one rule `label`. -/
theorem labeling_rule_for_text_field_with_paint_witness :
    definesLabel Sample.env Sample.labelLayer = true
    ∧ hasPaint Sample.labelLayer = true
    ∧ (dispatchLayer Sample.env Sample.labelLayer.toMap (layerType Sample.env Sample.labelLayer)
        QgsMapBoxGlStyleConversionContext.default).isOk = true
    ∧ reportsLabelingStyle Sample.env QgsMapBoxGlStyleConversionContext.default Sample.labelLayer
      = true
    ∧ Sample.layers.filter (fun layer => definesLabel Sample.env layer && hasPaint layer)
      = [Sample.labelLayer]
    ∧ ∃ out, parseLayers Sample.env fresh Sample.layers none = Except.ok out
      ∧ (labelingStyles out.1).map (fun rule => rule.styleName) = ["label"]
      ∧ List.Forall₂ (LabelingRuleOf Sample.env) (labelingStyles out.1)
          (Sample.layers.filter (fun layer => definesLabel Sample.env layer && hasPaint layer)) :=
  ⟨rfl, rfl, rfl,
   ((labeling_rule_for_text_field_with_paint Sample.env).1
      QgsMapBoxGlStyleConversionContext.default Sample.labelLayer).2 ⟨rfl, rfl, rfl⟩,
   rfl, _, rfl, rfl,
   ((labeling_rule_for_text_field_with_paint Sample.env).2.2.2 fresh Sample.layers none).2 _ rfl⟩

end QgsMapBoxGlStyleConverter
